import Mathlib

/-!
# GCM dispatch layer (providers/common/ciphers/cipher_gcm.c)

A shallow embedding of the dispatch functions for GCM mode and of the nonce
state machine they implement.

Conventions of the embedding:

* `size_t` is 64 bits wide and `int` 32 bits wide; values are `Nat` / `Int`
  with the wrap-around written out where the C arithmetic can wrap.
* A byte buffer is a `List Nat`; `sizeof(ctx->iv)` is the length of the list
  held in the `iv` field, so the capacity of the nonce buffer is whatever the
  context was allocated with.
* A pointer argument that may be `NULL` is an `Option`.  Caller buffers that
  are compared by address (`out != in`) carry an address.
* The primitive (`ctx->hw`) and the random source are external: they are
  arbitrary functions over an abstract state, and every call made to them is
  appended to the ghost field `trace` of the context.
* Bytes that a C call would read or write outside the buffer it is given are
  outside the model: such reads give 0 and such writes are dropped.  A
  definition therefore describes the code on the calls whose accesses stay
  inside the buffers.  For the bind stage of `gcm_tls_cipher` (`tls_bind_iv`)
  that is `8 <= ivlen <= sizeof(iv)`: below 8 the code writes in front of
  `ctx->iv`, and statements about what a call does after the bind stage carry
  the bound.
-/

namespace CipherGcm

/-! ## Constants of the missing headers -/

/-- Modelled from the spec: `EVP_GCM_TLS_FIXED_IV_LEN` (evp.h is not part of the
sources); the fixed field of a TLS nonce is at least 4 bytes. -/
def EVP_GCM_TLS_FIXED_IV_LEN : Nat := 4

/-- Modelled from the spec: `EVP_GCM_TLS_EXPLICIT_IV_LEN`; the explicit nonce of a
TLS record is 8 bytes. -/
def EVP_GCM_TLS_EXPLICIT_IV_LEN : Nat := 8

/-- Modelled from the spec: `EVP_GCM_TLS_TAG_LEN`; the tag of a TLS record is 16
bytes. -/
def EVP_GCM_TLS_TAG_LEN : Nat := 16

/-- Modelled from the spec: `EVP_AEAD_TLS1_AAD_LEN`; the TLS pseudo-header is 13
bytes. -/
def EVP_AEAD_TLS1_AAD_LEN : Nat := 13

/-- Modelled from the spec: `GCM_IV_DEFAULT_SIZE`; 96 bits (12 bytes), the floor
for a generated nonce. -/
def GCM_IV_DEFAULT_SIZE : Nat := 12

/-- Modelled from the spec: `UNINITIALISED_SIZET`, the value `(size_t)-1` that
marks `taglen` and `tls_aad_len` as unset (also the sentinel length of
`gcm_tls_iv_set_fixed`). -/
def UNINITIALISED_SIZET : Nat := 2 ^ 64 - 1

/-- Modelled from the spec: `EVP_CIPH_GCM_MODE` (evp.h); the value plays no role in
this file. -/
def EVP_CIPH_GCM_MODE : Nat := 6

/-- The number of values of a `size_t`. -/
def SIZE_T_MOD : Nat := 2 ^ 64

/-- The conversion `(int)x` of a `size_t`: the low 32 bits, two's complement. -/
def to_int (x : Nat) : Int :=
  if x % 2 ^ 32 < 2 ^ 31 then ((x % 2 ^ 32 : Nat) : Int) else ((x % 2 ^ 32 : Nat) : Int) - 2 ^ 32

/-- The conversion of an `int` to `size_t` (sign extension, modulo `2^64`). -/
def to_size_t (i : Int) : Nat := (i % (2 ^ 64 : Int)).toNat

/-- Subtraction of two `size_t` values. -/
def size_t_sub (a b : Nat) : Nat := (a % SIZE_T_MOD + SIZE_T_MOD - b % SIZE_T_MOD) % SIZE_T_MOD

/-! ## Buffers -/

/-- The call `memcpy(dst + off, src, n)` seen from `dst`: byte `i` of the result is
`src[i - off]` for `off <= i < off + n`, every other byte is kept.  Bytes that
fall outside `dst`, or that `src` does not hold, are not written. -/
def memcpy (dst : List Nat) (off : Int) (src : List Nat) (n : Nat) : List Nat :=
  (List.range dst.length).map fun (i : Nat) =>
    if off ≤ (i : Int) ∧ (i : Int) < off + n ∧ ((i : Int) - off).toNat < src.length then
      src.getD ((i : Int) - off).toNat 0
    else dst.getD i 0

/-- The `n` bytes found at `buf + off` (bytes outside `buf` read as 0). -/
def load (buf : List Nat) (off : Int) (n : Nat) : List Nat :=
  (List.range n).map fun (j : Nat) =>
    if 0 ≤ off + (j : Int) then buf.getD (off + (j : Int)).toNat 0 else 0

/-- The call `OPENSSL_cleanse(buf + off, n)` seen from `buf`. -/
def OPENSSL_cleanse (buf : List Nat) (off : Int) (n : Nat) : List Nat :=
  (List.range buf.length).map fun (i : Nat) =>
    if off ≤ (i : Int) ∧ (i : Int) < off + n then 0 else buf.getD i 0

/-- A caller buffer: the address the pointer holds and the bytes found there. -/
structure Buf where
  addr : Nat
  bytes : List Nat
deriving DecidableEq, Repr

/-- The address held by a pointer argument (`none` is `NULL`). -/
def ptr (b : Option Buf) : Option Nat := b.map Buf.addr

/-- The bytes behind a pointer argument (nothing behind `NULL`). -/
def contents (b : Option Buf) : List Nat :=
  match b with
  | some x => x.bytes
  | none => []

/-! ## The external collaborators -/

/-- Result of a primitive operation that only touches the primitive's own state. -/
structure HwRes (σ : Type) where
  rv : Int
  st : σ

/-- Result of `setkey`: the primitive also owns the `key_set` flag of the context. -/
structure HwKeyRes (σ : Type) where
  rv : Int
  st : σ
  key_set : Bool

/-- Result of `cipherupdate`: the bytes written at `out`. -/
structure HwOutRes (σ : Type) where
  rv : Int
  st : σ
  out : List Nat

/-- Result of `cipherfinal`: the bytes written at `tag` and the `taglen` the
primitive leaves in the context. -/
structure HwTagRes (σ : Type) where
  rv : Int
  st : σ
  tag : List Nat
  taglen : Nat

/-- Result of `oneshot`: the bytes written at `out` and at `tag`, and the `taglen`
the primitive leaves in the context. -/
structure HwOneshotRes (σ : Type) where
  rv : Int
  st : σ
  out : List Nat
  tag : List Nat
  taglen : Nat

/-- Modelled from the spec: the capability table `PROV_GCM_HW` (declared in the
missing internal/ciphers/cipher_gcm.h).  `σ` is the primitive's internal state
(key schedule, GHASH/CTR state).  Each operation sees that state, the arguments
the dispatch layer passes, and the context fields the primitive reads (`enc`,
`taglen`); it returns an `int` (non-zero is success) and what it wrote. -/
structure PROV_GCM_HW (σ : Type) where
  setkey : σ → List Nat → Nat → HwKeyRes σ
  setiv : σ → List Nat → Nat → HwRes σ
  aadupdate : σ → List Nat → Nat → HwRes σ
  cipherupdate : σ → Bool → List Nat → Nat → HwOutRes σ
  cipherfinal : σ → Bool → Nat → List Nat → HwTagRes σ
  oneshot : σ → Bool → List Nat → Nat → List Nat → Nat → List Nat → Nat → HwOneshotRes σ

/-- Modelled from the spec: the library context that `rand_bytes_ex` draws from
(internal/rand_int.h is missing).  `ρ` is the state of the random source;
`rand` is asked for `num` bytes and returns an `int` (`<= 0` is failure), the
bytes it produced and its next state. -/
structure OPENSSL_CTX (ρ : Type) where
  drbg : ρ
  rand : ρ → Nat → Int × List Nat × ρ

/-- One call made to an external collaborator, with the arguments passed. -/
inductive Call where
  | setkey (key : List Nat) (keylen : Nat)
  | setiv (iv : List Nat) (ivlen : Nat)
  | aadupdate (aad : List Nat) (len : Nat)
  | cipherupdate (inp : List Nat) (len : Nat)
  | cipherfinal (tag : List Nat)
  | oneshot (aad : List Nat) (aad_len : Nat) (inp : List Nat) (len : Nat) (tag : List Nat)
      (tag_len : Nat)
  | rand_bytes (num : Nat)
deriving DecidableEq, Repr

/-- Whether a logged call is `setiv`. -/
def Call.isSetiv : Call → Bool
  | Call.setiv _ _ => true
  | _ => false

/-- Whether a logged call is a call to the random source. -/
def Call.isRand : Call → Bool
  | Call.rand_bytes _ => true
  | _ => false

/-- Whether a logged call is one of the primitive operations (everything but the
random source). -/
def Call.isHw : Call → Bool
  | Call.rand_bytes _ => false
  | _ => true

/-! ## The context -/

/-- The nonce states `IV_STATE_*`. -/
inductive IV_STATE where
  | UNINITIALISED
  | BUFFERED
  | COPIED
  | FINISHED
deriving DecidableEq, Repr

/-- The context `PROV_GCM_CTX`.  `gcm` stands for the members the primitive owns
(`gcm`, `ctr`, `ks`); `trace` is a ghost field logging the external calls. -/
structure PROV_GCM_CTX (σ ρ : Type) where
  mode : Nat
  keylen : Nat
  ivlen : Nat
  ivlen_min : Nat
  taglen : Nat
  tls_aad_pad_sz : Nat
  tls_aad_len : Nat
  tls_enc_records : Nat
  iv_state : IV_STATE
  enc : Bool
  pad : Bool
  key_set : Bool
  iv_gen_rand : Bool
  iv_gen : Bool
  iv : List Nat
  buf : List Nat
  libctx : OPENSSL_CTX ρ
  hw : PROV_GCM_HW σ
  gcm : σ
  trace : List Call

variable {σ ρ : Type}

/-- The call `rand_bytes_ex(ctx->libctx, ctx->iv + off, num)`: logs the call, steps
the random source and stores the bytes it produced. -/
def rand_bytes_ex (ctx : PROV_GCM_CTX σ ρ) (off : Int) (num : Nat) : Int × PROV_GCM_CTX σ ρ :=
  let r := ctx.libctx.rand ctx.libctx.drbg num
  (r.1, { ctx with
            iv := memcpy ctx.iv off r.2.1 num
            libctx := { ctx.libctx with drbg := r.2.2 }
            trace := ctx.trace ++ [Call.rand_bytes num] })

/-- The call `ctx->hw->setkey(ctx, key, keylen)`. -/
def hw_setkey (ctx : PROV_GCM_CTX σ ρ) (key : List Nat) (keylen : Nat) :
    Int × PROV_GCM_CTX σ ρ :=
  let r := ctx.hw.setkey ctx.gcm key keylen
  (r.rv, { ctx with gcm := r.st, key_set := r.key_set,
                    trace := ctx.trace ++ [Call.setkey key keylen] })

/-- The call `ctx->hw->setiv(ctx, ctx->iv, ctx->ivlen)`. -/
def hw_setiv (ctx : PROV_GCM_CTX σ ρ) : Int × PROV_GCM_CTX σ ρ :=
  let r := ctx.hw.setiv ctx.gcm ctx.iv ctx.ivlen
  (r.rv, { ctx with gcm := r.st, trace := ctx.trace ++ [Call.setiv ctx.iv ctx.ivlen] })

/-- The call `hw->aadupdate(ctx, in, len)`. -/
def hw_aadupdate (ctx : PROV_GCM_CTX σ ρ) (inp : List Nat) (len : Nat) :
    Int × PROV_GCM_CTX σ ρ :=
  let r := ctx.hw.aadupdate ctx.gcm inp len
  (r.rv, { ctx with gcm := r.st, trace := ctx.trace ++ [Call.aadupdate inp len] })

/-- The call `hw->cipherupdate(ctx, in, len, out)`; the third component is what the
primitive wrote at `out`. -/
def hw_cipherupdate (ctx : PROV_GCM_CTX σ ρ) (inp : List Nat) (len : Nat) :
    Int × PROV_GCM_CTX σ ρ × List Nat :=
  let r := ctx.hw.cipherupdate ctx.gcm ctx.enc inp len
  (r.rv, { ctx with gcm := r.st, trace := ctx.trace ++ [Call.cipherupdate inp len] }, r.out)

/-- The call `hw->cipherfinal(ctx, ctx->buf)`. -/
def hw_cipherfinal (ctx : PROV_GCM_CTX σ ρ) : Int × PROV_GCM_CTX σ ρ :=
  let r := ctx.hw.cipherfinal ctx.gcm ctx.enc ctx.taglen ctx.buf
  (r.rv, { ctx with gcm := r.st, taglen := r.taglen,
                    buf := memcpy ctx.buf 0 r.tag r.tag.length,
                    trace := ctx.trace ++ [Call.cipherfinal ctx.buf] })

/-- The call `ctx->hw->oneshot(ctx, ctx->buf, ctx->tls_aad_len, in, len, out, tag,
EVP_GCM_TLS_TAG_LEN)`; the last two components are what the primitive wrote at
`out` and at `tag`. -/
def hw_oneshot (ctx : PROV_GCM_CTX σ ρ) (inp : List Nat) (len : Nat) (tag : List Nat) :
    Int × PROV_GCM_CTX σ ρ × List Nat × List Nat :=
  let r := ctx.hw.oneshot ctx.gcm ctx.enc ctx.buf ctx.tls_aad_len inp len tag EVP_GCM_TLS_TAG_LEN
  (r.rv, { ctx with gcm := r.st, taglen := r.taglen,
                    trace := ctx.trace ++
                      [Call.oneshot ctx.buf ctx.tls_aad_len inp len tag EVP_GCM_TLS_TAG_LEN] },
   r.out, r.tag)

/-! ## Parameters -/

/-- Modelled from the spec: one located `OSSL_PARAM` (the parameter-object
marshalling of params.c is not part of the sources).  `size_t v` is a numeric
parameter from which `OSSL_PARAM_get_size_t` reads `v`; `octet_string` has
data type `OSSL_PARAM_OCTET_STRING`, with the bytes at `p->data` and the value of
`p->data_size`; `other` is any other data type. -/
inductive OSSL_PARAM where
  | size_t (v : Nat)
  | octet_string (data : List Nat) (data_size : Nat)
  | other (data : List Nat) (data_size : Nat)
deriving DecidableEq, Repr

/-- The member `p->data`. -/
def OSSL_PARAM.data : OSSL_PARAM → List Nat
  | OSSL_PARAM.size_t _ => []
  | OSSL_PARAM.octet_string d _ => d
  | OSSL_PARAM.other d _ => d

/-- The member `p->data_size` (a numeric parameter holds a `size_t`, 8 bytes). -/
def OSSL_PARAM.data_size : OSSL_PARAM → Nat
  | OSSL_PARAM.size_t _ => 8
  | OSSL_PARAM.octet_string _ n => n
  | OSSL_PARAM.other _ n => n

/-- The test `p->data_type == OSSL_PARAM_OCTET_STRING`. -/
def OSSL_PARAM.is_octet_string : OSSL_PARAM → Bool
  | OSSL_PARAM.octet_string _ _ => true
  | _ => false

/-- Modelled from the spec: `OSSL_PARAM_get_size_t` (params.c is missing); it yields
the value of a numeric parameter that fits a `size_t` and fails otherwise. -/
def OSSL_PARAM_get_size_t (p : OSSL_PARAM) : Option Nat :=
  match p with
  | OSSL_PARAM.size_t v => if v < SIZE_T_MOD then some v else none
  | _ => none

/-- Modelled from the spec: `OSSL_PARAM_get_octet_string(p, &vp, max_len, &sz)` with
`vp` pointing at `dst` (params.c is missing); it fails unless `p` is an octet
string of at most `max_len` bytes, and then copies the `data_size` bytes to
`dst` and yields `data_size`. -/
def OSSL_PARAM_get_octet_string (p : OSSL_PARAM) (dst : List Nat) (max_len : Nat) :
    Option (List Nat × Nat) :=
  match p with
  | OSSL_PARAM.octet_string d n => if max_len < n then none else some (memcpy dst 0 d n, n)
  | _ => none

/-- Modelled from the spec: `OSSL_PARAM_set_size_t` (params.c is missing); it stores
the value in a numeric parameter and fails on any other. -/
def OSSL_PARAM_set_size_t (p : OSSL_PARAM) (val : Nat) : Option OSSL_PARAM :=
  match p with
  | OSSL_PARAM.size_t _ => some (OSSL_PARAM.size_t val)
  | _ => none

/-- Modelled from the spec: `OSSL_PARAM_set_octet_string(p, val, len)` (params.c is
missing); it fails unless `p` is an octet string with room for `len` bytes, and
then copies `len` bytes of `val` to `p->data`. -/
def OSSL_PARAM_set_octet_string (p : OSSL_PARAM) (val : List Nat) (len : Nat) :
    Option OSSL_PARAM :=
  match p with
  | OSSL_PARAM.octet_string d n =>
      if n < len then none else some (OSSL_PARAM.octet_string (memcpy d 0 val len) n)
  | _ => none

/-- The parameters `gcm_set_ctx_params` looks for: each field is what
`OSSL_PARAM_locate_const` returns for that key (`none` is `NULL`). -/
structure SetParams where
  AEAD_TAG : Option OSSL_PARAM
  AEAD_IVLEN : Option OSSL_PARAM
  AEAD_TLS1_AAD : Option OSSL_PARAM
  AEAD_TLS1_IV_FIXED : Option OSSL_PARAM
  KEYLEN : Option OSSL_PARAM
deriving DecidableEq, Repr

/-- The parameters `gcm_get_ctx_params` looks for: each field is what
`OSSL_PARAM_locate` returns for that key (`none` is `NULL`). -/
structure GetParams where
  IVLEN : Option OSSL_PARAM
  KEYLEN : Option OSSL_PARAM
  IV : Option OSSL_PARAM
  AEAD_TLS1_AAD_PAD : Option OSSL_PARAM
  AEAD_TAG : Option OSSL_PARAM
deriving DecidableEq, Repr

/-! ## Construction and initialisation -/

/-- The function `gcm_initctx`. -/
def gcm_initctx (provctx : OPENSSL_CTX ρ) (ctx : PROV_GCM_CTX σ ρ) (keybits : Nat)
    (hw : PROV_GCM_HW σ) (ivlen_min : Nat) : PROV_GCM_CTX σ ρ :=
  { ctx with
      pad := true
      mode := EVP_CIPH_GCM_MODE
      taglen := UNINITIALISED_SIZET
      tls_aad_len := UNINITIALISED_SIZET
      ivlen_min := ivlen_min
      ivlen := EVP_GCM_TLS_FIXED_IV_LEN + EVP_GCM_TLS_EXPLICIT_IV_LEN
      keylen := keybits / 8
      hw := hw
      libctx := provctx }

/-- The function `gcm_deinitctx`. -/
def gcm_deinitctx (ctx : PROV_GCM_CTX σ ρ) : PROV_GCM_CTX σ ρ :=
  { ctx with iv := OPENSSL_cleanse ctx.iv 0 ctx.iv.length }

/-- The function `gcm_init`; `key` and `iv` are `none` when the pointer is `NULL`. -/
def gcm_init (ctx : PROV_GCM_CTX σ ρ) (key : Option (List Nat)) (keylen : Nat)
    (iv : Option (List Nat)) (ivlen : Nat) (enc : Bool) : Int × PROV_GCM_CTX σ ρ :=
  let ctx0 := { ctx with enc := enc }
  let r : Int × PROV_GCM_CTX σ ρ :=
    match iv with
    | some ivb =>
        if ivlen < ctx0.ivlen_min ∨ ivlen > ctx0.iv.length then (0, ctx0)
        else (1, { ctx0 with ivlen := ivlen
                             iv := memcpy ctx0.iv 0 ivb ivlen
                             iv_state := IV_STATE.BUFFERED })
    | none => (1, ctx0)
  if r.1 = 0 then (0, r.2)
  else
    match key with
    | some k => if keylen ≠ r.2.keylen then (0, r.2) else hw_setkey r.2 k r.2.keylen
    | none => (1, r.2)

/-- The function `gcm_einit`. -/
def gcm_einit (ctx : PROV_GCM_CTX σ ρ) (key : Option (List Nat)) (keylen : Nat)
    (iv : Option (List Nat)) (ivlen : Nat) : Int × PROV_GCM_CTX σ ρ :=
  gcm_init ctx key keylen iv ivlen true

/-- The function `gcm_dinit`. -/
def gcm_dinit (ctx : PROV_GCM_CTX σ ρ) (key : Option (List Nat)) (keylen : Nat)
    (iv : Option (List Nat)) (ivlen : Nat) : Int × PROV_GCM_CTX σ ρ :=
  gcm_init ctx key keylen iv ivlen false

/-! ## Nonce generation and the TLS helpers -/

/-- The function `gcm_iv_generate`. -/
def gcm_iv_generate (ctx : PROV_GCM_CTX σ ρ) (offset : Int) : Int × PROV_GCM_CTX σ ρ :=
  let sz : Int := to_int (size_t_sub ctx.ivlen (to_size_t offset))
  if sz ≤ 0 ∨ ctx.ivlen < GCM_IV_DEFAULT_SIZE then (0, ctx)
  else
    let r := rand_bytes_ex ctx offset sz.toNat
    if r.1 ≤ 0 then (0, r.2)
    else (1, { r.2 with iv_state := IV_STATE.BUFFERED, iv_gen_rand := true })

/-- The byte `buf[i]` as an `unsigned char`. -/
def byte_at (buf : List Nat) (i : Nat) : Nat := buf.getD i 0 % 256

/-- The function `gcm_tls_init`. -/
def gcm_tls_init (dat : PROV_GCM_CTX σ ρ) (aad : List Nat) (aad_len : Nat) :
    Int × PROV_GCM_CTX σ ρ :=
  if aad_len ≠ EVP_AEAD_TLS1_AAD_LEN then (0, dat)
  else
    let buf := memcpy dat.buf 0 aad aad_len
    let dat1 := { dat with buf := buf, tls_aad_len := aad_len, tls_enc_records := 0 }
    let len := (byte_at buf (aad_len - 2) <<< 8) ||| byte_at buf (aad_len - 1)
    if len < EVP_GCM_TLS_EXPLICIT_IV_LEN then (0, dat1)
    else
      let len1 := len - EVP_GCM_TLS_EXPLICIT_IV_LEN
      if dat1.enc = false ∧ len1 < EVP_GCM_TLS_TAG_LEN then (0, dat1)
      else
        let len2 := if dat1.enc = false then len1 - EVP_GCM_TLS_TAG_LEN else len1
        let buf1 := buf.set (aad_len - 2) ((len2 >>> 8) % 256)
        let buf2 := buf1.set (aad_len - 1) (len2 &&& 0xff)
        (EVP_GCM_TLS_TAG_LEN, { dat1 with buf := buf2 })

/-- The function `gcm_tls_iv_set_fixed`. -/
def gcm_tls_iv_set_fixed (ctx : PROV_GCM_CTX σ ρ) (iv : List Nat) (len : Nat) :
    Int × PROV_GCM_CTX σ ρ :=
  if len = UNINITIALISED_SIZET then
    (1, { ctx with iv := memcpy ctx.iv 0 iv ctx.ivlen, iv_gen := true,
                   iv_state := IV_STATE.BUFFERED })
  else if len < EVP_GCM_TLS_FIXED_IV_LEN
      ∨ size_t_sub ctx.ivlen (to_size_t (to_int len)) < EVP_GCM_TLS_EXPLICIT_IV_LEN then (0, ctx)
  else
    let ctx1 := if len > 0 then { ctx with iv := memcpy ctx.iv 0 iv len } else ctx
    let r : Int × PROV_GCM_CTX σ ρ :=
      if ctx1.enc = true then rand_bytes_ex ctx1 len (size_t_sub ctx1.ivlen len) else (1, ctx1)
    if r.1 ≤ 0 then (0, r.2)
    else (1, { r.2 with iv_gen := true, iv_state := IV_STATE.BUFFERED })

/-- The loop of `ctr64_inc`, entered with the loop variable equal to `n`. -/
def ctr64_inc_loop (counter : List Nat) : Nat → List Nat
  | 0 => counter
  | n + 1 =>
      let c := (byte_at counter n + 1) % 256
      let counter1 := counter.set n c
      if c > 0 then counter1 else ctr64_inc_loop counter1 n

/-- The function `ctr64_inc` on the 8 bytes at `counter`. -/
def ctr64_inc (counter : List Nat) : List Nat := ctr64_inc_loop counter 8

/-! ## The cipher operations -/

/-- What `gcm_cipher_internal` and `gcm_tls_cipher` leave behind: the returned
`int`, the context, the bytes of the `out` buffer and the value stored through
`padlen`. -/
structure CipherRes (σ ρ : Type) where
  rv : Int
  ctx : PROV_GCM_CTX σ ρ
  out : List Nat
  padlen : Nat

/-- The label `err` of `gcm_tls_cipher`: the nonce state becomes FINISHED, the TLS
AAD marker is cleared and `plen` is stored through `padlen`. -/
def gcm_tls_cipher_err (rv : Int) (ctx : PROV_GCM_CTX σ ρ) (out : List Nat) (plen : Nat) :
    CipherRes σ ρ :=
  { rv := rv
    ctx := { ctx with iv_state := IV_STATE.FINISHED, tls_aad_len := UNINITIALISED_SIZET }
    out := out
    padlen := plen }

/-- Lines 449-452 of `gcm_tls_cipher`: on the encrypting side the record counter is
incremented (a 64-bit counter, wrapping to 0). -/
def tls_count_record (ctx : PROV_GCM_CTX σ ρ) : PROV_GCM_CTX σ ρ :=
  if ctx.enc = true then { ctx with tls_enc_records := (ctx.tls_enc_records + 1) % 2 ^ 64 }
  else ctx

/-- Lines 460-475 of `gcm_tls_cipher`: the nonce is bound.  On encrypt `setiv` is
called, the trailing `arg` bytes of the nonce are copied to the start of the
record and the last 8 bytes of the nonce are incremented; on decrypt the first
8 bytes of the record are copied to the end of the nonce and `setiv` is called.
The result is 0 when `setiv` failed (`goto err`), with the context and the
record as they are at that point.

The increment of line 470 and the copy of line 472 start at
`ctx->iv + ctx->ivlen - 8`.  For `8 <= ivlen <= sizeof(iv)` they stay inside the
nonce buffer and this definition is what the code does.  For `ivlen < 8` they
start in front of `ctx->iv`, on the members of `PROV_GCM_CTX` declared before
it (the header that lays them out is not part of the sources): here those
bytes read as 0 and the stores to them are dropped, so below 8 the definition
follows the code up to that store only.  The two stores over a window of
memory that includes the bytes in front are `tls_inc_window` and
`tls_store_window`. -/
def tls_bind_iv (ctx : PROV_GCM_CTX σ ρ) (record : List Nat) :
    Int × PROV_GCM_CTX σ ρ × List Nat :=
  if ctx.enc = true then
    if (hw_setiv ctx).1 = 0 then (0, (hw_setiv ctx).2, record)
    else
      let arg := if EVP_GCM_TLS_EXPLICIT_IV_LEN > ctx.ivlen then ctx.ivlen
                 else EVP_GCM_TLS_EXPLICIT_IV_LEN
      (1, { (hw_setiv ctx).2 with
              iv := memcpy ctx.iv ((ctx.ivlen : Int) - 8)
                      (ctr64_inc (load ctx.iv ((ctx.ivlen : Int) - 8) 8)) 8 },
       memcpy record 0 (load ctx.iv ((ctx.ivlen : Int) - arg) arg) arg)
  else
    let iv1 := memcpy ctx.iv ((ctx.ivlen : Int) - EVP_GCM_TLS_EXPLICIT_IV_LEN)
                 (load record 0 EVP_GCM_TLS_EXPLICIT_IV_LEN) EVP_GCM_TLS_EXPLICIT_IV_LEN
    if (hw_setiv { ctx with iv := iv1 }).1 = 0 then (0, (hw_setiv { ctx with iv := iv1 }).2, record)
    else (1, (hw_setiv { ctx with iv := iv1 }).2, record)

/-- The record after the one-shot call of `gcm_tls_cipher` on a payload of `len`
bytes: what the primitive wrote at `out` (offset 8) and at `tag` (offset
`8 + len`). -/
def tls_record_after (ctx : PROV_GCM_CTX σ ρ) (record : List Nat) (len : Nat) : List Nat :=
  let off := EVP_GCM_TLS_EXPLICIT_IV_LEN
  let o := hw_oneshot ctx (load record off len) len (load record (off + len) EVP_GCM_TLS_TAG_LEN)
  memcpy (memcpy record off o.2.2.1 len) (off + len) o.2.2.2 EVP_GCM_TLS_TAG_LEN

/-- Lines 476-501 of `gcm_tls_cipher`, entered with the nonce bound: `len` is the
length of the whole record, the payload is the `len - 24` bytes at offset 8 and
the tag the 16 bytes after it. -/
def tls_seal_open (ctx : PROV_GCM_CTX σ ρ) (record : List Nat) (len : Nat) : CipherRes σ ρ :=
  let ctx2 := { ctx with iv_state := IV_STATE.COPIED }
  let off := EVP_GCM_TLS_EXPLICIT_IV_LEN
  let len1 := len - (EVP_GCM_TLS_EXPLICIT_IV_LEN + EVP_GCM_TLS_TAG_LEN)
  let o := hw_oneshot ctx2 (load record off len1) len1
             (load record (off + len1) EVP_GCM_TLS_TAG_LEN)
  if o.1 = 0 then
    if ctx.enc = false then
      gcm_tls_cipher_err 0 o.2.1 (OPENSSL_cleanse (tls_record_after ctx2 record len1) off len1) 0
    else gcm_tls_cipher_err 0 o.2.1 (tls_record_after ctx2 record len1) 0
  else if ctx.enc = true then
    gcm_tls_cipher_err 1 o.2.1 (tls_record_after ctx2 record len1)
      (len1 + EVP_GCM_TLS_EXPLICIT_IV_LEN + EVP_GCM_TLS_TAG_LEN)
  else gcm_tls_cipher_err 1 o.2.1 (tls_record_after ctx2 record len1) len1

/-- The function `gcm_tls_cipher`.  Past the in-place check `in` and `out` are the
same memory, so the record is read and written through `out`. -/
def gcm_tls_cipher (ctx : PROV_GCM_CTX σ ρ) (out inp : Option Buf) (len : Nat) :
    CipherRes σ ρ :=
  if ctx.key_set = false then gcm_tls_cipher_err 0 ctx (contents out) 0
  else if ptr out ≠ ptr inp ∨ len < EVP_GCM_TLS_EXPLICIT_IV_LEN + EVP_GCM_TLS_TAG_LEN then
    gcm_tls_cipher_err 0 ctx (contents out) 0
  else if ctx.enc = true ∧ (tls_count_record ctx).tls_enc_records = 0 then
    gcm_tls_cipher_err 0 (tls_count_record ctx) (contents out) 0
  else if ctx.iv_gen = false then gcm_tls_cipher_err 0 (tls_count_record ctx) (contents out) 0
  else if (tls_bind_iv (tls_count_record ctx) (contents out)).1 = 0 then
    gcm_tls_cipher_err 0 (tls_bind_iv (tls_count_record ctx) (contents out)).2.1
      (tls_bind_iv (tls_count_record ctx) (contents out)).2.2 0
  else
    tls_seal_open (tls_bind_iv (tls_count_record ctx) (contents out)).2.1
      (tls_bind_iv (tls_count_record ctx) (contents out)).2.2 len

/-- Lines 314-317 of `gcm_cipher_internal`: with no nonce known, decrypt fails and
encrypt generates one.  The result is 0 on `goto err`. -/
def generic_generate (ctx : PROV_GCM_CTX σ ρ) : Int × PROV_GCM_CTX σ ρ :=
  if ctx.iv_state = IV_STATE.UNINITIALISED then
    if ctx.enc = false then (0, ctx)
    else if (gcm_iv_generate ctx 0).1 = 0 then (0, (gcm_iv_generate ctx 0).2)
    else (1, (gcm_iv_generate ctx 0).2)
  else (1, ctx)

/-- Lines 319-323 of `gcm_cipher_internal`: a buffered nonce is bound with `setiv`
and the state becomes COPIED.  The result is 0 on `goto err`. -/
def generic_bind (ctx : PROV_GCM_CTX σ ρ) : Int × PROV_GCM_CTX σ ρ :=
  if ctx.iv_state = IV_STATE.BUFFERED then
    if (hw_setiv ctx).1 = 0 then (0, (hw_setiv ctx).2)
    else (1, { (hw_setiv ctx).2 with iv_state := IV_STATE.COPIED })
  else (1, ctx)

/-- Lines 325-347 of `gcm_cipher_internal`: the input is absorbed as AAD (`out` is
`NULL`), transformed (`out` is not `NULL`), or, when `in` is `NULL`, the
operation is finished. -/
def generic_absorb (ctx : PROV_GCM_CTX σ ρ) (out inp : Option Buf) (len : Nat) :
    CipherRes σ ρ :=
  match inp with
  | some ib =>
      match out with
      | none =>
          if (hw_aadupdate ctx ib.bytes len).1 = 0 then
            { rv := 0, ctx := (hw_aadupdate ctx ib.bytes len).2, out := [], padlen := 0 }
          else { rv := 1, ctx := (hw_aadupdate ctx ib.bytes len).2, out := [], padlen := len }
      | some ob =>
          if (hw_cipherupdate ctx ib.bytes len).1 = 0 then
            { rv := 0, ctx := (hw_cipherupdate ctx ib.bytes len).2.1,
              out := memcpy ob.bytes 0 (hw_cipherupdate ctx ib.bytes len).2.2 len, padlen := 0 }
          else
            { rv := 1, ctx := (hw_cipherupdate ctx ib.bytes len).2.1,
              out := memcpy ob.bytes 0 (hw_cipherupdate ctx ib.bytes len).2.2 len, padlen := len }
  | none =>
      if (hw_cipherfinal ctx).1 = 0 then
        { rv := 0, ctx := (hw_cipherfinal ctx).2, out := contents out, padlen := 0 }
      else
        { rv := 1, ctx := { (hw_cipherfinal ctx).2 with iv_state := IV_STATE.FINISHED },
          out := contents out, padlen := 0 }

/-- The function `gcm_cipher_internal`. -/
def gcm_cipher_internal (ctx : PROV_GCM_CTX σ ρ) (out inp : Option Buf) (len : Nat) :
    CipherRes σ ρ :=
  if ctx.tls_aad_len ≠ UNINITIALISED_SIZET then gcm_tls_cipher ctx out inp len
  else if ctx.key_set = false ∨ ctx.iv_state = IV_STATE.FINISHED then
    { rv := 0, ctx := ctx, out := contents out, padlen := 0 }
  else if (generic_generate ctx).1 = 0 then
    { rv := 0, ctx := (generic_generate ctx).2, out := contents out, padlen := 0 }
  else if (generic_bind (generic_generate ctx).2).1 = 0 then
    { rv := 0, ctx := (generic_bind (generic_generate ctx).2).2, out := contents out, padlen := 0 }
  else generic_absorb (generic_bind (generic_generate ctx).2).2 out inp len

/-- What a public cipher call leaves behind: the returned `int`, the context, the
bytes of the `out` buffer, and the value stored through `outl` (`none` when
nothing was stored). -/
structure StreamRes (σ ρ : Type) where
  rv : Int
  ctx : PROV_GCM_CTX σ ρ
  out : List Nat
  outl : Option Nat

/-- The function `gcm_stream_update`. -/
def gcm_stream_update (ctx : PROV_GCM_CTX σ ρ) (out : Option Buf) (outsize : Nat)
    (inp : Option Buf) (inl : Nat) : StreamRes σ ρ :=
  if outsize < inl then { rv := -1, ctx := ctx, out := contents out, outl := none }
  else
    let r := gcm_cipher_internal ctx out inp inl
    if r.rv ≤ 0 then { rv := -1, ctx := r.ctx, out := r.out, outl := some r.padlen }
    else { rv := 1, ctx := r.ctx, out := r.out, outl := some r.padlen }

/-- The function `gcm_stream_final`. -/
def gcm_stream_final (ctx : PROV_GCM_CTX σ ρ) (out : Option Buf) (_outsize : Nat) :
    StreamRes σ ρ :=
  let r := gcm_cipher_internal ctx out none 0
  if r.rv ≤ 0 then { rv := 0, ctx := r.ctx, out := r.out, outl := some r.padlen }
  else { rv := 1, ctx := r.ctx, out := r.out, outl := some 0 }

/-- The function `gcm_cipher`. -/
def gcm_cipher (ctx : PROV_GCM_CTX σ ρ) (out : Option Buf) (outsize : Nat)
    (inp : Option Buf) (inl : Nat) : StreamRes σ ρ :=
  if outsize < inl then { rv := -1, ctx := ctx, out := contents out, outl := none }
  else
    let r := gcm_cipher_internal ctx out inp inl
    if r.rv ≤ 0 then { rv := -1, ctx := r.ctx, out := r.out, outl := some r.padlen }
    else { rv := 1, ctx := r.ctx, out := r.out, outl := some inl }

/-! ## The parameter contract -/

/-- The `OSSL_CIPHER_PARAM_AEAD_TAG` step of `gcm_set_ctx_params`. -/
def set_param_tag (ctx : PROV_GCM_CTX σ ρ) (p : Option OSSL_PARAM) : Int × PROV_GCM_CTX σ ρ :=
  match p with
  | none => (1, ctx)
  | some q =>
      match OSSL_PARAM_get_octet_string q ctx.buf EVP_GCM_TLS_TAG_LEN with
      | none => (0, ctx)
      | some (buf, sz) =>
          let ctx1 := { ctx with buf := buf }
          if sz = 0 ∨ ctx1.enc = true then (0, ctx1) else (1, { ctx1 with taglen := sz })

/-- The `OSSL_CIPHER_PARAM_AEAD_IVLEN` step of `gcm_set_ctx_params`. -/
def set_param_ivlen (ctx : PROV_GCM_CTX σ ρ) (p : Option OSSL_PARAM) :
    Int × PROV_GCM_CTX σ ρ :=
  match p with
  | none => (1, ctx)
  | some q =>
      match OSSL_PARAM_get_size_t q with
      | none => (0, ctx)
      | some sz => if sz = 0 ∨ sz > ctx.iv.length then (0, ctx) else (1, { ctx with ivlen := sz })

/-- The `OSSL_CIPHER_PARAM_AEAD_TLS1_AAD` step of `gcm_set_ctx_params`. -/
def set_param_tls1_aad (ctx : PROV_GCM_CTX σ ρ) (p : Option OSSL_PARAM) :
    Int × PROV_GCM_CTX σ ρ :=
  match p with
  | none => (1, ctx)
  | some q =>
      if q.is_octet_string = false then (0, ctx)
      else
        let r := gcm_tls_init ctx q.data q.data_size
        let sz := to_size_t r.1
        if sz = 0 then (0, r.2) else (1, { r.2 with tls_aad_pad_sz := sz })

/-- The `OSSL_CIPHER_PARAM_AEAD_TLS1_IV_FIXED` step of `gcm_set_ctx_params`. -/
def set_param_tls1_iv_fixed (ctx : PROV_GCM_CTX σ ρ) (p : Option OSSL_PARAM) :
    Int × PROV_GCM_CTX σ ρ :=
  match p with
  | none => (1, ctx)
  | some q =>
      if q.is_octet_string = false then (0, ctx)
      else
        let r := gcm_tls_iv_set_fixed ctx q.data q.data_size
        if r.1 = 0 then (0, r.2) else (1, r.2)

/-- The `OSSL_CIPHER_PARAM_KEYLEN` step of `gcm_set_ctx_params`. -/
def set_param_keylen (ctx : PROV_GCM_CTX σ ρ) (p : Option OSSL_PARAM) :
    Int × PROV_GCM_CTX σ ρ :=
  match p with
  | none => (1, ctx)
  | some q =>
      match OSSL_PARAM_get_size_t q with
      | none => (0, ctx)
      | some keylen => if keylen ≠ ctx.keylen then (0, ctx) else (1, ctx)

/-- The function `gcm_set_ctx_params`: the five steps in the order of the source, the
first failing step returning 0 with what the earlier steps did left in place. -/
def gcm_set_ctx_params (ctx : PROV_GCM_CTX σ ρ) (params : SetParams) :
    Int × PROV_GCM_CTX σ ρ :=
  let r1 := set_param_tag ctx params.AEAD_TAG
  if r1.1 = 0 then (0, r1.2)
  else
    let r2 := set_param_ivlen r1.2 params.AEAD_IVLEN
    if r2.1 = 0 then (0, r2.2)
    else
      let r3 := set_param_tls1_aad r2.2 params.AEAD_TLS1_AAD
      if r3.1 = 0 then (0, r3.2)
      else
        let r4 := set_param_tls1_iv_fixed r3.2 params.AEAD_TLS1_IV_FIXED
        if r4.1 = 0 then (0, r4.2)
        else
          let r5 := set_param_keylen r4.2 params.KEYLEN
          if r5.1 = 0 then (0, r5.2) else (1, r5.2)

/-- The function `gcm_get_ctx_params`: the returned `int`, the context (never
written) and the parameters as the setters left them. -/
def gcm_get_ctx_params (ctx : PROV_GCM_CTX σ ρ) (params : GetParams) :
    Int × PROV_GCM_CTX σ ρ × GetParams :=
  let r1 : Option GetParams :=
    match params.IVLEN with
    | none => some params
    | some q => (OSSL_PARAM_set_size_t q ctx.ivlen).map fun q1 => { params with IVLEN := some q1 }
  match r1 with
  | none => (0, ctx, params)
  | some p1 =>
  let r2 : Option GetParams :=
    match p1.KEYLEN with
    | none => some p1
    | some q => (OSSL_PARAM_set_size_t q ctx.keylen).map fun q1 => { p1 with KEYLEN := some q1 }
  match r2 with
  | none => (0, ctx, p1)
  | some p2 =>
  let r3 : Option GetParams :=
    match p2.IV with
    | none => some p2
    | some q =>
        if ctx.iv_gen ≠ true ∧ ctx.iv_gen_rand ≠ true then none
        else if ctx.ivlen ≠ q.data_size then none
        else (OSSL_PARAM_set_octet_string q ctx.iv ctx.ivlen).map fun q1 =>
          { p2 with IV := some q1 }
  match r3 with
  | none => (0, ctx, p2)
  | some p3 =>
  let r4 : Option GetParams :=
    match p3.AEAD_TLS1_AAD_PAD with
    | none => some p3
    | some q => (OSSL_PARAM_set_size_t q ctx.tls_aad_pad_sz).map fun q1 =>
        { p3 with AEAD_TLS1_AAD_PAD := some q1 }
  match r4 with
  | none => (0, ctx, p3)
  | some p4 =>
  let r5 : Option GetParams :=
    match p4.AEAD_TAG with
    | none => some p4
    | some q =>
        let sz := q.data_size
        if sz = 0 ∨ sz > EVP_GCM_TLS_TAG_LEN ∨ ctx.enc = false
            ∨ ctx.taglen = UNINITIALISED_SIZET then none
        else (OSSL_PARAM_set_octet_string q ctx.buf sz).map fun q1 =>
          { p4 with AEAD_TAG := some q1 }
  match r5 with
  | none => (0, ctx, p4)
  | some p5 => (1, ctx, p5)

/-! ## Sequences of public operations -/

/-- One call of a public entry point of the file, with its arguments. -/
inductive Op (σ ρ : Type) where
  | initctx (provctx : OPENSSL_CTX ρ) (keybits : Nat) (hw : PROV_GCM_HW σ) (ivlen_min : Nat)
  | deinitctx
  | einit (key : Option (List Nat)) (keylen : Nat) (iv : Option (List Nat)) (ivlen : Nat)
  | dinit (key : Option (List Nat)) (keylen : Nat) (iv : Option (List Nat)) (ivlen : Nat)
  | get_ctx_params (params : GetParams)
  | set_ctx_params (params : SetParams)
  | stream_update (out : Option Buf) (outsize : Nat) (inp : Option Buf) (inl : Nat)
  | stream_final (out : Option Buf) (outsize : Nat)
  | cipher (out : Option Buf) (outsize : Nat) (inp : Option Buf) (inl : Nat)

/-- The value returned by the call `op` on `ctx` and the context it leaves (the two
`void` functions are given the value 1). -/
def Op.apply (ctx : PROV_GCM_CTX σ ρ) : Op σ ρ → Int × PROV_GCM_CTX σ ρ
  | Op.initctx provctx keybits hw ivlen_min => (1, gcm_initctx provctx ctx keybits hw ivlen_min)
  | Op.deinitctx => (1, gcm_deinitctx ctx)
  | Op.einit key keylen iv ivlen => gcm_einit ctx key keylen iv ivlen
  | Op.dinit key keylen iv ivlen => gcm_dinit ctx key keylen iv ivlen
  | Op.get_ctx_params params =>
      ((gcm_get_ctx_params ctx params).1, (gcm_get_ctx_params ctx params).2.1)
  | Op.set_ctx_params params => gcm_set_ctx_params ctx params
  | Op.stream_update out outsize inp inl =>
      ((gcm_stream_update ctx out outsize inp inl).rv,
       (gcm_stream_update ctx out outsize inp inl).ctx)
  | Op.stream_final out outsize =>
      ((gcm_stream_final ctx out outsize).rv, (gcm_stream_final ctx out outsize).ctx)
  | Op.cipher out outsize inp inl =>
      ((gcm_cipher ctx out outsize inp inl).rv, (gcm_cipher ctx out outsize inp inl).ctx)

/-- The context after the calls `ops`, made in order on `ctx`. -/
def run (ctx : PROV_GCM_CTX σ ρ) : List (Op σ ρ) → PROV_GCM_CTX σ ρ
  | [] => ctx
  | op :: ops => run (op.apply ctx).2 ops

/-- The call re-supplies a nonce: `gcm_einit`/`gcm_dinit` with a nonce, or a
parameter set that carries the tls-fixed-nonce parameter. -/
def Op.supplies_nonce : Op σ ρ → Bool
  | Op.einit _ _ iv _ => iv.isSome
  | Op.dinit _ _ iv _ => iv.isSome
  | Op.set_ctx_params params => params.AEAD_TLS1_IV_FIXED.isSome
  | _ => false

/-- The call is a parameter set that carries the tls-record-aad parameter. -/
def Op.sets_tls_aad : Op σ ρ → Bool
  | Op.set_ctx_params params => params.AEAD_TLS1_AAD.isSome
  | _ => false

/-- The call is one of the three cipher calls, and `rv` is the value with which
that call reports failure (-1 for `gcm_stream_update` and `gcm_cipher`, 0 for
`gcm_stream_final`). -/
def Op.cipher_failure : Op σ ρ → Int → Prop
  | Op.stream_update _ _ _ _, rv => rv = -1
  | Op.stream_final _ _, rv => rv = 0
  | Op.cipher _ _ _ _, rv => rv = -1
  | _, _ => True

/-! ## Sample collaborators and contexts, used to evaluate the code -/

/-- A primitive that accepts every call: the transform copies its input, the tag is
sixteen bytes 0xAA. -/
def hw_accept : PROV_GCM_HW Unit where
  setkey := fun _ _ _ => { rv := 1, st := (), key_set := true }
  setiv := fun _ _ _ => { rv := 1, st := () }
  aadupdate := fun _ _ _ => { rv := 1, st := () }
  cipherupdate := fun _ _ inp len => { rv := 1, st := (), out := inp.take len }
  cipherfinal := fun _ _ _ _ => { rv := 1, st := (), tag := List.replicate 16 0xAA, taglen := 16 }
  oneshot := fun _ _ _ _ inp len tag _ =>
    { rv := 1, st := (), out := inp.take len, tag := tag, taglen := 16 }

/-- A primitive whose `setkey` succeeds and whose every other operation reports
failure without writing anything. -/
def hw_reject : PROV_GCM_HW Unit where
  setkey := fun _ _ _ => { rv := 1, st := (), key_set := true }
  setiv := fun _ _ _ => { rv := 0, st := () }
  aadupdate := fun _ _ _ => { rv := 0, st := () }
  cipherupdate := fun _ _ _ _ => { rv := 0, st := (), out := [] }
  cipherfinal := fun _ _ taglen _ => { rv := 0, st := (), tag := [], taglen := taglen }
  oneshot := fun _ _ _ _ _ _ _ _ => { rv := 0, st := (), out := [], tag := [], taglen := 16 }

/-- A primitive like `hw_accept` whose `cipherfinal` reports failure (a tag
mismatch). -/
def hw_bad_tag : PROV_GCM_HW Unit :=
  { hw_accept with
      cipherfinal := fun _ _ taglen _ => { rv := 0, st := (), tag := [], taglen := taglen } }

/-- A random source that succeeds: the state counts the bytes handed out so far, and
the `k`-th byte handed out is `(k + 1) % 256`. -/
def rand_counting : OPENSSL_CTX Nat where
  drbg := 0
  rand := fun s num => (1, (List.range num).map (fun j => (s + j + 1) % 256), s + num)

/-- A random source that fails. -/
def rand_failing : OPENSSL_CTX Nat where
  drbg := 0
  rand := fun s _ => (0, [], s)

/-- A freshly allocated (zeroed) context with a 64-byte nonce buffer and a 16-byte
tag buffer. -/
def ctx_zero : PROV_GCM_CTX Unit Nat where
  mode := 0
  keylen := 0
  ivlen := 0
  ivlen_min := 0
  taglen := 0
  tls_aad_pad_sz := 0
  tls_aad_len := 0
  tls_enc_records := 0
  iv_state := IV_STATE.UNINITIALISED
  enc := false
  pad := false
  key_set := false
  iv_gen_rand := false
  iv_gen := false
  iv := List.replicate 64 0
  buf := List.replicate 16 0
  libctx := rand_counting
  hw := hw_accept
  gcm := ()
  trace := []

/-- A 128-bit context as `gcm_initctx` leaves it, with minimum nonce length 8. -/
def ctx_new : PROV_GCM_CTX Unit Nat := gcm_initctx rand_counting ctx_zero 128 hw_accept 8

/-- The empty parameter set. -/
def no_params : SetParams where
  AEAD_TAG := none
  AEAD_IVLEN := none
  AEAD_TLS1_AAD := none
  AEAD_TLS1_IV_FIXED := none
  KEYLEN := none


/-! ## Contexts between the stages of a call -/

/-- The context after lines 320-322 of `gcm_cipher_internal`: `setiv` has been called
on the buffered nonce and the state is COPIED. -/
def bound_ctx {σ ρ : Type} (ctx : PROV_GCM_CTX σ ρ) : PROV_GCM_CTX σ ρ :=
  { (hw_setiv ctx).2 with iv_state := IV_STATE.COPIED }

/-- The nonce buffer after `gcm_iv_generate(ctx, 0)` has stored the `ivlen` bytes the
random source produced. -/
def generated_iv {σ ρ : Type} (ctx : PROV_GCM_CTX σ ρ) : List Nat :=
  memcpy ctx.iv 0 (ctx.libctx.rand ctx.libctx.drbg ctx.ivlen).2.1 ctx.ivlen

/-- The context after a successful `gcm_iv_generate(ctx, 0)` (lines 287-291). -/
def generated_ctx {σ ρ : Type} (ctx : PROV_GCM_CTX σ ρ) : PROV_GCM_CTX σ ρ :=
  { (rand_bytes_ex ctx 0 ctx.ivlen).2 with
      iv_state := IV_STATE.BUFFERED, iv_gen_rand := true }

/-! ## Sample inputs, used to evaluate the code -/

/-- A 16-byte key. -/
def sample_key : List Nat := List.replicate 16 0

/-- A 13-byte TLS pseudo-header whose length field holds `v`. -/
def sample_aad (v : Nat) : List Nat := List.replicate 11 0 ++ [v / 256, v % 256]

/-- A 24-byte in-place record (empty payload) at address 1000. -/
def sample_record : Buf where
  addr := 1000
  bytes := List.replicate 24 0

/-- The parameter set carrying a 4-byte tls-fixed-nonce. -/
def params_fixed_iv : SetParams :=
  { no_params with AEAD_TLS1_IV_FIXED := some (OSSL_PARAM.octet_string [1, 2, 3, 4] 4) }

/-- The parameter set carrying a tls-record-aad whose length field holds `v`. -/
def params_tls_aad (v : Nat) : SetParams :=
  { no_params with AEAD_TLS1_AAD := some (OSSL_PARAM.octet_string (sample_aad v) 13) }

/-- The parameter set carrying the nonce-length parameter `n`. -/
def params_ivlen (n : Nat) : SetParams :=
  { no_params with AEAD_IVLEN := some (OSSL_PARAM.size_t n) }

/-- An encrypting context that has processed one TLS record: key set, fixed nonce
field configured, nonce state FINISHED. -/
def ctx_after_tls_record : PROV_GCM_CTX Unit Nat :=
  run ctx_new
    [Op.einit (some sample_key) 16 none 0,
     Op.set_ctx_params params_fixed_iv,
     Op.set_ctx_params (params_tls_aad 8),
     Op.stream_update (some sample_record) 24 (some sample_record) 24]

/-- The call is `gcm_initctx`. -/
def Op.is_initctx {σ ρ : Type} : Op σ ρ → Bool
  | Op.initctx _ _ _ _ => true
  | _ => false

/-- The call is a parameter set that carries the nonce-length parameter. -/
def Op.sets_ivlen {σ ρ : Type} : Op σ ρ → Bool
  | Op.set_ctx_params params => params.AEAD_IVLEN.isSome
  | _ => false

/-- The invariant of the data model: `ivlen_min <= ivlen <= sizeof(iv)`. -/
def ivlen_in_bounds {σ ρ : Type} (ctx : PROV_GCM_CTX σ ρ) : Prop :=
  ctx.ivlen_min ≤ ctx.ivlen ∧ ctx.ivlen ≤ ctx.iv.length

instance {σ ρ : Type} (ctx : PROV_GCM_CTX σ ρ) : Decidable (ivlen_in_bounds ctx) := by
  unfold ivlen_in_bounds
  infer_instance

/-- An encrypting context with the key set and no nonce. -/
def ctx_enc_keyed : PROV_GCM_CTX Unit Nat := (gcm_einit ctx_new (some sample_key) 16 none 0).2

/-- An encrypting context with the key set and a 12-byte nonce buffered. -/
def ctx_enc_buffered : PROV_GCM_CTX Unit Nat :=
  (gcm_einit ctx_new (some sample_key) 16 (some (List.replicate 12 0)) 12).2

/-- An encrypting context with the key set and a 12-byte nonce buffered, over the
primitive whose `setiv` fails. -/
def ctx_reject_buffered : PROV_GCM_CTX Unit Nat :=
  (gcm_einit (gcm_initctx rand_counting ctx_zero 128 hw_reject 8) (some sample_key) 16
    (some (List.replicate 12 0)) 12).2

/-- A decrypting context with the key set and a 12-byte nonce buffered, over the
primitive whose `cipherfinal` reports a tag mismatch. -/
def ctx_bad_tag_buffered : PROV_GCM_CTX Unit Nat :=
  (gcm_dinit (gcm_initctx rand_counting ctx_zero 128 hw_bad_tag 8) (some sample_key) 16
    (some (List.replicate 12 0)) 12).2

/-! ## Big-endian counters -/

/-- The value of a byte string read as a big-endian unsigned integer. -/
def be_value (b : List Nat) : Nat := b.foldl (fun acc x => acc * 256 + x) 0

/-- The loop of `ctr64_inc` again, entered with the loop variable equal to `n`, this
time also counting how often the assignment `counter[n] = c` is executed. -/
def ctr64_inc_loop_counted (counter : List Nat) : Nat → List Nat × Nat
  | 0 => (counter, 0)
  | n + 1 =>
      let c := (byte_at counter n + 1) % 256
      let counter1 := counter.set n c
      if c > 0 then (counter1, 1)
      else ((ctr64_inc_loop_counted counter1 n).1, (ctr64_inc_loop_counted counter1 n).2 + 1)

/-! ## Sample contexts for the TLS path and for an operation in progress -/

/-- An encrypting context ready for a TLS record: key set, 4-byte fixed nonce field
configured (the other 8 bytes of the 12-byte nonce drawn from the random source),
tls-record-aad set. -/
def ctx_tls_enc : PROV_GCM_CTX Unit Nat :=
  run ctx_new
    [Op.einit (some sample_key) 16 none 0,
     Op.set_ctx_params params_fixed_iv,
     Op.set_ctx_params (params_tls_aad 8)]

/-- The context `ctx_tls_enc` with the record counter pre-seeded to `2^64 - 1`. -/
def ctx_tls_enc_last : PROV_GCM_CTX Unit Nat :=
  { ctx_tls_enc with tls_enc_records := 2 ^ 64 - 1 }

/-- The context `ctx_tls_enc` over the primitive whose `setiv` fails. -/
def ctx_tls_reject : PROV_GCM_CTX Unit Nat :=
  run (gcm_initctx rand_counting ctx_zero 128 hw_reject 8)
    [Op.einit (some sample_key) 16 none 0,
     Op.set_ctx_params params_fixed_iv,
     Op.set_ctx_params (params_tls_aad 8)]

/-- A decrypting context ready for a TLS record: key set, 4-byte fixed nonce field
configured, tls-record-aad set. -/
def ctx_tls_dec : PROV_GCM_CTX Unit Nat :=
  run ctx_new
    [Op.dinit (some sample_key) 16 none 0,
     Op.set_ctx_params params_fixed_iv,
     Op.set_ctx_params (params_tls_aad 24)]

/-- A 24-byte in-place record at address 1000 whose explicit nonce field is
`9 8 7 6 5 4 3 2`. -/
def sample_record_in : Buf where
  addr := 1000
  bytes := [9, 8, 7, 6, 5, 4, 3, 2] ++ List.replicate 16 0

/-- Three bytes of input at address 2000. -/
def sample_chunk : Buf where
  addr := 2000
  bytes := [1, 2, 3]

/-- Room for three bytes of output at address 3000. -/
def sample_room : Buf where
  addr := 3000
  bytes := [0, 0, 0]

/-- An encrypting context with an operation in progress (nonce state COPIED): key
and a 12-byte nonce supplied, three bytes of AAD absorbed. -/
def ctx_enc_active : PROV_GCM_CTX Unit Nat :=
  run ctx_new
    [Op.einit (some sample_key) 16 (some (List.replicate 12 0)) 12,
     Op.stream_update none 3 (some sample_chunk) 3]

/-! ## Parameter sets carrying one parameter -/

/-- The parameter set carrying only the tls-record-aad parameter `q`. -/
def params_tls1_aad (q : OSSL_PARAM) : SetParams :=
  { no_params with AEAD_TLS1_AAD := some q }

/-- The parameter set carrying only the tls-fixed-nonce parameter `q`. -/
def params_tls1_iv_fixed (q : OSSL_PARAM) : SetParams :=
  { no_params with AEAD_TLS1_IV_FIXED := some q }

/-- The empty parameter array handed to `gcm_get_ctx_params`. -/
def no_get_params : GetParams where
  IVLEN := none
  KEYLEN := none
  IV := none
  AEAD_TLS1_AAD_PAD := none
  AEAD_TAG := none

/-- The parameter array asking only for the tls-record-aad padding size. -/
def get_tls1_aad_pad (q : OSSL_PARAM) : GetParams :=
  { no_get_params with AEAD_TLS1_AAD_PAD := some q }

/-- The parameter array asking only for the tag. -/
def get_aead_tag (q : OSSL_PARAM) : GetParams :=
  { no_get_params with AEAD_TAG := some q }

/-- The parameter set carrying only the tag parameter `q`. -/
def params_aead_tag (q : OSSL_PARAM) : SetParams :=
  { no_params with AEAD_TAG := some q }

/-- The two bytes that encode `v` big-endian. -/
def be16 (v : Nat) : List Nat := [v / 256 % 256, v % 256]

/-! ## The one-shot call of the TLS path -/

/-- The call of line 478 of `gcm_tls_cipher`, made by `tls_seal_open` on a record of
`len` bytes: the payload is the `len - 24` bytes at offset 8, the tag the 16
bytes after it. -/
def tls_oneshot {σ ρ : Type} (ctx : PROV_GCM_CTX σ ρ) (record : List Nat) (len : Nat) :
    Int × PROV_GCM_CTX σ ρ × List Nat × List Nat :=
  let off := EVP_GCM_TLS_EXPLICIT_IV_LEN
  let len1 := len - (EVP_GCM_TLS_EXPLICIT_IV_LEN + EVP_GCM_TLS_TAG_LEN)
  hw_oneshot { ctx with iv_state := IV_STATE.COPIED } (load record off len1) len1
    (load record (off + len1) EVP_GCM_TLS_TAG_LEN)

/-- The answer of the primitive to the one-shot call that an encrypting
`gcm_tls_cipher` makes on a record of `len` bytes: the state is the one `setiv`
left when called with the stored nonce. -/
def tls_seal_call {σ ρ : Type} (ctx : PROV_GCM_CTX σ ρ) (record : List Nat) (len : Nat) :
    HwOneshotRes σ :=
  ctx.hw.oneshot (ctx.hw.setiv ctx.gcm ctx.iv ctx.ivlen).st true ctx.buf ctx.tls_aad_len
    (load record 8 (len - 24)) (len - 24) (load record ((len - 16 : Nat) : Int) 16) 16

/-- The nonce a decrypting `gcm_tls_cipher` binds: the stored nonce with its bytes
`[ivlen - 8, ivlen)` replaced by the first 8 bytes of the record. -/
def tls_open_nonce {σ ρ : Type} (ctx : PROV_GCM_CTX σ ρ) (record : List Nat) : List Nat :=
  ctx.iv.take (ctx.ivlen - 8) ++ record.take 8 ++ ctx.iv.drop ctx.ivlen

/-- The answer of the primitive to the one-shot call that a decrypting
`gcm_tls_cipher` makes on a record of `len` bytes. -/
def tls_open_call {σ ρ : Type} (ctx : PROV_GCM_CTX σ ρ) (record : List Nat) (len : Nat) :
    HwOneshotRes σ :=
  ctx.hw.oneshot (ctx.hw.setiv ctx.gcm (tls_open_nonce ctx record) ctx.ivlen).st false ctx.buf
    ctx.tls_aad_len (load record 8 (len - 24)) (len - 24)
    (load record ((len - 16 : Nat) : Int) 16) 16

/-- What the TLS round trip assumes of the primitive.  `keyed s1 s2` says that the
states `s1` and `s2` hold the same key, `bound s1 s2` that they hold the same
key and the same nonce.  `setiv` accepts every nonce and reads only the `n`
bytes it is given; sealing succeeds and writes `len` bytes and a tag of `tl`
bytes; opening what was sealed under the same key, nonce and AAD succeeds and
returns the payload. -/
structure RoundTripContract {σ : Type} (hw : PROV_GCM_HW σ) (keyed bound : σ → σ → Prop) :
    Prop where
  setiv_ok : ∀ st iv n, (hw.setiv st iv n).rv ≠ 0
  setiv_bound : ∀ s1 s2 iv1 iv2 n, keyed s1 s2 → iv1.take n = iv2.take n →
    bound (hw.setiv s1 iv1 n).st (hw.setiv s2 iv2 n).st
  seal_ok : ∀ st aad k inp len tag tl, (hw.oneshot st true aad k inp len tag tl).rv ≠ 0
  seal_size : ∀ st aad k inp len tag tl, inp.length = len → tag.length = tl →
    (hw.oneshot st true aad k inp len tag tl).out.length = len
    ∧ (hw.oneshot st true aad k inp len tag tl).tag.length = tl
  open_inverts : ∀ s1 s2 aad1 aad2 k inp len tag tl, bound s1 s2 →
    aad1.take k = aad2.take k → inp.length = len → tag.length = tl →
    (hw.oneshot s2 false aad2 k (hw.oneshot s1 true aad1 k inp len tag tl).out len
        (hw.oneshot s1 true aad1 k inp len tag tl).tag tl).rv ≠ 0
    ∧ (hw.oneshot s2 false aad2 k (hw.oneshot s1 true aad1 k inp len tag tl).out len
        (hw.oneshot s1 true aad1 k inp len tag tl).tag tl).out = inp

/-! ## Sample collaborators and inputs for the TLS record -/

/-- A primitive like `hw_accept` whose `oneshot` writes its output and then reports
failure (a tag mismatch), leaving the tag as it found it. -/
def hw_open_fails : PROV_GCM_HW Unit :=
  { hw_accept with
      oneshot := fun _ _ _ _ inp len tag _ =>
        { rv := 0, st := (), out := inp.take len, tag := tag, taglen := 16 } }

/-- A 28-byte in-place record at address 1000: explicit nonce `09 08 07 06 05 04 03 02`,
payload `01 02 03 04`, sixteen tag bytes 0xBB. -/
def sample_record_28 : Buf where
  addr := 1000
  bytes := [9, 8, 7, 6, 5, 4, 3, 2] ++ [1, 2, 3, 4] ++ List.replicate 16 0xBB

/-- A decrypting context ready for the 28-byte record, over the primitive whose
`oneshot` fails. -/
def ctx_tls_dec_fail : PROV_GCM_CTX Unit Nat :=
  run (gcm_initctx rand_counting ctx_zero 128 hw_open_fails 8)
    [Op.dinit (some sample_key) 16 none 0,
     Op.set_ctx_params params_fixed_iv,
     Op.set_ctx_params (params_tls_aad 28)]

/-- An encrypting context ready for the 28-byte record (payload of 4 bytes). -/
def ctx_tls_enc_28 : PROV_GCM_CTX Unit Nat :=
  run ctx_new
    [Op.einit (some sample_key) 16 none 0,
     Op.set_ctx_params params_fixed_iv,
     Op.set_ctx_params (params_tls_aad 12)]

/-- A decrypting context ready for the 28-byte record (payload of 4 bytes). -/
def ctx_tls_dec_28 : PROV_GCM_CTX Unit Nat :=
  run ctx_new
    [Op.dinit (some sample_key) 16 none 0,
     Op.set_ctx_params params_fixed_iv,
     Op.set_ctx_params (params_tls_aad 28)]

/-- A decrypting context with the key set and no nonce (`ivlen = 12`). -/
def ctx_dec_keyed : PROV_GCM_CTX Unit Nat := (gcm_dinit ctx_new (some sample_key) 16 none 0).2

/-! ## Sample contexts for the tag parameter -/

/-- A context that was set up for decryption, was given the expected tag (sixteen
bytes 0x55) and was then switched to encryption by `gcm_einit` without key or
nonce; no cipher call has been made. -/
def ctx_switched : PROV_GCM_CTX Unit Nat :=
  run ctx_new
    [Op.dinit (some sample_key) 16 none 0,
     Op.set_ctx_params (params_aead_tag (OSSL_PARAM.octet_string (List.replicate 16 0x55) 16)),
     Op.einit none 0 none 0]

/-- An encrypting context after a successful final (the tag is sixteen bytes 0xAA). -/
def ctx_enc_final : PROV_GCM_CTX Unit Nat :=
  run ctx_enc_buffered [Op.stream_final none 0]



/-! ## Sample contexts for the record round trip -/

/-- An encrypting context with the key set and the 4-byte fixed nonce field
`01 02 03 04` configured. -/
def ctx_tls_enc_fixed : PROV_GCM_CTX Unit Nat :=
  run ctx_new [Op.einit (some sample_key) 16 none 0, Op.set_ctx_params params_fixed_iv]

/-- A decrypting context with the same key and the same 4-byte fixed nonce field. -/
def ctx_tls_dec_fixed : PROV_GCM_CTX Unit Nat :=
  run ctx_new [Op.dinit (some sample_key) 16 none 0, Op.set_ctx_params params_fixed_iv]

/-- The record that `ctx_tls_enc_fixed` makes of `sample_record_28`, placed at
address 2000. -/
def sample_sealed_28 : Buf where
  addr := 2000
  bytes := (gcm_tls_cipher (gcm_tls_init ctx_tls_enc_fixed (List.replicate 11 0 ++ be16 (4 + 8)) 13).2
    (some sample_record_28) (some sample_record_28) (8 + 4 + 16)).out

/-! ## Sample contexts and inputs for the parameters, teardown and the entry points -/

/-- A decrypting context on which a final has run (nonce state FINISHED). -/
def ctx_dec_final : PROV_GCM_CTX Unit Nat :=
  run ctx_new
    [Op.dinit (some sample_key) 16 (some (List.replicate 12 0)) 12,
     Op.stream_final none 0]

/-- The parameter array asking only for the nonce value. -/
def get_iv (q : OSSL_PARAM) : GetParams :=
  { no_get_params with IV := some q }

/-! ## The two modes of a cipher call -/

/-- Lines 305-347 of `gcm_cipher_internal`: the generic pipeline, which the function
runs when `tls_aad_len` is unset. -/
def generic_pipeline {σ ρ : Type} (ctx : PROV_GCM_CTX σ ρ) (out inp : Option Buf) (len : Nat) :
    CipherRes σ ρ :=
  if ctx.key_set = false ∨ ctx.iv_state = IV_STATE.FINISHED then
    { rv := 0, ctx := ctx, out := contents out, padlen := 0 }
  else if (generic_generate ctx).1 = 0 then
    { rv := 0, ctx := (generic_generate ctx).2, out := contents out, padlen := 0 }
  else if (generic_bind (generic_generate ctx).2).1 = 0 then
    { rv := 0, ctx := (generic_bind (generic_generate ctx).2).2, out := contents out, padlen := 0 }
  else generic_absorb (generic_bind (generic_generate ctx).2).2 out inp len

/-- The call is one of the three cipher entry points. -/
def Op.is_cipher {σ ρ : Type} : Op σ ρ → Bool
  | Op.stream_update _ _ _ _ => true
  | Op.stream_final _ _ => true
  | Op.cipher _ _ _ _ => true
  | _ => false

/-! ## Nonces across TLS records -/

/-- The stored nonce after an encrypting `gcm_tls_cipher` call has bound it (line 470):
the 8 bytes before `ivlen` have gone through `ctr64_inc`. -/
def tls_next_iv (iv : List Nat) (ivlen : Nat) : List Nat :=
  iv.take (ivlen - 8) ++ ctr64_inc ((iv.drop (ivlen - 8)).take 8) ++ iv.drop ivlen

/-- The nonce `iv` is the nonce `iv0` with the 8-byte counter that ends at byte `n`
advanced `k` times: the same length, the same bytes outside `[n - 8, n)`, every
byte below 256 and a big-endian counter value `k` higher modulo `2^64`. -/
def nonce_advanced (iv0 : List Nat) (n k : Nat) (iv : List Nat) : Prop :=
  iv.length = iv0.length ∧ iv.take (n - 8) = iv0.take (n - 8) ∧ iv.drop n = iv0.drop n
  ∧ (∀ x ∈ iv, x < 256)
  ∧ be_value ((iv.drop (n - 8)).take 8) = (be_value ((iv0.drop (n - 8)).take 8) + k) % 2 ^ 64

/-- The call `gcm_cipher_internal(ctx, out, padlen, in, len)` runs `gcm_tls_cipher` (line
302), passes the checks of lines 436-455, and the `setiv` call of the bind stage
reports success. -/
def tls_call_binds {σ ρ : Type} (ctx : PROV_GCM_CTX σ ρ) (out inp : Option Buf) (len : Nat) :
    Prop :=
  ctx.tls_aad_len ≠ UNINITIALISED_SIZET ∧ ctx.key_set = true ∧ ptr out = ptr inp ∧ 24 ≤ len
  ∧ ¬ (ctx.enc = true ∧ (tls_count_record ctx).tls_enc_records = 0)
  ∧ ctx.iv_gen = true ∧ (tls_bind_iv (tls_count_record ctx) (contents out)).1 ≠ 0

instance {σ ρ : Type} (ctx : PROV_GCM_CTX σ ρ) (out inp : Option Buf) (len : Nat) :
    Decidable (tls_call_binds ctx out inp len) := by
  unfold tls_call_binds
  infer_instance

/-- The public call `op` on `ctx` reaches `gcm_cipher_internal` with a call that binds
the nonce on the TLS path. -/
def Op.binds {σ ρ : Type} (ctx : PROV_GCM_CTX σ ρ) : Op σ ρ → Prop
  | Op.stream_update out outsize inp inl => inl ≤ outsize ∧ tls_call_binds ctx out inp inl
  | Op.stream_final out _ => tls_call_binds ctx out none 0
  | Op.cipher out outsize inp inl => inl ≤ outsize ∧ tls_call_binds ctx out inp inl
  | _ => False

instance {σ ρ : Type} (ctx : PROV_GCM_CTX σ ρ) (op : Op σ ρ) : Decidable (op.binds ctx) := by
  cases op <;> unfold Op.binds <;> infer_instance

/-- The number of calls among `ops`, made in order on `ctx`, that bind the nonce on the
TLS path. -/
def bind_count {σ ρ : Type} (ctx : PROV_GCM_CTX σ ρ) : List (Op σ ρ) → Nat
  | [] => 0
  | op :: ops => (if op.binds ctx then 1 else 0) + bind_count (op.apply ctx).2 ops

/-- The call supplies no nonce and no nonce length and keeps the direction to
encrypt: a cipher call, a parameter get, a parameter set without the nonce-length
and tls-fixed-nonce parameters, or `gcm_einit` without a nonce. -/
def Op.keeps_nonce {σ ρ : Type} : Op σ ρ → Bool
  | Op.einit _ _ iv _ => iv.isNone
  | Op.get_ctx_params _ => true
  | Op.set_ctx_params params => params.AEAD_IVLEN.isNone && params.AEAD_TLS1_IV_FIXED.isNone
  | Op.stream_update _ _ _ _ => true
  | Op.stream_final _ _ => true
  | Op.cipher _ _ _ _ => true
  | _ => false

/-- An encrypting TLS context whose nonce length was then set to 4: key set, fixed
nonce field configured, nonce-length parameter 4, tls-record-aad set. -/
def ctx_tls_short_nonce : PROV_GCM_CTX Unit Nat :=
  run ctx_new
    [Op.einit (some sample_key) 16 none 0,
     Op.set_ctx_params params_fixed_iv,
     Op.set_ctx_params (params_ivlen 4),
     Op.set_ctx_params (params_tls_aad 8)]

/-! ## The bind stage seen from the memory in front of the nonce buffer -/

/-- The increment of line 470, `ctr64_inc(ctx->iv + ctx->ivlen - 8)`, seen from the
memory that starts `before.length` bytes in front of `ctx->iv`: `before` holds the
bytes found there, in address order, and the nonce buffer follows them. -/
def tls_inc_window (before iv : List Nat) (ivlen : Nat) : List Nat :=
  memcpy (before ++ iv) ((before.length : Int) + ((ivlen : Int) - 8))
    (ctr64_inc (load (before ++ iv) ((before.length : Int) + ((ivlen : Int) - 8)) 8)) 8

/-- The copy of line 472, `memcpy(ctx->iv + ctx->ivlen - arg, out, arg)` with `arg`
still `EVP_GCM_TLS_EXPLICIT_IV_LEN` (the decrypting side does not clamp it), seen
from the memory that starts `before.length` bytes in front of `ctx->iv`. -/
def tls_store_window (before iv : List Nat) (ivlen : Nat) (record : List Nat) : List Nat :=
  memcpy (before ++ iv)
    ((before.length : Int) + ((ivlen : Int) - EVP_GCM_TLS_EXPLICIT_IV_LEN))
    (load record 0 EVP_GCM_TLS_EXPLICIT_IV_LEN) EVP_GCM_TLS_EXPLICIT_IV_LEN

/-- The values returned by the calls `ops`, made in order on `ctx`. -/
def run_values (ctx : PROV_GCM_CTX σ ρ) : List (Op σ ρ) → List Int
  | [] => []
  | op :: ops => (op.apply ctx).1 :: run_values (op.apply ctx).2 ops

/-- The public calls that set up an encrypting TLS context with the fixed nonce
field `FF FF FF FF` and then set the nonce length to 4. -/
def ops_tls_short_enc : List (Op Unit Nat) :=
  [Op.einit (some sample_key) 16 none 0,
   Op.set_ctx_params (params_tls1_iv_fixed (OSSL_PARAM.octet_string [255, 255, 255, 255] 4)),
   Op.set_ctx_params (params_ivlen 4),
   Op.set_ctx_params (params_tls_aad 8)]

/-- The encrypting TLS context left by `ops_tls_short_enc` on a fresh context. -/
def ctx_tls_short_enc : PROV_GCM_CTX Unit Nat := run ctx_new ops_tls_short_enc

/-- The public calls that set up a decrypting TLS context for a 28-byte record and
set the nonce length to 4 on the way. -/
def ops_tls_short_dec : List (Op Unit Nat) :=
  [Op.dinit (some sample_key) 16 none 0,
   Op.set_ctx_params params_fixed_iv,
   Op.set_ctx_params (params_ivlen 4),
   Op.set_ctx_params (params_tls_aad 28)]

/-- The decrypting TLS context left by `ops_tls_short_dec` on a fresh context over the
primitive whose `oneshot` fails. -/
def ctx_tls_short_dec : PROV_GCM_CTX Unit Nat :=
  run (gcm_initctx rand_counting ctx_zero 128 hw_open_fails 8) ops_tls_short_dec

/-- A 28-byte in-place record at address 1000: explicit nonce `00 00 00 01 05 04 03 02`,
payload `01 02 03 04`, sixteen tag bytes 0xBB. -/
def sample_record_low_bit : Buf where
  addr := 1000
  bytes := [0, 0, 0, 1, 5, 4, 3, 2] ++ [1, 2, 3, 4] ++ List.replicate 16 0xBB

/-! ## Frames: the fields a call leaves alone -/

/-- The fields of the context that no cipher call writes. -/
structure CipherFrame (a b : PROV_GCM_CTX σ ρ) : Prop where
  mode : b.mode = a.mode
  keylen : b.keylen = a.keylen
  ivlen : b.ivlen = a.ivlen
  ivlen_min : b.ivlen_min = a.ivlen_min
  tls_aad_pad_sz : b.tls_aad_pad_sz = a.tls_aad_pad_sz
  enc : b.enc = a.enc
  pad : b.pad = a.pad
  key_set : b.key_set = a.key_set
  iv_gen : b.iv_gen = a.iv_gen
  hw : b.hw = a.hw
  cap : b.iv.length = a.iv.length

/-- The fields left alone by the tag, nonce-length, tls-record-aad and key-length
steps of `gcm_set_ctx_params`. -/
structure ParamFrame (a b : PROV_GCM_CTX σ ρ) : Prop where
  mode : b.mode = a.mode
  keylen : b.keylen = a.keylen
  ivlen_min : b.ivlen_min = a.ivlen_min
  iv_state : b.iv_state = a.iv_state
  enc : b.enc = a.enc
  pad : b.pad = a.pad
  key_set : b.key_set = a.key_set
  iv_gen_rand : b.iv_gen_rand = a.iv_gen_rand
  iv_gen : b.iv_gen = a.iv_gen
  iv : b.iv = a.iv
  libctx : b.libctx = a.libctx
  hw : b.hw = a.hw
  gcm : b.gcm = a.gcm
  trace : b.trace = a.trace

/-- The three fields of the nonce-length invariant are left alone. -/
structure BoundsFrame (a b : PROV_GCM_CTX σ ρ) : Prop where
  ivlen : b.ivlen = a.ivlen
  ivlen_min : b.ivlen_min = a.ivlen_min
  cap : b.iv.length = a.iv.length

/-! # Lemmas -/

/-! ## Buffer lemmas -/

theorem memcpy_length (dst : List Nat) (off : Int) (src : List Nat) (n : Nat) :
    (memcpy dst off src n).length = dst.length := by
  simp [memcpy]

theorem OPENSSL_cleanse_length (buf : List Nat) (off : Int) (n : Nat) :
    (OPENSSL_cleanse buf off n).length = buf.length := by
  simp [OPENSSL_cleanse]

theorem memcpy_take (dst src : List Nat) (n : Nat) (hs : n ≤ src.length) (hd : n ≤ dst.length) :
    (memcpy dst 0 src n).take n = src.take n := by
  apply List.ext_getElem
  · simp [memcpy_length, hs, hd]
  · intro i h1 h2
    simp only [List.length_take, memcpy_length] at h1 h2
    simp only [List.getElem_take, memcpy, List.getElem_map, List.getElem_range]
    have h3 : i < n := by omega
    have h4 : i < src.length := by omega
    simp [h3, h4]

theorem CipherFrame.crefl (a : PROV_GCM_CTX σ ρ) : CipherFrame a a :=
  ⟨rfl, rfl, rfl, rfl, rfl, rfl, rfl, rfl, rfl, rfl, rfl⟩

theorem CipherFrame.ctrans {a b c : PROV_GCM_CTX σ ρ} (h1 : CipherFrame a b)
    (h2 : CipherFrame b c) : CipherFrame a c :=
  ⟨h2.mode.trans h1.mode, h2.keylen.trans h1.keylen, h2.ivlen.trans h1.ivlen,
   h2.ivlen_min.trans h1.ivlen_min, h2.tls_aad_pad_sz.trans h1.tls_aad_pad_sz,
   h2.enc.trans h1.enc, h2.pad.trans h1.pad, h2.key_set.trans h1.key_set,
   h2.iv_gen.trans h1.iv_gen, h2.hw.trans h1.hw, h2.cap.trans h1.cap⟩

theorem hw_setiv_frame (ctx : PROV_GCM_CTX σ ρ) : CipherFrame ctx (hw_setiv ctx).2 :=
  ⟨rfl, rfl, rfl, rfl, rfl, rfl, rfl, rfl, rfl, rfl, rfl⟩

theorem rand_bytes_ex_frame (ctx : PROV_GCM_CTX σ ρ) (off : Int) (num : Nat) :
    CipherFrame ctx (rand_bytes_ex ctx off num).2 :=
  ⟨rfl, rfl, rfl, rfl, rfl, rfl, rfl, rfl, rfl, rfl, memcpy_length _ _ _ _⟩

theorem gcm_iv_generate_frame (ctx : PROV_GCM_CTX σ ρ) (offset : Int) :
    CipherFrame ctx (gcm_iv_generate ctx offset).2 := by
  unfold gcm_iv_generate
  simp only
  split
  · exact CipherFrame.crefl ctx
  · split
    · exact rand_bytes_ex_frame _ _ _
    · exact ⟨rfl, rfl, rfl, rfl, rfl, rfl, rfl, rfl, rfl, rfl, memcpy_length _ _ _ _⟩

theorem pair_fst {α β : Type} (a : α) (b : β) : (a, b).1 = a := rfl

theorem pair_snd {α β : Type} (a : α) (b : β) : (a, b).2 = b := rfl

theorem res_ctx (rv : Int) (c : PROV_GCM_CTX σ ρ) (out : List Nat) (padlen : Nat) :
    (CipherRes.mk rv c out padlen).ctx = c := rfl

theorem res_rv (rv : Int) (c : PROV_GCM_CTX σ ρ) (out : List Nat) (padlen : Nat) :
    (CipherRes.mk rv c out padlen).rv = rv := rfl

theorem res_padlen (rv : Int) (c : PROV_GCM_CTX σ ρ) (out : List Nat) (padlen : Nat) :
    (CipherRes.mk rv c out padlen).padlen = padlen := rfl

theorem frame_iv_state (c : PROV_GCM_CTX σ ρ) (s : IV_STATE) :
    CipherFrame c { c with iv_state := s } :=
  ⟨rfl, rfl, rfl, rfl, rfl, rfl, rfl, rfl, rfl, rfl, rfl⟩

theorem frame_iv (c : PROV_GCM_CTX σ ρ) (iv1 : List Nat) (h : iv1.length = c.iv.length) :
    CipherFrame c { c with iv := iv1 } :=
  ⟨rfl, rfl, rfl, rfl, rfl, rfl, rfl, rfl, rfl, rfl, h⟩

theorem frame_records (c : PROV_GCM_CTX σ ρ) (n : Nat) :
    CipherFrame c { c with tls_enc_records := n } :=
  ⟨rfl, rfl, rfl, rfl, rfl, rfl, rfl, rfl, rfl, rfl, rfl⟩

theorem generic_generate_frame (ctx : PROV_GCM_CTX σ ρ) :
    CipherFrame ctx (generic_generate ctx).2 := by
  unfold generic_generate
  have h := gcm_iv_generate_frame ctx 0
  generalize gcm_iv_generate ctx 0 = r at h ⊢
  split
  · split
    · exact CipherFrame.crefl ctx
    · split <;> rw [pair_snd] <;> exact h
  · exact CipherFrame.crefl ctx

theorem generic_bind_frame (ctx : PROV_GCM_CTX σ ρ) :
    CipherFrame ctx (generic_bind ctx).2 := by
  unfold generic_bind
  have h := hw_setiv_frame ctx
  generalize hw_setiv ctx = r at h ⊢
  split
  · split
    · rw [pair_snd]; exact h
    · rw [pair_snd]; exact h.ctrans (frame_iv_state _ _)
  · exact CipherFrame.crefl ctx

theorem hw_cipherfinal_frame (ctx : PROV_GCM_CTX σ ρ) : CipherFrame ctx (hw_cipherfinal ctx).2 :=
  ⟨rfl, rfl, rfl, rfl, rfl, rfl, rfl, rfl, rfl, rfl, rfl⟩

theorem hw_aadupdate_frame (ctx : PROV_GCM_CTX σ ρ) (inp : List Nat) (len : Nat) :
    CipherFrame ctx (hw_aadupdate ctx inp len).2 :=
  ⟨rfl, rfl, rfl, rfl, rfl, rfl, rfl, rfl, rfl, rfl, rfl⟩

theorem hw_cipherupdate_frame (ctx : PROV_GCM_CTX σ ρ) (inp : List Nat) (len : Nat) :
    CipherFrame ctx (hw_cipherupdate ctx inp len).2.1 :=
  ⟨rfl, rfl, rfl, rfl, rfl, rfl, rfl, rfl, rfl, rfl, rfl⟩

theorem hw_oneshot_frame (ctx : PROV_GCM_CTX σ ρ) (inp : List Nat) (len : Nat) (tag : List Nat) :
    CipherFrame ctx (hw_oneshot ctx inp len tag).2.1 :=
  ⟨rfl, rfl, rfl, rfl, rfl, rfl, rfl, rfl, rfl, rfl, rfl⟩

theorem generic_absorb_frame (ctx : PROV_GCM_CTX σ ρ) (out inp : Option Buf) (len : Nat) :
    CipherFrame ctx (generic_absorb ctx out inp len).ctx := by
  unfold generic_absorb
  cases inp with
  | none =>
    have h := hw_cipherfinal_frame ctx
    dsimp only
    generalize hw_cipherfinal ctx = r at h ⊢
    split
    · rw [res_ctx]; exact h
    · rw [res_ctx]; exact h.ctrans (frame_iv_state _ _)
  | some ib =>
    cases out with
    | none =>
      have h := hw_aadupdate_frame ctx ib.bytes len
      dsimp only
      generalize hw_aadupdate ctx ib.bytes len = r at h ⊢
      split <;> rw [res_ctx] <;> exact h
    | some ob =>
      have h := hw_cipherupdate_frame ctx ib.bytes len
      dsimp only
      generalize hw_cipherupdate ctx ib.bytes len = r at h ⊢
      split <;> rw [res_ctx] <;> exact h

theorem tls_count_record_frame (ctx : PROV_GCM_CTX σ ρ) :
    CipherFrame ctx (tls_count_record ctx) := by
  unfold tls_count_record
  split
  · exact frame_records _ _
  · exact CipherFrame.crefl ctx

theorem tls_bind_iv_frame (ctx : PROV_GCM_CTX σ ρ) (record : List Nat) :
    CipherFrame ctx (tls_bind_iv ctx record).2.1 := by
  unfold tls_bind_iv
  split
  · have h := hw_setiv_frame ctx
    generalize hw_setiv ctx = r at h ⊢
    split
    · rw [pair_snd, pair_fst]; exact h
    · rw [pair_snd, pair_fst]
      exact h.ctrans (frame_iv _ _ ((memcpy_length _ _ _ _).trans h.cap.symm))
  · dsimp only
    have h2 := (frame_iv ctx _ (memcpy_length ctx.iv
        ((ctx.ivlen : Int) - EVP_GCM_TLS_EXPLICIT_IV_LEN)
        (load record 0 EVP_GCM_TLS_EXPLICIT_IV_LEN) EVP_GCM_TLS_EXPLICIT_IV_LEN)).ctrans
      (hw_setiv_frame _)
    generalize hw_setiv _ = r at h2 ⊢
    split <;> rw [pair_snd, pair_fst] <;> exact h2

theorem gcm_tls_cipher_err_frame (rv : Int) (ctx : PROV_GCM_CTX σ ρ) (out : List Nat) (plen : Nat) :
    CipherFrame ctx (gcm_tls_cipher_err rv ctx out plen).ctx :=
  ⟨rfl, rfl, rfl, rfl, rfl, rfl, rfl, rfl, rfl, rfl, rfl⟩

theorem tls_seal_open_frame (ctx : PROV_GCM_CTX σ ρ) (record : List Nat) (len : Nat) :
    CipherFrame ctx (tls_seal_open ctx record len).ctx := by
  unfold tls_seal_open
  dsimp only
  generalize ho : hw_oneshot _ _ _ _ = o
  have h : CipherFrame ctx o.2.1 := by
    rw [← ho]
    exact (frame_iv_state ctx IV_STATE.COPIED).ctrans (hw_oneshot_frame _ _ _ _)
  split
  · split <;> exact h.ctrans (gcm_tls_cipher_err_frame _ _ _ _)
  · split <;> exact h.ctrans (gcm_tls_cipher_err_frame _ _ _ _)

theorem gcm_tls_cipher_frame (ctx : PROV_GCM_CTX σ ρ) (out inp : Option Buf) (len : Nat) :
    CipherFrame ctx (gcm_tls_cipher ctx out inp len).ctx := by
  unfold gcm_tls_cipher
  have h1 := tls_count_record_frame ctx
  have h2 := h1.ctrans (tls_bind_iv_frame (tls_count_record ctx) (contents out))
  have h3 := fun l => h2.ctrans (tls_seal_open_frame
    (tls_bind_iv (tls_count_record ctx) (contents out)).2.1
    (tls_bind_iv (tls_count_record ctx) (contents out)).2.2 l)
  generalize tls_bind_iv (tls_count_record ctx) (contents out) = b at h2 h3 ⊢
  generalize tls_count_record ctx = c1 at h1 ⊢
  split
  · exact gcm_tls_cipher_err_frame _ _ _ _
  · split
    · exact gcm_tls_cipher_err_frame _ _ _ _
    · split
      · exact h1.ctrans (gcm_tls_cipher_err_frame _ _ _ _)
      · split
        · exact h1.ctrans (gcm_tls_cipher_err_frame _ _ _ _)
        · split
          · exact h2.ctrans (gcm_tls_cipher_err_frame _ _ _ _)
          · exact h3 len

theorem gcm_cipher_internal_frame (ctx : PROV_GCM_CTX σ ρ) (out inp : Option Buf) (len : Nat) :
    CipherFrame ctx (gcm_cipher_internal ctx out inp len).ctx := by
  unfold gcm_cipher_internal
  have h0 := gcm_tls_cipher_frame ctx out inp len
  have h1 := generic_generate_frame ctx
  have h2 := h1.ctrans (generic_bind_frame (generic_generate ctx).2)
  have h3 := h2.ctrans (generic_absorb_frame (generic_bind (generic_generate ctx).2).2 out inp len)
  generalize generic_absorb (generic_bind (generic_generate ctx).2).2 out inp len = a at h3 ⊢
  generalize generic_bind (generic_generate ctx).2 = b at h2 ⊢
  generalize generic_generate ctx = g at h1 ⊢
  generalize gcm_tls_cipher ctx out inp len = t at h0 ⊢
  split
  · exact h0
  · split
    · exact CipherFrame.crefl ctx
    · split
      · rw [res_ctx]; exact h1
      · split
        · rw [res_ctx]; exact h2
        · exact h3

theorem tls_seal_open_state (ctx : PROV_GCM_CTX σ ρ) (record : List Nat) (len : Nat) :
    (tls_seal_open ctx record len).ctx.iv_state = IV_STATE.FINISHED
    ∧ (tls_seal_open ctx record len).ctx.tls_aad_len = UNINITIALISED_SIZET := by
  unfold tls_seal_open
  dsimp only
  generalize hw_oneshot _ _ _ _ = o
  split
  · split <;> exact ⟨rfl, rfl⟩
  · split <;> exact ⟨rfl, rfl⟩

theorem gcm_tls_cipher_state (ctx : PROV_GCM_CTX σ ρ) (out inp : Option Buf) (len : Nat) :
    (gcm_tls_cipher ctx out inp len).ctx.iv_state = IV_STATE.FINISHED
    ∧ (gcm_tls_cipher ctx out inp len).ctx.tls_aad_len = UNINITIALISED_SIZET := by
  unfold gcm_tls_cipher
  have h3 := fun l => tls_seal_open_state
    (tls_bind_iv (tls_count_record ctx) (contents out)).2.1
    (tls_bind_iv (tls_count_record ctx) (contents out)).2.2 l
  generalize tls_bind_iv (tls_count_record ctx) (contents out) = b at h3 ⊢
  generalize tls_count_record ctx = c1
  split
  · exact ⟨rfl, rfl⟩
  · split
    · exact ⟨rfl, rfl⟩
    · split
      · exact ⟨rfl, rfl⟩
      · split
        · exact ⟨rfl, rfl⟩
        · split
          · exact ⟨rfl, rfl⟩
          · exact h3 len


theorem ParamFrame.prefl (a : PROV_GCM_CTX σ ρ) : ParamFrame a a :=
  ⟨rfl, rfl, rfl, rfl, rfl, rfl, rfl, rfl, rfl, rfl, rfl, rfl, rfl, rfl⟩

theorem ParamFrame.ptrans {a b c : PROV_GCM_CTX σ ρ} (h1 : ParamFrame a b)
    (h2 : ParamFrame b c) : ParamFrame a c :=
  ⟨h2.mode.trans h1.mode, h2.keylen.trans h1.keylen, h2.ivlen_min.trans h1.ivlen_min,
   h2.iv_state.trans h1.iv_state, h2.enc.trans h1.enc, h2.pad.trans h1.pad,
   h2.key_set.trans h1.key_set, h2.iv_gen_rand.trans h1.iv_gen_rand,
   h2.iv_gen.trans h1.iv_gen, h2.iv.trans h1.iv, h2.libctx.trans h1.libctx,
   h2.hw.trans h1.hw, h2.gcm.trans h1.gcm, h2.trace.trans h1.trace⟩

theorem set_param_tag_frame (ctx : PROV_GCM_CTX σ ρ) (p : Option OSSL_PARAM) :
    ParamFrame ctx (set_param_tag ctx p).2
    ∧ (set_param_tag ctx p).2.ivlen = ctx.ivlen
    ∧ (set_param_tag ctx p).2.tls_aad_len = ctx.tls_aad_len := by
  unfold set_param_tag
  cases p with
  | none => exact ⟨ParamFrame.prefl ctx, rfl, rfl⟩
  | some q =>
    dsimp only
    cases OSSL_PARAM_get_octet_string q ctx.buf EVP_GCM_TLS_TAG_LEN with
    | none => exact ⟨ParamFrame.prefl ctx, rfl, rfl⟩
    | some r =>
      dsimp only
      split <;> exact ⟨⟨rfl, rfl, rfl, rfl, rfl, rfl, rfl, rfl, rfl, rfl, rfl, rfl, rfl, rfl⟩, rfl, rfl⟩

theorem set_param_ivlen_frame (ctx : PROV_GCM_CTX σ ρ) (p : Option OSSL_PARAM) :
    ParamFrame ctx (set_param_ivlen ctx p).2
    ∧ (set_param_ivlen ctx p).2.tls_aad_len = ctx.tls_aad_len
    ∧ ((set_param_ivlen ctx p).2.ivlen = ctx.ivlen
        ∨ (0 < (set_param_ivlen ctx p).2.ivlen
            ∧ (set_param_ivlen ctx p).2.ivlen ≤ ctx.iv.length)) := by
  unfold set_param_ivlen
  cases p with
  | none => exact ⟨ParamFrame.prefl ctx, rfl, Or.inl rfl⟩
  | some q =>
    dsimp only
    cases OSSL_PARAM_get_size_t q with
    | none => exact ⟨ParamFrame.prefl ctx, rfl, Or.inl rfl⟩
    | some sz =>
      dsimp only
      split
      · exact ⟨ParamFrame.prefl ctx, rfl, Or.inl rfl⟩
      · rename_i h
        refine ⟨⟨rfl, rfl, rfl, rfl, rfl, rfl, rfl, rfl, rfl, rfl, rfl, rfl, rfl, rfl⟩, rfl,
          Or.inr ?_⟩
        dsimp only
        omega

theorem set_param_ivlen_none (ctx : PROV_GCM_CTX σ ρ) :
    set_param_ivlen ctx none = (1, ctx) := rfl

theorem gcm_tls_init_frame (ctx : PROV_GCM_CTX σ ρ) (aad : List Nat) (aad_len : Nat) :
    ParamFrame ctx (gcm_tls_init ctx aad aad_len).2
    ∧ (gcm_tls_init ctx aad aad_len).2.ivlen = ctx.ivlen := by
  unfold gcm_tls_init
  split
  · exact ⟨ParamFrame.prefl ctx, rfl⟩
  · dsimp only
    split
    · exact ⟨⟨rfl, rfl, rfl, rfl, rfl, rfl, rfl, rfl, rfl, rfl, rfl, rfl, rfl, rfl⟩, rfl⟩
    · split <;>
        exact ⟨⟨rfl, rfl, rfl, rfl, rfl, rfl, rfl, rfl, rfl, rfl, rfl, rfl, rfl, rfl⟩, rfl⟩

theorem set_param_tls1_aad_frame (ctx : PROV_GCM_CTX σ ρ) (p : Option OSSL_PARAM) :
    ParamFrame ctx (set_param_tls1_aad ctx p).2
    ∧ (set_param_tls1_aad ctx p).2.ivlen = ctx.ivlen := by
  unfold set_param_tls1_aad
  cases p with
  | none => exact ⟨ParamFrame.prefl ctx, rfl⟩
  | some q =>
    dsimp only
    split
    · exact ⟨ParamFrame.prefl ctx, rfl⟩
    · have h := gcm_tls_init_frame ctx q.data q.data_size
      split
      · exact h
      · exact ⟨h.1.ptrans ⟨rfl, rfl, rfl, rfl, rfl, rfl, rfl, rfl, rfl, rfl, rfl, rfl, rfl, rfl⟩,
          h.2⟩

theorem set_param_keylen_ctx (ctx : PROV_GCM_CTX σ ρ) (p : Option OSSL_PARAM) :
    (set_param_keylen ctx p).2 = ctx := by
  unfold set_param_keylen
  cases p with
  | none => rfl
  | some q =>
    dsimp only
    cases OSSL_PARAM_get_size_t q with
    | none => rfl
    | some k => dsimp only; split <;> rfl

/-- A parameter set without the tls-fixed-nonce parameter leaves the nonce, the
nonce state, the auto-generation flags and the trace alone. -/
theorem gcm_set_ctx_params_frame (ctx : PROV_GCM_CTX σ ρ) (params : SetParams)
    (h : params.AEAD_TLS1_IV_FIXED = none) :
    ParamFrame ctx (gcm_set_ctx_params ctx params).2 := by
  have f1 := (set_param_tag_frame ctx params.AEAD_TAG).1
  have f2 := (set_param_ivlen_frame (set_param_tag ctx params.AEAD_TAG).2 params.AEAD_IVLEN).1
  have f3 := (set_param_tls1_aad_frame
    (set_param_ivlen (set_param_tag ctx params.AEAD_TAG).2 params.AEAD_IVLEN).2
    params.AEAD_TLS1_AAD).1
  unfold gcm_set_ctx_params
  dsimp only
  rw [h]
  split
  · exact f1
  · split
    · exact f1.ptrans f2
    · split
      · exact (f1.ptrans f2).ptrans f3
      · have e4 : ∀ c : PROV_GCM_CTX σ ρ, set_param_tls1_iv_fixed c none = (1, c) := fun _ => rfl
        rw [e4]
        dsimp only
        rw [if_neg (by decide)]
        split <;> dsimp only <;> rw [set_param_keylen_ctx] <;> exact (f1.ptrans f2).ptrans f3


/-! ## The wrappers in terms of `gcm_cipher_internal` -/

theorem stream_update_small (ctx : PROV_GCM_CTX σ ρ) (out inp : Option Buf) (outsize inl : Nat)
    (h : outsize < inl) :
    gcm_stream_update ctx out outsize inp inl
      = { rv := -1, ctx := ctx, out := contents out, outl := none } := by
  simp [gcm_stream_update, h]

theorem stream_update_ctx (ctx : PROV_GCM_CTX σ ρ) (out inp : Option Buf) (outsize inl : Nat)
    (h : inl ≤ outsize) :
    (gcm_stream_update ctx out outsize inp inl).ctx = (gcm_cipher_internal ctx out inp inl).ctx := by
  have h1 : ¬ outsize < inl := by omega
  simp only [gcm_stream_update, h1, if_false]
  split <;> rfl

theorem stream_update_rv (ctx : PROV_GCM_CTX σ ρ) (out inp : Option Buf) (outsize inl : Nat)
    (h : inl ≤ outsize) :
    (gcm_stream_update ctx out outsize inp inl).rv
      = if (gcm_cipher_internal ctx out inp inl).rv ≤ 0 then -1 else 1 := by
  have h1 : ¬ outsize < inl := by omega
  simp only [gcm_stream_update, h1, if_false]
  split <;> rfl

theorem stream_update_outl (ctx : PROV_GCM_CTX σ ρ) (out inp : Option Buf) (outsize inl : Nat)
    (h : inl ≤ outsize) :
    (gcm_stream_update ctx out outsize inp inl).outl
      = some (gcm_cipher_internal ctx out inp inl).padlen := by
  have h1 : ¬ outsize < inl := by omega
  simp only [gcm_stream_update, h1, if_false]
  split <;> rfl

theorem stream_final_ctx (ctx : PROV_GCM_CTX σ ρ) (out : Option Buf) (outsize : Nat) :
    (gcm_stream_final ctx out outsize).ctx = (gcm_cipher_internal ctx out none 0).ctx := by
  simp only [gcm_stream_final]
  split <;> rfl

theorem stream_final_rv (ctx : PROV_GCM_CTX σ ρ) (out : Option Buf) (outsize : Nat) :
    (gcm_stream_final ctx out outsize).rv
      = if (gcm_cipher_internal ctx out none 0).rv ≤ 0 then 0 else 1 := by
  simp only [gcm_stream_final]
  split <;> rfl

theorem cipher_small (ctx : PROV_GCM_CTX σ ρ) (out inp : Option Buf) (outsize inl : Nat)
    (h : outsize < inl) :
    gcm_cipher ctx out outsize inp inl
      = { rv := -1, ctx := ctx, out := contents out, outl := none } := by
  simp [gcm_cipher, h]

theorem cipher_ctx (ctx : PROV_GCM_CTX σ ρ) (out inp : Option Buf) (outsize inl : Nat)
    (h : inl ≤ outsize) :
    (gcm_cipher ctx out outsize inp inl).ctx = (gcm_cipher_internal ctx out inp inl).ctx := by
  have h1 : ¬ outsize < inl := by omega
  simp only [gcm_cipher, h1, if_false]
  split <;> rfl

theorem cipher_rv (ctx : PROV_GCM_CTX σ ρ) (out inp : Option Buf) (outsize inl : Nat)
    (h : inl ≤ outsize) :
    (gcm_cipher ctx out outsize inp inl).rv
      = if (gcm_cipher_internal ctx out inp inl).rv ≤ 0 then -1 else 1 := by
  have h1 : ¬ outsize < inl := by omega
  simp only [gcm_cipher, h1, if_false]
  split <;> rfl

/-! ## Calls that stop before the primitive -/

theorem tls_count_record_trace (ctx : PROV_GCM_CTX σ ρ) :
    (tls_count_record ctx).trace = ctx.trace := by
  unfold tls_count_record
  split <;> rfl

theorem err_rv (rv : Int) (ctx : PROV_GCM_CTX σ ρ) (out : List Nat) (plen : Nat) :
    (gcm_tls_cipher_err rv ctx out plen).rv = rv := rfl

theorem err_padlen (rv : Int) (ctx : PROV_GCM_CTX σ ρ) (out : List Nat) (plen : Nat) :
    (gcm_tls_cipher_err rv ctx out plen).padlen = plen := rfl

theorem err_trace (rv : Int) (ctx : PROV_GCM_CTX σ ρ) (out : List Nat) (plen : Nat) :
    (gcm_tls_cipher_err rv ctx out plen).ctx.trace = ctx.trace := rfl

/-- Without the auto-generation flag the TLS path fails before any external call. -/
theorem gcm_tls_cipher_no_gen (ctx : PROV_GCM_CTX σ ρ) (out inp : Option Buf) (len : Nat)
    (h : ctx.iv_gen = false) :
    (gcm_tls_cipher ctx out inp len).rv = 0
    ∧ (gcm_tls_cipher ctx out inp len).ctx.trace = ctx.trace
    ∧ (gcm_tls_cipher ctx out inp len).padlen = 0 := by
  unfold gcm_tls_cipher
  rw [if_pos h]
  have ht := tls_count_record_trace ctx
  generalize tls_count_record ctx = c1 at ht ⊢
  split
  · rw [err_rv, err_padlen, err_trace]; exact ⟨rfl, rfl, rfl⟩
  · split
    · rw [err_rv, err_padlen, err_trace]; exact ⟨rfl, rfl, rfl⟩
    · split
      · rw [err_rv, err_padlen, err_trace]; exact ⟨rfl, ht, rfl⟩
      · rw [err_rv, err_padlen, err_trace]; exact ⟨rfl, ht, rfl⟩

/-- Without a key the TLS path fails before any external call. -/
theorem gcm_tls_cipher_no_key (ctx : PROV_GCM_CTX σ ρ) (out inp : Option Buf) (len : Nat)
    (h : ctx.key_set = false) :
    gcm_tls_cipher ctx out inp len = gcm_tls_cipher_err 0 ctx (contents out) 0 := by
  unfold gcm_tls_cipher
  rw [if_pos h]

/-- Without a key every call fails before any external call. -/
theorem gcm_cipher_internal_no_key (ctx : PROV_GCM_CTX σ ρ) (out inp : Option Buf) (len : Nat)
    (h : ctx.key_set = false) :
    (gcm_cipher_internal ctx out inp len).rv = 0
    ∧ (gcm_cipher_internal ctx out inp len).ctx.trace = ctx.trace := by
  unfold gcm_cipher_internal
  split
  · rw [gcm_tls_cipher_no_key ctx out inp len h, err_rv, err_trace]
    exact ⟨rfl, rfl⟩
  · rw [if_pos (Or.inl h)]
    exact ⟨rfl, rfl⟩

/-- In generic mode a context without key, or in state FINISHED, is left as it is. -/
theorem gcm_cipher_internal_refused (ctx : PROV_GCM_CTX σ ρ) (out inp : Option Buf) (len : Nat)
    (ht : ctx.tls_aad_len = UNINITIALISED_SIZET)
    (h : ctx.key_set = false ∨ ctx.iv_state = IV_STATE.FINISHED) :
    gcm_cipher_internal ctx out inp len
      = { rv := 0, ctx := ctx, out := contents out, padlen := 0 } := by
  unfold gcm_cipher_internal
  rw [if_neg (by simp [ht]), if_pos h]

/-- A FINISHED context on which the TLS path cannot bind a nonce: every call fails,
makes no external call and leaves the state FINISHED in generic mode. -/
theorem gcm_cipher_internal_finished (ctx : PROV_GCM_CTX σ ρ) (out inp : Option Buf) (len : Nat)
    (hs : ctx.iv_state = IV_STATE.FINISHED)
    (hm : ctx.iv_gen = false ∨ ctx.tls_aad_len = UNINITIALISED_SIZET) :
    (gcm_cipher_internal ctx out inp len).rv = 0
    ∧ (gcm_cipher_internal ctx out inp len).ctx.trace = ctx.trace
    ∧ (gcm_cipher_internal ctx out inp len).ctx.iv_state = IV_STATE.FINISHED
    ∧ (gcm_cipher_internal ctx out inp len).ctx.iv_gen = ctx.iv_gen
    ∧ (gcm_cipher_internal ctx out inp len).ctx.tls_aad_len = UNINITIALISED_SIZET := by
  by_cases ht : ctx.tls_aad_len = UNINITIALISED_SIZET
  · rw [gcm_cipher_internal_refused ctx out inp len ht (Or.inr hs)]
    exact ⟨rfl, rfl, hs, rfl, ht⟩
  · have hg : ctx.iv_gen = false := by
      rcases hm with h | h
      · exact h
      · exact absurd h ht
    have e : gcm_cipher_internal ctx out inp len = gcm_tls_cipher ctx out inp len := by
      unfold gcm_cipher_internal
      rw [if_pos ht]
    rw [e]
    have h1 := gcm_tls_cipher_no_gen ctx out inp len hg
    have h2 := gcm_tls_cipher_state ctx out inp len
    exact ⟨h1.1, h1.2.1, h2.1, (gcm_tls_cipher_frame ctx out inp len).iv_gen, h2.2⟩

/-! ## Facts used by the sequence theorems -/

/-- A parameter set with neither the tls-fixed-nonce nor the tls-record-aad parameter
leaves the TLS AAD marker alone. -/
theorem gcm_set_ctx_params_tls_aad_len (ctx : PROV_GCM_CTX σ ρ) (params : SetParams)
    (h : params.AEAD_TLS1_IV_FIXED = none) (ha : params.AEAD_TLS1_AAD = none) :
    (gcm_set_ctx_params ctx params).2.tls_aad_len = ctx.tls_aad_len := by
  have f1 := (set_param_tag_frame ctx params.AEAD_TAG).2.2
  have f2 := (set_param_ivlen_frame (set_param_tag ctx params.AEAD_TAG).2 params.AEAD_IVLEN).2.1
  have e3 : ∀ c : PROV_GCM_CTX σ ρ, set_param_tls1_aad c none = (1, c) := fun _ => rfl
  have e4 : ∀ c : PROV_GCM_CTX σ ρ, set_param_tls1_iv_fixed c none = (1, c) := fun _ => rfl
  unfold gcm_set_ctx_params
  dsimp only
  rw [h, ha]
  generalize set_param_ivlen (set_param_tag ctx params.AEAD_TAG).2 params.AEAD_IVLEN = r2 at f2 ⊢
  generalize set_param_tag ctx params.AEAD_TAG = r1 at f1 f2 ⊢
  split
  · rw [pair_snd]; exact f1
  · split
    · rw [pair_snd]; exact f2.trans f1
    · rw [e3, pair_fst, pair_snd, if_neg (by decide), e4, pair_fst, pair_snd, if_neg (by decide)]
      split <;> rw [pair_snd, set_param_keylen_ctx] <;> exact f2.trans f1

/-- The call `gcm_init` without a nonce: the nonce, its state, the TLS marker and the
auto-generation flag are left alone, and the trace grows by at most one `setkey`. -/
theorem gcm_init_no_iv (ctx : PROV_GCM_CTX σ ρ) (key : Option (List Nat)) (keylen ivlen : Nat)
    (enc : Bool) :
    (gcm_init ctx key keylen none ivlen enc).2.iv_state = ctx.iv_state
    ∧ (gcm_init ctx key keylen none ivlen enc).2.iv_gen = ctx.iv_gen
    ∧ (gcm_init ctx key keylen none ivlen enc).2.tls_aad_len = ctx.tls_aad_len
    ∧ ((gcm_init ctx key keylen none ivlen enc).2.trace = ctx.trace
        ∨ ∃ k n, (gcm_init ctx key keylen none ivlen enc).2.trace
                    = ctx.trace ++ [Call.setkey k n]) := by
  unfold gcm_init
  dsimp only
  rw [if_neg (by decide)]
  cases key with
  | none => exact ⟨rfl, rfl, rfl, Or.inl rfl⟩
  | some k =>
    dsimp only
    split
    · exact ⟨rfl, rfl, rfl, Or.inl rfl⟩
    · exact ⟨rfl, rfl, rfl, Or.inr ⟨k, ctx.keylen, rfl⟩⟩

theorem gcm_get_ctx_params_ctx (ctx : PROV_GCM_CTX σ ρ) (params : GetParams) :
    (gcm_get_ctx_params ctx params).2.1 = ctx := by
  unfold gcm_get_ctx_params
  dsimp only
  split
  · rfl
  · split
    · rfl
    · split
      · rfl
      · split
        · rfl
        · split <;> rfl

/-- One call that does not supply a nonce, on a FINISHED context on which the TLS
path cannot bind a nonce. -/
theorem finished_step (ctx : PROV_GCM_CTX σ ρ) (op : Op σ ρ)
    (hs : ctx.iv_state = IV_STATE.FINISHED)
    (hn : op.supplies_nonce = false)
    (hm : ctx.iv_gen = false ∨ ctx.tls_aad_len = UNINITIALISED_SIZET) :
    (op.apply ctx).2.iv_state = IV_STATE.FINISHED
    ∧ (op.apply ctx).2.iv_gen = ctx.iv_gen
    ∧ (op.sets_tls_aad = false → ctx.tls_aad_len = UNINITIALISED_SIZET →
        (op.apply ctx).2.tls_aad_len = UNINITIALISED_SIZET)
    ∧ op.cipher_failure (op.apply ctx).1
    ∧ ∃ calls, (op.apply ctx).2.trace = ctx.trace ++ calls ∧ ∀ c ∈ calls, c.isSetiv = false := by
  cases op with
  | initctx provctx keybits hw ivlen_min =>
    exact ⟨hs, rfl, fun _ _ => rfl, trivial, [], (List.append_nil _).symm, by simp⟩
  | deinitctx =>
    exact ⟨hs, rfl, fun _ h => h, trivial, [], (List.append_nil _).symm, by simp⟩
  | einit key keylen iv ivlen =>
    cases iv with
    | some ivb => simp [Op.supplies_nonce] at hn
    | none =>
      have h := gcm_init_no_iv ctx key keylen ivlen true
      refine ⟨h.1.trans hs, h.2.1, fun _ ht => h.2.2.1.trans ht, trivial, ?_⟩
      rcases h.2.2.2 with h4 | ⟨k, n, h4⟩
      · exact ⟨[], h4.trans (List.append_nil _).symm, by simp⟩
      · exact ⟨[Call.setkey k n], h4, by simp [Call.isSetiv]⟩
  | dinit key keylen iv ivlen =>
    cases iv with
    | some ivb => simp [Op.supplies_nonce] at hn
    | none =>
      have h := gcm_init_no_iv ctx key keylen ivlen false
      refine ⟨h.1.trans hs, h.2.1, fun _ ht => h.2.2.1.trans ht, trivial, ?_⟩
      rcases h.2.2.2 with h4 | ⟨k, n, h4⟩
      · exact ⟨[], h4.trans (List.append_nil _).symm, by simp⟩
      · exact ⟨[Call.setkey k n], h4, by simp [Call.isSetiv]⟩
  | get_ctx_params params =>
    have h := gcm_get_ctx_params_ctx ctx params
    refine ⟨?_, ?_, fun _ ht => ?_, trivial, [], ?_, by simp⟩
    · show (gcm_get_ctx_params ctx params).2.1.iv_state = _
      rw [h]; exact hs
    · show (gcm_get_ctx_params ctx params).2.1.iv_gen = _
      rw [h]
    · show (gcm_get_ctx_params ctx params).2.1.tls_aad_len = _
      rw [h]; exact ht
    · show (gcm_get_ctx_params ctx params).2.1.trace = _
      rw [h, List.append_nil]
  | set_ctx_params params =>
    have hf : params.AEAD_TLS1_IV_FIXED = none := by
      cases hp : params.AEAD_TLS1_IV_FIXED with
      | none => rfl
      | some q => simp [Op.supplies_nonce, hp] at hn
    have h := gcm_set_ctx_params_frame ctx params hf
    refine ⟨h.iv_state.trans hs, h.iv_gen, fun ha ht => ?_, trivial, [], ?_, by simp⟩
    · have ha1 : params.AEAD_TLS1_AAD = none := by
        cases hp : params.AEAD_TLS1_AAD with
        | none => rfl
        | some q => simp [Op.sets_tls_aad, hp] at ha
      exact (gcm_set_ctx_params_tls_aad_len ctx params hf ha1).trans ht
    · exact h.trace.trans (List.append_nil _).symm
  | stream_update out outsize inp inl =>
    by_cases hsz : outsize < inl
    · have e := stream_update_small ctx out inp outsize inl hsz
      refine ⟨?_, ?_, fun _ ht => ?_, ?_, [], ?_, by simp⟩
      · show (gcm_stream_update ctx out outsize inp inl).ctx.iv_state = _
        rw [e]; exact hs
      · show (gcm_stream_update ctx out outsize inp inl).ctx.iv_gen = _
        rw [e]
      · show (gcm_stream_update ctx out outsize inp inl).ctx.tls_aad_len = _
        rw [e]; exact ht
      · show (gcm_stream_update ctx out outsize inp inl).rv = -1
        rw [e]
      · show (gcm_stream_update ctx out outsize inp inl).ctx.trace = _
        rw [e, List.append_nil]
    · have hle : inl ≤ outsize := by omega
      have h := gcm_cipher_internal_finished ctx out inp inl hs hm
      refine ⟨?_, ?_, fun _ _ => ?_, ?_, [], ?_, by simp⟩
      · show (gcm_stream_update ctx out outsize inp inl).ctx.iv_state = _
        rw [stream_update_ctx _ _ _ _ _ hle]; exact h.2.2.1
      · show (gcm_stream_update ctx out outsize inp inl).ctx.iv_gen = _
        rw [stream_update_ctx _ _ _ _ _ hle]; exact h.2.2.2.1
      · show (gcm_stream_update ctx out outsize inp inl).ctx.tls_aad_len = _
        rw [stream_update_ctx _ _ _ _ _ hle]; exact h.2.2.2.2
      · show (gcm_stream_update ctx out outsize inp inl).rv = -1
        rw [stream_update_rv _ _ _ _ _ hle, h.1]; rfl
      · show (gcm_stream_update ctx out outsize inp inl).ctx.trace = _
        rw [stream_update_ctx _ _ _ _ _ hle, h.2.1, List.append_nil]
  | stream_final out outsize =>
    have h := gcm_cipher_internal_finished ctx out none 0 hs hm
    refine ⟨?_, ?_, fun _ _ => ?_, ?_, [], ?_, by simp⟩
    · show (gcm_stream_final ctx out outsize).ctx.iv_state = _
      rw [stream_final_ctx]; exact h.2.2.1
    · show (gcm_stream_final ctx out outsize).ctx.iv_gen = _
      rw [stream_final_ctx]; exact h.2.2.2.1
    · show (gcm_stream_final ctx out outsize).ctx.tls_aad_len = _
      rw [stream_final_ctx]; exact h.2.2.2.2
    · show (gcm_stream_final ctx out outsize).rv = 0
      rw [stream_final_rv, h.1]; rfl
    · show (gcm_stream_final ctx out outsize).ctx.trace = _
      rw [stream_final_ctx, h.2.1, List.append_nil]
  | cipher out outsize inp inl =>
    by_cases hsz : outsize < inl
    · have e := cipher_small ctx out inp outsize inl hsz
      refine ⟨?_, ?_, fun _ ht => ?_, ?_, [], ?_, by simp⟩
      · show (gcm_cipher ctx out outsize inp inl).ctx.iv_state = _
        rw [e]; exact hs
      · show (gcm_cipher ctx out outsize inp inl).ctx.iv_gen = _
        rw [e]
      · show (gcm_cipher ctx out outsize inp inl).ctx.tls_aad_len = _
        rw [e]; exact ht
      · show (gcm_cipher ctx out outsize inp inl).rv = -1
        rw [e]
      · show (gcm_cipher ctx out outsize inp inl).ctx.trace = _
        rw [e, List.append_nil]
    · have hle : inl ≤ outsize := by omega
      have h := gcm_cipher_internal_finished ctx out inp inl hs hm
      refine ⟨?_, ?_, fun _ _ => ?_, ?_, [], ?_, by simp⟩
      · show (gcm_cipher ctx out outsize inp inl).ctx.iv_state = _
        rw [cipher_ctx _ _ _ _ _ hle]; exact h.2.2.1
      · show (gcm_cipher ctx out outsize inp inl).ctx.iv_gen = _
        rw [cipher_ctx _ _ _ _ _ hle]; exact h.2.2.2.1
      · show (gcm_cipher ctx out outsize inp inl).ctx.tls_aad_len = _
        rw [cipher_ctx _ _ _ _ _ hle]; exact h.2.2.2.2
      · show (gcm_cipher ctx out outsize inp inl).rv = -1
        rw [cipher_rv _ _ _ _ _ hle, h.1]; rfl
      · show (gcm_cipher ctx out outsize inp inl).ctx.trace = _
        rw [cipher_ctx _ _ _ _ _ hle, h.2.1, List.append_nil]

/-! ## The generic pipeline, stage by stage -/

theorem generic_generate_skip (ctx : PROV_GCM_CTX σ ρ)
    (h : ctx.iv_state ≠ IV_STATE.UNINITIALISED) : generic_generate ctx = (1, ctx) := by
  unfold generic_generate
  rw [if_neg h]

theorem generic_generate_decrypt (ctx : PROV_GCM_CTX σ ρ)
    (h : ctx.iv_state = IV_STATE.UNINITIALISED) (he : ctx.enc = false) :
    generic_generate ctx = (0, ctx) := by
  unfold generic_generate
  rw [if_pos h, if_pos he]

theorem generic_bind_skip (ctx : PROV_GCM_CTX σ ρ)
    (h : ctx.iv_state ≠ IV_STATE.BUFFERED) : generic_bind ctx = (1, ctx) := by
  unfold generic_bind
  rw [if_neg h]

theorem generic_bind_fail (ctx : PROV_GCM_CTX σ ρ)
    (h : ctx.iv_state = IV_STATE.BUFFERED) (hv : (hw_setiv ctx).1 = 0) :
    generic_bind ctx = (0, (hw_setiv ctx).2) := by
  unfold generic_bind
  rw [if_pos h, if_pos hv]

theorem generic_bind_ok (ctx : PROV_GCM_CTX σ ρ)
    (h : ctx.iv_state = IV_STATE.BUFFERED) (hv : (hw_setiv ctx).1 ≠ 0) :
    generic_bind ctx = (1, { (hw_setiv ctx).2 with iv_state := IV_STATE.COPIED }) := by
  unfold generic_bind
  rw [if_pos h, if_neg hv]

/-- In generic mode, with the key set and the nonce not FINISHED, the call runs the
three stages in order. -/
theorem gcm_cipher_internal_generic (ctx : PROV_GCM_CTX σ ρ) (out inp : Option Buf) (len : Nat)
    (ht : ctx.tls_aad_len = UNINITIALISED_SIZET) (hk : ctx.key_set = true)
    (hs : ctx.iv_state ≠ IV_STATE.FINISHED) :
    gcm_cipher_internal ctx out inp len =
      if (generic_generate ctx).1 = 0 then
        { rv := 0, ctx := (generic_generate ctx).2, out := contents out, padlen := 0 }
      else if (generic_bind (generic_generate ctx).2).1 = 0 then
        { rv := 0, ctx := (generic_bind (generic_generate ctx).2).2, out := contents out,
          padlen := 0 }
      else generic_absorb (generic_bind (generic_generate ctx).2).2 out inp len := by
  have h1 : ¬ (ctx.tls_aad_len ≠ UNINITIALISED_SIZET) := fun h => h ht
  have h2 : ¬ (ctx.key_set = false ∨ ctx.iv_state = IV_STATE.FINISHED) := by
    rintro (h | h)
    · rw [hk] at h; exact Bool.noConfusion h
    · exact hs h
  rw [gcm_cipher_internal, if_neg h1, if_neg h2]

theorem one_ne_zero_int : ¬ ((1 : Int) = 0) := by decide

/-- With the nonce bound (state COPIED) the call is the absorb stage alone. -/
theorem gcm_cipher_internal_copied (ctx : PROV_GCM_CTX σ ρ) (out inp : Option Buf) (len : Nat)
    (ht : ctx.tls_aad_len = UNINITIALISED_SIZET) (hk : ctx.key_set = true)
    (hs : ctx.iv_state = IV_STATE.COPIED) :
    gcm_cipher_internal ctx out inp len = generic_absorb ctx out inp len := by
  have e1 : generic_generate ctx = (1, ctx) :=
    generic_generate_skip ctx (by rw [hs]; exact fun h => IV_STATE.noConfusion h)
  have e2 : generic_bind ctx = (1, ctx) :=
    generic_bind_skip ctx (by rw [hs]; exact fun h => IV_STATE.noConfusion h)
  rw [gcm_cipher_internal_generic ctx out inp len ht hk
        (by rw [hs]; exact fun h => IV_STATE.noConfusion h),
      e1, pair_fst, pair_snd, if_neg one_ne_zero_int, e2, pair_fst, pair_snd,
      if_neg one_ne_zero_int]

theorem bound_ctx_fields (ctx : PROV_GCM_CTX σ ρ) :
    (bound_ctx ctx).iv_state = IV_STATE.COPIED
    ∧ (bound_ctx ctx).tls_aad_len = ctx.tls_aad_len
    ∧ (bound_ctx ctx).key_set = ctx.key_set
    ∧ (bound_ctx ctx).iv = ctx.iv
    ∧ (bound_ctx ctx).ivlen = ctx.ivlen
    ∧ (bound_ctx ctx).iv_gen_rand = ctx.iv_gen_rand
    ∧ (bound_ctx ctx).trace = ctx.trace ++ [Call.setiv ctx.iv ctx.ivlen] :=
  ⟨rfl, rfl, rfl, rfl, rfl, rfl, rfl⟩

/-- A buffered nonce whose `setiv` succeeds: the call is the absorb stage on the
bound context. -/
theorem gcm_cipher_internal_buffered_ok (ctx : PROV_GCM_CTX σ ρ) (out inp : Option Buf)
    (len : Nat) (ht : ctx.tls_aad_len = UNINITIALISED_SIZET) (hk : ctx.key_set = true)
    (hs : ctx.iv_state = IV_STATE.BUFFERED) (hv : (hw_setiv ctx).1 ≠ 0) :
    gcm_cipher_internal ctx out inp len = generic_absorb (bound_ctx ctx) out inp len := by
  have e1 : generic_generate ctx = (1, ctx) :=
    generic_generate_skip ctx (by rw [hs]; exact fun h => IV_STATE.noConfusion h)
  rw [gcm_cipher_internal_generic ctx out inp len ht hk
        (by rw [hs]; exact fun h => IV_STATE.noConfusion h),
      e1, pair_fst, pair_snd, if_neg one_ne_zero_int, generic_bind_ok ctx hs hv, pair_fst,
      pair_snd, if_neg one_ne_zero_int]
  rfl

/-- A buffered nonce whose `setiv` fails: the call fails right after `setiv`. -/
theorem gcm_cipher_internal_buffered_fail (ctx : PROV_GCM_CTX σ ρ) (out inp : Option Buf)
    (len : Nat) (ht : ctx.tls_aad_len = UNINITIALISED_SIZET) (hk : ctx.key_set = true)
    (hs : ctx.iv_state = IV_STATE.BUFFERED) (hv : (hw_setiv ctx).1 = 0) :
    gcm_cipher_internal ctx out inp len
      = { rv := 0, ctx := (hw_setiv ctx).2, out := contents out, padlen := 0 } := by
  have e1 : generic_generate ctx = (1, ctx) :=
    generic_generate_skip ctx (by rw [hs]; exact fun h => IV_STATE.noConfusion h)
  rw [gcm_cipher_internal_generic ctx out inp len ht hk
        (by rw [hs]; exact fun h => IV_STATE.noConfusion h),
      e1, pair_fst, pair_snd, if_neg one_ne_zero_int, generic_bind_fail ctx hs hv, pair_fst,
      pair_snd, if_pos rfl]

/-- No nonce known: when the generation stage fails, the call fails there. -/
theorem gcm_cipher_internal_generate_fail (ctx : PROV_GCM_CTX σ ρ) (out inp : Option Buf)
    (len : Nat) (ht : ctx.tls_aad_len = UNINITIALISED_SIZET) (hk : ctx.key_set = true)
    (hs : ctx.iv_state = IV_STATE.UNINITIALISED) (c : PROV_GCM_CTX σ ρ)
    (hg : generic_generate ctx = (0, c)) :
    gcm_cipher_internal ctx out inp len
      = { rv := 0, ctx := c, out := contents out, padlen := 0 } := by
  rw [gcm_cipher_internal_generic ctx out inp len ht hk
        (by rw [hs]; exact fun h => IV_STATE.noConfusion h),
      hg, pair_fst, pair_snd, if_pos rfl]

/-- The absorb stage makes exactly one call to the primitive, never `setiv` and never
the random source, and leaves the nonce alone. -/
theorem generic_absorb_effect (ctx : PROV_GCM_CTX σ ρ) (out inp : Option Buf) (len : Nat) :
    (generic_absorb ctx out inp len).ctx.iv = ctx.iv
    ∧ (generic_absorb ctx out inp len).ctx.iv_gen_rand = ctx.iv_gen_rand
    ∧ ∃ c, (generic_absorb ctx out inp len).ctx.trace = ctx.trace ++ [c]
        ∧ c.isSetiv = false ∧ c.isRand = false := by
  unfold generic_absorb
  cases inp with
  | none =>
    dsimp only
    split
    · exact ⟨rfl, rfl, Call.cipherfinal ctx.buf, rfl, rfl, rfl⟩
    · exact ⟨rfl, rfl, Call.cipherfinal ctx.buf, rfl, rfl, rfl⟩
  | some ib =>
    cases out with
    | none =>
      dsimp only
      split <;> exact ⟨rfl, rfl, Call.aadupdate ib.bytes len, rfl, rfl, rfl⟩
    | some ob =>
      dsimp only
      split <;> exact ⟨rfl, rfl, Call.cipherupdate ib.bytes len, rfl, rfl, rfl⟩

/-- The absorb stage on AAD (`out` is `NULL`): one `aadupdate(in, len)`. -/
theorem generic_absorb_aad (ctx : PROV_GCM_CTX σ ρ) (ib : Buf) (len : Nat) :
    (generic_absorb ctx none (some ib) len).ctx.trace
        = ctx.trace ++ [Call.aadupdate ib.bytes len]
    ∧ (generic_absorb ctx none (some ib) len).ctx.iv_state = ctx.iv_state
    ∧ (generic_absorb ctx none (some ib) len).rv
        = (if (ctx.hw.aadupdate ctx.gcm ib.bytes len).rv = 0 then 0 else 1) := by
  unfold generic_absorb
  dsimp only
  split
  · rename_i h
    have h1 : (ctx.hw.aadupdate ctx.gcm ib.bytes len).rv = 0 := h
    refine ⟨rfl, rfl, ?_⟩
    rw [if_pos h1]
  · rename_i h
    have h1 : ¬ (ctx.hw.aadupdate ctx.gcm ib.bytes len).rv = 0 := h
    refine ⟨rfl, rfl, ?_⟩
    rw [if_neg h1]

/-- The absorb stage on data (`out` is not `NULL`): one `cipherupdate(in, len, out)`,
and on success `len` is stored through `padlen`. -/
theorem generic_absorb_data (ctx : PROV_GCM_CTX σ ρ) (ob ib : Buf) (len : Nat) :
    (generic_absorb ctx (some ob) (some ib) len).ctx.trace
        = ctx.trace ++ [Call.cipherupdate ib.bytes len]
    ∧ (generic_absorb ctx (some ob) (some ib) len).ctx.iv_state = ctx.iv_state
    ∧ (generic_absorb ctx (some ob) (some ib) len).rv
        = (if (ctx.hw.cipherupdate ctx.gcm ctx.enc ib.bytes len).rv = 0 then 0 else 1)
    ∧ ((generic_absorb ctx (some ob) (some ib) len).rv ≠ 0 →
        (generic_absorb ctx (some ob) (some ib) len).padlen = len) := by
  unfold generic_absorb
  dsimp only
  split
  · rename_i h
    have h1 : (ctx.hw.cipherupdate ctx.gcm ctx.enc ib.bytes len).rv = 0 := h
    refine ⟨rfl, rfl, ?_, fun h2 => absurd rfl h2⟩
    rw [if_pos h1]
  · rename_i h
    have h1 : ¬ (ctx.hw.cipherupdate ctx.gcm ctx.enc ib.bytes len).rv = 0 := h
    refine ⟨rfl, rfl, ?_, fun _ => rfl⟩
    rw [if_neg h1]

/-- The absorb stage with `in == NULL`: one `cipherfinal(ctx->buf)`; the state becomes
FINISHED exactly when it succeeds, and 0 is stored through `padlen`. -/
theorem generic_absorb_final (ctx : PROV_GCM_CTX σ ρ) (out : Option Buf) (len : Nat) :
    (generic_absorb ctx out none len).ctx.trace = ctx.trace ++ [Call.cipherfinal ctx.buf]
    ∧ (generic_absorb ctx out none len).padlen = 0
    ∧ ((ctx.hw.cipherfinal ctx.gcm ctx.enc ctx.taglen ctx.buf).rv ≠ 0 →
        (generic_absorb ctx out none len).rv = 1
        ∧ (generic_absorb ctx out none len).ctx.iv_state = IV_STATE.FINISHED)
    ∧ ((ctx.hw.cipherfinal ctx.gcm ctx.enc ctx.taglen ctx.buf).rv = 0 →
        (generic_absorb ctx out none len).rv = 0
        ∧ (generic_absorb ctx out none len).ctx.iv_state = ctx.iv_state) := by
  unfold generic_absorb
  dsimp only
  split
  · rename_i h
    exact ⟨rfl, rfl, fun h1 => absurd h h1, fun _ => ⟨rfl, rfl⟩⟩
  · rename_i h
    exact ⟨rfl, rfl, fun _ => ⟨rfl, rfl⟩, fun h1 => absurd h1 h⟩

/-! ## Nonce generation -/

theorem to_int_of_small (n : Nat) (h : n < 2 ^ 31) :
    to_int (size_t_sub n (to_size_t 0)) = (n : Int) := by
  have h0 : to_size_t 0 = 0 := by decide
  have h1 : size_t_sub n 0 = n := by
    unfold size_t_sub SIZE_T_MOD
    omega
  have h2 : n % 2 ^ 32 = n := Nat.mod_eq_of_lt (by omega)
  rw [h0, h1]
  unfold to_int
  rw [h2, if_pos h]

theorem gcm_iv_generate_short (ctx : PROV_GCM_CTX σ ρ) (h : ctx.ivlen < GCM_IV_DEFAULT_SIZE) :
    gcm_iv_generate ctx 0 = (0, ctx) := by
  unfold gcm_iv_generate
  dsimp only
  rw [if_pos (Or.inr h)]

theorem gcm_iv_generate_ok (ctx : PROV_GCM_CTX σ ρ) (h12 : GCM_IV_DEFAULT_SIZE ≤ ctx.ivlen)
    (h31 : ctx.ivlen < 2 ^ 31) (hr : 0 < (ctx.libctx.rand ctx.libctx.drbg ctx.ivlen).1) :
    gcm_iv_generate ctx 0 = (1, generated_ctx ctx) := by
  have hsz := to_int_of_small ctx.ivlen h31
  have h12a : 12 ≤ ctx.ivlen := h12
  have hc : ¬ ((ctx.ivlen : Int) ≤ 0 ∨ ctx.ivlen < GCM_IV_DEFAULT_SIZE) := by
    rintro (h | h)
    · omega
    · exact absurd h12 (by omega)
  have hr1 : ¬ ((rand_bytes_ex ctx 0 ctx.ivlen).1 ≤ 0) := by
    have e : (rand_bytes_ex ctx 0 ctx.ivlen).1 = (ctx.libctx.rand ctx.libctx.drbg ctx.ivlen).1 :=
      rfl
    rw [e]
    omega
  unfold gcm_iv_generate
  dsimp only
  rw [hsz, if_neg hc, Int.toNat_ofNat, if_neg hr1]
  rfl

/-! # The claims -/

/-! ## C1 -/

set_option maxRecDepth 100000 in
/-- C1 (as stated) fails: the context `ctx_after_tls_record` is in nonce state
FINISHED; the two calls "set tls-record-aad" and "update on an in-place record"
re-supply no nonce, yet the update returns 1 and binds a nonce with `setiv`. -/
theorem C1_counterexample :
    ctx_after_tls_record.iv_state = IV_STATE.FINISHED
    ∧ (∀ op ∈ [Op.set_ctx_params (params_tls_aad 8),
               Op.stream_update (some sample_record) 24 (some sample_record) 24],
         Op.supplies_nonce (σ := Unit) (ρ := Nat) op = false)
    ∧ ((Op.stream_update (some sample_record) 24 (some sample_record) 24).apply
          (run ctx_after_tls_record [Op.set_ctx_params (params_tls_aad 8)])).1 = 1
    ∧ ((run ctx_after_tls_record
          [Op.set_ctx_params (params_tls_aad 8),
           Op.stream_update (some sample_record) 24 (some sample_record) 24]).trace.drop
         ctx_after_tls_record.trace.length).map Call.isSetiv = [true, false] := by
  refine ⟨by decide, ?_, by decide, by decide⟩
  intro op hop
  simp only [List.mem_cons, List.mem_singleton, List.not_mem_nil, or_false] at hop
  rcases hop with h | h <;> subst h <;> rfl

/-- C1 (amended): on a context in nonce state FINISHED whose auto-generation flag
`iv_gen` is off, or which is in generic mode while no call of the sequence
carries the tls-record-aad parameter, every `gcm_stream_update`, `gcm_cipher`
and `gcm_stream_final` call of a sequence of public calls that re-supplies no
nonce fails (-1, -1 and 0), and the sequence adds no `setiv` call to the
trace. -/
theorem C1_finished_context_refuses (ctx : PROV_GCM_CTX σ ρ) (ops : List (Op σ ρ))
    (hs : ctx.iv_state = IV_STATE.FINISHED)
    (hn : ∀ op ∈ ops, op.supplies_nonce = false)
    (hm : ctx.iv_gen = false
          ∨ (ctx.tls_aad_len = UNINITIALISED_SIZET ∧ ∀ op ∈ ops, op.sets_tls_aad = false)) :
    (∀ pre op post, ops = pre ++ op :: post → op.cipher_failure (op.apply (run ctx pre)).1)
    ∧ ∃ calls, (run ctx ops).trace = ctx.trace ++ calls ∧ ∀ c ∈ calls, c.isSetiv = false := by
  induction ops generalizing ctx with
  | nil =>
    refine ⟨?_, [], (List.append_nil _).symm, by simp⟩
    intro pre op post h
    cases pre <;> simp at h
  | cons o rest ih =>
    have hm1 : ctx.iv_gen = false ∨ ctx.tls_aad_len = UNINITIALISED_SIZET := by
      rcases hm with h | h
      · exact Or.inl h
      · exact Or.inr h.1
    have st := finished_step ctx o hs (hn o (List.mem_cons_self _ _)) hm1
    have hm2 : (o.apply ctx).2.iv_gen = false
        ∨ ((o.apply ctx).2.tls_aad_len = UNINITIALISED_SIZET
            ∧ ∀ op ∈ rest, op.sets_tls_aad = false) := by
      rcases hm with h | h
      · exact Or.inl (st.2.1.trans h)
      · exact Or.inr ⟨st.2.2.1 (h.2 o (List.mem_cons_self _ _)) h.1,
          fun op hop => h.2 op (List.mem_cons_of_mem _ hop)⟩
    have ih1 := ih (o.apply ctx).2 st.1 (fun op hop => hn op (List.mem_cons_of_mem _ hop)) hm2
    refine ⟨?_, ?_⟩
    · intro pre op post h
      cases pre with
      | nil =>
        simp only [List.nil_append, List.cons.injEq] at h
        rw [← h.1]
        exact st.2.2.2.1
      | cons p pre1 =>
        simp only [List.cons_append, List.cons.injEq] at h
        rw [← h.1]
        exact ih1.1 pre1 op post h.2
    · obtain ⟨c1, hc1, hc1n⟩ := st.2.2.2.2
      obtain ⟨c2, hc2, hc2n⟩ := ih1.2
      refine ⟨c1 ++ c2, ?_, ?_⟩
      · show (run (o.apply ctx).2 rest).trace = _
        rw [hc2, hc1, List.append_assoc]
      · intro c hc
        rcases List.mem_append.mp hc with h | h
        · exact hc1n c h
        · exact hc2n c h

/-- C1 (amended), applied to a generic-mode context after a finished encryption:
the later update, cipher and final calls all fail. -/
theorem C1_finished_context_refuses_witness :
    (∀ pre op post,
        [Op.stream_update (σ := Unit) (ρ := Nat) none 0 (some sample_record) 0,
         Op.set_ctx_params (params_ivlen 12), Op.stream_final none 0]
          = pre ++ op :: post →
        op.cipher_failure
          (op.apply (run (gcm_stream_final (gcm_einit ctx_new (some sample_key) 16
            (some (List.replicate 12 0)) 12).2 none 0).ctx pre)).1)
    ∧ ∃ calls,
        (run (gcm_stream_final (gcm_einit ctx_new (some sample_key) 16
            (some (List.replicate 12 0)) 12).2 none 0).ctx
          [Op.stream_update none 0 (some sample_record) 0,
           Op.set_ctx_params (params_ivlen 12), Op.stream_final none 0]).trace
          = (gcm_stream_final (gcm_einit ctx_new (some sample_key) 16
              (some (List.replicate 12 0)) 12).2 none 0).ctx.trace ++ calls
        ∧ ∀ c ∈ calls, c.isSetiv = false :=
  C1_finished_context_refuses
    (gcm_stream_final (gcm_einit ctx_new (some sample_key) 16
      (some (List.replicate 12 0)) 12).2 none 0).ctx
    [Op.stream_update none 0 (some sample_record) 0,
     Op.set_ctx_params (params_ivlen 12), Op.stream_final none 0]
    (by rfl)
    (by
      intro op hop
      simp only [List.mem_cons, List.mem_singleton, List.not_mem_nil, or_false] at hop
      rcases hop with h | h | h <;> subst h <;> rfl)
    (Or.inl (by rfl))

/-! ## C2 -/

/-- C2: on a context whose `key_set` flag is false, `gcm_stream_update` returns -1 and
`gcm_stream_final` returns 0 for every input, in generic mode and in TLS mode
alike (`tls_aad_len` is arbitrary), and neither call makes an external call:
the trace is unchanged, so `setiv`, `aadupdate`, `cipherupdate`, `cipherfinal`
and `oneshot` are not invoked. -/
theorem C2_no_key_no_operation (ctx : PROV_GCM_CTX σ ρ) (out inp : Option Buf)
    (outsize inl : Nat) (h : ctx.key_set = false) :
    (gcm_stream_update ctx out outsize inp inl).rv = -1
    ∧ (gcm_stream_update ctx out outsize inp inl).ctx.trace = ctx.trace
    ∧ (gcm_stream_final ctx out outsize).rv = 0
    ∧ (gcm_stream_final ctx out outsize).ctx.trace = ctx.trace := by
  have hi := gcm_cipher_internal_no_key ctx out inp inl h
  have hf := gcm_cipher_internal_no_key ctx out none 0 h
  refine ⟨?_, ?_, ?_, ?_⟩
  · by_cases hs : outsize < inl
    · rw [stream_update_small _ _ _ _ _ hs]
    · rw [stream_update_rv _ _ _ _ _ (by omega), hi.1]; rfl
  · by_cases hs : outsize < inl
    · rw [stream_update_small _ _ _ _ _ hs]
    · rw [stream_update_ctx _ _ _ _ _ (by omega), hi.2]
  · rw [stream_final_rv, hf.1]; rfl
  · rw [stream_final_ctx, hf.2]

/-- C2 at a fresh context (no key yet), in generic mode. -/
theorem C2_no_key_no_operation_witness :
    (gcm_stream_update ctx_new (some sample_record) 24 (some sample_record) 24).rv = -1
    ∧ (gcm_stream_update ctx_new (some sample_record) 24 (some sample_record) 24).ctx.trace
        = ctx_new.trace
    ∧ (gcm_stream_final ctx_new (some sample_record) 24).rv = 0
    ∧ (gcm_stream_final ctx_new (some sample_record) 24).ctx.trace = ctx_new.trace :=
  C2_no_key_no_operation ctx_new (some sample_record) (some sample_record) 24 24 rfl

/-! ## C3 -/

/-- In generic mode with the key set and no nonce known, a call whose generation
stage fails leaving the context alone is refused with the context unchanged. -/
theorem refused_unchanged (ctx : PROV_GCM_CTX σ ρ) (out inp : Option Buf) (outsize inl : Nat)
    (ht : ctx.tls_aad_len = UNINITIALISED_SIZET) (hk : ctx.key_set = true)
    (hs : ctx.iv_state = IV_STATE.UNINITIALISED) (hg : generic_generate ctx = (0, ctx)) :
    (gcm_stream_update ctx out outsize inp inl).rv = -1
    ∧ (gcm_stream_update ctx out outsize inp inl).ctx = ctx
    ∧ (gcm_stream_final ctx out outsize).rv = 0
    ∧ (gcm_stream_final ctx out outsize).ctx = ctx := by
  have hi := gcm_cipher_internal_generate_fail ctx out inp inl ht hk hs ctx hg
  have hf := gcm_cipher_internal_generate_fail ctx out none 0 ht hk hs ctx hg
  refine ⟨?_, ?_, ?_, ?_⟩
  · by_cases hsz : outsize < inl
    · rw [stream_update_small _ _ _ _ _ hsz]
    · rw [stream_update_rv _ _ _ _ _ (by omega), hi]; rfl
  · by_cases hsz : outsize < inl
    · rw [stream_update_small _ _ _ _ _ hsz]
    · rw [stream_update_ctx _ _ _ _ _ (by omega), hi]
  · rw [stream_final_rv, hf]; rfl
  · rw [stream_final_ctx, hf]

/-- C3: in generic mode with the key set, nonce state UNINITIALISED and direction
decrypt, `gcm_stream_update` returns -1 and `gcm_stream_final` returns 0 for
every input and both leave the context exactly as it was: the trace is
unchanged (neither the random source nor a primitive operation was called) and
the nonce state is still UNINITIALISED. -/
theorem C3_decrypt_needs_nonce (ctx : PROV_GCM_CTX σ ρ) (out inp : Option Buf)
    (outsize inl : Nat) (ht : ctx.tls_aad_len = UNINITIALISED_SIZET)
    (hk : ctx.key_set = true) (hs : ctx.iv_state = IV_STATE.UNINITIALISED)
    (he : ctx.enc = false) :
    (gcm_stream_update ctx out outsize inp inl).rv = -1
    ∧ (gcm_stream_update ctx out outsize inp inl).ctx = ctx
    ∧ (gcm_stream_final ctx out outsize).rv = 0
    ∧ (gcm_stream_final ctx out outsize).ctx = ctx
    ∧ (gcm_stream_update ctx out outsize inp inl).ctx.trace = ctx.trace
    ∧ (gcm_stream_update ctx out outsize inp inl).ctx.iv_state = IV_STATE.UNINITIALISED
    ∧ (gcm_stream_final ctx out outsize).ctx.trace = ctx.trace
    ∧ (gcm_stream_final ctx out outsize).ctx.iv_state = IV_STATE.UNINITIALISED := by
  have h := refused_unchanged ctx out inp outsize inl ht hk hs (generic_generate_decrypt ctx hs he)
  refine ⟨h.1, h.2.1, h.2.2.1, h.2.2.2, ?_, ?_, ?_, ?_⟩
  · rw [h.2.1]
  · rw [h.2.1]; exact hs
  · rw [h.2.2.2]
  · rw [h.2.2.2]; exact hs

/-- C3 at a decrypting context with a key and no nonce. -/
theorem C3_decrypt_needs_nonce_witness :
    (gcm_stream_update (gcm_dinit ctx_new (some sample_key) 16 none 0).2
        (some sample_record) 24 (some sample_record) 24).rv = -1
    ∧ (gcm_stream_update (gcm_dinit ctx_new (some sample_key) 16 none 0).2
        (some sample_record) 24 (some sample_record) 24).ctx
        = (gcm_dinit ctx_new (some sample_key) 16 none 0).2
    ∧ (gcm_stream_final (gcm_dinit ctx_new (some sample_key) 16 none 0).2
        (some sample_record) 24).rv = 0
    ∧ (gcm_stream_final (gcm_dinit ctx_new (some sample_key) 16 none 0).2
        (some sample_record) 24).ctx = (gcm_dinit ctx_new (some sample_key) 16 none 0).2
    ∧ (gcm_stream_update (gcm_dinit ctx_new (some sample_key) 16 none 0).2
        (some sample_record) 24 (some sample_record) 24).ctx.trace
        = (gcm_dinit ctx_new (some sample_key) 16 none 0).2.trace
    ∧ (gcm_stream_update (gcm_dinit ctx_new (some sample_key) 16 none 0).2
        (some sample_record) 24 (some sample_record) 24).ctx.iv_state = IV_STATE.UNINITIALISED
    ∧ (gcm_stream_final (gcm_dinit ctx_new (some sample_key) 16 none 0).2
        (some sample_record) 24).ctx.trace
        = (gcm_dinit ctx_new (some sample_key) 16 none 0).2.trace
    ∧ (gcm_stream_final (gcm_dinit ctx_new (some sample_key) 16 none 0).2
        (some sample_record) 24).ctx.iv_state = IV_STATE.UNINITIALISED :=
  C3_decrypt_needs_nonce (gcm_dinit ctx_new (some sample_key) 16 none 0).2
    (some sample_record) (some sample_record) 24 24 (by decide) (by decide) (by decide)
    (by decide)

/-! ## C4 -/

theorem generated_ctx_fields (ctx : PROV_GCM_CTX σ ρ) :
    (generated_ctx ctx).iv_state = IV_STATE.BUFFERED
    ∧ (generated_ctx ctx).tls_aad_len = ctx.tls_aad_len
    ∧ (generated_ctx ctx).key_set = ctx.key_set
    ∧ (generated_ctx ctx).iv = generated_iv ctx
    ∧ (generated_ctx ctx).ivlen = ctx.ivlen
    ∧ (generated_ctx ctx).iv_gen_rand = true
    ∧ (generated_ctx ctx).trace = ctx.trace ++ [Call.rand_bytes ctx.ivlen] :=
  ⟨rfl, rfl, rfl, rfl, rfl, rfl, rfl⟩

theorem generic_generate_ok (ctx : PROV_GCM_CTX σ ρ)
    (hs : ctx.iv_state = IV_STATE.UNINITIALISED) (he : ctx.enc = true)
    (h12 : GCM_IV_DEFAULT_SIZE ≤ ctx.ivlen) (h31 : ctx.ivlen < 2 ^ 31)
    (hr : 0 < (ctx.libctx.rand ctx.libctx.drbg ctx.ivlen).1) :
    generic_generate ctx = (1, generated_ctx ctx) := by
  have he1 : ¬ ctx.enc = false := by rw [he]; exact fun h => Bool.noConfusion h
  unfold generic_generate
  rw [if_pos hs, if_neg he1, gcm_iv_generate_ok ctx h12 h31 hr, pair_fst, pair_snd,
    if_neg one_ne_zero_int]

theorem generic_generate_short (ctx : PROV_GCM_CTX σ ρ)
    (hs : ctx.iv_state = IV_STATE.UNINITIALISED) (h : ctx.ivlen < GCM_IV_DEFAULT_SIZE) :
    generic_generate ctx = (0, ctx) := by
  unfold generic_generate
  rw [if_pos hs, gcm_iv_generate_short ctx h, pair_fst, pair_snd]
  split
  · rfl
  · rw [if_pos rfl]

/-- After a successful generation the call binds the generated nonce and then makes
at most one further call to the primitive. -/
theorem generated_then_bound (ctx : PROV_GCM_CTX σ ρ) (out inp : Option Buf) (len : Nat)
    (ht : ctx.tls_aad_len = UNINITIALISED_SIZET) (hk : ctx.key_set = true)
    (hs : ctx.iv_state = IV_STATE.UNINITIALISED) (he : ctx.enc = true)
    (h12 : GCM_IV_DEFAULT_SIZE ≤ ctx.ivlen) (h31 : ctx.ivlen < 2 ^ 31)
    (hr : 0 < (ctx.libctx.rand ctx.libctx.drbg ctx.ivlen).1) :
    (gcm_cipher_internal ctx out inp len).ctx.iv = generated_iv ctx
    ∧ (gcm_cipher_internal ctx out inp len).ctx.iv_gen_rand = true
    ∧ ∃ tail, (gcm_cipher_internal ctx out inp len).ctx.trace
          = ctx.trace ++ [Call.rand_bytes ctx.ivlen, Call.setiv (generated_iv ctx) ctx.ivlen]
              ++ tail
        ∧ tail.length ≤ 1 ∧ ∀ c ∈ tail, c.isSetiv = false ∧ c.isRand = false := by
  have hg := generic_generate_ok ctx hs he h12 h31 hr
  have hf := generated_ctx_fields ctx
  have e : gcm_cipher_internal ctx out inp len
      = gcm_cipher_internal (generated_ctx ctx) out inp len := by
    rw [gcm_cipher_internal_generic ctx out inp len ht hk
          (by rw [hs]; exact fun h => IV_STATE.noConfusion h),
        gcm_cipher_internal_generic (generated_ctx ctx) out inp len (hf.2.1.trans ht)
          (hf.2.2.1.trans hk) (by rw [hf.1]; exact fun h => IV_STATE.noConfusion h),
        hg, pair_fst, pair_snd, if_neg one_ne_zero_int,
        generic_generate_skip (generated_ctx ctx)
          (by rw [hf.1]; exact fun h => IV_STATE.noConfusion h),
        pair_fst, pair_snd, if_neg one_ne_zero_int]
  have htr : (hw_setiv (generated_ctx ctx)).2.trace
      = ctx.trace ++ [Call.rand_bytes ctx.ivlen, Call.setiv (generated_iv ctx) ctx.ivlen] := by
    have h1 : (hw_setiv (generated_ctx ctx)).2.trace
        = (ctx.trace ++ [Call.rand_bytes ctx.ivlen])
            ++ [Call.setiv (generated_iv ctx) ctx.ivlen] := rfl
    rw [h1, List.append_assoc]
    rfl
  rw [e]
  by_cases hv : (hw_setiv (generated_ctx ctx)).1 = 0
  · rw [gcm_cipher_internal_buffered_fail (generated_ctx ctx) out inp len (hf.2.1.trans ht)
      (hf.2.2.1.trans hk) hf.1 hv, res_ctx]
    exact ⟨rfl, rfl, [], by rw [htr, List.append_nil], by simp, by simp⟩
  · rw [gcm_cipher_internal_buffered_ok (generated_ctx ctx) out inp len (hf.2.1.trans ht)
      (hf.2.2.1.trans hk) hf.1 hv]
    have ha := generic_absorb_effect (bound_ctx (generated_ctx ctx)) out inp len
    obtain ⟨c, hc, hc1, hc2⟩ := ha.2.2
    have htb : (bound_ctx (generated_ctx ctx)).trace = (hw_setiv (generated_ctx ctx)).2.trace :=
      rfl
    refine ⟨ha.1.trans rfl, ha.2.1.trans rfl, [c], ?_, by simp, ?_⟩
    · rw [hc, htb, htr]
    · intro d hd
      rw [List.mem_singleton] at hd
      rw [hd]
      exact ⟨hc1, hc2⟩

/-- C4: in generic mode with the key set, nonce state UNINITIALISED and direction
encrypt.  (a) If `ivlen < 12`, `gcm_stream_update` returns -1 and
`gcm_stream_final` returns 0 and both leave the context exactly as it was (no
call to the random source or to the primitive, state still UNINITIALISED).
(b) If `12 <= ivlen` (with `ivlen` within the nonce buffer, whose size fits an
`int`) and the random source succeeds and produces the `ivlen` bytes asked
for, then after an update (one that passes the output-size check) and after a
final: the first `ivlen` bytes of the nonce are the bytes produced by the
random source, `iv_gen_rand` is set, and the trace is the old trace followed by
the request for `ivlen` random bytes, then `setiv` with exactly that nonce and
`ivlen`, then at most one call that absorbs, transforms or finishes. -/
theorem C4_nonce_auto_generation (ctx : PROV_GCM_CTX σ ρ) (out inp : Option Buf)
    (outsize inl : Nat) (ht : ctx.tls_aad_len = UNINITIALISED_SIZET)
    (hk : ctx.key_set = true) (hs : ctx.iv_state = IV_STATE.UNINITIALISED)
    (he : ctx.enc = true) :
    (ctx.ivlen < 12 →
        (gcm_stream_update ctx out outsize inp inl).rv = -1
        ∧ (gcm_stream_update ctx out outsize inp inl).ctx = ctx
        ∧ (gcm_stream_final ctx out outsize).rv = 0
        ∧ (gcm_stream_final ctx out outsize).ctx = ctx)
    ∧ (12 ≤ ctx.ivlen → ctx.ivlen ≤ ctx.iv.length → ctx.iv.length < 2 ^ 31 →
        0 < (ctx.libctx.rand ctx.libctx.drbg ctx.ivlen).1 →
        (ctx.libctx.rand ctx.libctx.drbg ctx.ivlen).2.1.length = ctx.ivlen →
        (generated_iv ctx).take ctx.ivlen = (ctx.libctx.rand ctx.libctx.drbg ctx.ivlen).2.1
        ∧ (inl ≤ outsize →
            (gcm_stream_update ctx out outsize inp inl).ctx.iv = generated_iv ctx
            ∧ (gcm_stream_update ctx out outsize inp inl).ctx.iv_gen_rand = true
            ∧ ∃ tail, (gcm_stream_update ctx out outsize inp inl).ctx.trace
                  = ctx.trace
                      ++ [Call.rand_bytes ctx.ivlen, Call.setiv (generated_iv ctx) ctx.ivlen]
                      ++ tail
                ∧ tail.length ≤ 1 ∧ ∀ c ∈ tail, c.isSetiv = false ∧ c.isRand = false)
        ∧ (gcm_stream_final ctx out outsize).ctx.iv = generated_iv ctx
        ∧ (gcm_stream_final ctx out outsize).ctx.iv_gen_rand = true
        ∧ ∃ tail, (gcm_stream_final ctx out outsize).ctx.trace
              = ctx.trace
                  ++ [Call.rand_bytes ctx.ivlen, Call.setiv (generated_iv ctx) ctx.ivlen]
                  ++ tail
            ∧ tail.length ≤ 1 ∧ ∀ c ∈ tail, c.isSetiv = false ∧ c.isRand = false) := by
  refine ⟨fun hlt => ?_, fun h12 hcap h31 hr hlen => ⟨?_, fun hle => ?_, ?_⟩⟩
  · exact refused_unchanged ctx out inp outsize inl ht hk hs (generic_generate_short ctx hs hlt)
  · unfold generated_iv
    rw [memcpy_take _ _ _ (by omega) hcap]
    exact List.take_of_length_le (by omega)
  · rw [stream_update_ctx _ _ _ _ _ hle]
    exact generated_then_bound ctx out inp inl ht hk hs he h12 (by omega) hr
  · rw [stream_final_ctx]
    exact generated_then_bound ctx out none 0 ht hk hs he h12 (by omega) hr

set_option maxRecDepth 100000 in
/-- C4 at `ctx_enc_keyed` (nonce length 12, the random source succeeds): the nonce
is the generated one and `iv_gen_rand` is set after a final; and at the same
context with the nonce length set to 8: the final is refused. -/
theorem C4_nonce_auto_generation_witness :
    ((generated_iv ctx_enc_keyed).take ctx_enc_keyed.ivlen
        = (ctx_enc_keyed.libctx.rand ctx_enc_keyed.libctx.drbg ctx_enc_keyed.ivlen).2.1
      ∧ (gcm_stream_final ctx_enc_keyed none 0).ctx.iv = generated_iv ctx_enc_keyed
      ∧ (gcm_stream_final ctx_enc_keyed none 0).ctx.iv_gen_rand = true)
    ∧ ((gcm_stream_final (gcm_set_ctx_params ctx_enc_keyed (params_ivlen 8)).2 none 0).rv = 0
      ∧ (gcm_stream_final (gcm_set_ctx_params ctx_enc_keyed (params_ivlen 8)).2 none 0).ctx
          = (gcm_set_ctx_params ctx_enc_keyed (params_ivlen 8)).2) :=
  ⟨⟨((C4_nonce_auto_generation ctx_enc_keyed none none 0 0 (by decide) (by decide) (by decide)
        (by decide)).2 (by decide) (by decide) (by decide) (by decide) (by decide)).1,
    ((C4_nonce_auto_generation ctx_enc_keyed none none 0 0 (by decide) (by decide) (by decide)
        (by decide)).2 (by decide) (by decide) (by decide) (by decide) (by decide)).2.2.1,
    ((C4_nonce_auto_generation ctx_enc_keyed none none 0 0 (by decide) (by decide) (by decide)
        (by decide)).2 (by decide) (by decide) (by decide) (by decide) (by decide)).2.2.2.1⟩,
   ((C4_nonce_auto_generation (gcm_set_ctx_params ctx_enc_keyed (params_ivlen 8)).2 none none
        0 0 (by decide) (by decide) (by decide) (by decide)).1 (by decide)).2.2⟩

/-! ## C5 -/

/-- A call on a buffered nonce whose `setiv` succeeds is the same call made on the
bound context (state COPIED, `setiv` logged). -/
theorem internal_buffered_eq_bound (ctx : PROV_GCM_CTX σ ρ) (out inp : Option Buf) (len : Nat)
    (ht : ctx.tls_aad_len = UNINITIALISED_SIZET) (hk : ctx.key_set = true)
    (hs : ctx.iv_state = IV_STATE.BUFFERED) (hv : (hw_setiv ctx).1 ≠ 0) :
    gcm_cipher_internal ctx out inp len = gcm_cipher_internal (bound_ctx ctx) out inp len := by
  have hb := bound_ctx_fields ctx
  rw [gcm_cipher_internal_buffered_ok ctx out inp len ht hk hs hv,
    gcm_cipher_internal_copied (bound_ctx ctx) out inp len (hb.2.1.trans ht)
      (hb.2.2.1.trans hk) hb.1]

theorem stream_update_congr (a b : PROV_GCM_CTX σ ρ) (out inp : Option Buf) (outsize inl : Nat)
    (hle : inl ≤ outsize)
    (h : gcm_cipher_internal a out inp inl = gcm_cipher_internal b out inp inl) :
    gcm_stream_update a out outsize inp inl = gcm_stream_update b out outsize inp inl := by
  have h1 : ¬ outsize < inl := by omega
  unfold gcm_stream_update
  rw [if_neg h1, if_neg h1, h]

theorem stream_final_congr (a b : PROV_GCM_CTX σ ρ) (out : Option Buf) (outsize : Nat)
    (h : gcm_cipher_internal a out none 0 = gcm_cipher_internal b out none 0) :
    gcm_stream_final a out outsize = gcm_stream_final b out outsize := by
  unfold gcm_stream_final
  rw [h]

/-- C5: in generic mode with the key set.
(1) From state BUFFERED, when `setiv` succeeds, the first update (passing the
output-size check) and the first final are the same call made on the bound
context, whose state is COPIED and whose trace is the old trace followed by
`setiv(iv, ivlen)`; so `setiv` is called once, before anything is absorbed:
an AAD update leaves the trace `old, setiv, aadupdate(in, len)` and a data
update `old, setiv, cipherupdate(in, len)`, both with state COPIED, and a final
leaves the trace `old, setiv, cipherfinal`.
(2) On any context `c` in state COPIED, an update calls `aadupdate(in, len)`
when `out` is `NULL` and `cipherupdate(in, len)` otherwise, nothing else, and
the state stays COPIED.
(3) From state BUFFERED, when `setiv` fails, update returns -1 and final 0, the
state stays BUFFERED and the trace is the old trace followed by `setiv` only. -/
theorem C5_buffered_nonce_is_bound_once (ctx c : PROV_GCM_CTX σ ρ) (out : Option Buf)
    (ob ib : Buf) (outsize inl : Nat)
    (ht : ctx.tls_aad_len = UNINITIALISED_SIZET) (hk : ctx.key_set = true)
    (hs : ctx.iv_state = IV_STATE.BUFFERED)
    (hle : inl ≤ outsize)
    (hct : c.tls_aad_len = UNINITIALISED_SIZET) (hck : c.key_set = true)
    (hcs : c.iv_state = IV_STATE.COPIED) :
    ((ctx.hw.setiv ctx.gcm ctx.iv ctx.ivlen).rv ≠ 0 →
        (bound_ctx ctx).iv_state = IV_STATE.COPIED
        ∧ (bound_ctx ctx).trace = ctx.trace ++ [Call.setiv ctx.iv ctx.ivlen]
        ∧ (∀ inp : Option Buf, gcm_stream_update ctx out outsize inp inl
              = gcm_stream_update (bound_ctx ctx) out outsize inp inl)
        ∧ gcm_stream_final ctx out outsize = gcm_stream_final (bound_ctx ctx) out outsize
        ∧ (gcm_stream_update ctx none outsize (some ib) inl).ctx.trace
            = ctx.trace ++ [Call.setiv ctx.iv ctx.ivlen, Call.aadupdate ib.bytes inl]
        ∧ (gcm_stream_update ctx none outsize (some ib) inl).ctx.iv_state = IV_STATE.COPIED
        ∧ (gcm_stream_update ctx (some ob) outsize (some ib) inl).ctx.trace
            = ctx.trace ++ [Call.setiv ctx.iv ctx.ivlen, Call.cipherupdate ib.bytes inl]
        ∧ (gcm_stream_update ctx (some ob) outsize (some ib) inl).ctx.iv_state
            = IV_STATE.COPIED
        ∧ (gcm_stream_final ctx out outsize).ctx.trace
            = ctx.trace ++ [Call.setiv ctx.iv ctx.ivlen, Call.cipherfinal ctx.buf])
    ∧ ((gcm_stream_update c none outsize (some ib) inl).ctx.trace
          = c.trace ++ [Call.aadupdate ib.bytes inl]
        ∧ (gcm_stream_update c none outsize (some ib) inl).ctx.iv_state = IV_STATE.COPIED
        ∧ (gcm_stream_update c (some ob) outsize (some ib) inl).ctx.trace
          = c.trace ++ [Call.cipherupdate ib.bytes inl]
        ∧ (gcm_stream_update c (some ob) outsize (some ib) inl).ctx.iv_state
          = IV_STATE.COPIED)
    ∧ ((ctx.hw.setiv ctx.gcm ctx.iv ctx.ivlen).rv = 0 →
        ∀ inp : Option Buf,
          (gcm_stream_update ctx out outsize inp inl).rv = -1
          ∧ (gcm_stream_update ctx out outsize inp inl).ctx.iv_state = IV_STATE.BUFFERED
          ∧ (gcm_stream_update ctx out outsize inp inl).ctx.trace
              = ctx.trace ++ [Call.setiv ctx.iv ctx.ivlen]
          ∧ (gcm_stream_final ctx out outsize).rv = 0
          ∧ (gcm_stream_final ctx out outsize).ctx.iv_state = IV_STATE.BUFFERED
          ∧ (gcm_stream_final ctx out outsize).ctx.trace
              = ctx.trace ++ [Call.setiv ctx.iv ctx.ivlen]) := by
  have hb := bound_ctx_fields ctx
  have active : ∀ a : PROV_GCM_CTX σ ρ, a.tls_aad_len = UNINITIALISED_SIZET →
      a.key_set = true → a.iv_state = IV_STATE.COPIED →
      (gcm_stream_update a none outsize (some ib) inl).ctx.trace
          = a.trace ++ [Call.aadupdate ib.bytes inl]
      ∧ (gcm_stream_update a none outsize (some ib) inl).ctx.iv_state = IV_STATE.COPIED
      ∧ (gcm_stream_update a (some ob) outsize (some ib) inl).ctx.trace
          = a.trace ++ [Call.cipherupdate ib.bytes inl]
      ∧ (gcm_stream_update a (some ob) outsize (some ib) inl).ctx.iv_state
          = IV_STATE.COPIED := by
    intro a hat hak has
    have h1 := generic_absorb_aad a ib inl
    have h2 := generic_absorb_data a ob ib inl
    rw [stream_update_ctx _ _ _ _ _ hle, stream_update_ctx _ _ _ _ _ hle,
      gcm_cipher_internal_copied a none (some ib) inl hat hak has,
      gcm_cipher_internal_copied a (some ob) (some ib) inl hat hak has]
    exact ⟨h1.1, h1.2.1.trans has, h2.1, h2.2.1.trans has⟩
  refine ⟨fun hv => ?_, active c hct hck hcs, fun hv inp => ?_⟩
  · have hv1 : (hw_setiv ctx).1 ≠ 0 := hv
    have eu : ∀ inp : Option Buf, gcm_stream_update ctx out outsize inp inl
        = gcm_stream_update (bound_ctx ctx) out outsize inp inl := fun inp =>
      stream_update_congr ctx (bound_ctx ctx) out inp outsize inl hle
        (internal_buffered_eq_bound ctx out inp inl ht hk hs hv1)
    have ef := stream_final_congr ctx (bound_ctx ctx) out outsize
      (internal_buffered_eq_bound ctx out none 0 ht hk hs hv1)
    have ea := stream_update_congr ctx (bound_ctx ctx) none (some ib) outsize inl hle
      (internal_buffered_eq_bound ctx none (some ib) inl ht hk hs hv1)
    have ed := stream_update_congr ctx (bound_ctx ctx) (some ob) (some ib) outsize inl hle
      (internal_buffered_eq_bound ctx (some ob) (some ib) inl ht hk hs hv1)
    have hact := active (bound_ctx ctx) (hb.2.1.trans ht) (hb.2.2.1.trans hk) hb.1
    have htr := hb.2.2.2.2.2.2
    refine ⟨hb.1, htr, eu, ef, ?_, ?_, ?_, ?_, ?_⟩
    · rw [ea, hact.1, htr, List.append_assoc]; rfl
    · rw [ea]; exact hact.2.1
    · rw [ed, hact.2.2.1, htr, List.append_assoc]; rfl
    · rw [ed]; exact hact.2.2.2
    · rw [ef, stream_final_ctx,
        gcm_cipher_internal_copied (bound_ctx ctx) out none 0 (hb.2.1.trans ht)
          (hb.2.2.1.trans hk) hb.1,
        (generic_absorb_final (bound_ctx ctx) out 0).1, htr, List.append_assoc]
      rfl
  · have hv1 : (hw_setiv ctx).1 = 0 := hv
    have hi := gcm_cipher_internal_buffered_fail ctx out inp inl ht hk hs hv1
    have hf := gcm_cipher_internal_buffered_fail ctx out none 0 ht hk hs hv1
    refine ⟨?_, ?_, ?_, ?_, ?_, ?_⟩
    · rw [stream_update_rv _ _ _ _ _ hle, hi]; rfl
    · rw [stream_update_ctx _ _ _ _ _ hle, hi]; exact hs
    · rw [stream_update_ctx _ _ _ _ _ hle, hi]; rfl
    · rw [stream_final_rv, hf]; rfl
    · rw [stream_final_ctx, hf]; exact hs
    · rw [stream_final_ctx, hf]; rfl

set_option maxRecDepth 100000 in
/-- C5 at `ctx_enc_buffered` (where `setiv` succeeds) and at `ctx_reject_buffered`
(where it fails). -/
theorem C5_buffered_nonce_is_bound_once_witness :
    ((gcm_stream_update ctx_enc_buffered none 24 (some sample_record) 24).ctx.trace
        = ctx_enc_buffered.trace
            ++ [Call.setiv ctx_enc_buffered.iv ctx_enc_buffered.ivlen,
                Call.aadupdate sample_record.bytes 24]
      ∧ (gcm_stream_update ctx_enc_buffered none 24 (some sample_record) 24).ctx.iv_state
          = IV_STATE.COPIED)
    ∧ ((gcm_stream_update ctx_reject_buffered none 24 (some sample_record) 24).rv = -1
      ∧ (gcm_stream_update ctx_reject_buffered none 24 (some sample_record) 24).ctx.iv_state
          = IV_STATE.BUFFERED) :=
  ⟨⟨((C5_buffered_nonce_is_bound_once ctx_enc_buffered (bound_ctx ctx_enc_buffered) none
        sample_record sample_record 24 24 (by decide) (by decide) (by decide) (by decide)
        (by decide) (by decide) (by decide)).1 (by decide)).2.2.2.2.1,
     ((C5_buffered_nonce_is_bound_once ctx_enc_buffered (bound_ctx ctx_enc_buffered) none
        sample_record sample_record 24 24 (by decide) (by decide) (by decide) (by decide)
        (by decide) (by decide) (by decide)).1 (by decide)).2.2.2.2.2.1⟩,
   ⟨((C5_buffered_nonce_is_bound_once ctx_reject_buffered (bound_ctx ctx_enc_buffered) none
        sample_record sample_record 24 24 (by decide) (by decide) (by decide) (by decide)
        (by decide) (by decide) (by decide)).2.2 (by decide) (some sample_record)).1,
    ((C5_buffered_nonce_is_bound_once ctx_reject_buffered (bound_ctx ctx_enc_buffered) none
        sample_record sample_record 24 24 (by decide) (by decide) (by decide) (by decide)
        (by decide) (by decide) (by decide)).2.2 (by decide) (some sample_record)).2.1⟩⟩

/-! ## C6 -/

/-- C6: in generic mode with the key set, let `a` be the context on which the
finish runs: `ctx` itself when the nonce state is COPIED, the bound context
when it is BUFFERED and `setiv` succeeds.  When `cipherfinal` reports success on
`a`, `gcm_stream_final` returns 1 and the nonce state becomes FINISHED; when it
reports failure (for instance a tag mismatch on decrypt), `gcm_stream_final`
returns 0 and the nonce state is COPIED.  So the call returns 1 exactly when
`cipherfinal` succeeds, and the state is FINISHED exactly then. -/
theorem C6_final_finishes_iff_finalize_ok (ctx a : PROV_GCM_CTX σ ρ) (out : Option Buf)
    (outsize : Nat) (ht : ctx.tls_aad_len = UNINITIALISED_SIZET) (hk : ctx.key_set = true)
    (ha : (ctx.iv_state = IV_STATE.COPIED ∧ a = ctx)
          ∨ (ctx.iv_state = IV_STATE.BUFFERED
              ∧ (ctx.hw.setiv ctx.gcm ctx.iv ctx.ivlen).rv ≠ 0 ∧ a = bound_ctx ctx)) :
    ((a.hw.cipherfinal a.gcm a.enc a.taglen a.buf).rv ≠ 0 →
        (gcm_stream_final ctx out outsize).rv = 1
        ∧ (gcm_stream_final ctx out outsize).ctx.iv_state = IV_STATE.FINISHED)
    ∧ ((a.hw.cipherfinal a.gcm a.enc a.taglen a.buf).rv = 0 →
        (gcm_stream_final ctx out outsize).rv = 0
        ∧ (gcm_stream_final ctx out outsize).ctx.iv_state = IV_STATE.COPIED)
    ∧ ((gcm_stream_final ctx out outsize).rv = 1
        ↔ (a.hw.cipherfinal a.gcm a.enc a.taglen a.buf).rv ≠ 0)
    ∧ ((gcm_stream_final ctx out outsize).ctx.iv_state = IV_STATE.FINISHED
        ↔ (a.hw.cipherfinal a.gcm a.enc a.taglen a.buf).rv ≠ 0) := by
  have key : gcm_cipher_internal ctx out none 0 = generic_absorb a out none 0
      ∧ a.iv_state = IV_STATE.COPIED := by
    rcases ha with ⟨hs, e⟩ | ⟨hs, hv, e⟩
    · rw [e]
      exact ⟨gcm_cipher_internal_copied ctx out none 0 ht hk hs, hs⟩
    · rw [e]
      exact ⟨gcm_cipher_internal_buffered_ok ctx out none 0 ht hk hs hv,
        (bound_ctx_fields ctx).1⟩
  have hfin := generic_absorb_final a out 0
  have p1 : (a.hw.cipherfinal a.gcm a.enc a.taglen a.buf).rv ≠ 0 →
      (gcm_stream_final ctx out outsize).rv = 1
      ∧ (gcm_stream_final ctx out outsize).ctx.iv_state = IV_STATE.FINISHED := by
    intro h
    have h1 := hfin.2.2.1 h
    rw [stream_final_rv, stream_final_ctx, key.1, h1.1]
    exact ⟨rfl, h1.2⟩
  have p2 : (a.hw.cipherfinal a.gcm a.enc a.taglen a.buf).rv = 0 →
      (gcm_stream_final ctx out outsize).rv = 0
      ∧ (gcm_stream_final ctx out outsize).ctx.iv_state = IV_STATE.COPIED := by
    intro h
    have h1 := hfin.2.2.2 h
    rw [stream_final_rv, stream_final_ctx, key.1, h1.1]
    exact ⟨rfl, h1.2.trans key.2⟩
  refine ⟨p1, p2, ⟨fun h hz => ?_, fun h => (p1 h).1⟩, ⟨fun h hz => ?_, fun h => (p1 h).2⟩⟩
  · rw [(p2 hz).1] at h
    exact absurd h (by decide)
  · rw [(p2 hz).2] at h
    exact IV_STATE.noConfusion h

set_option maxRecDepth 100000 in
/-- C6 at `ctx_enc_buffered` (the finish succeeds) and at `ctx_bad_tag_buffered` (the
finish reports a tag mismatch). -/
theorem C6_final_finishes_iff_finalize_ok_witness :
    ((gcm_stream_final ctx_enc_buffered none 0).rv = 1
      ∧ (gcm_stream_final ctx_enc_buffered none 0).ctx.iv_state = IV_STATE.FINISHED)
    ∧ ((gcm_stream_final ctx_bad_tag_buffered none 0).rv = 0
      ∧ (gcm_stream_final ctx_bad_tag_buffered none 0).ctx.iv_state = IV_STATE.COPIED) :=
  ⟨(C6_final_finishes_iff_finalize_ok ctx_enc_buffered (bound_ctx ctx_enc_buffered) none 0
      (by decide) (by decide) (Or.inr ⟨by decide, by decide, rfl⟩)).1 (by decide),
   (C6_final_finishes_iff_finalize_ok ctx_bad_tag_buffered (bound_ctx ctx_bad_tag_buffered)
      none 0 (by decide) (by decide) (Or.inr ⟨by decide, by decide, rfl⟩)).2.1 (by decide)⟩

/-! ## C7 -/

theorem gcm_tls_cipher_final_padlen (ctx : PROV_GCM_CTX σ ρ) (out : Option Buf) :
    (gcm_tls_cipher ctx out none 0).padlen = 0 := by
  unfold gcm_tls_cipher
  split
  · rfl
  · rw [if_pos (Or.inr (by decide))]
    rfl

theorem gcm_cipher_internal_final_padlen (ctx : PROV_GCM_CTX σ ρ) (out : Option Buf) :
    (gcm_cipher_internal ctx out none 0).padlen = 0 := by
  unfold gcm_cipher_internal
  have h0 := gcm_tls_cipher_final_padlen ctx out
  have h3 := (generic_absorb_final (generic_bind (generic_generate ctx).2).2 out 0).2.1
  generalize generic_absorb (generic_bind (generic_generate ctx).2).2 out none 0 = a at h3 ⊢
  generalize generic_bind (generic_generate ctx).2 = b
  generalize generic_generate ctx = g
  generalize gcm_tls_cipher ctx out none 0 = t at h0 ⊢
  split
  · exact h0
  · split
    · rfl
    · split
      · rfl
      · split
        · rfl
        · exact h3

/-- C7: for every context (generic or TLS mode, any nonce state, key set or not) and
every outcome, `gcm_stream_final` stores the output length 0 through `outl`. -/
theorem C7_final_output_length_zero (ctx : PROV_GCM_CTX σ ρ) (out : Option Buf)
    (outsize : Nat) :
    (gcm_stream_final ctx out outsize).outl = some 0 := by
  have h := gcm_cipher_internal_final_padlen ctx out
  unfold gcm_stream_final
  dsimp only
  generalize gcm_cipher_internal ctx out none 0 = r at h ⊢
  split
  · show some r.padlen = some 0
    rw [h]
  · rfl

/-! ## C8 -/

/-- The context after the nonce part of `gcm_init` accepted a nonce. -/
theorem gcm_init_nonce_accepted (ctx : PROV_GCM_CTX σ ρ) (key : Option (List Nat))
    (keylen : Nat) (ivb : List Nat) (n : Nat) (enc : Bool)
    (h : ¬ (n < ctx.ivlen_min ∨ n > ctx.iv.length)) :
    (gcm_init ctx key keylen (some ivb) n enc).2.ivlen = n
    ∧ (gcm_init ctx key keylen (some ivb) n enc).2.iv = memcpy ctx.iv 0 ivb n
    ∧ (gcm_init ctx key keylen (some ivb) n enc).2.iv_state = IV_STATE.BUFFERED
    ∧ (gcm_init ctx key keylen (some ivb) n enc).2.ivlen_min = ctx.ivlen_min
    ∧ (gcm_init ctx key keylen (some ivb) n enc).2.keylen = ctx.keylen
    ∧ (key = none → (gcm_init ctx key keylen (some ivb) n enc).1 = 1)
    ∧ (∀ k, key = some k → keylen ≠ ctx.keylen →
        (gcm_init ctx key keylen (some ivb) n enc).1 = 0
        ∧ (gcm_init ctx key keylen (some ivb) n enc).2.trace = ctx.trace)
    ∧ (∀ k, key = some k → keylen = ctx.keylen →
        (gcm_init ctx key keylen (some ivb) n enc).1 = (ctx.hw.setkey ctx.gcm k ctx.keylen).rv
        ∧ (gcm_init ctx key keylen (some ivb) n enc).2.trace
            = ctx.trace ++ [Call.setkey k ctx.keylen]) := by
  unfold gcm_init
  dsimp only
  rw [if_neg h, pair_fst, if_neg one_ne_zero_int]
  cases key with
  | none =>
    exact ⟨rfl, rfl, rfl, rfl, rfl, fun _ => rfl, fun k hk => Option.noConfusion hk,
      fun k hk => Option.noConfusion hk⟩
  | some k0 =>
    dsimp only
    split
    · rename_i hne
      refine ⟨rfl, rfl, rfl, rfl, rfl, fun hk => Option.noConfusion hk,
        fun k _ _ => ⟨rfl, rfl⟩, fun k _ he => absurd he hne⟩
    · rename_i heq
      refine ⟨rfl, rfl, rfl, rfl, rfl, fun hk => Option.noConfusion hk,
        fun k _ hne => absurd (not_not.mp heq) hne, fun k hk _ => ?_⟩
      rw [Option.some.inj hk]
      exact ⟨rfl, rfl⟩

/-- The context after the nonce part of `gcm_init` rejected a nonce. -/
theorem gcm_init_nonce_rejected (ctx : PROV_GCM_CTX σ ρ) (key : Option (List Nat))
    (keylen : Nat) (ivb : List Nat) (n : Nat) (enc : Bool)
    (h : n < ctx.ivlen_min ∨ n > ctx.iv.length) :
    gcm_init ctx key keylen (some ivb) n enc = (0, { ctx with enc := enc }) := by
  unfold gcm_init
  dsimp only
  rw [if_pos h, pair_fst, if_pos rfl]

/-- C8: `gcm_init` (the body of `gcm_einit` and `gcm_dinit`) called with a non-null
nonce of length `n`.  If `ivlen_min <= n <= sizeof(iv)` the nonce is accepted:
`ivlen` becomes `n`, the nonce buffer is the old one with its first `n` bytes
overwritten by the supplied bytes (so its first `n` bytes are the supplied
ones, when the caller's buffer holds `n` bytes) and the state becomes BUFFERED.
Otherwise the call returns 0 and the nonce buffer, `ivlen` and the state are
unchanged.  With no key supplied the call returns 1 exactly when the length is
in range. -/
theorem C8_init_nonce_length_range (ctx : PROV_GCM_CTX σ ρ) (key : Option (List Nat))
    (keylen : Nat) (ivb : List Nat) (n : Nat) (enc : Bool) :
    ((ctx.ivlen_min ≤ n ∧ n ≤ ctx.iv.length) →
        (gcm_init ctx key keylen (some ivb) n enc).2.ivlen = n
        ∧ (gcm_init ctx key keylen (some ivb) n enc).2.iv = memcpy ctx.iv 0 ivb n
        ∧ (n ≤ ivb.length →
            (gcm_init ctx key keylen (some ivb) n enc).2.iv.take n = ivb.take n)
        ∧ (gcm_init ctx key keylen (some ivb) n enc).2.iv_state = IV_STATE.BUFFERED)
    ∧ (¬ (ctx.ivlen_min ≤ n ∧ n ≤ ctx.iv.length) →
        (gcm_init ctx key keylen (some ivb) n enc).1 = 0
        ∧ (gcm_init ctx key keylen (some ivb) n enc).2.iv = ctx.iv
        ∧ (gcm_init ctx key keylen (some ivb) n enc).2.ivlen = ctx.ivlen
        ∧ (gcm_init ctx key keylen (some ivb) n enc).2.iv_state = ctx.iv_state)
    ∧ ((gcm_init ctx none keylen (some ivb) n enc).1 = 1
        ↔ (ctx.ivlen_min ≤ n ∧ n ≤ ctx.iv.length))
    ∧ gcm_einit ctx key keylen (some ivb) n = gcm_init ctx key keylen (some ivb) n true
    ∧ gcm_dinit ctx key keylen (some ivb) n = gcm_init ctx key keylen (some ivb) n false := by
  refine ⟨fun hin => ?_, fun hout => ?_, ⟨fun h1 => ?_, fun hin => ?_⟩, rfl, rfl⟩
  · have h := gcm_init_nonce_accepted ctx key keylen ivb n enc (by omega)
    refine ⟨h.1, h.2.1, fun hl => ?_, h.2.2.1⟩
    rw [h.2.1]
    exact memcpy_take _ _ _ hl hin.2
  · rw [gcm_init_nonce_rejected ctx key keylen ivb n enc (by omega)]
    exact ⟨rfl, rfl, rfl, rfl⟩
  · by_contra hout
    rw [gcm_init_nonce_rejected ctx none keylen ivb n enc (by omega), pair_fst] at h1
    exact absurd h1 (by decide)
  · exact (gcm_init_nonce_accepted ctx none keylen ivb n enc (by omega)).2.2.2.2.2.1 rfl

set_option maxRecDepth 100000 in
/-- C8 at `ctx_new` (`ivlen_min = 8`, 64-byte buffer): a 12-byte nonce is accepted, a
100-byte nonce is rejected. -/
theorem C8_init_nonce_length_range_witness :
    ((gcm_init ctx_new none 0 (some (List.replicate 12 7)) 12 true).2.ivlen = 12
      ∧ (gcm_init ctx_new none 0 (some (List.replicate 12 7)) 12 true).2.iv.take 12
          = (List.replicate 12 7).take 12
      ∧ (gcm_init ctx_new none 0 (some (List.replicate 12 7)) 12 true).2.iv_state
          = IV_STATE.BUFFERED)
    ∧ ((gcm_init ctx_new none 0 (some (List.replicate 100 7)) 100 true).1 = 0
      ∧ (gcm_init ctx_new none 0 (some (List.replicate 100 7)) 100 true).2.iv = ctx_new.iv) :=
  ⟨⟨((C8_init_nonce_length_range ctx_new none 0 (List.replicate 12 7) 12 true).1
        (by decide)).1,
    ((C8_init_nonce_length_range ctx_new none 0 (List.replicate 12 7) 12 true).1
        (by decide)).2.2.1 (by decide),
    ((C8_init_nonce_length_range ctx_new none 0 (List.replicate 12 7) 12 true).1
        (by decide)).2.2.2⟩,
   ⟨((C8_init_nonce_length_range ctx_new none 0 (List.replicate 100 7) 100 true).2.1
        (by decide)).1,
    ((C8_init_nonce_length_range ctx_new none 0 (List.replicate 100 7) 100 true).2.1
        (by decide)).2.1⟩⟩

/-! ## C9 -/

set_option maxRecDepth 100000 in
/-- C9 (as stated) fails: `ctx_new` has `keylen = 16`; `gcm_init` called with a
16-byte key and a 100-byte nonce (longer than the 64-byte nonce buffer) returns
0 and does not call `setkey` (the trace stays empty), although the key length
is right and `setkey` would have returned 1. -/
theorem C9_counterexample :
    ctx_new.keylen = 16
    ∧ (gcm_init ctx_new (some sample_key) 16 (some (List.replicate 100 0)) 100 true).1 = 0
    ∧ (gcm_init ctx_new (some sample_key) 16 (some (List.replicate 100 0)) 100 true).2.trace = []
    ∧ (ctx_new.hw.setkey ctx_new.gcm sample_key 16).rv = 1 := by
  refine ⟨by decide, by decide, by decide, by decide⟩

/-- C9 (amended): `gcm_init` called with a non-null key.  If the supplied key length
differs from `keylen` it returns 0 and `setkey` is not called (the trace is
unchanged), whatever the nonce argument.  If the length equals `keylen` and
the nonce argument is `NULL` or of accepted length (`ivlen_min <= n <=
sizeof(iv)`), `setkey(key, keylen)` is called exactly once, on the primitive
state the context had, and its result is returned.  Called with both key and
nonce omitted it returns 1 and changes nothing but the direction. -/
theorem C9_init_key_length (ctx : PROV_GCM_CTX σ ρ) (k : List Nat) (keylen : Nat)
    (iv : Option (List Nat)) (n : Nat) (enc : Bool) :
    (keylen ≠ ctx.keylen →
        (gcm_init ctx (some k) keylen iv n enc).1 = 0
        ∧ (gcm_init ctx (some k) keylen iv n enc).2.trace = ctx.trace)
    ∧ (keylen = ctx.keylen → (iv = none ∨ (ctx.ivlen_min ≤ n ∧ n ≤ ctx.iv.length)) →
        (gcm_init ctx (some k) keylen iv n enc).1 = (ctx.hw.setkey ctx.gcm k ctx.keylen).rv
        ∧ (gcm_init ctx (some k) keylen iv n enc).2.trace
            = ctx.trace ++ [Call.setkey k ctx.keylen])
    ∧ gcm_init ctx none keylen none n enc = (1, { ctx with enc := enc }) := by
  have hnone : ∀ key : Option (List Nat), gcm_init ctx key keylen none n enc
      = match key with
        | some k1 =>
            if keylen ≠ ctx.keylen then (0, { ctx with enc := enc })
            else hw_setkey { ctx with enc := enc } k1 ctx.keylen
        | none => (1, { ctx with enc := enc }) := by
    intro key
    unfold gcm_init
    dsimp only
    rw [if_neg one_ne_zero_int]
  refine ⟨fun hne => ?_, fun heq hiv => ?_, hnone none⟩
  · cases iv with
    | none =>
      rw [hnone (some k)]
      dsimp only
      rw [if_pos hne]
      exact ⟨rfl, rfl⟩
    | some ivb =>
      by_cases hr : n < ctx.ivlen_min ∨ n > ctx.iv.length
      · rw [gcm_init_nonce_rejected ctx (some k) keylen ivb n enc hr]
        exact ⟨rfl, rfl⟩
      · exact (gcm_init_nonce_accepted ctx (some k) keylen ivb n enc hr).2.2.2.2.2.2.1 k rfl hne
  · cases iv with
    | none =>
      rw [hnone (some k)]
      dsimp only
      rw [if_neg (not_not.mpr heq)]
      exact ⟨rfl, rfl⟩
    | some ivb =>
      have hr : ¬ (n < ctx.ivlen_min ∨ n > ctx.iv.length) := by
        rcases hiv with h | h
        · exact Option.noConfusion h
        · omega
      exact (gcm_init_nonce_accepted ctx (some k) keylen ivb n enc hr).2.2.2.2.2.2.2 k rfl heq

set_option maxRecDepth 100000 in
/-- C9 (amended) at a fresh 128-bit context: a 15-byte key is refused without
`setkey`; a 16-byte key with no nonce is passed to `setkey` once. -/
theorem C9_init_key_length_witness :
    ((gcm_init ctx_new (some sample_key) 15 none 0 true).1 = 0
      ∧ (gcm_init ctx_new (some sample_key) 15 none 0 true).2.trace = ctx_new.trace)
    ∧ ((gcm_init ctx_new (some sample_key) 16 none 0 true).1
          = (ctx_new.hw.setkey ctx_new.gcm sample_key ctx_new.keylen).rv
      ∧ (gcm_init ctx_new (some sample_key) 16 none 0 true).2.trace
          = ctx_new.trace ++ [Call.setkey sample_key ctx_new.keylen]) :=
  ⟨(C9_init_key_length ctx_new sample_key 15 none 0 true).1 (by decide),
   (C9_init_key_length ctx_new sample_key 16 none 0 true).2.1 (by decide) (Or.inl rfl)⟩

/-! ## C10 -/

theorem BoundsFrame.brefl (a : PROV_GCM_CTX σ ρ) : BoundsFrame a a := ⟨rfl, rfl, rfl⟩

theorem BoundsFrame.btrans {a b c : PROV_GCM_CTX σ ρ} (h1 : BoundsFrame a b)
    (h2 : BoundsFrame b c) : BoundsFrame a c :=
  ⟨h2.ivlen.trans h1.ivlen, h2.ivlen_min.trans h1.ivlen_min, h2.cap.trans h1.cap⟩

theorem BoundsFrame.of_cipher {a b : PROV_GCM_CTX σ ρ} (h : CipherFrame a b) :
    BoundsFrame a b := ⟨h.ivlen, h.ivlen_min, h.cap⟩

theorem BoundsFrame.keeps {a b : PROV_GCM_CTX σ ρ} (h : BoundsFrame a b)
    (hi : ivlen_in_bounds a) : ivlen_in_bounds b := by
  unfold ivlen_in_bounds at hi ⊢
  rw [h.ivlen, h.ivlen_min, h.cap]
  exact hi

theorem bounds_iv (c : PROV_GCM_CTX σ ρ) (iv1 : List Nat) (h : iv1.length = c.iv.length) :
    BoundsFrame c { c with iv := iv1 } := ⟨rfl, rfl, h⟩

theorem bounds_iv_gen (c : PROV_GCM_CTX σ ρ) (iv1 : List Nat) (h : iv1.length = c.iv.length)
    (g : Bool) (s : IV_STATE) :
    BoundsFrame c { c with iv := iv1, iv_gen := g, iv_state := s } := ⟨rfl, rfl, h⟩

theorem bounds_gen (c : PROV_GCM_CTX σ ρ) (g : Bool) (s : IV_STATE) :
    BoundsFrame c { c with iv_gen := g, iv_state := s } := ⟨rfl, rfl, rfl⟩

theorem gcm_tls_iv_set_fixed_bounds (ctx : PROV_GCM_CTX σ ρ) (iv : List Nat) (len : Nat) :
    BoundsFrame ctx (gcm_tls_iv_set_fixed ctx iv len).2 := by
  unfold gcm_tls_iv_set_fixed
  split
  · rw [pair_snd]
    exact bounds_iv_gen ctx _ (memcpy_length _ _ _ _) true IV_STATE.BUFFERED
  · split
    · exact BoundsFrame.brefl ctx
    · dsimp only
      have h1 : BoundsFrame ctx (if len > 0 then { ctx with iv := memcpy ctx.iv 0 iv len }
          else ctx) := by
        split
        · exact bounds_iv ctx _ (memcpy_length _ _ _ _)
        · exact BoundsFrame.brefl ctx
      generalize (if len > 0 then { ctx with iv := memcpy ctx.iv 0 iv len } else ctx) = c1
        at h1 ⊢
      have h2 : BoundsFrame c1 (if c1.enc = true then
          rand_bytes_ex c1 len (size_t_sub c1.ivlen len) else (1, c1)).2 := by
        split
        · exact BoundsFrame.of_cipher (rand_bytes_ex_frame _ _ _)
        · exact BoundsFrame.brefl c1
      generalize (if c1.enc = true then rand_bytes_ex c1 len (size_t_sub c1.ivlen len)
        else (1, c1)) = r at h2 ⊢
      split
      · rw [pair_snd]; exact h1.btrans h2
      · rw [pair_snd]; exact (h1.btrans h2).btrans (bounds_gen _ _ _)

theorem set_param_tls1_iv_fixed_bounds (ctx : PROV_GCM_CTX σ ρ) (p : Option OSSL_PARAM) :
    BoundsFrame ctx (set_param_tls1_iv_fixed ctx p).2 := by
  unfold set_param_tls1_iv_fixed
  cases p with
  | none => exact BoundsFrame.brefl ctx
  | some q =>
    dsimp only
    have h := gcm_tls_iv_set_fixed_bounds ctx q.data q.data_size
    generalize gcm_tls_iv_set_fixed ctx q.data q.data_size = r at h ⊢
    split
    · exact BoundsFrame.brefl ctx
    · split <;> rw [pair_snd] <;> exact h

/-- A parameter set leaves `ivlen_min` and the buffer size alone; `ivlen` is left
alone or set to a value in `1 .. sizeof(iv)`, and it is left alone when the
set carries no nonce-length parameter. -/
theorem gcm_set_ctx_params_bounds (ctx : PROV_GCM_CTX σ ρ) (params : SetParams) :
    (gcm_set_ctx_params ctx params).2.ivlen_min = ctx.ivlen_min
    ∧ (gcm_set_ctx_params ctx params).2.iv.length = ctx.iv.length
    ∧ ((gcm_set_ctx_params ctx params).2.ivlen = ctx.ivlen
        ∨ (0 < (gcm_set_ctx_params ctx params).2.ivlen
            ∧ (gcm_set_ctx_params ctx params).2.ivlen ≤ ctx.iv.length))
    ∧ (params.AEAD_IVLEN = none → (gcm_set_ctx_params ctx params).2.ivlen = ctx.ivlen) := by
  have f1 := set_param_tag_frame ctx params.AEAD_TAG
  have f2 := set_param_ivlen_frame (set_param_tag ctx params.AEAD_TAG).2 params.AEAD_IVLEN
  have f3 := set_param_tls1_aad_frame
    (set_param_ivlen (set_param_tag ctx params.AEAD_TAG).2 params.AEAD_IVLEN).2
    params.AEAD_TLS1_AAD
  have f4 := set_param_tls1_iv_fixed_bounds
    (set_param_tls1_aad (set_param_ivlen (set_param_tag ctx params.AEAD_TAG).2
      params.AEAD_IVLEN).2 params.AEAD_TLS1_AAD).2 params.AEAD_TLS1_IV_FIXED
  have f2n : params.AEAD_IVLEN = none →
      (set_param_ivlen (set_param_tag ctx params.AEAD_TAG).2 params.AEAD_IVLEN).2.ivlen
        = (set_param_tag ctx params.AEAD_TAG).2.ivlen := by
    intro h
    rw [h]
    rfl
  unfold gcm_set_ctx_params
  dsimp only
  generalize set_param_tls1_iv_fixed
    (set_param_tls1_aad (set_param_ivlen (set_param_tag ctx params.AEAD_TAG).2
      params.AEAD_IVLEN).2 params.AEAD_TLS1_AAD).2 params.AEAD_TLS1_IV_FIXED = r4 at f4 ⊢
  generalize set_param_tls1_aad (set_param_ivlen (set_param_tag ctx params.AEAD_TAG).2
      params.AEAD_IVLEN).2 params.AEAD_TLS1_AAD = r3 at f3 f4 ⊢
  generalize set_param_ivlen (set_param_tag ctx params.AEAD_TAG).2 params.AEAD_IVLEN = r2
    at f2 f2n f3 ⊢
  generalize set_param_tag ctx params.AEAD_TAG = r1 at f1 f2 f2n ⊢
  have g1 : r1.2.ivlen_min = ctx.ivlen_min ∧ r1.2.iv.length = ctx.iv.length
      ∧ r1.2.ivlen = ctx.ivlen := ⟨f1.1.ivlen_min, by rw [f1.1.iv], f1.2.1⟩
  have g2 : r2.2.ivlen_min = ctx.ivlen_min ∧ r2.2.iv.length = ctx.iv.length
      ∧ (r2.2.ivlen = ctx.ivlen ∨ (0 < r2.2.ivlen ∧ r2.2.ivlen ≤ ctx.iv.length))
      ∧ (params.AEAD_IVLEN = none → r2.2.ivlen = ctx.ivlen) := by
    refine ⟨f2.1.ivlen_min.trans g1.1, by rw [f2.1.iv]; exact g1.2.1, ?_,
      fun h => (f2n h).trans g1.2.2⟩
    rcases f2.2.2 with h | h
    · exact Or.inl (h.trans g1.2.2)
    · exact Or.inr ⟨h.1, by rw [← g1.2.1]; exact h.2⟩
  have g3 : r3.2.ivlen_min = ctx.ivlen_min ∧ r3.2.iv.length = ctx.iv.length
      ∧ (r3.2.ivlen = ctx.ivlen ∨ (0 < r3.2.ivlen ∧ r3.2.ivlen ≤ ctx.iv.length))
      ∧ (params.AEAD_IVLEN = none → r3.2.ivlen = ctx.ivlen) := by
    refine ⟨f3.1.ivlen_min.trans g2.1, by rw [f3.1.iv]; exact g2.2.1, ?_,
      fun h => f3.2.trans (g2.2.2.2 h)⟩
    rw [f3.2]
    exact g2.2.2.1
  have g4 : r4.2.ivlen_min = ctx.ivlen_min ∧ r4.2.iv.length = ctx.iv.length
      ∧ (r4.2.ivlen = ctx.ivlen ∨ (0 < r4.2.ivlen ∧ r4.2.ivlen ≤ ctx.iv.length))
      ∧ (params.AEAD_IVLEN = none → r4.2.ivlen = ctx.ivlen) := by
    refine ⟨f4.ivlen_min.trans g3.1, f4.cap.trans g3.2.1, ?_,
      fun h => f4.ivlen.trans (g3.2.2.2 h)⟩
    rw [f4.ivlen]
    exact g3.2.2.1
  split
  · rw [pair_snd]
    exact ⟨g1.1, g1.2.1, Or.inl g1.2.2, fun _ => g1.2.2⟩
  · split
    · rw [pair_snd]; exact g2
    · split
      · rw [pair_snd]; exact g3
      · split
        · rw [pair_snd]; exact g4
        · split <;> rw [pair_snd, set_param_keylen_ctx] <;> exact g4

theorem gcm_init_bounds (ctx : PROV_GCM_CTX σ ρ) (key : Option (List Nat)) (keylen : Nat)
    (iv : Option (List Nat)) (n : Nat) (enc : Bool) (hi : ivlen_in_bounds ctx) :
    ivlen_in_bounds (gcm_init ctx key keylen iv n enc).2 := by
  cases iv with
  | none =>
    have e : BoundsFrame ctx (gcm_init ctx key keylen none n enc).2 := by
      unfold gcm_init
      dsimp only
      rw [if_neg one_ne_zero_int]
      cases key with
      | none => exact ⟨rfl, rfl, rfl⟩
      | some k =>
        dsimp only
        split
        · exact ⟨rfl, rfl, rfl⟩
        · exact ⟨rfl, rfl, rfl⟩
    exact e.keeps hi
  | some ivb =>
    by_cases hr : n < ctx.ivlen_min ∨ n > ctx.iv.length
    · rw [gcm_init_nonce_rejected ctx key keylen ivb n enc hr]
      exact hi
    · have h := gcm_init_nonce_accepted ctx key keylen ivb n enc hr
      unfold ivlen_in_bounds
      rw [h.1, h.2.1, h.2.2.2.1, memcpy_length]
      omega

/-- A public call other than `gcm_initctx` keeps `ivlen <= sizeof(iv)`, and keeps
`ivlen_min <= ivlen` too unless it is a parameter set carrying the nonce-length
parameter. -/
theorem op_bounds (ctx : PROV_GCM_CTX σ ρ) (op : Op σ ρ) (hi : ivlen_in_bounds ctx)
    (hn : op.is_initctx = false) :
    (op.apply ctx).2.ivlen ≤ (op.apply ctx).2.iv.length
    ∧ (op.sets_ivlen = false → ivlen_in_bounds (op.apply ctx).2) := by
  have of_inv : ∀ c : PROV_GCM_CTX σ ρ, ivlen_in_bounds c →
      c.ivlen ≤ c.iv.length ∧ (op.sets_ivlen = false → ivlen_in_bounds c) :=
    fun c h => ⟨h.2, fun _ => h⟩
  cases op with
  | initctx provctx keybits hw ivlen_min => exact Bool.noConfusion hn
  | deinitctx =>
    apply of_inv
    exact (bounds_iv ctx _ (OPENSSL_cleanse_length _ _ _)).keeps hi
  | einit key keylen iv ivlen => exact of_inv _ (gcm_init_bounds ctx key keylen iv ivlen true hi)
  | dinit key keylen iv ivlen => exact of_inv _ (gcm_init_bounds ctx key keylen iv ivlen false hi)
  | get_ctx_params params =>
    apply of_inv
    show ivlen_in_bounds (gcm_get_ctx_params ctx params).2.1
    rw [gcm_get_ctx_params_ctx]
    exact hi
  | set_ctx_params params =>
    have h := gcm_set_ctx_params_bounds ctx params
    show (gcm_set_ctx_params ctx params).2.ivlen ≤ (gcm_set_ctx_params ctx params).2.iv.length
      ∧ (params.AEAD_IVLEN.isSome = false → ivlen_in_bounds (gcm_set_ctx_params ctx params).2)
    unfold ivlen_in_bounds at hi ⊢
    refine ⟨?_, fun hs => ?_⟩
    · rw [h.2.1]
      rcases h.2.2.1 with h1 | h1
      · rw [h1]; exact hi.2
      · exact h1.2
    · have hnone : params.AEAD_IVLEN = none := by
        cases hp : params.AEAD_IVLEN with
        | none => rfl
        | some q => rw [hp] at hs; exact Bool.noConfusion hs
      rw [h.1, h.2.1, h.2.2.2 hnone]
      exact hi
  | stream_update out outsize inp inl =>
    apply of_inv
    show ivlen_in_bounds (gcm_stream_update ctx out outsize inp inl).ctx
    by_cases hsz : outsize < inl
    · rw [stream_update_small _ _ _ _ _ hsz]
      exact hi
    · rw [stream_update_ctx _ _ _ _ _ (by omega)]
      exact (BoundsFrame.of_cipher (gcm_cipher_internal_frame ctx out inp inl)).keeps hi
  | stream_final out outsize =>
    apply of_inv
    show ivlen_in_bounds (gcm_stream_final ctx out outsize).ctx
    rw [stream_final_ctx]
    exact (BoundsFrame.of_cipher (gcm_cipher_internal_frame ctx out none 0)).keeps hi
  | cipher out outsize inp inl =>
    apply of_inv
    show ivlen_in_bounds (gcm_cipher ctx out outsize inp inl).ctx
    by_cases hsz : outsize < inl
    · rw [cipher_small _ _ _ _ _ hsz]
      exact hi
    · rw [cipher_ctx _ _ _ _ _ (by omega)]
      exact (BoundsFrame.of_cipher (gcm_cipher_internal_frame ctx out inp inl)).keeps hi

theorem be_value_append (xs : List Nat) (x : Nat) :
    be_value (xs ++ [x]) = be_value xs * 256 + x := by
  unfold be_value
  rw [List.foldl_append]
  rfl

theorem be_value_lt (l : List Nat) (hb : ∀ x ∈ l, x < 256) : be_value l < 256 ^ l.length := by
  induction l using List.reverseRecOn with
  | nil => simp [be_value]
  | append_singleton xs x ih =>
    have h1 := ih (fun y hy => hb y (List.mem_append_left _ hy))
    have h2 : x < 256 := hb x (List.mem_append_right _ (List.mem_singleton_self x))
    rw [be_value_append, List.length_append, List.length_singleton, Nat.pow_succ]
    omega

theorem take_succ_eq (l : List Nat) (n : Nat) (h : n < l.length) :
    l.take (n + 1) = l.take n ++ [l.getD n 0] := by
  rw [List.take_succ, List.getD_eq_getElem?_getD, List.getElem?_eq_getElem h]
  rfl

theorem take_set_self (l : List Nat) (n c : Nat) : (l.set n c).take n = l.take n :=
  List.ext_getElem? fun i => by
    rw [List.getElem?_take, List.getElem?_take]
    split
    · rw [List.getElem?_set_ne (by omega)]
    · rfl

theorem getD_of_drop_eq (r l : List Nat) (n : Nat) (h : r.drop n = l.drop n) :
    r.getD n 0 = l.getD n 0 := by
  have h1 : (r.drop n)[0]? = (l.drop n)[0]? := by rw [h]
  rw [List.getElem?_drop, List.getElem?_drop] at h1
  rw [List.getD_eq_getElem?_getD, List.getD_eq_getElem?_getD]
  simpa using congrArg (fun o => Option.getD o 0) h1

/-- The loop of `ctr64_inc` entered at `n` rewrites only the first `n` bytes, and adds
one (modulo `256^n`) to the big-endian value they hold. -/
theorem ctr64_inc_loop_spec (n : Nat) :
    ∀ l : List Nat, n ≤ l.length → (∀ x ∈ l, x < 256) →
      (ctr64_inc_loop l n).length = l.length
      ∧ (ctr64_inc_loop l n).drop n = l.drop n
      ∧ (∀ x ∈ ctr64_inc_loop l n, x < 256)
      ∧ be_value ((ctr64_inc_loop l n).take n) = (be_value (l.take n) + 1) % 256 ^ n := by
  induction n with
  | zero =>
    intro l _ hb
    refine ⟨rfl, rfl, hb, ?_⟩
    simp [ctr64_inc_loop, be_value]
  | succ n ih =>
    intro l hn hb
    have hlt : n < l.length := by omega
    have hx : l.getD n 0 < 256 := by
      rw [List.getD_eq_getElem?_getD, List.getElem?_eq_getElem hlt]
      exact hb _ (List.getElem_mem hlt)
    have hbyte : byte_at l n = l.getD n 0 := by
      unfold byte_at
      exact Nat.mod_eq_of_lt hx
    have hbv : be_value (l.take n) < 256 ^ n := by
      have h := be_value_lt (l.take n) (fun x hxm => hb x (List.mem_of_mem_take hxm))
      rw [List.length_take, Nat.min_eq_left (by omega)] at h
      exact h
    have htk : be_value (l.take (n + 1)) = be_value (l.take n) * 256 + l.getD n 0 := by
      rw [take_succ_eq l n hlt, be_value_append]
    have hset : ∀ c : Nat, c < 256 → ∀ x ∈ l.set n c, x < 256 := by
      intro c hc x hxm
      rcases List.mem_or_eq_of_mem_set hxm with h | h
      · exact hb x h
      · rw [h]; exact hc
    have hsetD : ∀ c : Nat, (l.set n c).getD n 0 = c := by
      intro c
      rw [List.getD_eq_getElem?_getD, List.getElem?_set_self hlt]
      rfl
    rw [ctr64_inc_loop, hbyte]
    by_cases hc : (l.getD n 0 + 1) % 256 > 0
    · rw [if_pos hc]
      have hne : l.getD n 0 + 1 < 256 := by omega
      have hmod : (l.getD n 0 + 1) % 256 = l.getD n 0 + 1 := Nat.mod_eq_of_lt hne
      rw [hmod]
      refine ⟨List.length_set _ _ _, List.drop_set_of_lt _ _ (by omega), hset _ hne, ?_⟩
      rw [take_succ_eq _ n (by rw [List.length_set]; exact hlt), hsetD,
        take_set_self, be_value_append, htk,
        Nat.mod_eq_of_lt]
      · omega
      · rw [Nat.pow_succ]; omega
    · rw [if_neg hc]
      have h255 : l.getD n 0 = 255 := by omega
      have hmod : (l.getD n 0 + 1) % 256 = 0 := by omega
      rw [hmod]
      have hl1 : n ≤ (l.set n 0).length := by rw [List.length_set]; omega
      obtain ⟨i1, i2, i3, i4⟩ := ih (l.set n 0) hl1 (hset 0 (by omega))
      have hrn : (ctr64_inc_loop (l.set n 0) n).getD n 0 = 0 := by
        rw [getD_of_drop_eq _ _ n i2, hsetD]
      have hrlen : n < (ctr64_inc_loop (l.set n 0) n).length := by
        rw [i1, List.length_set]; exact hlt
      refine ⟨i1.trans (List.length_set _ _ _), ?_, i3, ?_⟩
      · have h1 := congrArg (List.drop 1) i2
        rw [List.drop_drop, List.drop_drop] at h1
        rw [h1]
        exact List.drop_set_of_lt _ _ (by omega)
      · rw [take_succ_eq _ n hrlen, be_value_append, hrn, i4,
          take_set_self, htk, h255]
        have e : be_value (List.take n l) * 256 + 255 + 1 = (be_value (List.take n l) + 1) * 256 := by
          omega
        rw [e, Nat.pow_succ, Nat.mul_mod_mul_right]
        omega

/-! ## Buffers: reads and writes that stay inside the buffer -/

theorem load_length (buf : List Nat) (off : Int) (n : Nat) : (load buf off n).length = n := by
  simp [load]

/-- Reading `n` bytes at offset `k` inside the buffer. -/
theorem load_eq_drop_take (buf : List Nat) (off : Int) (k n : Nat) (hk : off = (k : Int))
    (h : k + n ≤ buf.length) : load buf off n = (buf.drop k).take n := by
  apply List.ext_getElem
  · rw [load_length, List.length_take, List.length_drop]
    omega
  · intro j h1 h2
    rw [load_length] at h1
    have e1 : (off + (j : Int)).toNat = k + j := by omega
    have e2 : 0 ≤ off + (j : Int) := by omega
    simp only [load, List.getElem_map, List.getElem_range, e1, if_pos e2, List.getElem_take,
      List.getElem_drop]
    rw [List.getD_eq_getElem?_getD, List.getElem?_eq_getElem (by omega)]
    rfl

/-- Writing `n` bytes at offset `k` inside the buffer. -/
theorem memcpy_eq_splice (dst src : List Nat) (off : Int) (k n : Nat) (hk : off = (k : Int))
    (hs : src.length = n) (hd : k + n ≤ dst.length) :
    memcpy dst off src n = dst.take k ++ src ++ dst.drop (k + n) := by
  subst hs
  apply List.ext_getElem
  · rw [memcpy_length, List.length_append, List.length_append, List.length_take,
      List.length_drop]
    omega
  · intro i h1 h2
    rw [memcpy_length] at h1
    simp only [memcpy, List.getElem_map, List.getElem_range]
    have hlk : (dst.take k).length = k := by rw [List.length_take]; omega
    by_cases ha : i < k
    · have c1 : ¬ (off ≤ (i : Int) ∧ (i : Int) < off + (src.length : Int) ∧ ((i : Int) - off).toNat < src.length) := by
        omega
      rw [if_neg c1, List.getD_eq_getElem?_getD, List.getElem?_eq_getElem h1]
      simp [List.getElem_append, ha, h1]
    · by_cases hb : i < k + src.length
      · have c1 : off ≤ (i : Int) ∧ (i : Int) < off + (src.length : Int) ∧ ((i : Int) - off).toNat < src.length := by
          omega
        have e1 : ((i : Int) - off).toNat = i - k := by omega
        have h3 : i - k < src.length := by omega
        have h4 : min k dst.length = k := by omega
        rw [if_pos c1, e1, List.getD_eq_getElem?_getD, List.getElem?_eq_getElem h3]
        simp [List.getElem_append, ha, hb, h3, h4]
      · have c1 : ¬ (off ≤ (i : Int) ∧ (i : Int) < off + (src.length : Int)
            ∧ ((i : Int) - off).toNat < src.length) := by omega
        have h4 : min k dst.length = k := by omega
        have h5 : ¬ i - k < src.length := by omega
        rw [if_neg c1, List.getD_eq_getElem?_getD, List.getElem?_eq_getElem h1]
        simp [List.getElem_append, ha, hb, h4, h5]
        congr 1
        omega

/-- A write at offset `off` leaves the first `k <= off` bytes alone. -/
theorem memcpy_take_before (dst src : List Nat) (off : Int) (n k : Nat) (h : (k : Int) ≤ off) :
    (memcpy dst off src n).take k = dst.take k := by
  apply List.ext_getElem
  · rw [List.length_take, List.length_take, memcpy_length]
  · intro i h1 h2
    rw [List.length_take] at h2
    have c1 : ¬ (off ≤ (i : Int) ∧ (i : Int) < off + n ∧ ((i : Int) - off).toNat < src.length) := by
      omega
    simp only [List.getElem_take, memcpy, List.getElem_map, List.getElem_range, if_neg c1]
    rw [List.getD_eq_getElem?_getD, List.getElem?_eq_getElem (by omega)]
    rfl

/-- Zeroing at offset `off` leaves the first `k <= off` bytes alone. -/
theorem OPENSSL_cleanse_take_before (buf : List Nat) (off : Int) (n k : Nat)
    (h : (k : Int) ≤ off) : (OPENSSL_cleanse buf off n).take k = buf.take k := by
  apply List.ext_getElem
  · rw [List.length_take, List.length_take, OPENSSL_cleanse_length]
  · intro i h1 h2
    rw [List.length_take] at h2
    have c1 : ¬ (off ≤ (i : Int) ∧ (i : Int) < off + n) := by omega
    simp only [List.getElem_take, OPENSSL_cleanse, List.getElem_map, List.getElem_range,
      if_neg c1]
    rw [List.getD_eq_getElem?_getD, List.getElem?_eq_getElem (by omega)]
    rfl

/-! ## The TLS path: what each stage does to the nonce, the counter and the trace -/

theorem ctr64_inc_loop_length (n : Nat) :
    ∀ l : List Nat, (ctr64_inc_loop l n).length = l.length := by
  induction n with
  | zero => intro l; rfl
  | succ n ih =>
    intro l
    rw [ctr64_inc_loop]
    split
    · rw [List.length_set]
    · rw [ih, List.length_set]

theorem explicit_iv_len_eq : EVP_GCM_TLS_EXPLICIT_IV_LEN = 8 := rfl

theorem tls_count_record_fields (ctx : PROV_GCM_CTX σ ρ) :
    (tls_count_record ctx).iv = ctx.iv ∧ (tls_count_record ctx).ivlen = ctx.ivlen
    ∧ (tls_count_record ctx).hw = ctx.hw ∧ (tls_count_record ctx).gcm = ctx.gcm
    ∧ (tls_count_record ctx).enc = ctx.enc ∧ (tls_count_record ctx).trace = ctx.trace := by
  unfold tls_count_record
  split <;> exact ⟨rfl, rfl, rfl, rfl, rfl, rfl⟩

theorem tls_count_record_dec (ctx : PROV_GCM_CTX σ ρ) (h : ctx.enc = false) :
    tls_count_record ctx = ctx := by
  unfold tls_count_record
  rw [if_neg (by rw [h]; exact fun e => Bool.noConfusion e)]

theorem tls_count_record_enc (ctx : PROV_GCM_CTX σ ρ) (h : ctx.enc = true) :
    (tls_count_record ctx).tls_enc_records = (ctx.tls_enc_records + 1) % 2 ^ 64 := by
  unfold tls_count_record
  rw [if_pos h]

theorem hw_setiv_fields (c : PROV_GCM_CTX σ ρ) :
    (hw_setiv c).2.iv = c.iv ∧ (hw_setiv c).2.ivlen = c.ivlen
    ∧ (hw_setiv c).2.tls_enc_records = c.tls_enc_records
    ∧ (hw_setiv c).2.trace = c.trace ++ [Call.setiv c.iv c.ivlen]
    ∧ (hw_setiv c).2.enc = c.enc :=
  ⟨rfl, rfl, rfl, rfl, rfl⟩

theorem hw_setiv_rv (c : PROV_GCM_CTX σ ρ) :
    (hw_setiv c).1 = (c.hw.setiv c.gcm c.iv c.ivlen).rv := rfl

theorem hw_oneshot_fields (c : PROV_GCM_CTX σ ρ) (inp : List Nat) (len : Nat) (tag : List Nat) :
    (hw_oneshot c inp len tag).2.1.iv = c.iv
    ∧ (hw_oneshot c inp len tag).2.1.tls_enc_records = c.tls_enc_records
    ∧ (hw_oneshot c inp len tag).2.1.trace
        = c.trace ++ [Call.oneshot c.buf c.tls_aad_len inp len tag EVP_GCM_TLS_TAG_LEN] :=
  ⟨rfl, rfl, rfl⟩

theorem ctx_with_iv_fields (c : PROV_GCM_CTX σ ρ) (iv : List Nat) :
    ({ c with iv := iv } : PROV_GCM_CTX σ ρ).iv = iv
    ∧ ({ c with iv := iv } : PROV_GCM_CTX σ ρ).trace = c.trace
    ∧ ({ c with iv := iv } : PROV_GCM_CTX σ ρ).tls_enc_records = c.tls_enc_records
    ∧ ({ c with iv := iv } : PROV_GCM_CTX σ ρ).ivlen = c.ivlen :=
  ⟨rfl, rfl, rfl, rfl⟩

/-- The bind stage on the encrypting side, when `setiv` reports success and the nonce
has room for the 8-byte invocation field. -/
theorem tls_bind_iv_enc (c : PROV_GCM_CTX σ ρ) (record : List Nat) (he : c.enc = true)
    (hs : (hw_setiv c).1 ≠ 0) (h8 : 8 ≤ c.ivlen) (hcap : c.ivlen ≤ c.iv.length)
    (hr : 8 ≤ record.length) :
    (tls_bind_iv c record).1 ≠ 0
    ∧ (tls_bind_iv c record).2.1.iv
        = c.iv.take (c.ivlen - 8) ++ ctr64_inc ((c.iv.drop (c.ivlen - 8)).take 8)
            ++ c.iv.drop c.ivlen
    ∧ (tls_bind_iv c record).2.1.trace = c.trace ++ [Call.setiv c.iv c.ivlen]
    ∧ (tls_bind_iv c record).2.1.tls_enc_records = c.tls_enc_records
    ∧ (tls_bind_iv c record).2.2.take 8 = (c.iv.drop (c.ivlen - 8)).take 8 := by
  have harg : ¬ (8 > c.ivlen) := by omega
  have hoff : ((c.ivlen : Int) - 8) = ((c.ivlen - 8 : Nat) : Int) := by omega
  have hload : load c.iv ((c.ivlen : Int) - 8) 8 = (c.iv.drop (c.ivlen - 8)).take 8 :=
    load_eq_drop_take _ _ (c.ivlen - 8) 8 hoff (by omega)
  have hlen : ((c.iv.drop (c.ivlen - 8)).take 8).length = 8 := by
    rw [List.length_take, List.length_drop]; omega
  have e : tls_bind_iv c record
      = (1, { (hw_setiv c).2 with
                iv := memcpy c.iv ((c.ivlen : Int) - 8)
                        (ctr64_inc (load c.iv ((c.ivlen : Int) - 8) 8)) 8 },
         memcpy record 0 (load c.iv ((c.ivlen : Int) - 8) 8) 8) := by
    unfold tls_bind_iv
    rw [if_pos he, if_neg hs]
    simp only [explicit_iv_len_eq, if_neg harg, Nat.cast_ofNat]
  rw [e, pair_fst, pair_snd, pair_fst, pair_snd, hload]
  refine ⟨one_ne_zero_int, ?_, (ctx_with_iv_fields _ _).2.1.trans (hw_setiv_fields c).2.2.2.1,
    (ctx_with_iv_fields _ _).2.2.1.trans (hw_setiv_fields c).2.2.1, ?_⟩
  · rw [(ctx_with_iv_fields _ _).1,
      memcpy_eq_splice c.iv _ _ (c.ivlen - 8) 8 hoff
        (by unfold ctr64_inc; rw [ctr64_inc_loop_length, hlen]) (by omega),
      Nat.sub_add_cancel h8]
  · rw [memcpy_take _ _ 8 (by omega) hr, List.take_take, Nat.min_self]

/-- The bind stage on the decrypting side: the explicit nonce is copied before
`setiv` is called, whatever `setiv` then reports. -/
theorem tls_bind_iv_dec (c : PROV_GCM_CTX σ ρ) (record : List Nat) (he : c.enc = false)
    (h8 : 8 ≤ c.ivlen) (hcap : c.ivlen ≤ c.iv.length) (hr : 8 ≤ record.length) :
    (tls_bind_iv c record).2.1.iv
        = c.iv.take (c.ivlen - 8) ++ record.take 8 ++ c.iv.drop c.ivlen
    ∧ (tls_bind_iv c record).2.1.trace
        = c.trace ++ [Call.setiv (c.iv.take (c.ivlen - 8) ++ record.take 8 ++ c.iv.drop c.ivlen)
            c.ivlen]
    ∧ (tls_bind_iv c record).2.1.tls_enc_records = c.tls_enc_records
    ∧ (tls_bind_iv c record).2.2 = record := by
  have he1 : ¬ c.enc = true := by rw [he]; exact fun e => Bool.noConfusion e
  have hoff : ((c.ivlen : Int) - 8) = ((c.ivlen - 8 : Nat) : Int) := by omega
  have hload : load record 0 8 = record.take 8 := by
    rw [load_eq_drop_take record 0 0 8 rfl (by omega), List.drop_zero]
  have hlen : (record.take 8).length = 8 := by
    rw [List.length_take]; omega
  have hiv : memcpy c.iv ((c.ivlen : Int) - 8) (load record 0 8) 8
      = c.iv.take (c.ivlen - 8) ++ record.take 8 ++ c.iv.drop c.ivlen := by
    rw [hload, memcpy_eq_splice c.iv _ _ (c.ivlen - 8) 8 hoff hlen (by omega),
      Nat.sub_add_cancel h8]
  unfold tls_bind_iv
  rw [if_neg he1]
  simp only [explicit_iv_len_eq, Nat.cast_ofNat]
  rw [hiv]
  generalize c.iv.take (c.ivlen - 8) ++ record.take 8 ++ c.iv.drop c.ivlen = iv1
  split <;> rw [pair_snd, pair_fst, pair_snd]
    <;> exact ⟨rfl, rfl, rfl, rfl⟩

theorem tls_record_after_take (c : PROV_GCM_CTX σ ρ) (record : List Nat) (len : Nat) :
    (tls_record_after c record len).take 8 = record.take 8 := by
  unfold tls_record_after
  dsimp only
  rw [memcpy_take_before _ _ _ _ 8 (by have := explicit_iv_len_eq; omega),
    memcpy_take_before _ _ _ _ 8 (by have := explicit_iv_len_eq; omega)]

theorem err_fields (rv : Int) (c : PROV_GCM_CTX σ ρ) (out : List Nat) (plen : Nat) :
    (gcm_tls_cipher_err rv c out plen).ctx.iv = c.iv
    ∧ (gcm_tls_cipher_err rv c out plen).ctx.tls_enc_records = c.tls_enc_records
    ∧ (gcm_tls_cipher_err rv c out plen).ctx.trace = c.trace
    ∧ (gcm_tls_cipher_err rv c out plen).out = out :=
  ⟨rfl, rfl, rfl, rfl⟩

/-- The one-shot stage leaves the nonce, the record counter and the first 8 bytes of
the record alone and makes exactly one call, to `oneshot`. -/
theorem tls_seal_open_effect (c : PROV_GCM_CTX σ ρ) (record : List Nat) (len : Nat) :
    (tls_seal_open c record len).ctx.iv = c.iv
    ∧ (tls_seal_open c record len).ctx.tls_enc_records = c.tls_enc_records
    ∧ (∃ call, (tls_seal_open c record len).ctx.trace = c.trace ++ [call]
        ∧ call.isSetiv = false)
    ∧ (tls_seal_open c record len).out.take 8 = record.take 8 := by
  unfold tls_seal_open
  dsimp only
  generalize ha : tls_record_after _ _ _ = after
  generalize ho : hw_oneshot _ _ _ _ = o
  have ht : after.take 8 = record.take 8 := by
    rw [← ha]; exact tls_record_after_take _ _ _
  have hc : ∀ n, (OPENSSL_cleanse after EVP_GCM_TLS_EXPLICIT_IV_LEN n).take 8
      = record.take 8 := by
    intro n
    rw [OPENSSL_cleanse_take_before _ _ _ 8 (by have := explicit_iv_len_eq; omega), ht]
  have hf : o.2.1.iv = c.iv ∧ o.2.1.tls_enc_records = c.tls_enc_records
      ∧ ∃ call, o.2.1.trace = c.trace ++ [call] ∧ call.isSetiv = false := by
    rw [← ho]
    exact ⟨rfl, rfl, _, (hw_oneshot_fields _ _ _ _).2.2, rfl⟩
  obtain ⟨h1, h2, h3⟩ := hf
  have key : ∀ (rv : Int) (out : List Nat) (plen : Nat), out.take 8 = record.take 8 →
      (gcm_tls_cipher_err rv o.2.1 out plen).ctx.iv = c.iv
      ∧ (gcm_tls_cipher_err rv o.2.1 out plen).ctx.tls_enc_records = c.tls_enc_records
      ∧ (∃ call, (gcm_tls_cipher_err rv o.2.1 out plen).ctx.trace = c.trace ++ [call]
          ∧ call.isSetiv = false)
      ∧ (gcm_tls_cipher_err rv o.2.1 out plen).out.take 8 = record.take 8 := by
    intro rv out plen hout
    obtain ⟨e1, e2, e3, e4⟩ := err_fields rv o.2.1 out plen
    rw [e1, e2, e3, e4]
    exact ⟨h1, h2, h3, hout⟩
  split
  · split
    · exact key _ _ _ (hc _)
    · exact key _ _ _ ht
  · split
    · exact key _ _ _ ht
    · exact key _ _ _ ht

/-- Past its four checks `gcm_tls_cipher` is the bind stage followed by the one-shot
stage. -/
theorem gcm_tls_cipher_checked (ctx : PROV_GCM_CTX σ ρ) (out inp : Option Buf) (len : Nat)
    (hk : ctx.key_set = true) (hp : ptr out = ptr inp) (hl : 24 ≤ len)
    (hc : ¬ (ctx.enc = true ∧ (tls_count_record ctx).tls_enc_records = 0))
    (hg : ctx.iv_gen = true) :
    gcm_tls_cipher ctx out inp len =
      if (tls_bind_iv (tls_count_record ctx) (contents out)).1 = 0 then
        gcm_tls_cipher_err 0 (tls_bind_iv (tls_count_record ctx) (contents out)).2.1
          (tls_bind_iv (tls_count_record ctx) (contents out)).2.2 0
      else
        tls_seal_open (tls_bind_iv (tls_count_record ctx) (contents out)).2.1
          (tls_bind_iv (tls_count_record ctx) (contents out)).2.2 len := by
  have h1 : ¬ ctx.key_set = false := by rw [hk]; exact fun e => Bool.noConfusion e
  have h2 : ¬ (ptr out ≠ ptr inp ∨ len < EVP_GCM_TLS_EXPLICIT_IV_LEN + EVP_GCM_TLS_TAG_LEN) := by
    rintro (h | h)
    · exact h hp
    · have : EVP_GCM_TLS_EXPLICIT_IV_LEN + EVP_GCM_TLS_TAG_LEN = 24 := rfl
      omega
  have h3 : ¬ ctx.iv_gen = false := by rw [hg]; exact fun e => Bool.noConfusion e
  rw [gcm_tls_cipher, if_neg h1, if_neg h2, if_neg hc, if_neg h3]

/-- The in-place and length check of `gcm_tls_cipher` (lines 436-441). -/
theorem gcm_tls_cipher_malformed (ctx : PROV_GCM_CTX σ ρ) (out inp : Option Buf) (len : Nat)
    (h : ptr out ≠ ptr inp ∨ len < 24) :
    gcm_tls_cipher ctx out inp len = gcm_tls_cipher_err 0 ctx (contents out) 0 := by
  have h2 : ptr out ≠ ptr inp ∨ len < EVP_GCM_TLS_EXPLICIT_IV_LEN + EVP_GCM_TLS_TAG_LEN := h
  unfold gcm_tls_cipher
  rw [if_pos h2]
  split <;> rfl

/-- On the decrypting side no stage of `gcm_tls_cipher` writes the record counter. -/
theorem gcm_tls_cipher_dec_records (ctx : PROV_GCM_CTX σ ρ) (out inp : Option Buf) (len : Nat)
    (he : ctx.enc = false) :
    (gcm_tls_cipher ctx out inp len).ctx.tls_enc_records = ctx.tls_enc_records := by
  have hb : (tls_bind_iv ctx (contents out)).2.1.tls_enc_records = ctx.tls_enc_records := by
    have he1 : ¬ ctx.enc = true := by rw [he]; exact fun e => Bool.noConfusion e
    unfold tls_bind_iv
    rw [if_neg he1]
    dsimp only
    generalize memcpy ctx.iv _ _ _ = iv1
    split <;> rw [pair_snd, pair_fst] <;> rfl
  have hs := fun l => (tls_seal_open_effect (tls_bind_iv ctx (contents out)).2.1
    (tls_bind_iv ctx (contents out)).2.2 l).2.1
  unfold gcm_tls_cipher
  rw [tls_count_record_dec ctx he]
  generalize tls_bind_iv ctx (contents out) = b at hb hs ⊢
  split
  · rfl
  · split
    · rfl
    · split
      · rfl
      · split
        · rfl
        · split
          · exact (err_fields _ _ _ _).2.1.trans hb
          · exact (hs len).trans hb

/-! ## The counted loop -/

theorem ctr64_inc_loop_counted_pos (n : Nat) (l : List Nat) (h : 1 ≤ n) :
    1 ≤ (ctr64_inc_loop_counted l n).2 := by
  cases n with
  | zero => exact absurd h (by decide)
  | succ n =>
    rw [ctr64_inc_loop_counted]
    split
    · exact Nat.le_refl 1
    · exact Nat.le_add_left 1 _

theorem ctr64_inc_loop_counted_eq (n : Nat) :
    ∀ l : List Nat, (ctr64_inc_loop_counted l n).1 = ctr64_inc_loop l n
      ∧ (ctr64_inc_loop_counted l n).2 ≤ n := by
  induction n with
  | zero => intro l; exact ⟨rfl, Nat.le_refl 0⟩
  | succ n ih =>
    intro l
    rw [ctr64_inc_loop_counted, ctr64_inc_loop]
    split
    · exact ⟨rfl, Nat.succ_le_succ (Nat.zero_le n)⟩
    · exact ⟨(ih _).1, Nat.succ_le_succ (ih _).2⟩

theorem pow_256_8 : 256 ^ 8 = 2 ^ 64 := by norm_num

theorem wrap_last : (2 ^ 64 - 1 + 1) % 2 ^ 64 = 0 := by norm_num

/-- The function `ctr64_inc` on 8 bytes adds one to their big-endian value, modulo
`2^64`. -/
theorem ctr64_inc_spec (b : List Nat) (hlen : b.length = 8) (hb : ∀ x ∈ b, x < 256) :
    (ctr64_inc b).length = 8
    ∧ (∀ x ∈ ctr64_inc b, x < 256)
    ∧ be_value (ctr64_inc b) = (be_value b + 1) % 2 ^ 64 := by
  obtain ⟨h1, _, h3, h4⟩ := ctr64_inc_loop_spec 8 b (by omega) hb
  have ht : ∀ l : List Nat, l.length = 8 → l.take 8 = l := fun l hl =>
    List.take_of_length_le (by omega)
  rw [ht _ (h1.trans hlen), ht b hlen, pow_256_8] at h4
  exact ⟨h1.trans hlen, h3, h4⟩

theorem mem_take_drop {l : List Nat} {k n x : Nat} (h : x ∈ (l.drop k).take n) : x ∈ l :=
  List.mem_of_mem_drop (List.mem_of_mem_take h)

theorem tls_bind_iv_enc_fail (c : PROV_GCM_CTX σ ρ) (record : List Nat) (he : c.enc = true)
    (hs : (hw_setiv c).1 = 0) : tls_bind_iv c record = (0, (hw_setiv c).2, record) := by
  unfold tls_bind_iv
  rw [if_pos he, if_pos hs]

/-! ## The generic pipeline: the calls made before the absorb stage -/

theorem gcm_iv_generate_trace (ctx : PROV_GCM_CTX σ ρ) (offset : Int) :
    ∃ pre, (gcm_iv_generate ctx offset).2.trace = ctx.trace ++ pre
      ∧ ∀ c ∈ pre, c.isRand = true := by
  unfold gcm_iv_generate
  simp only
  have h : (rand_bytes_ex ctx offset
      (to_int (size_t_sub ctx.ivlen (to_size_t offset))).toNat).2.trace
      = ctx.trace ++ [Call.rand_bytes (to_int (size_t_sub ctx.ivlen (to_size_t offset))).toNat] :=
    rfl
  have hm : ∀ c ∈ [Call.rand_bytes (to_int (size_t_sub ctx.ivlen (to_size_t offset))).toNat],
      c.isRand = true := by
    intro c hc
    rw [List.mem_singleton.mp hc]
    rfl
  generalize (to_int (size_t_sub ctx.ivlen (to_size_t offset))).toNat = n at h hm ⊢
  generalize rand_bytes_ex ctx offset n = r at h ⊢
  split
  · exact ⟨[], by rw [pair_snd, List.append_nil], by simp⟩
  · split
    · rw [pair_snd]; exact ⟨_, h, hm⟩
    · rw [pair_snd]; exact ⟨_, h, hm⟩

theorem generic_generate_trace (ctx : PROV_GCM_CTX σ ρ) :
    ∃ pre, (generic_generate ctx).2.trace = ctx.trace ++ pre
      ∧ ∀ c ∈ pre, c.isRand = true := by
  unfold generic_generate
  have h := gcm_iv_generate_trace ctx 0
  generalize gcm_iv_generate ctx 0 = r at h ⊢
  split
  · split
    · exact ⟨[], by rw [pair_snd, List.append_nil], by simp⟩
    · split <;> rw [pair_snd] <;> exact h
  · exact ⟨[], by rw [pair_snd, List.append_nil], by simp⟩

theorem generic_bind_trace (ctx : PROV_GCM_CTX σ ρ) :
    ∃ pre, (generic_bind ctx).2.trace = ctx.trace ++ pre
      ∧ ∀ c ∈ pre, c.isSetiv = true := by
  unfold generic_bind
  have h : (hw_setiv ctx).2.trace = ctx.trace ++ [Call.setiv ctx.iv ctx.ivlen] := rfl
  have hm : ∀ c ∈ [Call.setiv ctx.iv ctx.ivlen], c.isSetiv = true := by
    intro c hc
    rw [List.mem_singleton.mp hc]
    rfl
  generalize hw_setiv ctx = r at h ⊢
  split
  · split
    · rw [pair_snd]; exact ⟨_, h, hm⟩
    · rw [pair_snd]; exact ⟨_, h, hm⟩
  · exact ⟨[], by rw [pair_snd, List.append_nil], by simp⟩

/-- In generic mode a call that does not return 0 went through to the absorb
stage. -/
theorem gcm_cipher_internal_generic_success (ctx : PROV_GCM_CTX σ ρ) (out inp : Option Buf)
    (len : Nat) (ht : ctx.tls_aad_len = UNINITIALISED_SIZET)
    (h : (gcm_cipher_internal ctx out inp len).rv ≠ 0) :
    gcm_cipher_internal ctx out inp len
      = generic_absorb (generic_bind (generic_generate ctx).2).2 out inp len := by
  have h1 : ¬ (ctx.tls_aad_len ≠ UNINITIALISED_SIZET) := fun e => e ht
  rw [gcm_cipher_internal, if_neg h1] at h ⊢
  by_cases h2 : ctx.key_set = false ∨ ctx.iv_state = IV_STATE.FINISHED
  · rw [if_pos h2, res_rv] at h
    exact absurd rfl h
  · rw [if_neg h2] at h ⊢
    by_cases h3 : (generic_generate ctx).1 = 0
    · rw [if_pos h3, res_rv] at h
      exact absurd rfl h
    · rw [if_neg h3] at h ⊢
      by_cases h4 : (generic_bind (generic_generate ctx).2).1 = 0
      · rw [if_pos h4, res_rv] at h
        exact absurd rfl h
      · rw [if_neg h4]

/-! ## Sequences on a FINISHED context in generic mode -/

/-- On a FINISHED context in generic mode, every cipher call of a sequence that
neither re-supplies a nonce nor sets the tls-record-aad parameter fails. -/
theorem finished_run_fails (ops : List (Op σ ρ)) :
    ∀ ctx : PROV_GCM_CTX σ ρ, ctx.iv_state = IV_STATE.FINISHED →
      ctx.tls_aad_len = UNINITIALISED_SIZET →
      (∀ op ∈ ops, op.supplies_nonce = false ∧ op.sets_tls_aad = false) →
      ∀ pre op post, ops = pre ++ op :: post → op.cipher_failure (op.apply (run ctx pre)).1 := by
  induction ops with
  | nil =>
    intro ctx _ _ _ pre op post h
    cases pre <;> simp at h
  | cons o rest ih =>
    intro ctx hs ht hn pre op post h
    have ho := hn o (List.mem_cons_self _ _)
    have st := finished_step ctx o hs ho.1 (Or.inr ht)
    cases pre with
    | nil =>
      simp only [List.nil_append, List.cons.injEq] at h
      rw [← h.1]
      exact st.2.2.2.1
    | cons p pre1 =>
      simp only [List.cons_append, List.cons.injEq] at h
      rw [← h.1]
      exact ih (o.apply ctx).2 st.1 (st.2.2.1 ho.2 ht)
        (fun op1 h1 => hn op1 (List.mem_cons_of_mem _ h1)) pre1 op post h.2

/-! # The claims on updates, the TLS record path and the counter -/

/-! ## C11 -/

set_option maxRecDepth 100000 in
/-- C11 (as stated) fails for each of the operations it names.  `ctx_enc_active` is
in state COPIED (key and nonce supplied, AAD absorbed) with a 12-byte nonce of
zeros.  `gcm_einit` and `gcm_dinit` with a new 12-byte nonce return 1 and
replace the stored nonce; setting the nonce-length parameter to 16 returns 1
and changes `ivlen` from 12 to 16; setting the tls-fixed-nonce parameter
returns 1 and replaces the stored nonce. -/
theorem C11_counterexample :
    ctx_enc_active.iv_state = IV_STATE.COPIED
    ∧ ((gcm_einit ctx_enc_active none 0 (some (List.replicate 12 7)) 12).1 = 1
      ∧ (gcm_einit ctx_enc_active none 0 (some (List.replicate 12 7)) 12).2.iv
          ≠ ctx_enc_active.iv)
    ∧ ((gcm_dinit ctx_enc_active none 0 (some (List.replicate 12 7)) 12).1 = 1
      ∧ (gcm_dinit ctx_enc_active none 0 (some (List.replicate 12 7)) 12).2.iv
          ≠ ctx_enc_active.iv)
    ∧ ((gcm_set_ctx_params ctx_enc_active (params_ivlen 16)).1 = 1
      ∧ ctx_enc_active.ivlen = 12
      ∧ (gcm_set_ctx_params ctx_enc_active (params_ivlen 16)).2.ivlen = 16)
    ∧ ((gcm_set_ctx_params ctx_enc_active params_fixed_iv).1 = 1
      ∧ (gcm_set_ctx_params ctx_enc_active params_fixed_iv).2.iv ≠ ctx_enc_active.iv) := by
  refine ⟨by decide, ⟨by decide, by decide⟩, ⟨by decide, by decide⟩,
    ⟨by decide, by decide, by decide⟩, by decide, by decide⟩

/-- C11 (amended): on a context in state COPIED, `gcm_init` (the body of `gcm_einit`
and `gcm_dinit`) called with a nonce of length `n` outside
`[ivlen_min, sizeof(iv)]` returns 0 and leaves the nonce bytes, `ivlen` and the
state unchanged, and called with `n` inside that range replaces the first `n`
nonce bytes, sets `ivlen = n` and moves the state to BUFFERED.  A parameter
set without the tls-fixed-nonce parameter (such as the nonce-length set) leaves
the nonce bytes and the state unchanged, and leaves `ivlen` unchanged or sets
it to a value in `[1, sizeof(iv)]`.  A parameter set without the nonce-length
parameter (such as the tls-fixed-nonce set) leaves `ivlen` unchanged. -/
theorem C11_active_nonce_replacement (ctx : PROV_GCM_CTX σ ρ)
    (hs : ctx.iv_state = IV_STATE.COPIED) :
    (∀ (key : Option (List Nat)) (keylen : Nat) (ivb : List Nat) (n : Nat) (enc : Bool),
      ((n < ctx.ivlen_min ∨ n > ctx.iv.length) →
        (gcm_init ctx key keylen (some ivb) n enc).1 = 0
        ∧ (gcm_init ctx key keylen (some ivb) n enc).2.iv = ctx.iv
        ∧ (gcm_init ctx key keylen (some ivb) n enc).2.ivlen = ctx.ivlen
        ∧ (gcm_init ctx key keylen (some ivb) n enc).2.iv_state = IV_STATE.COPIED)
      ∧ (¬ (n < ctx.ivlen_min ∨ n > ctx.iv.length) →
        (gcm_init ctx key keylen (some ivb) n enc).2.iv = memcpy ctx.iv 0 ivb n
        ∧ (gcm_init ctx key keylen (some ivb) n enc).2.ivlen = n
        ∧ (gcm_init ctx key keylen (some ivb) n enc).2.iv_state = IV_STATE.BUFFERED))
    ∧ (∀ params : SetParams, params.AEAD_TLS1_IV_FIXED = none →
        (gcm_set_ctx_params ctx params).2.iv = ctx.iv
        ∧ (gcm_set_ctx_params ctx params).2.iv_state = IV_STATE.COPIED
        ∧ ((gcm_set_ctx_params ctx params).2.ivlen = ctx.ivlen
            ∨ (0 < (gcm_set_ctx_params ctx params).2.ivlen
                ∧ (gcm_set_ctx_params ctx params).2.ivlen ≤ ctx.iv.length)))
    ∧ (∀ params : SetParams, params.AEAD_IVLEN = none →
        (gcm_set_ctx_params ctx params).2.ivlen = ctx.ivlen) := by
  refine ⟨?_, ?_, ?_⟩
  · intro key keylen ivb n enc
    refine ⟨fun h => ?_, fun h => ?_⟩
    · rw [gcm_init_nonce_rejected ctx key keylen ivb n enc h]
      exact ⟨rfl, rfl, rfl, hs⟩
    · have a := gcm_init_nonce_accepted ctx key keylen ivb n enc h
      exact ⟨a.2.1, a.1, a.2.2.1⟩
  · intro params h
    have f := gcm_set_ctx_params_frame ctx params h
    exact ⟨f.iv, f.iv_state.trans hs, (gcm_set_ctx_params_bounds ctx params).2.2.1⟩
  · intro params h
    exact (gcm_set_ctx_params_bounds ctx params).2.2.2 h

set_option maxRecDepth 100000 in
/-- C11 (amended) on `ctx_enc_active`: a 100-byte nonce is refused and a 12-byte one
replaces the stored nonce; the nonce-length set leaves the nonce bytes alone;
the tls-fixed-nonce set leaves `ivlen` alone. -/
theorem C11_active_nonce_replacement_witness :
    ((gcm_init ctx_enc_active none 0 (some (List.replicate 100 7)) 100 true).1 = 0
      ∧ (gcm_init ctx_enc_active none 0 (some (List.replicate 100 7)) 100 true).2.iv
          = ctx_enc_active.iv)
    ∧ ((gcm_init ctx_enc_active none 0 (some (List.replicate 12 7)) 12 true).2.iv
          = memcpy ctx_enc_active.iv 0 (List.replicate 12 7) 12
      ∧ (gcm_init ctx_enc_active none 0 (some (List.replicate 12 7)) 12 true).2.iv_state
          = IV_STATE.BUFFERED)
    ∧ (gcm_set_ctx_params ctx_enc_active (params_ivlen 16)).2.iv = ctx_enc_active.iv
    ∧ (gcm_set_ctx_params ctx_enc_active params_fixed_iv).2.ivlen = ctx_enc_active.ivlen :=
  ⟨⟨(((C11_active_nonce_replacement ctx_enc_active (by decide)).1 none 0
        (List.replicate 100 7) 100 true).1 (by decide)).1,
    (((C11_active_nonce_replacement ctx_enc_active (by decide)).1 none 0
        (List.replicate 100 7) 100 true).1 (by decide)).2.1⟩,
   ⟨(((C11_active_nonce_replacement ctx_enc_active (by decide)).1 none 0
        (List.replicate 12 7) 12 true).2 (by decide)).1,
    (((C11_active_nonce_replacement ctx_enc_active (by decide)).1 none 0
        (List.replicate 12 7) 12 true).2 (by decide)).2.2⟩,
   ((C11_active_nonce_replacement ctx_enc_active (by decide)).2.1 (params_ivlen 16) rfl).1,
   (C11_active_nonce_replacement ctx_enc_active (by decide)).2.2 params_fixed_iv rfl⟩

/-! ## C12 -/

/-- C12: a `gcm_stream_update` or `gcm_cipher` call with `outsize < inl` returns -1
and leaves the context exactly as it was; in particular the trace of external
calls is unchanged (no primitive operation, no call to the random source), and
so are the nonce state, the TLS AAD marker and the record counter.  The bytes
of the output buffer are as they were and nothing is stored through `outl`. -/
theorem C12_output_too_small (ctx : PROV_GCM_CTX σ ρ) (out inp : Option Buf)
    (outsize inl : Nat) (h : outsize < inl) :
    ((gcm_stream_update ctx out outsize inp inl).rv = -1
      ∧ (gcm_stream_update ctx out outsize inp inl).ctx = ctx
      ∧ (gcm_stream_update ctx out outsize inp inl).ctx.trace = ctx.trace
      ∧ (gcm_stream_update ctx out outsize inp inl).out = contents out
      ∧ (gcm_stream_update ctx out outsize inp inl).outl = none)
    ∧ ((gcm_cipher ctx out outsize inp inl).rv = -1
      ∧ (gcm_cipher ctx out outsize inp inl).ctx = ctx
      ∧ (gcm_cipher ctx out outsize inp inl).ctx.trace = ctx.trace
      ∧ (gcm_cipher ctx out outsize inp inl).out = contents out
      ∧ (gcm_cipher ctx out outsize inp inl).outl = none) := by
  rw [stream_update_small ctx out inp outsize inl h, cipher_small ctx out inp outsize inl h]
  exact ⟨⟨rfl, rfl, rfl, rfl, rfl⟩, rfl, rfl, rfl, rfl, rfl⟩

/-- C12 on a context ready for a TLS record, with room for 23 bytes and a 24-byte
record. -/
theorem C12_output_too_small_witness :
    ((gcm_stream_update ctx_tls_enc (some sample_record) 23 (some sample_record) 24).rv = -1
      ∧ (gcm_stream_update ctx_tls_enc (some sample_record) 23 (some sample_record) 24).ctx
          = ctx_tls_enc
      ∧ (gcm_stream_update ctx_tls_enc (some sample_record) 23 (some sample_record) 24).ctx.trace
          = ctx_tls_enc.trace
      ∧ (gcm_stream_update ctx_tls_enc (some sample_record) 23 (some sample_record) 24).out
          = contents (some sample_record)
      ∧ (gcm_stream_update ctx_tls_enc (some sample_record) 23 (some sample_record) 24).outl
          = none)
    ∧ ((gcm_cipher ctx_tls_enc (some sample_record) 23 (some sample_record) 24).rv = -1
      ∧ (gcm_cipher ctx_tls_enc (some sample_record) 23 (some sample_record) 24).ctx
          = ctx_tls_enc
      ∧ (gcm_cipher ctx_tls_enc (some sample_record) 23 (some sample_record) 24).ctx.trace
          = ctx_tls_enc.trace
      ∧ (gcm_cipher ctx_tls_enc (some sample_record) 23 (some sample_record) 24).out
          = contents (some sample_record)
      ∧ (gcm_cipher ctx_tls_enc (some sample_record) 23 (some sample_record) 24).outl = none) :=
  C12_output_too_small ctx_tls_enc (some sample_record) (some sample_record) 23 24 (by decide)

/-! ## C13 -/

/-- C13: in generic mode (`tls_aad_len` unset), a `gcm_stream_update` call with
`in != NULL` and `out != NULL` that returns 1 stores `inl` through `outl`,
whatever `inl` is, and the external calls it makes are: calls to the random
source and to `setiv` (binding the nonce), followed by exactly one
`cipherupdate`, on the caller's input and `inl` bytes. -/
theorem C13_update_length_preserved (ctx : PROV_GCM_CTX σ ρ) (ob ib : Buf) (outsize inl : Nat)
    (ht : ctx.tls_aad_len = UNINITIALISED_SIZET)
    (hrv : (gcm_stream_update ctx (some ob) outsize (some ib) inl).rv = 1) :
    (gcm_stream_update ctx (some ob) outsize (some ib) inl).outl = some inl
    ∧ ∃ pre, (gcm_stream_update ctx (some ob) outsize (some ib) inl).ctx.trace
          = ctx.trace ++ pre ++ [Call.cipherupdate ib.bytes inl]
        ∧ ∀ c ∈ pre, c.isRand = true ∨ c.isSetiv = true := by
  have hsz : inl ≤ outsize := by
    by_cases h : outsize < inl
    · rw [stream_update_small ctx (some ob) (some ib) outsize inl h] at hrv
      have hrv2 : (-1 : Int) = 1 := hrv
      exact absurd hrv2 (by decide)
    · omega
  rw [stream_update_rv ctx (some ob) (some ib) outsize inl hsz] at hrv
  have hne : (gcm_cipher_internal ctx (some ob) (some ib) inl).rv ≠ 0 := by
    intro h0
    rw [h0, if_pos (le_refl (0 : Int))] at hrv
    exact absurd hrv (by decide)
  rw [stream_update_outl ctx (some ob) (some ib) outsize inl hsz,
    stream_update_ctx ctx (some ob) (some ib) outsize inl hsz]
  have e := gcm_cipher_internal_generic_success ctx (some ob) (some ib) inl ht hne
  rw [e] at hne ⊢
  obtain ⟨p1, t1, m1⟩ := generic_generate_trace ctx
  obtain ⟨p2, t2, m2⟩ := generic_bind_trace (generic_generate ctx).2
  obtain ⟨a1, _, _, a4⟩ := generic_absorb_data (generic_bind (generic_generate ctx).2).2 ob ib inl
  generalize generic_generate ctx = g at t1 t2 a1 a4 hne ⊢
  generalize generic_bind g.2 = b at t2 a1 a4 hne ⊢
  refine ⟨by rw [a4 hne], p1 ++ p2, ?_, ?_⟩
  · rw [a1, t2, t1]; simp only [List.append_assoc]
  · intro c hc
    rcases List.mem_append.mp hc with h | h
    · exact Or.inl (m1 c h)
    · exact Or.inr (m2 c h)

set_option maxRecDepth 100000 in
/-- C13 on a context with an operation in progress and a 3-byte chunk. -/
theorem C13_update_length_preserved_witness :
    (gcm_stream_update ctx_enc_active (some sample_room) 3 (some sample_chunk) 3).outl = some 3
    ∧ ∃ pre, (gcm_stream_update ctx_enc_active (some sample_room) 3 (some sample_chunk) 3).ctx.trace
          = ctx_enc_active.trace ++ pre ++ [Call.cipherupdate sample_chunk.bytes 3]
        ∧ ∀ c ∈ pre, c.isRand = true ∨ c.isSetiv = true :=
  C13_update_length_preserved ctx_enc_active sample_room sample_chunk 3 3 (by decide) (by decide)

/-! ## C14 -/

/-- C14: `gcm_tls_cipher` called with `out != in` or with `len < 24` returns 0, in
either direction (`ctx.enc` is arbitrary): the trace of external calls is
unchanged (no primitive operation is invoked), the bytes of the record buffer
are as they were, the stored nonce and the record counter are unchanged, and 0
is stored through `padlen`. -/
theorem C14_tls_malformed_record (ctx : PROV_GCM_CTX σ ρ) (out inp : Option Buf) (len : Nat)
    (h : ptr out ≠ ptr inp ∨ len < 24) :
    (gcm_tls_cipher ctx out inp len).rv = 0
    ∧ (gcm_tls_cipher ctx out inp len).ctx.trace = ctx.trace
    ∧ (gcm_tls_cipher ctx out inp len).out = contents out
    ∧ (gcm_tls_cipher ctx out inp len).ctx.iv = ctx.iv
    ∧ (gcm_tls_cipher ctx out inp len).ctx.tls_enc_records = ctx.tls_enc_records
    ∧ (gcm_tls_cipher ctx out inp len).padlen = 0 := by
  rw [gcm_tls_cipher_malformed ctx out inp len h]
  exact ⟨rfl, rfl, rfl, rfl, rfl, rfl⟩

/-- C14 on the encrypting side with two distinct buffers, and on the decrypting side
with an in-place record of 23 bytes. -/
theorem C14_tls_malformed_record_witness :
    ((gcm_tls_cipher ctx_tls_enc (some sample_record) (some sample_chunk) 24).rv = 0
      ∧ (gcm_tls_cipher ctx_tls_enc (some sample_record) (some sample_chunk) 24).ctx.trace
          = ctx_tls_enc.trace
      ∧ (gcm_tls_cipher ctx_tls_enc (some sample_record) (some sample_chunk) 24).out
          = contents (some sample_record)
      ∧ (gcm_tls_cipher ctx_tls_enc (some sample_record) (some sample_chunk) 24).ctx.iv
          = ctx_tls_enc.iv
      ∧ (gcm_tls_cipher ctx_tls_enc (some sample_record) (some sample_chunk) 24).ctx.tls_enc_records
          = ctx_tls_enc.tls_enc_records
      ∧ (gcm_tls_cipher ctx_tls_enc (some sample_record) (some sample_chunk) 24).padlen = 0)
    ∧ ((gcm_tls_cipher ctx_tls_dec (some sample_record_in) (some sample_record_in) 23).rv = 0
      ∧ (gcm_tls_cipher ctx_tls_dec (some sample_record_in) (some sample_record_in) 23).ctx.trace
          = ctx_tls_dec.trace
      ∧ (gcm_tls_cipher ctx_tls_dec (some sample_record_in) (some sample_record_in) 23).out
          = contents (some sample_record_in)
      ∧ (gcm_tls_cipher ctx_tls_dec (some sample_record_in) (some sample_record_in) 23).ctx.iv
          = ctx_tls_dec.iv
      ∧ (gcm_tls_cipher ctx_tls_dec (some sample_record_in) (some sample_record_in)
          23).ctx.tls_enc_records = ctx_tls_dec.tls_enc_records
      ∧ (gcm_tls_cipher ctx_tls_dec (some sample_record_in) (some sample_record_in) 23).padlen
          = 0) :=
  ⟨C14_tls_malformed_record ctx_tls_enc (some sample_record) (some sample_chunk) 24
      (Or.inl (by decide)),
   C14_tls_malformed_record ctx_tls_dec (some sample_record_in) (some sample_record_in) 23
      (Or.inr (by decide))⟩

/-! ## C15 -/

/-- C15: on the encrypting side, with the key set, an in-place record of at least 24
bytes and `tls_enc_records = 2^64 - 1`, `gcm_tls_cipher` returns 0 with the
counter wrapped to 0, the trace of external calls unchanged (no primitive
operation is invoked), the bytes of the record as they were and the stored
nonce unchanged.  On the decrypting side `gcm_tls_cipher` leaves
`tls_enc_records` unchanged, whatever its arguments. -/
theorem C15_record_counter_wrap (ctx : PROV_GCM_CTX σ ρ) (out inp : Option Buf) (len : Nat) :
    (ctx.enc = true → ctx.key_set = true → ptr out = ptr inp → 24 ≤ len →
      ctx.tls_enc_records = 2 ^ 64 - 1 →
        (gcm_tls_cipher ctx out inp len).rv = 0
        ∧ (gcm_tls_cipher ctx out inp len).ctx.tls_enc_records = 0
        ∧ (gcm_tls_cipher ctx out inp len).ctx.trace = ctx.trace
        ∧ (gcm_tls_cipher ctx out inp len).out = contents out
        ∧ (gcm_tls_cipher ctx out inp len).ctx.iv = ctx.iv)
    ∧ (ctx.enc = false →
        (gcm_tls_cipher ctx out inp len).ctx.tls_enc_records = ctx.tls_enc_records) := by
  refine ⟨?_, gcm_tls_cipher_dec_records ctx out inp len⟩
  intro he hk hp hl hc
  have h1 : ¬ ctx.key_set = false := by rw [hk]; exact fun e => Bool.noConfusion e
  have h2 : ¬ (ptr out ≠ ptr inp ∨ len < EVP_GCM_TLS_EXPLICIT_IV_LEN + EVP_GCM_TLS_TAG_LEN) := by
    rintro (h | h)
    · exact h hp
    · have : EVP_GCM_TLS_EXPLICIT_IV_LEN + EVP_GCM_TLS_TAG_LEN = 24 := rfl
      omega
  have hw : (tls_count_record ctx).tls_enc_records = 0 := by
    rw [tls_count_record_enc ctx he, hc, wrap_last]
  have hf := tls_count_record_fields ctx
  rw [gcm_tls_cipher, if_neg h1, if_neg h2, if_pos ⟨he, hw⟩]
  generalize tls_count_record ctx = c1 at hw hf
  exact ⟨rfl, hw, hf.2.2.2.2.2, rfl, hf.1⟩

set_option maxRecDepth 100000 in
/-- C15 on `ctx_tls_enc_last` (counter pre-seeded to `2^64 - 1`) and, for the
decrypting side, on `ctx_tls_dec`. -/
theorem C15_record_counter_wrap_witness :
    ((gcm_tls_cipher ctx_tls_enc_last (some sample_record) (some sample_record) 24).rv = 0
      ∧ (gcm_tls_cipher ctx_tls_enc_last (some sample_record) (some sample_record)
          24).ctx.tls_enc_records = 0
      ∧ (gcm_tls_cipher ctx_tls_enc_last (some sample_record) (some sample_record) 24).ctx.trace
          = ctx_tls_enc_last.trace
      ∧ (gcm_tls_cipher ctx_tls_enc_last (some sample_record) (some sample_record) 24).out
          = contents (some sample_record)
      ∧ (gcm_tls_cipher ctx_tls_enc_last (some sample_record) (some sample_record) 24).ctx.iv
          = ctx_tls_enc_last.iv)
    ∧ (gcm_tls_cipher ctx_tls_dec (some sample_record_in) (some sample_record_in)
          24).ctx.tls_enc_records = ctx_tls_dec.tls_enc_records :=
  ⟨(C15_record_counter_wrap ctx_tls_enc_last (some sample_record) (some sample_record) 24).1
      (by decide) (by decide) (by decide) (by decide) (by decide),
   (C15_record_counter_wrap ctx_tls_dec (some sample_record_in) (some sample_record_in) 24).2
      (by decide)⟩

/-! ## C16 -/

set_option maxRecDepth 100000 in
/-- C16 (as stated) fails.  On `ctx_tls_enc_last` (counter `2^64 - 1`) the update on
an in-place 24-byte record fails with the counter wrapped to 0.  Nothing
records that failure: after the tls-record-aad parameter is set again (the
counter is still 0) the same update returns 1, calls `setiv` and `oneshot` and
leaves the counter at 1. -/
theorem C16_counterexample :
    (ctx_tls_enc_last.enc = true ∧ ctx_tls_enc_last.key_set = true
      ∧ ctx_tls_enc_last.tls_enc_records = 2 ^ 64 - 1)
    ∧ ((gcm_stream_update ctx_tls_enc_last (some sample_record) 24 (some sample_record) 24).rv = -1
      ∧ (gcm_stream_update ctx_tls_enc_last (some sample_record) 24 (some sample_record)
          24).ctx.tls_enc_records = 0
      ∧ (gcm_stream_update ctx_tls_enc_last (some sample_record) 24 (some sample_record)
          24).ctx.trace = ctx_tls_enc_last.trace)
    ∧ ((gcm_set_ctx_params
          (run ctx_tls_enc_last
            [Op.stream_update (some sample_record) 24 (some sample_record) 24])
          (params_tls_aad 8)).1 = 1
      ∧ (run ctx_tls_enc_last
          [Op.stream_update (some sample_record) 24 (some sample_record) 24,
           Op.set_ctx_params (params_tls_aad 8)]).tls_enc_records = 0)
    ∧ ((gcm_stream_update
          (run ctx_tls_enc_last
            [Op.stream_update (some sample_record) 24 (some sample_record) 24,
             Op.set_ctx_params (params_tls_aad 8)])
          (some sample_record) 24 (some sample_record) 24).rv = 1
      ∧ ((gcm_stream_update
          (run ctx_tls_enc_last
            [Op.stream_update (some sample_record) 24 (some sample_record) 24,
             Op.set_ctx_params (params_tls_aad 8)])
          (some sample_record) 24 (some sample_record) 24).ctx.trace.drop
            ctx_tls_enc_last.trace.length).map Call.isSetiv = [true, false]
      ∧ (gcm_stream_update
          (run ctx_tls_enc_last
            [Op.stream_update (some sample_record) 24 (some sample_record) 24,
             Op.set_ctx_params (params_tls_aad 8)])
          (some sample_record) 24 (some sample_record) 24).ctx.tls_enc_records = 1) := by
  refine ⟨⟨by decide, by decide, by decide⟩, ⟨by decide, by decide, by decide⟩,
    ⟨by decide, by decide⟩, by decide, by decide, by decide⟩

/-- C16 (amended): a TLS encrypt call (`gcm_tls_cipher` with the key set, an in-place
record of at least 24 bytes) made with `tls_enc_records = 2^64 - 1` fails and
leaves the counter at 0, the nonce state FINISHED and the TLS AAD marker
cleared; from there every `gcm_stream_update`, `gcm_cipher` and
`gcm_stream_final` call of a sequence of public calls fails (-1, -1 and 0), as
long as no call of the sequence sets the tls-record-aad parameter or
re-supplies a nonce. -/
theorem C16_exhaustion_until_next_aad (ctx : PROV_GCM_CTX σ ρ) (out inp : Option Buf)
    (len : Nat) (ops : List (Op σ ρ))
    (he : ctx.enc = true) (hk : ctx.key_set = true) (hp : ptr out = ptr inp) (hl : 24 ≤ len)
    (hc : ctx.tls_enc_records = 2 ^ 64 - 1)
    (hn : ∀ op ∈ ops, op.supplies_nonce = false ∧ op.sets_tls_aad = false) :
    (gcm_tls_cipher ctx out inp len).rv = 0
    ∧ (gcm_tls_cipher ctx out inp len).ctx.tls_enc_records = 0
    ∧ (gcm_tls_cipher ctx out inp len).ctx.iv_state = IV_STATE.FINISHED
    ∧ (gcm_tls_cipher ctx out inp len).ctx.tls_aad_len = UNINITIALISED_SIZET
    ∧ ∀ pre op post, ops = pre ++ op :: post →
        op.cipher_failure (op.apply (run (gcm_tls_cipher ctx out inp len).ctx pre)).1 := by
  have hst := gcm_tls_cipher_state ctx out inp len
  have hfail : (gcm_tls_cipher ctx out inp len).rv = 0
      ∧ (gcm_tls_cipher ctx out inp len).ctx.tls_enc_records = 0 := by
    have h1 : ¬ ctx.key_set = false := by rw [hk]; exact fun e => Bool.noConfusion e
    have h2 : ¬ (ptr out ≠ ptr inp
        ∨ len < EVP_GCM_TLS_EXPLICIT_IV_LEN + EVP_GCM_TLS_TAG_LEN) := by
      rintro (h | h)
      · exact h hp
      · have : EVP_GCM_TLS_EXPLICIT_IV_LEN + EVP_GCM_TLS_TAG_LEN = 24 := rfl
        omega
    have hw : (tls_count_record ctx).tls_enc_records = 0 := by
      rw [tls_count_record_enc ctx he, hc, wrap_last]
    rw [gcm_tls_cipher, if_neg h1, if_neg h2, if_pos ⟨he, hw⟩]
    generalize tls_count_record ctx = c1 at hw
    exact ⟨rfl, hw⟩
  exact ⟨hfail.1, hfail.2, hst.1, hst.2,
    finished_run_fails ops (gcm_tls_cipher ctx out inp len).ctx hst.1 hst.2 hn⟩

set_option maxRecDepth 100000 in
/-- C16 (amended) on `ctx_tls_enc_last`: after the failed record, an update, a
nonce-length set and a final all fail. -/
theorem C16_exhaustion_until_next_aad_witness :
    (gcm_tls_cipher ctx_tls_enc_last (some sample_record) (some sample_record) 24).rv = 0
    ∧ (gcm_tls_cipher ctx_tls_enc_last (some sample_record) (some sample_record)
        24).ctx.tls_enc_records = 0
    ∧ (Op.stream_update (σ := Unit) (ρ := Nat) (some sample_record) 24 (some sample_record)
        24).cipher_failure
        ((Op.stream_update (some sample_record) 24 (some sample_record) 24).apply
          (run (gcm_tls_cipher ctx_tls_enc_last (some sample_record) (some sample_record)
            24).ctx [])).1
    ∧ (Op.stream_final (σ := Unit) (ρ := Nat) none 0).cipher_failure
        ((Op.stream_final none 0).apply
          (run (gcm_tls_cipher ctx_tls_enc_last (some sample_record) (some sample_record)
            24).ctx
            [Op.stream_update (some sample_record) 24 (some sample_record) 24,
             Op.set_ctx_params (params_ivlen 12)])).1 :=
  ⟨(C16_exhaustion_until_next_aad ctx_tls_enc_last (some sample_record) (some sample_record) 24
      [Op.stream_update (some sample_record) 24 (some sample_record) 24,
       Op.set_ctx_params (params_ivlen 12), Op.stream_final none 0]
      (by decide) (by decide) (by decide) (by decide) (by decide)
      (by
        intro op hop
        simp only [List.mem_cons, List.mem_singleton, List.not_mem_nil, or_false] at hop
        rcases hop with h | h | h <;> subst h <;> exact ⟨rfl, rfl⟩)).1,
   (C16_exhaustion_until_next_aad ctx_tls_enc_last (some sample_record) (some sample_record) 24
      [Op.stream_update (some sample_record) 24 (some sample_record) 24,
       Op.set_ctx_params (params_ivlen 12), Op.stream_final none 0]
      (by decide) (by decide) (by decide) (by decide) (by decide)
      (by
        intro op hop
        simp only [List.mem_cons, List.mem_singleton, List.not_mem_nil, or_false] at hop
        rcases hop with h | h | h <;> subst h <;> exact ⟨rfl, rfl⟩)).2.1,
   (C16_exhaustion_until_next_aad ctx_tls_enc_last (some sample_record) (some sample_record) 24
      [Op.stream_update (some sample_record) 24 (some sample_record) 24,
       Op.set_ctx_params (params_ivlen 12), Op.stream_final none 0]
      (by decide) (by decide) (by decide) (by decide) (by decide)
      (by
        intro op hop
        simp only [List.mem_cons, List.mem_singleton, List.not_mem_nil, or_false] at hop
        rcases hop with h | h | h <;> subst h <;> exact ⟨rfl, rfl⟩)).2.2.2.2 []
      (Op.stream_update (some sample_record) 24 (some sample_record) 24)
      [Op.set_ctx_params (params_ivlen 12), Op.stream_final none 0] rfl,
   (C16_exhaustion_until_next_aad ctx_tls_enc_last (some sample_record) (some sample_record) 24
      [Op.stream_update (some sample_record) 24 (some sample_record) 24,
       Op.set_ctx_params (params_ivlen 12), Op.stream_final none 0]
      (by decide) (by decide) (by decide) (by decide) (by decide)
      (by
        intro op hop
        simp only [List.mem_cons, List.mem_singleton, List.not_mem_nil, or_false] at hop
        rcases hop with h | h | h <;> subst h <;> exact ⟨rfl, rfl⟩)).2.2.2.2
      [Op.stream_update (some sample_record) 24 (some sample_record) 24,
       Op.set_ctx_params (params_ivlen 12)]
      (Op.stream_final none 0) [] rfl⟩

/-! ## C17 -/

set_option maxRecDepth 100000 in
/-- C17, the code evaluated at the failing input: `ctx_after_tls_record` has
processed one TLS encrypt record and its counter is 1.  Setting the
tls-record-aad parameter for the next record returns 1 and puts the counter
back to 0 (line 362 of `gcm_tls_init`), so after the second record, whose
update returns 1, the counter is 1 and not 2. -/
theorem C17_record_counter_is_reset :
    ctx_after_tls_record.tls_enc_records = 1
    ∧ (gcm_set_ctx_params ctx_after_tls_record (params_tls_aad 8)).1 = 1
    ∧ (gcm_set_ctx_params ctx_after_tls_record (params_tls_aad 8)).2.tls_enc_records = 0
    ∧ (gcm_stream_update (gcm_set_ctx_params ctx_after_tls_record (params_tls_aad 8)).2
        (some sample_record) 24 (some sample_record) 24).rv = 1
    ∧ (run ctx_new
        [Op.einit (some sample_key) 16 none 0,
         Op.set_ctx_params params_fixed_iv,
         Op.set_ctx_params (params_tls_aad 8),
         Op.stream_update (some sample_record) 24 (some sample_record) 24,
         Op.set_ctx_params (params_tls_aad 8),
         Op.stream_update (some sample_record) 24 (some sample_record) 24]).tls_enc_records
        = 1 := by
  refine ⟨by decide, by decide, by decide, by decide, by decide⟩

/-! ## C18 -/

set_option maxRecDepth 100000 in
/-- C18 (as stated) fails when `setiv` reports failure.  `ctx_tls_reject` passes the
checks of `gcm_tls_cipher` (key set, encrypting, auto-generation on, counter 0)
and holds a 12-byte nonce whose last 8 bytes are `01 .. 08`.  On an in-place
24-byte record of zeros `setiv` is called with that nonce and returns 0: the
call returns 0, the first 8 bytes of the record are still zero and the stored
nonce is unchanged (its last 8 bytes were not incremented). -/
theorem C18_counterexample :
    (ctx_tls_reject.key_set = true ∧ ctx_tls_reject.enc = true ∧ ctx_tls_reject.iv_gen = true
      ∧ ctx_tls_reject.tls_enc_records = 0 ∧ ctx_tls_reject.ivlen = 12)
    ∧ (gcm_tls_cipher ctx_tls_reject (some sample_record) (some sample_record) 24).ctx.trace
        = ctx_tls_reject.trace ++ [Call.setiv ctx_tls_reject.iv 12]
    ∧ (gcm_tls_cipher ctx_tls_reject (some sample_record) (some sample_record) 24).rv = 0
    ∧ (ctx_tls_reject.iv.drop 4).take 8 = [1, 2, 3, 4, 5, 6, 7, 8]
    ∧ (gcm_tls_cipher ctx_tls_reject (some sample_record) (some sample_record) 24).out.take 8
        = [0, 0, 0, 0, 0, 0, 0, 0]
    ∧ (gcm_tls_cipher ctx_tls_reject (some sample_record) (some sample_record) 24).ctx.iv
        = ctx_tls_reject.iv := by
  refine ⟨⟨by decide, by decide, by decide, by decide, by decide⟩, by decide, by decide,
    by decide, by decide, by decide⟩

/-- C18 (amended): on an encrypting `gcm_tls_cipher` call that passes the checks
(key set, in place, `len >= 24`, counter not wrapped, auto-generation on), with
stored nonce `N` of length `8 <= ivlen <= sizeof(iv)`, the first external call
is `setiv(N, ivlen)` and no other `setiv` follows.  If `setiv` reports success,
bytes `[0, 8)` of the record become `N[ivlen-8 .. ivlen)` and the stored nonce
becomes `N` with its bytes `[ivlen-8, ivlen)` replaced by `ctr64_inc` of them:
8 bytes whose big-endian value is the old value plus one modulo `2^64`.  If
`setiv` reports failure the call returns 0 with the record and the stored
nonce as they were. -/
theorem C18_tls_encrypt_nonce (ctx : PROV_GCM_CTX σ ρ) (out inp : Option Buf) (len : Nat)
    (hk : ctx.key_set = true) (he : ctx.enc = true) (hp : ptr out = ptr inp) (hl : 24 ≤ len)
    (hc : (tls_count_record ctx).tls_enc_records ≠ 0) (hg : ctx.iv_gen = true)
    (h8 : 8 ≤ ctx.ivlen) (hcap : ctx.ivlen ≤ ctx.iv.length) (hb : ∀ x ∈ ctx.iv, x < 256)
    (hr : 8 ≤ (contents out).length) :
    (∃ tail, (gcm_tls_cipher ctx out inp len).ctx.trace
          = ctx.trace ++ Call.setiv ctx.iv ctx.ivlen :: tail
        ∧ ∀ c ∈ tail, c.isSetiv = false)
    ∧ ((ctx.hw.setiv ctx.gcm ctx.iv ctx.ivlen).rv ≠ 0 →
        (gcm_tls_cipher ctx out inp len).out.take 8 = (ctx.iv.drop (ctx.ivlen - 8)).take 8
        ∧ (gcm_tls_cipher ctx out inp len).ctx.iv
            = ctx.iv.take (ctx.ivlen - 8) ++ ctr64_inc ((ctx.iv.drop (ctx.ivlen - 8)).take 8)
                ++ ctx.iv.drop ctx.ivlen
        ∧ (ctr64_inc ((ctx.iv.drop (ctx.ivlen - 8)).take 8)).length = 8
        ∧ (∀ x ∈ ctr64_inc ((ctx.iv.drop (ctx.ivlen - 8)).take 8), x < 256)
        ∧ be_value (ctr64_inc ((ctx.iv.drop (ctx.ivlen - 8)).take 8))
            = (be_value ((ctx.iv.drop (ctx.ivlen - 8)).take 8) + 1) % 2 ^ 64)
    ∧ ((ctx.hw.setiv ctx.gcm ctx.iv ctx.ivlen).rv = 0 →
        (gcm_tls_cipher ctx out inp len).rv = 0
        ∧ (gcm_tls_cipher ctx out inp len).out = contents out
        ∧ (gcm_tls_cipher ctx out inp len).ctx.iv = ctx.iv) := by
  have hlen : ((ctx.iv.drop (ctx.ivlen - 8)).take 8).length = 8 := by
    rw [List.length_take, List.length_drop]; omega
  have hctr := ctr64_inc_spec ((ctx.iv.drop (ctx.ivlen - 8)).take 8) hlen
    (fun x hx => hb x (mem_take_drop hx))
  have hchk : ¬ (ctx.enc = true ∧ (tls_count_record ctx).tls_enc_records = 0) :=
    fun h => hc h.2
  rw [gcm_tls_cipher_checked ctx out inp len hk hp hl hchk hg]
  obtain ⟨f1, f2, f3, f4, f5, f6⟩ := tls_count_record_fields ctx
  have hrv := hw_setiv_rv (tls_count_record ctx)
  rw [f3, f4, f1, f2] at hrv
  generalize tls_count_record ctx = c1 at f1 f2 f3 f4 f5 f6 hrv ⊢
  by_cases hs : (ctx.hw.setiv ctx.gcm ctx.iv ctx.ivlen).rv = 0
  · have hs1 : (hw_setiv c1).1 = 0 := hrv.trans hs
    have ht : (hw_setiv c1).2.trace = ctx.trace ++ [Call.setiv ctx.iv ctx.ivlen] := by
      rw [(hw_setiv_fields c1).2.2.2.1, f6, f1, f2]
    have hi : (hw_setiv c1).2.iv = ctx.iv := (hw_setiv_fields c1).1.trans f1
    rw [tls_bind_iv_enc_fail c1 (contents out) (he ▸ f5) hs1, pair_fst, pair_snd, pair_fst,
      pair_snd, if_pos rfl]
    obtain ⟨e1, _, e3, e4⟩ := err_fields 0 (hw_setiv c1).2 (contents out) 0
    rw [e1, e3, e4, err_rv]
    exact ⟨⟨[], ht, by simp⟩, fun h => absurd hs h, fun _ => ⟨rfl, rfl, hi⟩⟩
  · have hs1 : (hw_setiv c1).1 ≠ 0 := fun h => hs (hrv.symm.trans h)
    obtain ⟨b1, b2, b3, _, b5⟩ := tls_bind_iv_enc c1 (contents out) (he ▸ f5) hs1
      (by rw [f2]; exact h8) (by rw [f2, f1]; exact hcap) hr
    rw [f1, f2] at b2 b5
    rw [f1, f2, f6] at b3
    rw [if_neg b1]
    obtain ⟨s1, _, ⟨call, s3, s3n⟩, s4⟩ := tls_seal_open_effect
      (tls_bind_iv c1 (contents out)).2.1 (tls_bind_iv c1 (contents out)).2.2 len
    generalize tls_bind_iv c1 (contents out) = b at b2 b3 b5 s1 s3 s4 ⊢
    generalize tls_seal_open b.2.1 b.2.2 len = r at s1 s3 s4 ⊢
    refine ⟨⟨[call], ?_, ?_⟩, fun _ => ⟨s4.trans b5, s1.trans b2, hctr⟩, fun h => absurd h hs⟩
    · rw [s3, b3, List.append_assoc]; rfl
    · intro c hcm
      rw [List.mem_singleton.mp hcm]
      exact s3n

set_option maxRecDepth 100000 in
/-- C18 (amended) on `ctx_tls_enc` (12-byte nonce, last 8 bytes `01 .. 08`) and an
in-place 24-byte record: the record starts with the 8 trailing nonce bytes and
the stored nonce is advanced by one. -/
theorem C18_tls_encrypt_nonce_witness :
    (gcm_tls_cipher ctx_tls_enc (some sample_record) (some sample_record) 24).out.take 8
        = (ctx_tls_enc.iv.drop (ctx_tls_enc.ivlen - 8)).take 8
    ∧ (gcm_tls_cipher ctx_tls_enc (some sample_record) (some sample_record) 24).ctx.iv
        = ctx_tls_enc.iv.take (ctx_tls_enc.ivlen - 8)
            ++ ctr64_inc ((ctx_tls_enc.iv.drop (ctx_tls_enc.ivlen - 8)).take 8)
            ++ ctx_tls_enc.iv.drop ctx_tls_enc.ivlen
    ∧ be_value (ctr64_inc ((ctx_tls_enc.iv.drop (ctx_tls_enc.ivlen - 8)).take 8))
        = (be_value ((ctx_tls_enc.iv.drop (ctx_tls_enc.ivlen - 8)).take 8) + 1) % 2 ^ 64 :=
  ⟨((C18_tls_encrypt_nonce ctx_tls_enc (some sample_record) (some sample_record) 24
      (by decide) (by decide) (by decide) (by decide) (by decide) (by decide) (by decide)
      (by decide) (by decide) (by decide)).2.1 (by decide)).1,
   ((C18_tls_encrypt_nonce ctx_tls_enc (some sample_record) (some sample_record) 24
      (by decide) (by decide) (by decide) (by decide) (by decide) (by decide) (by decide)
      (by decide) (by decide) (by decide)).2.1 (by decide)).2.1,
   ((C18_tls_encrypt_nonce ctx_tls_enc (some sample_record) (some sample_record) 24
      (by decide) (by decide) (by decide) (by decide) (by decide) (by decide) (by decide)
      (by decide) (by decide) (by decide)).2.1 (by decide)).2.2.2.2⟩

/-! ## C19 -/

/-- C19: for every array `b` of 8 bytes, `ctr64_inc b` is again 8 bytes and, read as
a big-endian integer, is `(BE(b) + 1) mod 2^64`; `FF FF FF FF FF FF FF FF`
becomes all zeros; and the loop executes the assignment `counter[n] = c` at
least once and at most 8 times (the counted loop computes the same array). -/
theorem C19_ctr64_inc_big_endian (b : List Nat) (hlen : b.length = 8)
    (hb : ∀ x ∈ b, x < 256) :
    (ctr64_inc b).length = 8
    ∧ (∀ x ∈ ctr64_inc b, x < 256)
    ∧ be_value (ctr64_inc b) = (be_value b + 1) % 2 ^ 64
    ∧ ctr64_inc [255, 255, 255, 255, 255, 255, 255, 255] = [0, 0, 0, 0, 0, 0, 0, 0]
    ∧ (ctr64_inc_loop_counted b 8).1 = ctr64_inc b
    ∧ 1 ≤ (ctr64_inc_loop_counted b 8).2
    ∧ (ctr64_inc_loop_counted b 8).2 ≤ 8 := by
  obtain ⟨h1, h3, h4⟩ := ctr64_inc_spec b hlen hb
  exact ⟨h1, h3, h4, by decide, (ctr64_inc_loop_counted_eq 8 b).1,
    ctr64_inc_loop_counted_pos 8 b (by decide), (ctr64_inc_loop_counted_eq 8 b).2⟩

/-- C19 at `00 00 00 00 00 00 01 FF`. -/
theorem C19_ctr64_inc_big_endian_witness :
    (ctr64_inc [0, 0, 0, 0, 0, 0, 1, 255]).length = 8
    ∧ (∀ x ∈ ctr64_inc [0, 0, 0, 0, 0, 0, 1, 255], x < 256)
    ∧ be_value (ctr64_inc [0, 0, 0, 0, 0, 0, 1, 255])
        = (be_value [0, 0, 0, 0, 0, 0, 1, 255] + 1) % 2 ^ 64
    ∧ ctr64_inc [255, 255, 255, 255, 255, 255, 255, 255] = [0, 0, 0, 0, 0, 0, 0, 0]
    ∧ (ctr64_inc_loop_counted [0, 0, 0, 0, 0, 0, 1, 255] 8).1
        = ctr64_inc [0, 0, 0, 0, 0, 0, 1, 255]
    ∧ 1 ≤ (ctr64_inc_loop_counted [0, 0, 0, 0, 0, 0, 1, 255] 8).2
    ∧ (ctr64_inc_loop_counted [0, 0, 0, 0, 0, 0, 1, 255] 8).2 ≤ 8 :=
  C19_ctr64_inc_big_endian [0, 0, 0, 0, 0, 0, 1, 255] (by decide) (by decide)

/-! ## C20 -/

/-- C20: on a decrypting `gcm_tls_cipher` call that passes the checks (key set, in
place, `len >= 24`, auto-generation on), with stored nonce `N` of length
`8 <= ivlen <= sizeof(iv)` and record `R`: the stored nonce becomes `N` with its
bytes `[ivlen-8, ivlen)` replaced by `R[0 .. 8)`, so its first `ivlen` bytes are
`N[0 .. ivlen-8)` followed by `R[0 .. 8)`; the first external call is `setiv`
with exactly that nonce and `ivlen` (the copy comes first) and no other `setiv`
follows; the bytes copied are not incremented; `ivlen` and the record counter
are unchanged.  This holds whatever `setiv` and `oneshot` report. -/
theorem C20_tls_decrypt_nonce (ctx : PROV_GCM_CTX σ ρ) (out inp : Option Buf) (len : Nat)
    (hk : ctx.key_set = true) (he : ctx.enc = false) (hp : ptr out = ptr inp) (hl : 24 ≤ len)
    (hg : ctx.iv_gen = true) (h8 : 8 ≤ ctx.ivlen) (hcap : ctx.ivlen ≤ ctx.iv.length)
    (hr : 8 ≤ (contents out).length) :
    (gcm_tls_cipher ctx out inp len).ctx.iv
        = ctx.iv.take (ctx.ivlen - 8) ++ (contents out).take 8 ++ ctx.iv.drop ctx.ivlen
    ∧ (gcm_tls_cipher ctx out inp len).ctx.iv.take ctx.ivlen
        = ctx.iv.take (ctx.ivlen - 8) ++ (contents out).take 8
    ∧ (∃ tail, (gcm_tls_cipher ctx out inp len).ctx.trace
          = ctx.trace
              ++ Call.setiv (ctx.iv.take (ctx.ivlen - 8) ++ (contents out).take 8
                    ++ ctx.iv.drop ctx.ivlen) ctx.ivlen :: tail
        ∧ ∀ c ∈ tail, c.isSetiv = false)
    ∧ (gcm_tls_cipher ctx out inp len).ctx.ivlen = ctx.ivlen
    ∧ (gcm_tls_cipher ctx out inp len).ctx.tls_enc_records = ctx.tls_enc_records := by
  have hchk : ¬ (ctx.enc = true ∧ (tls_count_record ctx).tls_enc_records = 0) := by
    rw [he]; exact fun h => Bool.noConfusion h.1
  have hlen : (ctx.iv.take (ctx.ivlen - 8) ++ (contents out).take 8).length = ctx.ivlen := by
    rw [List.length_append, List.length_take, List.length_take]; omega
  have hivlen := (gcm_tls_cipher_frame ctx out inp len).ivlen
  have hrec := gcm_tls_cipher_dec_records ctx out inp len he
  have hiv : (gcm_tls_cipher ctx out inp len).ctx.iv
        = ctx.iv.take (ctx.ivlen - 8) ++ (contents out).take 8 ++ ctx.iv.drop ctx.ivlen
      ∧ ∃ tail, (gcm_tls_cipher ctx out inp len).ctx.trace
          = ctx.trace
              ++ Call.setiv (ctx.iv.take (ctx.ivlen - 8) ++ (contents out).take 8
                    ++ ctx.iv.drop ctx.ivlen) ctx.ivlen :: tail
        ∧ ∀ c ∈ tail, c.isSetiv = false := by
    rw [gcm_tls_cipher_checked ctx out inp len hk hp hl hchk hg, tls_count_record_dec ctx he]
    obtain ⟨b2, b3, _, _⟩ := tls_bind_iv_dec ctx (contents out) he h8 hcap hr
    obtain ⟨s1, _, ⟨call, s3, s3n⟩, _⟩ := tls_seal_open_effect
      (tls_bind_iv ctx (contents out)).2.1 (tls_bind_iv ctx (contents out)).2.2 len
    generalize tls_bind_iv ctx (contents out) = b at b2 b3 s1 s3 ⊢
    generalize tls_seal_open b.2.1 b.2.2 len = r at s1 s3 ⊢
    split
    · obtain ⟨e1, _, e3, _⟩ := err_fields 0 b.2.1 b.2.2 0
      rw [e1, e3]
      exact ⟨b2, [], b3, by simp⟩
    · refine ⟨s1.trans b2, [call], ?_, ?_⟩
      · rw [s3, b3, List.append_assoc]; rfl
      · intro c hcm
        rw [List.mem_singleton.mp hcm]
        exact s3n
  refine ⟨hiv.1, ?_, hiv.2, hivlen, hrec⟩
  rw [hiv.1, List.take_left' hlen]

set_option maxRecDepth 100000 in
/-- C20 on `ctx_tls_dec` (nonce `01 02 03 04` followed by zeros, `ivlen = 12`) and the
in-place record whose first 8 bytes are `09 08 07 06 05 04 03 02`. -/
theorem C20_tls_decrypt_nonce_witness :
    (gcm_tls_cipher ctx_tls_dec (some sample_record_in) (some sample_record_in) 24).ctx.iv.take
        ctx_tls_dec.ivlen
      = ctx_tls_dec.iv.take (ctx_tls_dec.ivlen - 8) ++ (contents (some sample_record_in)).take 8
    ∧ (gcm_tls_cipher ctx_tls_dec (some sample_record_in) (some sample_record_in)
        24).ctx.tls_enc_records = ctx_tls_dec.tls_enc_records :=
  ⟨(C20_tls_decrypt_nonce ctx_tls_dec (some sample_record_in) (some sample_record_in) 24
      (by decide) (by decide) (by decide) (by decide) (by decide) (by decide) (by decide)
      (by decide)).2.1,
   (C20_tls_decrypt_nonce ctx_tls_dec (some sample_record_in) (some sample_record_in) 24
      (by decide) (by decide) (by decide) (by decide) (by decide) (by decide) (by decide)
      (by decide)).2.2.2.2⟩

/-! # Parameters and the TLS record: lemmas -/

/-! ## Buffers, byte by byte -/

theorem getD_of_le_length (l : List Nat) (i : Nat) (h : l.length ≤ i) : l.getD i 0 = 0 := by
  rw [List.getD_eq_getElem?_getD, List.getElem?_eq_none h]
  rfl

theorem memcpy_getD (dst src : List Nat) (off : Int) (n i : Nat) :
    (memcpy dst off src n).getD i 0
      = if i < dst.length ∧ off ≤ (i : Int) ∧ (i : Int) < off + n
            ∧ ((i : Int) - off).toNat < src.length then
          src.getD ((i : Int) - off).toNat 0
        else dst.getD i 0 := by
  by_cases hi : i < dst.length
  · have h1 : i < (memcpy dst off src n).length := by rw [memcpy_length]; exact hi
    rw [List.getD_eq_getElem?_getD, List.getElem?_eq_getElem h1]
    simp only [memcpy, List.getElem_map, List.getElem_range, Option.getD_some, hi, true_and]
  · rw [getD_of_le_length _ _ (by rw [memcpy_length]; omega), if_neg (fun h => hi h.1),
      getD_of_le_length _ _ (by omega)]

theorem OPENSSL_cleanse_getD (buf : List Nat) (off : Int) (n i : Nat) :
    (OPENSSL_cleanse buf off n).getD i 0
      = if off ≤ (i : Int) ∧ (i : Int) < off + n then 0 else buf.getD i 0 := by
  by_cases hi : i < buf.length
  · have h1 : i < (OPENSSL_cleanse buf off n).length := by
      rw [OPENSSL_cleanse_length]; exact hi
    rw [List.getD_eq_getElem?_getD, List.getElem?_eq_getElem h1]
    simp only [OPENSSL_cleanse, List.getElem_map, List.getElem_range, Option.getD_some]
  · rw [getD_of_le_length _ _ (by rw [OPENSSL_cleanse_length]; omega),
      getD_of_le_length _ _ (by omega)]
    split <;> rfl

theorem load_getD (buf : List Nat) (off : Int) (k n j : Nat) (hk : off = (k : Int))
    (hj : j < n) : (load buf off n).getD j 0 = buf.getD (k + j) 0 := by
  have h1 : j < (load buf off n).length := by rw [load_length]; exact hj
  have e1 : (off + (j : Int)).toNat = k + j := by omega
  have e2 : 0 ≤ off + (j : Int) := by omega
  rw [List.getD_eq_getElem?_getD, List.getElem?_eq_getElem h1]
  simp only [load, List.getElem_map, List.getElem_range, Option.getD_some, if_pos e2, e1]

/-- Two buffers that agree on the bytes `[k, k + n)` give the same read there. -/
theorem load_ext (a b : List Nat) (off : Int) (k n : Nat) (hk : off = (k : Int))
    (h : ∀ j, j < n → a.getD (k + j) 0 = b.getD (k + j) 0) : load a off n = load b off n := by
  apply List.ext_getElem
  · rw [load_length, load_length]
  · intro j h1 h2
    rw [load_length] at h1
    have e1 : (off + (j : Int)).toNat = k + j := by omega
    have e2 : 0 ≤ off + (j : Int) := by omega
    simp only [load, List.getElem_map, List.getElem_range, if_pos e2, e1]
    exact h j h1

theorem load_eq_replicate (a : List Nat) (off : Int) (k n : Nat) (hk : off = (k : Int))
    (h : ∀ j, j < n → a.getD (k + j) 0 = 0) : load a off n = List.replicate n 0 := by
  apply List.ext_getElem
  · rw [load_length, List.length_replicate]
  · intro j h1 h2
    rw [load_length] at h1
    have e1 : (off + (j : Int)).toNat = k + j := by omega
    have e2 : 0 ≤ off + (j : Int) := by omega
    simp only [load, List.getElem_map, List.getElem_range, if_pos e2, e1,
      List.getElem_replicate]
    exact h j h1

/-- Reading back what was just written. -/
theorem load_memcpy_self (dst src : List Nat) (off : Int) (k n : Nat) (hk : off = (k : Int))
    (hs : src.length = n) (hd : k + n ≤ dst.length) : load (memcpy dst off src n) off n = src := by
  rw [memcpy_eq_splice dst src off k n hk hs hd,
    load_eq_drop_take _ off k n hk (by
      rw [List.length_append, List.length_append, List.length_take, List.length_drop]; omega)]
  have hlk : (dst.take k).length = k := by rw [List.length_take]; omega
  rw [List.append_assoc, List.drop_left' hlk, List.take_left' hs]

/-! ## The TLS path in terms of its one-shot call -/

theorem tls_record_after_eq (c : PROV_GCM_CTX σ ρ) (record : List Nat) (len : Nat) :
    tls_record_after { c with iv_state := IV_STATE.COPIED } record
        (len - (EVP_GCM_TLS_EXPLICIT_IV_LEN + EVP_GCM_TLS_TAG_LEN))
      = memcpy (memcpy record EVP_GCM_TLS_EXPLICIT_IV_LEN (tls_oneshot c record len).2.2.1
            (len - (EVP_GCM_TLS_EXPLICIT_IV_LEN + EVP_GCM_TLS_TAG_LEN)))
          (((EVP_GCM_TLS_EXPLICIT_IV_LEN : Nat) : Int)
            + ((len - (EVP_GCM_TLS_EXPLICIT_IV_LEN + EVP_GCM_TLS_TAG_LEN) : Nat) : Int))
          (tls_oneshot c record len).2.2.2 EVP_GCM_TLS_TAG_LEN := rfl

theorem tls_seal_open_eq (c : PROV_GCM_CTX σ ρ) (record : List Nat) (len : Nat) :
    tls_seal_open c record len =
      if (tls_oneshot c record len).1 = 0 then
        if c.enc = false then
          gcm_tls_cipher_err 0 (tls_oneshot c record len).2.1
            (OPENSSL_cleanse
              (tls_record_after { c with iv_state := IV_STATE.COPIED } record
                (len - (EVP_GCM_TLS_EXPLICIT_IV_LEN + EVP_GCM_TLS_TAG_LEN)))
              EVP_GCM_TLS_EXPLICIT_IV_LEN
              (len - (EVP_GCM_TLS_EXPLICIT_IV_LEN + EVP_GCM_TLS_TAG_LEN))) 0
        else
          gcm_tls_cipher_err 0 (tls_oneshot c record len).2.1
            (tls_record_after { c with iv_state := IV_STATE.COPIED } record
              (len - (EVP_GCM_TLS_EXPLICIT_IV_LEN + EVP_GCM_TLS_TAG_LEN))) 0
      else if c.enc = true then
        gcm_tls_cipher_err 1 (tls_oneshot c record len).2.1
          (tls_record_after { c with iv_state := IV_STATE.COPIED } record
            (len - (EVP_GCM_TLS_EXPLICIT_IV_LEN + EVP_GCM_TLS_TAG_LEN)))
          (len - (EVP_GCM_TLS_EXPLICIT_IV_LEN + EVP_GCM_TLS_TAG_LEN)
            + EVP_GCM_TLS_EXPLICIT_IV_LEN + EVP_GCM_TLS_TAG_LEN)
      else
        gcm_tls_cipher_err 1 (tls_oneshot c record len).2.1
          (tls_record_after { c with iv_state := IV_STATE.COPIED } record
            (len - (EVP_GCM_TLS_EXPLICIT_IV_LEN + EVP_GCM_TLS_TAG_LEN)))
          (len - (EVP_GCM_TLS_EXPLICIT_IV_LEN + EVP_GCM_TLS_TAG_LEN)) := rfl

theorem tls_oneshot_fields (c : PROV_GCM_CTX σ ρ) (record : List Nat) (len : Nat) :
    (tls_oneshot c record len).2.1.trace
        = c.trace ++ [Call.oneshot c.buf c.tls_aad_len
            (load record EVP_GCM_TLS_EXPLICIT_IV_LEN
              (len - (EVP_GCM_TLS_EXPLICIT_IV_LEN + EVP_GCM_TLS_TAG_LEN)))
            (len - (EVP_GCM_TLS_EXPLICIT_IV_LEN + EVP_GCM_TLS_TAG_LEN))
            (load record (((EVP_GCM_TLS_EXPLICIT_IV_LEN : Nat) : Int)
                + ((len - (EVP_GCM_TLS_EXPLICIT_IV_LEN + EVP_GCM_TLS_TAG_LEN) : Nat) : Int))
              EVP_GCM_TLS_TAG_LEN)
            EVP_GCM_TLS_TAG_LEN]
    ∧ (tls_oneshot c record len).1
        = (c.hw.oneshot c.gcm c.enc c.buf c.tls_aad_len
            (load record EVP_GCM_TLS_EXPLICIT_IV_LEN
              (len - (EVP_GCM_TLS_EXPLICIT_IV_LEN + EVP_GCM_TLS_TAG_LEN)))
            (len - (EVP_GCM_TLS_EXPLICIT_IV_LEN + EVP_GCM_TLS_TAG_LEN))
            (load record (((EVP_GCM_TLS_EXPLICIT_IV_LEN : Nat) : Int)
                + ((len - (EVP_GCM_TLS_EXPLICIT_IV_LEN + EVP_GCM_TLS_TAG_LEN) : Nat) : Int))
              EVP_GCM_TLS_TAG_LEN)
            EVP_GCM_TLS_TAG_LEN).rv :=
  ⟨rfl, rfl⟩

theorem tag_len_eq : EVP_GCM_TLS_TAG_LEN = 16 := rfl

/-- The bytes of the record after the one-shot call: the first 8 are kept, the
payload region holds what the primitive wrote at `out`, the 16 bytes after it
what it wrote at `tag`. -/
theorem tls_record_after_getD (c : PROV_GCM_CTX σ ρ) (record : List Nat) (len i : Nat)
    (hl : 24 ≤ len) (hr : len ≤ record.length) :
    (i < 8 →
      (tls_record_after { c with iv_state := IV_STATE.COPIED } record
        (len - (EVP_GCM_TLS_EXPLICIT_IV_LEN + EVP_GCM_TLS_TAG_LEN))).getD i 0 = record.getD i 0)
    ∧ (8 ≤ i → i < len - 16 → i - 8 < (tls_oneshot c record len).2.2.1.length →
      (tls_record_after { c with iv_state := IV_STATE.COPIED } record
        (len - (EVP_GCM_TLS_EXPLICIT_IV_LEN + EVP_GCM_TLS_TAG_LEN))).getD i 0
        = (tls_oneshot c record len).2.2.1.getD (i - 8) 0)
    ∧ (len - 16 ≤ i → i < len → i - (len - 16) < (tls_oneshot c record len).2.2.2.length →
      (tls_record_after { c with iv_state := IV_STATE.COPIED } record
        (len - (EVP_GCM_TLS_EXPLICIT_IV_LEN + EVP_GCM_TLS_TAG_LEN))).getD i 0
        = (tls_oneshot c record len).2.2.2.getD (i - (len - 16)) 0)
    ∧ (len - 16 ≤ i → (tls_oneshot c record len).2.2.2.length ≤ i - (len - 16) →
      (tls_record_after { c with iv_state := IV_STATE.COPIED } record
        (len - (EVP_GCM_TLS_EXPLICIT_IV_LEN + EVP_GCM_TLS_TAG_LEN))).getD i 0
        = record.getD i 0) := by
  rw [tls_record_after_eq, memcpy_getD, memcpy_getD, memcpy_length]
  generalize (tls_oneshot c record len).2.2.1 = o
  generalize (tls_oneshot c record len).2.2.2 = t
  rw [explicit_iv_len_eq, tag_len_eq]
  refine ⟨fun h => ?_, fun h1 h2 h3 => ?_, fun h1 h2 h3 => ?_, fun h1 h2 => ?_⟩
  · rw [if_neg (by omega), if_neg (by omega)]
  · have e : ((i : Int) - ((8 : Nat) : Int)).toNat = i - 8 := by omega
    rw [if_neg (by omega), if_pos (by omega), e]
  · have e : ((i : Int) - ((8 : Nat) + (len - (8 + 16) : Nat) : Int)).toNat = i - (len - 16) := by
      omega
    rw [if_pos (by omega), e]
  · rw [if_neg (by omega), if_neg (by omega)]

/-- What the bind stage keeps, in either direction: the direction, the cached AAD,
the primitive, the length of the record and every byte of the record from
offset 8 on; it makes exactly one call, to `setiv`, with `ivlen`. -/
theorem tls_bind_iv_shape (c : PROV_GCM_CTX σ ρ) (record : List Nat) :
    (tls_bind_iv c record).2.1.enc = c.enc
    ∧ (tls_bind_iv c record).2.1.buf = c.buf
    ∧ (tls_bind_iv c record).2.1.tls_aad_len = c.tls_aad_len
    ∧ (tls_bind_iv c record).2.1.hw = c.hw
    ∧ (∃ iv1, (tls_bind_iv c record).2.1.trace = c.trace ++ [Call.setiv iv1 c.ivlen])
    ∧ (tls_bind_iv c record).2.2.length = record.length
    ∧ (∀ i, 8 ≤ i → (tls_bind_iv c record).2.2.getD i 0 = record.getD i 0)
    ∧ (c.enc = false → (tls_bind_iv c record).2.2 = record) := by
  unfold tls_bind_iv
  by_cases he : c.enc = true
  · rw [if_pos he]
    have hne : ¬ c.enc = false := by rw [he]; exact fun e => Bool.noConfusion e
    by_cases hs : (hw_setiv c).1 = 0
    · rw [if_pos hs, pair_snd, pair_fst, pair_snd]
      exact ⟨rfl, rfl, rfl, rfl, ⟨_, rfl⟩, rfl, fun _ _ => rfl, fun _ => rfl⟩
    · rw [if_neg hs]
      dsimp only
      refine ⟨rfl, rfl, rfl, rfl, ⟨_, rfl⟩, memcpy_length _ _ _ _, ?_, fun h => absurd h hne⟩
      intro i hi
      rw [memcpy_getD, explicit_iv_len_eq]
      have harg : (if 8 > c.ivlen then c.ivlen else 8) ≤ 8 := by split <;> omega
      generalize (if 8 > c.ivlen then c.ivlen else 8) = arg at harg ⊢
      rw [if_neg (by omega)]
  · rw [if_neg he]
    dsimp only
    generalize memcpy c.iv _ _ _ = iv1
    split <;> rw [pair_snd, pair_fst, pair_snd]
      <;> exact ⟨rfl, rfl, rfl, rfl, ⟨_, rfl⟩, rfl, fun _ _ => rfl, fun _ => rfl⟩

/-- A call of `gcm_tls_cipher` that does not return 0 passed every check and the bind
stage, and its one-shot call did not report failure. -/
theorem gcm_tls_cipher_success (ctx : PROV_GCM_CTX σ ρ) (out inp : Option Buf) (len : Nat)
    (h : (gcm_tls_cipher ctx out inp len).rv ≠ 0) :
    ctx.key_set = true ∧ ptr out = ptr inp ∧ 24 ≤ len ∧ ctx.iv_gen = true
    ∧ (tls_bind_iv (tls_count_record ctx) (contents out)).1 ≠ 0
    ∧ gcm_tls_cipher ctx out inp len
        = tls_seal_open (tls_bind_iv (tls_count_record ctx) (contents out)).2.1
            (tls_bind_iv (tls_count_record ctx) (contents out)).2.2 len
    ∧ (tls_oneshot (tls_bind_iv (tls_count_record ctx) (contents out)).2.1
        (tls_bind_iv (tls_count_record ctx) (contents out)).2.2 len).1 ≠ 0 := by
  rw [gcm_tls_cipher] at h ⊢
  by_cases h1 : ctx.key_set = false
  · rw [if_pos h1, err_rv] at h; exact absurd rfl h
  · rw [if_neg h1] at h ⊢
    by_cases h2 : ptr out ≠ ptr inp ∨ len < EVP_GCM_TLS_EXPLICIT_IV_LEN + EVP_GCM_TLS_TAG_LEN
    · rw [if_pos h2, err_rv] at h; exact absurd rfl h
    · rw [if_neg h2] at h ⊢
      by_cases h3 : ctx.enc = true ∧ (tls_count_record ctx).tls_enc_records = 0
      · rw [if_pos h3, err_rv] at h; exact absurd rfl h
      · rw [if_neg h3] at h ⊢
        by_cases h4 : ctx.iv_gen = false
        · rw [if_pos h4, err_rv] at h; exact absurd rfl h
        · rw [if_neg h4] at h ⊢
          by_cases h5 : (tls_bind_iv (tls_count_record ctx) (contents out)).1 = 0
          · rw [if_pos h5, err_rv] at h; exact absurd rfl h
          · rw [if_neg h5] at h ⊢
            have e24 : EVP_GCM_TLS_EXPLICIT_IV_LEN + EVP_GCM_TLS_TAG_LEN = 24 := rfl
            refine ⟨by cases hk : ctx.key_set <;> simp_all, not_not.mp (fun e => h2 (Or.inl e)),
              by omega, by cases hg : ctx.iv_gen <;> simp_all, h5, rfl, ?_⟩
            intro ho
            rw [tls_seal_open_eq, if_pos ho] at h
            split at h <;> exact h rfl

/-- The decrypting call past its checks and a successful bind. -/
theorem gcm_tls_cipher_dec_eq (ctx : PROV_GCM_CTX σ ρ) (out inp : Option Buf) (len : Nat)
    (hk : ctx.key_set = true) (he : ctx.enc = false) (hp : ptr out = ptr inp) (hl : 24 ≤ len)
    (hg : ctx.iv_gen = true) (hs : (tls_bind_iv ctx (contents out)).1 ≠ 0) :
    gcm_tls_cipher ctx out inp len
      = tls_seal_open (tls_bind_iv ctx (contents out)).2.1 (contents out) len := by
  have hchk : ¬ (ctx.enc = true ∧ (tls_count_record ctx).tls_enc_records = 0) := by
    rw [he]; exact fun h => Bool.noConfusion h.1
  rw [gcm_tls_cipher_checked ctx out inp len hk hp hl hchk hg, tls_count_record_dec ctx he,
    if_neg hs, (tls_bind_iv_shape ctx (contents out)).2.2.2.2.2.2.2 he]

theorem tls_count_record_keeps (ctx : PROV_GCM_CTX σ ρ) :
    (tls_count_record ctx).buf = ctx.buf
    ∧ (tls_count_record ctx).tls_aad_len = ctx.tls_aad_len
    ∧ (tls_count_record ctx).key_set = ctx.key_set
    ∧ (tls_count_record ctx).iv_gen = ctx.iv_gen := by
  unfold tls_count_record
  split <;> exact ⟨rfl, rfl, rfl, rfl⟩

theorem tls_seal_open_rv (c : PROV_GCM_CTX σ ρ) (record : List Nat) (len : Nat) :
    ((tls_seal_open c record len).rv = 0 ∨ (tls_seal_open c record len).rv = 1)
    ∧ ((tls_seal_open c record len).rv = 0 → (tls_seal_open c record len).padlen = 0) := by
  rw [tls_seal_open_eq]
  split
  · split <;> exact ⟨Or.inl rfl, fun _ => rfl⟩
  · split <;> exact ⟨Or.inr rfl, fun h => absurd h one_ne_zero_int⟩

/-- The value returned by `gcm_tls_cipher` is 0 or 1, and 0 is stored through `padlen`
whenever it is 0. -/
theorem gcm_tls_cipher_rv (ctx : PROV_GCM_CTX σ ρ) (out inp : Option Buf) (len : Nat) :
    ((gcm_tls_cipher ctx out inp len).rv = 0 ∨ (gcm_tls_cipher ctx out inp len).rv = 1)
    ∧ ((gcm_tls_cipher ctx out inp len).rv = 0 → (gcm_tls_cipher ctx out inp len).padlen = 0) := by
  have hs := tls_seal_open_rv (tls_bind_iv (tls_count_record ctx) (contents out)).2.1
    (tls_bind_iv (tls_count_record ctx) (contents out)).2.2 len
  unfold gcm_tls_cipher
  generalize tls_seal_open _ _ _ = r at hs ⊢
  split
  · exact ⟨Or.inl rfl, fun _ => rfl⟩
  · split
    · exact ⟨Or.inl rfl, fun _ => rfl⟩
    · split
      · exact ⟨Or.inl rfl, fun _ => rfl⟩
      · split
        · exact ⟨Or.inl rfl, fun _ => rfl⟩
        · split
          · exact ⟨Or.inl rfl, fun _ => rfl⟩
          · exact hs

theorem aad_len_ne_unset : EVP_AEAD_TLS1_AAD_LEN ≠ UNINITIALISED_SIZET := by decide

/-- In TLS mode `gcm_cipher_internal` is `gcm_tls_cipher`. -/
theorem gcm_cipher_internal_tls (ctx : PROV_GCM_CTX σ ρ) (out inp : Option Buf) (len : Nat)
    (ht : ctx.tls_aad_len ≠ UNINITIALISED_SIZET) :
    gcm_cipher_internal ctx out inp len = gcm_tls_cipher ctx out inp len := by
  rw [gcm_cipher_internal, if_pos ht]

/-- A successful call of `gcm_tls_cipher`: the two external calls it makes and the
length it stores. -/
theorem gcm_tls_cipher_success_effect (ctx : PROV_GCM_CTX σ ρ) (out inp : Option Buf)
    (len : Nat) (h : (gcm_tls_cipher ctx out inp len).rv ≠ 0) :
    24 ≤ len
    ∧ (∃ iv1, (gcm_tls_cipher ctx out inp len).ctx.trace
        = ctx.trace ++ [Call.setiv iv1 ctx.ivlen,
            Call.oneshot ctx.buf ctx.tls_aad_len (load (contents out) 8 (len - 24)) (len - 24)
              (load (contents out) ((len - 16 : Nat) : Int) 16) 16])
    ∧ (ctx.enc = true → (gcm_tls_cipher ctx out inp len).padlen = len)
    ∧ (ctx.enc = false → (gcm_tls_cipher ctx out inp len).padlen = len - 24) := by
  obtain ⟨_, _, hl, _, _, e, ho⟩ := gcm_tls_cipher_success ctx out inp len h
  obtain ⟨f1, f2, _, _, f5, f6⟩ := tls_count_record_fields ctx
  obtain ⟨k1, k2, _, _⟩ := tls_count_record_keeps ctx
  obtain ⟨s1, s2, s3, _, ⟨iv1, s5⟩, _, s7, _⟩ :=
    tls_bind_iv_shape (tls_count_record ctx) (contents out)
  obtain ⟨o1, _⟩ := tls_oneshot_fields (tls_bind_iv (tls_count_record ctx) (contents out)).2.1
    (tls_bind_iv (tls_count_record ctx) (contents out)).2.2 len
  rw [e, tls_seal_open_eq, if_neg ho]
  rw [s5, s2, s3, f6, f2, k1, k2] at o1
  rw [f5] at s1
  have e8 : EVP_GCM_TLS_EXPLICIT_IV_LEN = 8 := rfl
  have e16 : EVP_GCM_TLS_TAG_LEN = 16 := rfl
  have e24 : EVP_GCM_TLS_EXPLICIT_IV_LEN + EVP_GCM_TLS_TAG_LEN = 24 := rfl
  have hp : load (tls_bind_iv (tls_count_record ctx) (contents out)).2.2
      EVP_GCM_TLS_EXPLICIT_IV_LEN (len - (EVP_GCM_TLS_EXPLICIT_IV_LEN + EVP_GCM_TLS_TAG_LEN))
      = load (contents out) 8 (len - 24) :=
    load_ext _ _ _ 8 _ rfl (fun j _ => s7 (8 + j) (by omega))
  have htg : load (tls_bind_iv (tls_count_record ctx) (contents out)).2.2
      (((EVP_GCM_TLS_EXPLICIT_IV_LEN : Nat) : Int)
        + ((len - (EVP_GCM_TLS_EXPLICIT_IV_LEN + EVP_GCM_TLS_TAG_LEN) : Nat) : Int))
      EVP_GCM_TLS_TAG_LEN
      = load (contents out) ((len - 16 : Nat) : Int) 16 := by
    have eo : (((EVP_GCM_TLS_EXPLICIT_IV_LEN : Nat) : Int)
        + ((len - (EVP_GCM_TLS_EXPLICIT_IV_LEN + EVP_GCM_TLS_TAG_LEN) : Nat) : Int))
        = ((len - 16 : Nat) : Int) := by omega
    rw [eo]
    exact load_ext _ _ _ (len - 16) _ rfl (fun j _ => s7 (len - 16 + j) (by omega))
  rw [hp, htg, e24, e16, List.append_assoc] at o1
  generalize tls_oneshot _ _ _ = o at o1 ⊢
  generalize tls_record_after _ _ _ = after
  generalize tls_bind_iv (tls_count_record ctx) (contents out) = b at s1 ⊢
  refine ⟨hl, ⟨iv1, ?_⟩, ?_, ?_⟩
  · split <;> rw [err_trace] <;> exact o1
  · intro he
    rw [if_pos (s1.trans he), err_padlen]
    omega
  · intro he
    rw [if_neg (by rw [s1, he]; exact fun e => Bool.noConfusion e), err_padlen, e24]

/-! ## Parameter sets and gets that carry one parameter -/

theorem gcm_set_ctx_params_aad_only (ctx : PROV_GCM_CTX σ ρ) (q : OSSL_PARAM) :
    gcm_set_ctx_params ctx (params_tls1_aad q)
      = if (set_param_tls1_aad ctx (some q)).1 = 0 then (0, (set_param_tls1_aad ctx (some q)).2)
        else (1, (set_param_tls1_aad ctx (some q)).2) := by
  have e : ∀ c : PROV_GCM_CTX σ ρ, (set_param_keylen c none) = (1, c) := fun _ => rfl
  have e4 : ∀ c : PROV_GCM_CTX σ ρ, (set_param_tls1_iv_fixed c none) = (1, c) := fun _ => rfl
  unfold gcm_set_ctx_params params_tls1_aad no_params
  dsimp only
  have e1 : set_param_tag ctx none = (1, ctx) := rfl
  have e2 : set_param_ivlen ctx none = (1, ctx) := rfl
  rw [e1, pair_fst, pair_snd, if_neg one_ne_zero_int, e2, pair_fst, pair_snd,
    if_neg one_ne_zero_int]
  generalize set_param_tls1_aad ctx (some q) = r
  split
  · rfl
  · rw [e4, pair_fst, pair_snd, if_neg one_ne_zero_int, e, pair_fst, pair_snd,
      if_neg one_ne_zero_int]

theorem gcm_set_ctx_params_iv_fixed_only (ctx : PROV_GCM_CTX σ ρ) (q : OSSL_PARAM) :
    gcm_set_ctx_params ctx (params_tls1_iv_fixed q)
      = if (set_param_tls1_iv_fixed ctx (some q)).1 = 0 then
          (0, (set_param_tls1_iv_fixed ctx (some q)).2)
        else (1, (set_param_tls1_iv_fixed ctx (some q)).2) := by
  have e : ∀ c : PROV_GCM_CTX σ ρ, (set_param_keylen c none) = (1, c) := fun _ => rfl
  unfold gcm_set_ctx_params params_tls1_iv_fixed no_params
  dsimp only
  have e1 : set_param_tag ctx none = (1, ctx) := rfl
  have e2 : set_param_ivlen ctx none = (1, ctx) := rfl
  have e3 : set_param_tls1_aad ctx none = (1, ctx) := rfl
  rw [e1, pair_fst, pair_snd, if_neg one_ne_zero_int, e2, pair_fst, pair_snd,
    if_neg one_ne_zero_int, e3, pair_fst, pair_snd, if_neg one_ne_zero_int]
  generalize set_param_tls1_iv_fixed ctx (some q) = r
  split
  · rfl
  · rw [e, pair_fst, pair_snd, if_neg one_ne_zero_int]

/-- The get side of the padding size: the stored `tls_aad_pad_sz` is returned. -/
theorem gcm_get_ctx_params_pad (ctx : PROV_GCM_CTX σ ρ) (v : Nat) :
    gcm_get_ctx_params ctx (get_tls1_aad_pad (OSSL_PARAM.size_t v))
      = (1, ctx, get_tls1_aad_pad (OSSL_PARAM.size_t ctx.tls_aad_pad_sz)) := rfl

/-- The tag step of `gcm_get_ctx_params`, alone. -/
theorem gcm_get_ctx_params_tag (ctx : PROV_GCM_CTX σ ρ) (q : OSSL_PARAM) :
    gcm_get_ctx_params ctx (get_aead_tag q)
      = if q.data_size = 0 ∨ q.data_size > EVP_GCM_TLS_TAG_LEN ∨ ctx.enc = false
            ∨ ctx.taglen = UNINITIALISED_SIZET then ((0 : Int), ctx, get_aead_tag q)
        else
          match OSSL_PARAM_set_octet_string q ctx.buf q.data_size with
          | none => ((0 : Int), ctx, get_aead_tag q)
          | some q1 => ((1 : Int), ctx, get_aead_tag q1) := by
  unfold gcm_get_ctx_params get_aead_tag no_get_params
  dsimp only
  by_cases hc : q.data_size = 0 ∨ q.data_size > EVP_GCM_TLS_TAG_LEN ∨ ctx.enc = false
      ∨ ctx.taglen = UNINITIALISED_SIZET
  · rw [if_pos hc, if_pos hc]
  · rw [if_neg hc, if_neg hc]
    cases OSSL_PARAM_set_octet_string q ctx.buf q.data_size <;> rfl

theorem to_size_t_tag_len : to_size_t (EVP_GCM_TLS_TAG_LEN : Int) = 16 := by decide

theorem zero_ne_one_int : ¬ ((0 : Int) = 1) := by decide

theorem sixteen_ne_zero : ¬ ((16 : Nat) = 0) := by decide

/-! ## The fixed nonce field -/

/-- A write that ends at or before offset `k` leaves the bytes from `k` on alone. -/
theorem memcpy_drop_after (dst src : List Nat) (off : Int) (n k : Nat)
    (h : off + (n : Int) ≤ (k : Int)) : (memcpy dst off src n).drop k = dst.drop k := by
  apply List.ext_getElem
  · rw [List.length_drop, List.length_drop, memcpy_length]
  · intro i h1 h2
    rw [List.length_drop] at h2
    have c1 : ¬ (off ≤ ((k + i : Nat) : Int) ∧ ((k + i : Nat) : Int) < off + n
        ∧ (((k + i : Nat) : Int) - off).toNat < src.length) := by omega
    simp only [List.getElem_drop, memcpy, List.getElem_map, List.getElem_range, if_neg c1]
    rw [List.getD_eq_getElem?_getD, List.getElem?_eq_getElem (by omega)]
    rfl

theorem to_int_small (n : Nat) (h : n < 2 ^ 31) : to_int n = (n : Int) := by
  have h2 : n % 2 ^ 32 = n := Nat.mod_eq_of_lt (by omega)
  unfold to_int
  rw [h2, if_pos h]

theorem to_size_t_nat (n : Nat) (h : n < 2 ^ 64) : to_size_t (n : Int) = n := by
  unfold to_size_t
  omega

theorem size_t_sub_le (a b : Nat) (h : b ≤ a) (ha : a < 2 ^ 64) : size_t_sub a b = a - b := by
  unfold size_t_sub SIZE_T_MOD
  omega

/-- The sentinel length: the whole nonce is restored. -/
theorem gcm_tls_iv_set_fixed_sentinel (ctx : PROV_GCM_CTX σ ρ) (iv : List Nat) :
    gcm_tls_iv_set_fixed ctx iv UNINITIALISED_SIZET
      = (1, { ctx with iv := memcpy ctx.iv 0 iv ctx.ivlen, iv_gen := true,
                       iv_state := IV_STATE.BUFFERED }) := by
  unfold gcm_tls_iv_set_fixed
  rw [if_pos rfl]

/-- A prefix length that passes the check of lines 392-394, on the decrypting side. -/
theorem gcm_tls_iv_set_fixed_dec (ctx : PROV_GCM_CTX σ ρ) (iv : List Nat) (len : Nat)
    (he : ctx.enc = false) (h4 : 4 ≤ len) (hle : len + 8 ≤ ctx.ivlen)
    (h31 : ctx.ivlen < 2 ^ 31) :
    gcm_tls_iv_set_fixed ctx iv len
      = (1, { ctx with iv := memcpy ctx.iv 0 iv len, iv_gen := true,
                       iv_state := IV_STATE.BUFFERED }) := by
  have hne : ¬ len = UNINITIALISED_SIZET := by unfold UNINITIALISED_SIZET; omega
  have hchk : ¬ (len < EVP_GCM_TLS_FIXED_IV_LEN
      ∨ size_t_sub ctx.ivlen (to_size_t (to_int len)) < EVP_GCM_TLS_EXPLICIT_IV_LEN) := by
    rw [to_int_small len (by omega), to_size_t_nat len (by omega),
      size_t_sub_le ctx.ivlen len (by omega) (by omega)]
    unfold EVP_GCM_TLS_FIXED_IV_LEN EVP_GCM_TLS_EXPLICIT_IV_LEN
    omega
  have hpos : len > 0 := by omega
  have he1 : ¬ ctx.enc = true := by rw [he]; exact fun e => Bool.noConfusion e
  unfold gcm_tls_iv_set_fixed
  rw [if_neg hne, if_neg hchk]
  dsimp only
  rw [if_pos hpos, if_neg he1, pair_fst, pair_snd, if_neg (by decide)]

/-- A prefix length that passes the check of lines 392-394, on the encrypting side. -/
theorem gcm_tls_iv_set_fixed_enc (ctx : PROV_GCM_CTX σ ρ) (iv : List Nat) (len : Nat)
    (he : ctx.enc = true) (h4 : 4 ≤ len) (hle : len + 8 ≤ ctx.ivlen)
    (h31 : ctx.ivlen < 2 ^ 31) :
    gcm_tls_iv_set_fixed ctx iv len
      = if (rand_bytes_ex { ctx with iv := memcpy ctx.iv 0 iv len } len (ctx.ivlen - len)).1 ≤ 0
        then (0, (rand_bytes_ex { ctx with iv := memcpy ctx.iv 0 iv len } len
                    (ctx.ivlen - len)).2)
        else (1, { (rand_bytes_ex { ctx with iv := memcpy ctx.iv 0 iv len } len
                      (ctx.ivlen - len)).2 with
                     iv_gen := true, iv_state := IV_STATE.BUFFERED }) := by
  have hne : ¬ len = UNINITIALISED_SIZET := by unfold UNINITIALISED_SIZET; omega
  have hchk : ¬ (len < EVP_GCM_TLS_FIXED_IV_LEN
      ∨ size_t_sub ctx.ivlen (to_size_t (to_int len)) < EVP_GCM_TLS_EXPLICIT_IV_LEN) := by
    rw [to_int_small len (by omega), to_size_t_nat len (by omega),
      size_t_sub_le ctx.ivlen len (by omega) (by omega)]
    unfold EVP_GCM_TLS_FIXED_IV_LEN EVP_GCM_TLS_EXPLICIT_IV_LEN
    omega
  have hpos : len > 0 := by omega
  unfold gcm_tls_iv_set_fixed
  rw [if_neg hne, if_neg hchk]
  dsimp only
  rw [if_pos hpos, if_pos he, size_t_sub_le ctx.ivlen len (by omega) (by omega)]

theorem rand_bytes_ex_fields (c : PROV_GCM_CTX σ ρ) (off : Int) (num : Nat) :
    (rand_bytes_ex c off num).1 = (c.libctx.rand c.libctx.drbg num).1
    ∧ (rand_bytes_ex c off num).2.iv = memcpy c.iv off (c.libctx.rand c.libctx.drbg num).2.1 num
    ∧ (rand_bytes_ex c off num).2.trace = c.trace ++ [Call.rand_bytes num] :=
  ⟨rfl, rfl, rfl⟩

/-! ## The TLS pseudo-header -/

theorem header_memcpy (buf h : List Nat) (a b : Nat) (hh : h.length = 11)
    (hbuf : 13 ≤ buf.length) :
    memcpy buf 0 (h ++ [a, b]) 13 = h ++ [a, b] ++ buf.drop 13 := by
  have hl : (h ++ [a, b]).length = 13 := by
    rw [List.length_append, hh]; rfl
  rw [memcpy_eq_splice buf (h ++ [a, b]) 0 0 13 rfl hl (by omega), List.take_zero,
    List.nil_append, Nat.zero_add]

theorem header_set (h rest : List Nat) (a b x y : Nat) (hh : h.length = 11) :
    ((h ++ [a, b] ++ rest).set 11 x).set 12 y = h ++ [x, y] ++ rest := by
  simp [List.set_append, hh]

theorem header_byte_at (h rest : List Nat) (a b : Nat) (hh : h.length = 11) :
    byte_at (h ++ [a, b] ++ rest) 11 = a % 256
    ∧ byte_at (h ++ [a, b] ++ rest) 12 = b % 256 := by
  have e11 : (h ++ ([a, b] ++ rest))[11]? = ([a, b] ++ rest)[11 - h.length]? :=
    List.getElem?_append_right (by omega)
  have e12 : (h ++ ([a, b] ++ rest))[12]? = ([a, b] ++ rest)[12 - h.length]? :=
    List.getElem?_append_right (by omega)
  unfold byte_at
  rw [List.append_assoc, List.getD_eq_getElem?_getD, List.getD_eq_getElem?_getD, e11, e12, hh]
  exact ⟨rfl, by simp⟩

theorem be16_decode (a b : Nat) (ha : a < 256) (hb : b < 256) :
    ((a % 256) <<< 8) ||| (b % 256) = a * 256 + b := by
  have hb8 : b < 2 ^ 8 := hb
  rw [Nat.mod_eq_of_lt ha, Nat.mod_eq_of_lt hb, Nat.shiftLeft_eq, Nat.mul_comm a (2 ^ 8),
    ← Nat.mul_add_lt_is_or hb8 a]

theorem be16_encode (v : Nat) : [(v >>> 8) % 256, v &&& 0xff] = be16 v := by
  have h : v &&& 0xff = v % 256 := Nat.and_pow_two_sub_one_eq_mod v 8
  rw [h, Nat.shiftRight_eq_div_pow]
  rfl

theorem aad_len_eq : EVP_AEAD_TLS1_AAD_LEN = 13 := rfl

/-- The function `gcm_tls_init` on a 13-byte header `h ++ [a, b]`, whose length field
holds `a * 256 + b`. -/
theorem gcm_tls_init_header (dat : PROV_GCM_CTX σ ρ) (h : List Nat) (a b : Nat)
    (hh : h.length = 11) (ha : a < 256) (hb : b < 256) (hbuf : 13 ≤ dat.buf.length) :
    gcm_tls_init dat (h ++ [a, b]) 13 =
      if a * 256 + b < 8 then
        (0, { dat with buf := h ++ [a, b] ++ dat.buf.drop 13, tls_aad_len := 13,
                       tls_enc_records := 0 })
      else if dat.enc = false ∧ a * 256 + b - 8 < 16 then
        (0, { dat with buf := h ++ [a, b] ++ dat.buf.drop 13, tls_aad_len := 13,
                       tls_enc_records := 0 })
      else
        ((EVP_GCM_TLS_TAG_LEN : Int),
         { dat with
             buf := h ++ be16 (if dat.enc = false then a * 256 + b - 8 - 16
                               else a * 256 + b - 8) ++ dat.buf.drop 13
             tls_aad_len := 13
             tls_enc_records := 0 }) := by
  have e11 : (13 : Nat) - 2 = 11 := rfl
  have e12 : (13 : Nat) - 1 = 12 := rfl
  have hne : ¬ ((13 : Nat) ≠ EVP_AEAD_TLS1_AAD_LEN) := fun h => h rfl
  unfold gcm_tls_init
  rw [if_neg hne]
  dsimp only
  rw [e11, e12, header_memcpy dat.buf h a b hh hbuf,
    (header_byte_at h (dat.buf.drop 13) a b hh).1, (header_byte_at h (dat.buf.drop 13) a b hh).2,
    be16_decode a b ha hb, explicit_iv_len_eq, tag_len_eq]
  rw [header_set h (dat.buf.drop 13) a b _ _ hh, be16_encode]

/-- The tls-record-aad step on a 13-byte header `h ++ [a, b]`. -/
theorem set_param_tls1_aad_header (ctx : PROV_GCM_CTX σ ρ) (h : List Nat) (a b : Nat)
    (hh : h.length = 11) (ha : a < 256) (hb : b < 256) (hbuf : 13 ≤ ctx.buf.length) :
    set_param_tls1_aad ctx (some (OSSL_PARAM.octet_string (h ++ [a, b]) 13)) =
      if a * 256 + b < 8 ∨ (ctx.enc = false ∧ a * 256 + b - 8 < 16) then
        (0, { ctx with buf := h ++ [a, b] ++ ctx.buf.drop 13, tls_aad_len := 13,
                       tls_enc_records := 0 })
      else
        (1, { ctx with
                buf := h ++ be16 (if ctx.enc = false then a * 256 + b - 8 - 16
                                  else a * 256 + b - 8) ++ ctx.buf.drop 13
                tls_aad_len := 13
                tls_enc_records := 0
                tls_aad_pad_sz := 16 }) := by
  have e : gcm_tls_init ctx (OSSL_PARAM.octet_string (h ++ [a, b]) 13).data
      (OSSL_PARAM.octet_string (h ++ [a, b]) 13).data_size
      = gcm_tls_init ctx (h ++ [a, b]) 13 := rfl
  unfold set_param_tls1_aad
  dsimp only
  rw [if_neg (fun h0 => Bool.noConfusion h0), e, gcm_tls_init_header ctx h a b hh ha hb hbuf]
  by_cases h1 : a * 256 + b < 8
  · rw [if_pos h1, if_pos (Or.inl h1), pair_fst, pair_snd]
    rw [if_pos (by decide)]
  · rw [if_neg h1]
    by_cases h2 : ctx.enc = false ∧ a * 256 + b - 8 < 16
    · rw [if_pos h2, if_pos (Or.inr h2), pair_fst, pair_snd]
      rw [if_pos (by decide)]
    · have h3 : ¬ (a * 256 + b < 8 ∨ (ctx.enc = false ∧ a * 256 + b - 8 < 16)) :=
        fun h3 => h3.elim h1 h2
      rw [if_neg h2, if_neg h3, pair_fst, pair_snd, to_size_t_tag_len, if_neg sixteen_ne_zero]

/-! ## The TLS record, sealed and opened -/

/-- The one-shot call in terms of the primitive, for a record of at least 24 bytes. -/
theorem tls_oneshot_parts (c : PROV_GCM_CTX σ ρ) (record : List Nat) (len : Nat)
    (hl : 24 ≤ len) :
    (tls_oneshot c record len).1
        = (c.hw.oneshot c.gcm c.enc c.buf c.tls_aad_len (load record 8 (len - 24)) (len - 24)
            (load record ((len - 16 : Nat) : Int) 16) 16).rv
    ∧ (tls_oneshot c record len).2.2.1
        = (c.hw.oneshot c.gcm c.enc c.buf c.tls_aad_len (load record 8 (len - 24)) (len - 24)
            (load record ((len - 16 : Nat) : Int) 16) 16).out
    ∧ (tls_oneshot c record len).2.2.2
        = (c.hw.oneshot c.gcm c.enc c.buf c.tls_aad_len (load record 8 (len - 24)) (len - 24)
            (load record ((len - 16 : Nat) : Int) 16) 16).tag
    ∧ (tls_oneshot c record len).2.1.trace
        = c.trace ++ [Call.oneshot c.buf c.tls_aad_len (load record 8 (len - 24)) (len - 24)
            (load record ((len - 16 : Nat) : Int) 16) 16] := by
  have eo : (((EVP_GCM_TLS_EXPLICIT_IV_LEN : Nat) : Int)
      + ((len - (EVP_GCM_TLS_EXPLICIT_IV_LEN + EVP_GCM_TLS_TAG_LEN) : Nat) : Int))
      = ((len - 16 : Nat) : Int) := by
    have e8 : EVP_GCM_TLS_EXPLICIT_IV_LEN = 8 := rfl
    have e24 : EVP_GCM_TLS_EXPLICIT_IV_LEN + EVP_GCM_TLS_TAG_LEN = 24 := rfl
    omega
  unfold tls_oneshot hw_oneshot
  dsimp only
  rw [eo]
  exact ⟨rfl, rfl, rfl, rfl⟩

/-- The primitive state with which the bind stage leaves the context. -/
theorem tls_bind_iv_gcm (c : PROV_GCM_CTX σ ρ) (record : List Nat) (h8 : 8 ≤ c.ivlen)
    (hcap : c.ivlen ≤ c.iv.length) (hr : 8 ≤ record.length) :
    (c.enc = true →
      (tls_bind_iv c record).2.1.gcm = (c.hw.setiv c.gcm c.iv c.ivlen).st
      ∧ ((tls_bind_iv c record).1 = 0 ↔ (c.hw.setiv c.gcm c.iv c.ivlen).rv = 0))
    ∧ (c.enc = false →
      (tls_bind_iv c record).2.1.gcm
          = (c.hw.setiv c.gcm (tls_open_nonce c record) c.ivlen).st
      ∧ ((tls_bind_iv c record).1 = 0
          ↔ (c.hw.setiv c.gcm (tls_open_nonce c record) c.ivlen).rv = 0)) := by
  refine ⟨fun he => ?_, fun he => ?_⟩
  · unfold tls_bind_iv
    rw [if_pos he]
    by_cases hs : (hw_setiv c).1 = 0
    · rw [if_pos hs, pair_snd, pair_fst, pair_fst]
      exact ⟨rfl, fun _ => hs, fun _ => rfl⟩
    · rw [if_neg hs]
      dsimp only
      exact ⟨rfl, fun h => absurd h one_ne_zero_int, fun h => absurd h hs⟩
  · have he1 : ¬ c.enc = true := by rw [he]; exact fun e => Bool.noConfusion e
    have hoff : ((c.ivlen : Int) - 8) = ((c.ivlen - 8 : Nat) : Int) := by omega
    have hload : load record 0 8 = record.take 8 := by
      rw [load_eq_drop_take record 0 0 8 rfl (by omega), List.drop_zero]
    have hlen : (record.take 8).length = 8 := by
      rw [List.length_take]; omega
    have hiv : memcpy c.iv ((c.ivlen : Int) - 8) (load record 0 8) 8
        = tls_open_nonce c record := by
      unfold tls_open_nonce
      rw [hload, memcpy_eq_splice c.iv _ _ (c.ivlen - 8) 8 hoff hlen (by omega),
        Nat.sub_add_cancel h8]
    unfold tls_bind_iv
    rw [if_neg he1]
    simp only [explicit_iv_len_eq, Nat.cast_ofNat]
    rw [hiv]
    generalize tls_open_nonce c record = iv1
    by_cases hs : (hw_setiv { c with iv := iv1 }).1 = 0
    · rw [if_pos hs, pair_snd, pair_fst, pair_fst]
      exact ⟨rfl, fun _ => hs, fun _ => rfl⟩
    · rw [if_neg hs, pair_snd, pair_fst, pair_fst]
      exact ⟨rfl, fun h => absurd h one_ne_zero_int, fun h => absurd h hs⟩

/-- The record after a one-shot call that wrote `len - 24` bytes and a 16-byte tag. -/
theorem tls_record_after_loads (c : PROV_GCM_CTX σ ρ) (record : List Nat) (len : Nat)
    (hl : 24 ≤ len) (hr : len ≤ record.length)
    (ho : (tls_oneshot c record len).2.2.1.length = len - 24) :
    load (tls_record_after { c with iv_state := IV_STATE.COPIED } record
        (len - (EVP_GCM_TLS_EXPLICIT_IV_LEN + EVP_GCM_TLS_TAG_LEN))) 8 (len - 24)
      = (tls_oneshot c record len).2.2.1
    ∧ ((tls_oneshot c record len).2.2.2.length = 16 →
        load (tls_record_after { c with iv_state := IV_STATE.COPIED } record
          (len - (EVP_GCM_TLS_EXPLICIT_IV_LEN + EVP_GCM_TLS_TAG_LEN))) ((len - 16 : Nat) : Int) 16
        = (tls_oneshot c record len).2.2.2)
    ∧ (tls_record_after { c with iv_state := IV_STATE.COPIED } record
        (len - (EVP_GCM_TLS_EXPLICIT_IV_LEN + EVP_GCM_TLS_TAG_LEN))).length = record.length := by
  have hget := fun i => tls_record_after_getD c record len i hl hr
  have hlen : (tls_record_after { c with iv_state := IV_STATE.COPIED } record
      (len - (EVP_GCM_TLS_EXPLICIT_IV_LEN + EVP_GCM_TLS_TAG_LEN))).length = record.length := by
    rw [tls_record_after_eq, memcpy_length, memcpy_length]
  generalize tls_record_after _ _ _ = after at hget hlen ⊢
  generalize (tls_oneshot c record len).2.2.1 = o at hget ho ⊢
  generalize (tls_oneshot c record len).2.2.2 = t at hget ⊢
  refine ⟨?_, fun ht => ?_, hlen⟩
  · apply List.ext_getElem
    · rw [load_length, ho]
    · intro j h1 h2
      rw [load_length] at h1
      have e := load_getD after 8 8 (len - 24) j rfl h1
      rw [(hget (8 + j)).2.1 (by omega) (by omega) (by omega)] at e
      have e2 : 8 + j - 8 = j := by omega
      rw [e2, List.getD_eq_getElem?_getD, List.getD_eq_getElem?_getD,
        List.getElem?_eq_getElem (by rw [load_length]; exact h1),
        List.getElem?_eq_getElem h2] at e
      exact e
  · apply List.ext_getElem
    · rw [load_length, ht]
    · intro j h1 h2
      rw [load_length] at h1
      have e := load_getD after ((len - 16 : Nat) : Int) (len - 16) 16 j rfl h1
      rw [(hget (len - 16 + j)).2.2.1 (by omega) (by omega) (by omega)] at e
      have e2 : len - 16 + j - (len - 16) = j := by omega
      rw [e2, List.getD_eq_getElem?_getD, List.getD_eq_getElem?_getD,
        List.getElem?_eq_getElem (by rw [load_length]; exact h1),
        List.getElem?_eq_getElem h2] at e
      exact e

theorem tls_seal_open_ok (c : PROV_GCM_CTX σ ρ) (record : List Nat) (len : Nat)
    (ho : (tls_oneshot c record len).1 ≠ 0) :
    (tls_seal_open c record len).rv = 1
    ∧ (tls_seal_open c record len).out
        = tls_record_after { c with iv_state := IV_STATE.COPIED } record
            (len - (EVP_GCM_TLS_EXPLICIT_IV_LEN + EVP_GCM_TLS_TAG_LEN))
    ∧ (tls_seal_open c record len).ctx.trace = (tls_oneshot c record len).2.1.trace
    ∧ (c.enc = true → 24 ≤ len → (tls_seal_open c record len).padlen = len)
    ∧ (c.enc = false → (tls_seal_open c record len).padlen = len - 24) := by
  have e24 : EVP_GCM_TLS_EXPLICIT_IV_LEN + EVP_GCM_TLS_TAG_LEN = 24 := rfl
  have e8 : EVP_GCM_TLS_EXPLICIT_IV_LEN = 8 := rfl
  have e16 : EVP_GCM_TLS_TAG_LEN = 16 := rfl
  rw [tls_seal_open_eq, if_neg ho]
  generalize tls_oneshot c record len = o
  generalize tls_record_after _ _ _ = after
  by_cases he : c.enc = true
  · rw [if_pos he]
    refine ⟨rfl, rfl, rfl, fun _ hl => ?_, fun h => ?_⟩
    · rw [err_padlen]; omega
    · rw [he] at h; exact Bool.noConfusion h
  · rw [if_neg he]
    refine ⟨rfl, rfl, rfl, fun h => absurd h he, fun _ => ?_⟩
    rw [err_padlen, e24]

/-- An encrypting `gcm_tls_cipher` call past its checks, when `setiv` and `oneshot`
report success and the primitive wrote `len - 24` bytes and a 16-byte tag. -/
theorem tls_seal_record (c : PROV_GCM_CTX σ ρ) (out inp : Option Buf) (len : Nat)
    (hk : c.key_set = true) (he : c.enc = true) (hp : ptr out = ptr inp) (hl : 24 ≤ len)
    (hc : (tls_count_record c).tls_enc_records ≠ 0) (hg : c.iv_gen = true)
    (h8 : 8 ≤ c.ivlen) (hcap : c.ivlen ≤ c.iv.length) (hr : len ≤ (contents out).length)
    (hs : (c.hw.setiv c.gcm c.iv c.ivlen).rv ≠ 0)
    (ho : (tls_seal_call c (contents out) len).rv ≠ 0)
    (hsz : (tls_seal_call c (contents out) len).out.length = len - 24)
    (htg : (tls_seal_call c (contents out) len).tag.length = 16) :
    (gcm_tls_cipher c out inp len).rv = 1
    ∧ (gcm_tls_cipher c out inp len).padlen = len
    ∧ (gcm_tls_cipher c out inp len).out.length = (contents out).length
    ∧ (gcm_tls_cipher c out inp len).out.take 8 = (c.iv.drop (c.ivlen - 8)).take 8
    ∧ load (gcm_tls_cipher c out inp len).out 8 (len - 24)
        = (tls_seal_call c (contents out) len).out
    ∧ load (gcm_tls_cipher c out inp len).out ((len - 16 : Nat) : Int) 16
        = (tls_seal_call c (contents out) len).tag
    ∧ (gcm_tls_cipher c out inp len).ctx.trace
        = c.trace ++ [Call.setiv c.iv c.ivlen,
            Call.oneshot c.buf c.tls_aad_len (load (contents out) 8 (len - 24)) (len - 24)
              (load (contents out) ((len - 16 : Nat) : Int) 16) 16] := by
  have hchk : ¬ (c.enc = true ∧ (tls_count_record c).tls_enc_records = 0) := fun h => hc h.2
  obtain ⟨f1, f2, f3, f4, f5, f6⟩ := tls_count_record_fields c
  obtain ⟨k1, k2, _, _⟩ := tls_count_record_keeps c
  have he1 : (tls_count_record c).enc = true := f5.trans he
  have hs1 : (hw_setiv (tls_count_record c)).1 ≠ 0 := by
    rw [hw_setiv_rv, f3, f4, f1, f2]; exact hs
  obtain ⟨b1, _, b3, _, b5⟩ := tls_bind_iv_enc (tls_count_record c) (contents out) he1 hs1
    (by rw [f2]; exact h8) (by rw [f2, f1]; exact hcap) (by omega)
  obtain ⟨s1, s2, s3, s4, _, s6, s7, _⟩ := tls_bind_iv_shape (tls_count_record c) (contents out)
  obtain ⟨g1, _⟩ := (tls_bind_iv_gcm (tls_count_record c) (contents out)
    (by rw [f2]; exact h8) (by rw [f2, f1]; exact hcap) (by omega)).1 he1
  rw [f1, f2] at b5
  rw [f1, f2, f6] at b3
  rw [f3, f4, f1, f2] at g1
  have hload1 : load (tls_bind_iv (tls_count_record c) (contents out)).2.2 8 (len - 24)
      = load (contents out) 8 (len - 24) :=
    load_ext _ _ _ 8 _ rfl (fun j _ => s7 (8 + j) (by omega))
  have hload2 : load (tls_bind_iv (tls_count_record c) (contents out)).2.2
      ((len - 16 : Nat) : Int) 16 = load (contents out) ((len - 16 : Nat) : Int) 16 :=
    load_ext _ _ _ (len - 16) _ rfl (fun j _ => s7 (len - 16 + j) (by omega))
  obtain ⟨p1, p2, p3, p4⟩ := tls_oneshot_parts
    (tls_bind_iv (tls_count_record c) (contents out)).2.1
    (tls_bind_iv (tls_count_record c) (contents out)).2.2 len hl
  rw [s4, f3, g1, s1, he1, s2, k1, s3, k2, hload1, hload2] at p1 p2 p3
  rw [s2, k1, s3, k2, hload1, hload2, b3, List.append_assoc] at p4
  have ho1 : (tls_oneshot (tls_bind_iv (tls_count_record c) (contents out)).2.1
      (tls_bind_iv (tls_count_record c) (contents out)).2.2 len).1 ≠ 0 := by
    rw [p1]; exact ho
  obtain ⟨o1, o2, o3, o4, _⟩ := tls_seal_open_ok
    (tls_bind_iv (tls_count_record c) (contents out)).2.1
    (tls_bind_iv (tls_count_record c) (contents out)).2.2 len ho1
  obtain ⟨l1, l2, l3⟩ := tls_record_after_loads
    (tls_bind_iv (tls_count_record c) (contents out)).2.1
    (tls_bind_iv (tls_count_record c) (contents out)).2.2 len hl (by rw [s6]; exact hr)
    (by rw [p2]; exact hsz)
  have l2 := l2 (by rw [p3]; exact htg)
  have t8 := tls_record_after_take
    { (tls_bind_iv (tls_count_record c) (contents out)).2.1 with iv_state := IV_STATE.COPIED }
    (tls_bind_iv (tls_count_record c) (contents out)).2.2
    (len - (EVP_GCM_TLS_EXPLICIT_IV_LEN + EVP_GCM_TLS_TAG_LEN))
  rw [gcm_tls_cipher_checked c out inp len hk hp hl hchk hg, if_neg b1, o1, o2, o3,
    o4 (s1.trans he1) hl, l1, l2, l3, t8, b5, p2, p3, p4, s6]
  exact ⟨rfl, rfl, rfl, rfl, rfl, rfl, rfl⟩

/-- A decrypting `gcm_tls_cipher` call past its checks, when `setiv` and `oneshot`
report success and the primitive wrote `len - 24` bytes and a 16-byte tag. -/
theorem tls_open_record (c : PROV_GCM_CTX σ ρ) (out inp : Option Buf) (len : Nat)
    (hk : c.key_set = true) (he : c.enc = false) (hp : ptr out = ptr inp) (hl : 24 ≤ len)
    (hg : c.iv_gen = true) (h8 : 8 ≤ c.ivlen) (hcap : c.ivlen ≤ c.iv.length)
    (hr : len ≤ (contents out).length)
    (hs : (c.hw.setiv c.gcm (tls_open_nonce c (contents out)) c.ivlen).rv ≠ 0)
    (ho : (tls_open_call c (contents out) len).rv ≠ 0)
    (hsz : (tls_open_call c (contents out) len).out.length = len - 24) :
    (gcm_tls_cipher c out inp len).rv = 1
    ∧ (gcm_tls_cipher c out inp len).padlen = len - 24
    ∧ load (gcm_tls_cipher c out inp len).out 8 (len - 24)
        = (tls_open_call c (contents out) len).out
    ∧ (gcm_tls_cipher c out inp len).ctx.trace
        = c.trace ++ [Call.setiv (tls_open_nonce c (contents out)) c.ivlen,
            Call.oneshot c.buf c.tls_aad_len (load (contents out) 8 (len - 24)) (len - 24)
              (load (contents out) ((len - 16 : Nat) : Int) 16) 16] := by
  obtain ⟨_, b3, _, _⟩ := tls_bind_iv_dec c (contents out) he h8 hcap (by omega)
  obtain ⟨s1, s2, s3, s4, _, _, _, _⟩ := tls_bind_iv_shape c (contents out)
  obtain ⟨g1, g2⟩ := (tls_bind_iv_gcm c (contents out) h8 hcap (by omega)).2 he
  have hb : (tls_bind_iv c (contents out)).1 ≠ 0 := fun h => hs (g2.mp h)
  obtain ⟨p1, p2, p3, p4⟩ := tls_oneshot_parts (tls_bind_iv c (contents out)).2.1
    (contents out) len hl
  have b3a : (tls_bind_iv c (contents out)).2.1.trace
      = c.trace ++ [Call.setiv (tls_open_nonce c (contents out)) c.ivlen] := b3
  rw [s4, g1, s1, he, s2, s3] at p1 p2 p3
  rw [s2, s3, b3a, List.append_assoc] at p4
  have ho1 : (tls_oneshot (tls_bind_iv c (contents out)).2.1 (contents out) len).1 ≠ 0 := by
    rw [p1]; exact ho
  obtain ⟨o1, o2, o3, _, o5⟩ := tls_seal_open_ok (tls_bind_iv c (contents out)).2.1
    (contents out) len ho1
  obtain ⟨l1, _, _⟩ := tls_record_after_loads (tls_bind_iv c (contents out)).2.1
    (contents out) len hl hr (by rw [p2]; exact hsz)
  rw [gcm_tls_cipher_dec_eq c out inp len hk he hp hl hg hb, o1, o2, o3, o5 (s1.trans he), l1,
    p2, p4]
  exact ⟨rfl, rfl, rfl, rfl⟩

/-- The function `gcm_tls_init` on a 13-byte header whose length field holds `V`. -/
theorem gcm_tls_init_be16 (dat : PROV_GCM_CTX σ ρ) (h : List Nat) (V : Nat)
    (hh : h.length = 11) (hV : V < 65536) (hbuf : 13 ≤ dat.buf.length) :
    gcm_tls_init dat (h ++ be16 V) 13 =
      if V < 8 then
        (0, { dat with buf := h ++ be16 V ++ dat.buf.drop 13, tls_aad_len := 13,
                       tls_enc_records := 0 })
      else if dat.enc = false ∧ V - 8 < 16 then
        (0, { dat with buf := h ++ be16 V ++ dat.buf.drop 13, tls_aad_len := 13,
                       tls_enc_records := 0 })
      else
        ((EVP_GCM_TLS_TAG_LEN : Int),
         { dat with
             buf := h ++ be16 (if dat.enc = false then V - 8 - 16 else V - 8) ++ dat.buf.drop 13
             tls_aad_len := 13
             tls_enc_records := 0 }) := by
  have e : V / 256 % 256 * 256 + V % 256 = V := by omega
  have key := gcm_tls_init_header dat h (V / 256 % 256) (V % 256) hh
    (Nat.mod_lt _ (by decide)) (Nat.mod_lt _ (by decide)) hbuf
  rw [e] at key
  exact key

/-- The encrypting side of `gcm_tls_init` for a payload of `L` bytes. -/
theorem gcm_tls_init_enc_len (dat : PROV_GCM_CTX σ ρ) (h : List Nat) (L : Nat)
    (hh : h.length = 11) (hL : L + 8 < 65536) (hbuf : 13 ≤ dat.buf.length)
    (he : dat.enc = true) :
    gcm_tls_init dat (h ++ be16 (L + 8)) 13 =
      ((16 : Int), { dat with buf := h ++ be16 L ++ dat.buf.drop 13, tls_aad_len := 13,
                              tls_enc_records := 0 }) := by
  have hne : ¬ (dat.enc = false) := by rw [he]; exact fun e => Bool.noConfusion e
  rw [gcm_tls_init_be16 dat h (L + 8) hh hL hbuf, if_neg (by omega),
    if_neg (fun h2 => hne h2.1), if_neg hne, Nat.add_sub_cancel]
  rfl

/-- The decrypting side of `gcm_tls_init` for a payload of `L` bytes. -/
theorem gcm_tls_init_dec_len (dat : PROV_GCM_CTX σ ρ) (h : List Nat) (L : Nat)
    (hh : h.length = 11) (hL : L + 24 < 65536) (hbuf : 13 ≤ dat.buf.length)
    (he : dat.enc = false) :
    gcm_tls_init dat (h ++ be16 (L + 24)) 13 =
      ((16 : Int), { dat with buf := h ++ be16 L ++ dat.buf.drop 13, tls_aad_len := 13,
                              tls_enc_records := 0 }) := by
  have e : L + 24 - 8 - 16 = L := by omega
  rw [gcm_tls_init_be16 dat h (L + 24) hh hL hbuf, if_neg (by omega),
    if_neg (fun h2 => by omega), if_pos he, e]
  rfl

/-- The fixed field followed by the explicit field is the nonce. -/
theorem take_fixed_explicit (l : List Nat) (n : Nat) (h8 : 8 ≤ n) :
    l.take (n - 8) ++ (l.drop (n - 8)).take 8 = l.take n := by
  have e : n - 8 + 8 = n := by omega
  rw [← List.take_add, e]

/-- The nonce a decrypting call binds, when the record starts with the explicit field
of `iv` and the fixed fields agree. -/
theorem tls_open_nonce_take (d : PROV_GCM_CTX σ ρ) (record iv : List Nat)
    (h8 : 8 ≤ d.ivlen) (hcap : d.ivlen ≤ iv.length)
    (hpre : d.iv.take (d.ivlen - 8) = iv.take (d.ivlen - 8))
    (hrec : record.take 8 = (iv.drop (d.ivlen - 8)).take 8) :
    (tls_open_nonce d record).take d.ivlen = iv.take d.ivlen := by
  unfold tls_open_nonce
  rw [hrec, hpre, take_fixed_explicit iv d.ivlen h8]
  exact List.take_left' (by rw [List.length_take]; omega)

/-- The sample primitive `hw_accept` meets the round-trip contract. -/
theorem hw_accept_round_trip :
    RoundTripContract hw_accept (fun _ _ => True) (fun _ _ => True) where
  setiv_ok := fun _ _ _ => one_ne_zero_int
  setiv_bound := fun _ _ _ _ _ _ _ => trivial
  seal_ok := fun _ _ _ _ _ _ _ => one_ne_zero_int
  seal_size := fun _ _ _ inp len _ _ h1 h2 => by
    refine ⟨?_, h2⟩
    show (inp.take len).length = len
    rw [List.length_take]; omega
  open_inverts := fun _ _ _ _ _ inp len _ _ _ _ h1 _ => by
    refine ⟨one_ne_zero_int, ?_⟩
    show (inp.take len).take len = inp
    rw [List.take_take, Nat.min_self, ← h1, List.take_length]

/-! # The claims on the TLS record, the parameters and the round trip -/

/-! ## The bind stage and the bytes in front of the nonce buffer -/

/-- The loop of `ctr64_inc` entered at `n` leaves the bytes from index `n` on alone. -/
theorem ctr64_inc_loop_getD_ge (n : Nat) :
    ∀ (l : List Nat) (i : Nat), n ≤ i → (ctr64_inc_loop l n).getD i 0 = l.getD i 0 := by
  induction n with
  | zero => intro l i _; rfl
  | succ n ih =>
    intro l i hi
    rw [ctr64_inc_loop]
    split
    · rw [List.getD_eq_getElem?_getD, List.getElem?_set_ne (by omega),
        ← List.getD_eq_getElem?_getD]
    · rw [ih _ i (by omega), List.getD_eq_getElem?_getD, List.getElem?_set_ne (by omega),
        ← List.getD_eq_getElem?_getD]

/-- On a field that ends in `FF FF FF FF` the increment carries through those four
bytes. -/
theorem ctr64_inc_carry (a b c p : Nat) :
    ctr64_inc [a, b, c, p, 255, 255, 255, 255]
      = ctr64_inc_loop [a, b, c, p, 0, 0, 0, 0] 4 := by
  simp [ctr64_inc, ctr64_inc_loop, byte_at]

/-- The loop of `ctr64_inc` entered at `n` leaves the tail from index `n` on alone. -/
theorem ctr64_inc_loop_drop (n : Nat) :
    ∀ l : List Nat, (ctr64_inc_loop l n).drop n = l.drop n := by
  induction n with
  | zero => intro l; rfl
  | succ n ih =>
    intro l
    rw [ctr64_inc_loop]
    split
    · exact List.drop_set_of_lt _ _ (Nat.lt_succ_self n)
    · have h := congrArg (List.drop 1) (ih (l.set n ((byte_at l n + 1) % 256)))
      rw [List.drop_drop, List.drop_drop] at h
      rw [h]
      exact List.drop_set_of_lt _ _ (Nat.lt_succ_self n)

/-- Entered at index 4 on a field whose fourth byte is `p`, the loop of `ctr64_inc`
leaves `(p + 1) mod 256` there. -/
theorem ctr64_inc_loop_fourth (a b c p : Nat) (t : List Nat) :
    (ctr64_inc_loop ([a, b, c, p] ++ t) 4).getD 3 0 = (p + 1) % 256 := by
  have hb : byte_at ([a, b, c, p] ++ t) 3 = p % 256 := rfl
  rw [ctr64_inc_loop, hb]
  split
  · show (p % 256 + 1) % 256 = (p + 1) % 256
    omega
  · rw [ctr64_inc_loop_getD_ge 3 _ 3 (le_refl 3)]
    show (p % 256 + 1) % 256 = (p + 1) % 256
    omega

/-- With room for the invocation field (`8 <= ivlen <= sizeof(iv)`) the copy of line 472
leaves the bytes in front of the nonce buffer alone, and the nonce buffer is the
one the bind stage computes. -/
theorem tls_store_window_in_bounds (before iv record : List Nat) (ivlen : Nat)
    (h8 : 8 ≤ ivlen) (hcap : ivlen ≤ iv.length) :
    tls_store_window before iv ivlen record
      = before ++ memcpy iv ((ivlen : Int) - EVP_GCM_TLS_EXPLICIT_IV_LEN)
          (load record 0 EVP_GCM_TLS_EXPLICIT_IV_LEN) EVP_GCM_TLS_EXPLICIT_IV_LEN := by
  have e8 : EVP_GCM_TLS_EXPLICIT_IV_LEN = 8 := rfl
  have h1 : ((before.length : Int) + ((ivlen : Int) - (EVP_GCM_TLS_EXPLICIT_IV_LEN : Nat)))
      = ((before.length + (ivlen - 8) : Nat) : Int) := by
    rw [e8]; omega
  have h2 : ((ivlen : Int) - (EVP_GCM_TLS_EXPLICIT_IV_LEN : Nat)) = ((ivlen - 8 : Nat) : Int) := by
    rw [e8]; omega
  unfold tls_store_window
  rw [memcpy_eq_splice _ _ _ _ _ h1 (load_length _ _ _)
      (by rw [List.length_append, e8]; omega),
    memcpy_eq_splice _ _ _ _ _ h2 (load_length _ _ _) (by rw [e8]; omega),
    List.take_append, Nat.add_assoc, List.drop_append, List.append_assoc, List.append_assoc,
    List.append_assoc]

/-- With room for the invocation field (`8 <= ivlen <= sizeof(iv)`) the increment of
line 470 leaves the bytes in front of the nonce buffer alone, and the nonce buffer
is the one the bind stage computes. -/
theorem tls_inc_window_in_bounds (before iv : List Nat) (ivlen : Nat)
    (h8 : 8 ≤ ivlen) (hcap : ivlen ≤ iv.length) :
    tls_inc_window before iv ivlen
      = before ++ memcpy iv ((ivlen : Int) - 8)
          (ctr64_inc (load iv ((ivlen : Int) - 8) 8)) 8 := by
  have h1 : ((before.length : Int) + ((ivlen : Int) - 8))
      = ((before.length + (ivlen - 8) : Nat) : Int) := by omega
  have h2 : ((ivlen : Int) - 8) = ((ivlen - 8 : Nat) : Int) := by omega
  have hload : load (before ++ iv) ((before.length : Int) + ((ivlen : Int) - 8)) 8
      = load iv ((ivlen : Int) - 8) 8 := by
    rw [load_eq_drop_take _ _ _ 8 h1 (by rw [List.length_append]; omega),
      load_eq_drop_take _ _ _ 8 h2 (by omega), List.drop_append]
  have hlen : (ctr64_inc (load iv ((ivlen : Int) - 8) 8)).length = 8 := by
    unfold ctr64_inc
    rw [ctr64_inc_loop_length, load_length]
  unfold tls_inc_window
  rw [hload, memcpy_eq_splice _ _ _ _ _ h1 hlen (by rw [List.length_append]; omega),
    memcpy_eq_splice _ _ _ _ _ h2 hlen (by omega),
    List.take_append, Nat.add_assoc, List.drop_append, List.append_assoc, List.append_assoc,
    List.append_assoc]

/-- The nonce handed to `setiv` by a call of `gcm_tls_cipher` that does not return 0,
where the nonce has room for the invocation field: the stored nonce on encrypt,
the stored nonce with the explicit nonce of the record at `[ivlen-8, ivlen)` on
decrypt. -/
theorem gcm_tls_cipher_success_nonce (ctx : PROV_GCM_CTX σ ρ) (out inp : Option Buf)
    (len : Nat) (h : (gcm_tls_cipher ctx out inp len).rv ≠ 0) (h8 : 8 ≤ ctx.ivlen)
    (hcap : ctx.ivlen ≤ ctx.iv.length) :
    (ctx.enc = true → 8 ≤ (contents out).length →
        ∃ call, (gcm_tls_cipher ctx out inp len).ctx.trace
          = ctx.trace ++ [Call.setiv ctx.iv ctx.ivlen, call])
    ∧ (ctx.enc = false → 8 ≤ (contents out).length →
        ∃ call, (gcm_tls_cipher ctx out inp len).ctx.trace
          = ctx.trace ++ [Call.setiv (tls_open_nonce ctx (contents out)) ctx.ivlen, call]) := by
  obtain ⟨_, _, _, _, hb, e, _⟩ := gcm_tls_cipher_success ctx out inp len h
  obtain ⟨f1, f2, _, _, f5, f6⟩ := tls_count_record_fields ctx
  obtain ⟨_, _, ⟨call, s3, _⟩, _⟩ := tls_seal_open_effect
    (tls_bind_iv (tls_count_record ctx) (contents out)).2.1
    (tls_bind_iv (tls_count_record ctx) (contents out)).2.2 len
  rw [e, s3]
  refine ⟨fun he hr => ?_, fun he hr => ?_⟩
  · have he1 : (tls_count_record ctx).enc = true := f5.trans he
    by_cases hs : (hw_setiv (tls_count_record ctx)).1 = 0
    · have eb := tls_bind_iv_enc_fail (tls_count_record ctx) (contents out) he1 hs
      have hb0 : (tls_bind_iv (tls_count_record ctx) (contents out)).1 = 0 := by
        rw [eb]
      exact absurd hb0 hb
    · obtain ⟨_, _, b3, _⟩ := tls_bind_iv_enc (tls_count_record ctx) (contents out) he1 hs
        (by rw [f2]; exact h8) (by rw [f2, f1]; exact hcap) hr
      rw [f1, f2, f6] at b3
      rw [b3, List.append_assoc]
      exact ⟨call, rfl⟩
  · rw [tls_count_record_dec ctx he,
      (tls_bind_iv_dec ctx (contents out) he h8 hcap hr).2.1, List.append_assoc]
    exact ⟨call, rfl⟩

/-- Two traces that extend the same trace by two calls each agree call by call. -/
theorem trace_two_calls (t : List Call) (a b c d : Call) (h : t ++ [a, b] = t ++ [c, d]) :
    a = c ∧ b = d := by
  have h1 := List.append_cancel_left h
  injection h1 with h2 h3
  injection h3 with h4 _
  exact ⟨h2, h4⟩

/-! ## C21 -/

/-- Where the nonce has room for the invocation field (`8 <= ivlen <= sizeof(iv)`), a
decrypting `gcm_tls_cipher` call on an in-place record of `len >= 24` bytes that
reaches the one-shot call (key set, auto-generation on, `setiv` accepted) and
whose one-shot call reports failure returns 0 and stores 0 through `padlen`; on
return the payload bytes `[8, len-16)` of the record are all zero, the explicit
nonce bytes `[0, 8)` are the caller's and the stored nonce holds them at
`[ivlen-8, ivlen)`.  The tag bytes `[len-16, len)` are the caller's when the
primitive, which is handed the tag pointer, left the tag as it found it. -/
theorem tls_decrypt_failure_wipes_payload (ctx : PROV_GCM_CTX σ ρ) (out inp : Option Buf)
    (len : Nat) (hk : ctx.key_set = true) (he : ctx.enc = false) (hp : ptr out = ptr inp)
    (hl : 24 ≤ len) (hg : ctx.iv_gen = true) (hr : len ≤ (contents out).length)
    (h8 : 8 ≤ ctx.ivlen) (hcap : ctx.ivlen ≤ ctx.iv.length)
    (hs : (tls_bind_iv ctx (contents out)).1 ≠ 0)
    (ho : (tls_oneshot (tls_bind_iv ctx (contents out)).2.1 (contents out) len).1 = 0) :
    (gcm_tls_cipher ctx out inp len).rv = 0
    ∧ (gcm_tls_cipher ctx out inp len).padlen = 0
    ∧ (gcm_tls_cipher ctx out inp len).out.length = (contents out).length
    ∧ load (gcm_tls_cipher ctx out inp len).out 8 (len - 24) = List.replicate (len - 24) 0
    ∧ load (gcm_tls_cipher ctx out inp len).out 0 8 = load (contents out) 0 8
    ∧ (gcm_tls_cipher ctx out inp len).ctx.iv = tls_open_nonce ctx (contents out)
    ∧ ((tls_oneshot (tls_bind_iv ctx (contents out)).2.1 (contents out) len).2.2.2
          = load (contents out) ((len - 16 : Nat) : Int) 16 →
        load (gcm_tls_cipher ctx out inp len).out ((len - 16 : Nat) : Int) 16
          = load (contents out) ((len - 16 : Nat) : Int) 16) := by
  have hbe : (tls_bind_iv ctx (contents out)).2.1.enc = false :=
    (tls_bind_iv_shape ctx (contents out)).1.trans he
  have hiv : (gcm_tls_cipher ctx out inp len).ctx.iv = tls_open_nonce ctx (contents out) := by
    rw [gcm_tls_cipher_dec_eq ctx out inp len hk he hp hl hg hs]
    exact (tls_seal_open_effect _ _ _).1.trans
      (tls_bind_iv_dec ctx (contents out) he h8 hcap (by omega)).1
  refine ⟨?_, ?_, ?_, ?_, ?_, hiv, ?_⟩
  all_goals
    rw [gcm_tls_cipher_dec_eq ctx out inp len hk he hp hl hg hs, tls_seal_open_eq, if_pos ho,
      if_pos hbe]
  · rw [err_rv]
  · rw [err_padlen]
  all_goals
    rw [(err_fields 0
      (tls_oneshot (tls_bind_iv ctx (contents out)).2.1 (contents out) len).2.1
      (OPENSSL_cleanse
        (tls_record_after { (tls_bind_iv ctx (contents out)).2.1 with iv_state := IV_STATE.COPIED }
          (contents out) (len - (EVP_GCM_TLS_EXPLICIT_IV_LEN + EVP_GCM_TLS_TAG_LEN)))
        EVP_GCM_TLS_EXPLICIT_IV_LEN
        (len - (EVP_GCM_TLS_EXPLICIT_IV_LEN + EVP_GCM_TLS_TAG_LEN))) 0).2.2.2]
    have hget := fun i => tls_record_after_getD (tls_bind_iv ctx (contents out)).2.1
      (contents out) len i hl hr
    have hlen : (tls_record_after
        { (tls_bind_iv ctx (contents out)).2.1 with iv_state := IV_STATE.COPIED }
        (contents out) (len - (EVP_GCM_TLS_EXPLICIT_IV_LEN + EVP_GCM_TLS_TAG_LEN))).length
        = (contents out).length := by
      rw [tls_record_after_eq, memcpy_length, memcpy_length]
    generalize tls_record_after _ _ _ = after at hget hlen ⊢
    generalize tls_oneshot _ _ _ = o at hget ⊢
    generalize contents out = record at hget hlen hr ⊢
    have e8 : EVP_GCM_TLS_EXPLICIT_IV_LEN = 8 := rfl
    have e24 : EVP_GCM_TLS_EXPLICIT_IV_LEN + EVP_GCM_TLS_TAG_LEN = 24 := rfl
  · rw [OPENSSL_cleanse_length, hlen]
  · apply load_eq_replicate _ 8 8 _ rfl
    intro j hj
    rw [OPENSSL_cleanse_getD, if_pos (by omega)]
  · apply load_ext _ _ 0 0 8 rfl
    intro j hj
    rw [OPENSSL_cleanse_getD, if_neg (by omega)]
    exact (hget (0 + j)).1 (by omega)
  · intro htag
    rw [htag] at hget
    apply load_ext _ _ _ (len - 16) 16 rfl
    intro j hj
    rw [OPENSSL_cleanse_getD, if_neg (by omega),
      (hget (len - 16 + j)).2.2.1 (by omega) (by omega) (by rw [load_length]; omega),
      load_getD record _ (len - 16) 16 _ rfl (by omega)]
    congr 1
    omega

set_option maxRecDepth 100000 in
/-- The decrypting context `ctx_tls_dec_fail` (`ivlen = 12`) on the 28-byte record with
payload `01 02 03 04`: the call fails and leaves the payload region zeroed and
the tag bytes as they were. -/
theorem tls_decrypt_failure_wipes_payload_sample :
    (gcm_tls_cipher ctx_tls_dec_fail (some sample_record_28) (some sample_record_28) 28).rv = 0
    ∧ load (gcm_tls_cipher ctx_tls_dec_fail (some sample_record_28) (some sample_record_28)
        28).out 8 (28 - 24) = List.replicate (28 - 24) 0
    ∧ load (gcm_tls_cipher ctx_tls_dec_fail (some sample_record_28) (some sample_record_28)
        28).out ((28 - 16 : Nat) : Int) 16
        = load (contents (some sample_record_28)) ((28 - 16 : Nat) : Int) 16 :=
  ⟨(tls_decrypt_failure_wipes_payload ctx_tls_dec_fail (some sample_record_28)
      (some sample_record_28) 28 (by decide) (by decide) (by decide) (by decide) (by decide)
      (by decide) (by decide) (by decide) (by decide) (by decide)).1,
   (tls_decrypt_failure_wipes_payload ctx_tls_dec_fail (some sample_record_28)
      (some sample_record_28) 28 (by decide) (by decide) (by decide) (by decide) (by decide)
      (by decide) (by decide) (by decide) (by decide) (by decide)).2.2.2.1,
   (tls_decrypt_failure_wipes_payload ctx_tls_dec_fail (some sample_record_28)
      (some sample_record_28) 28 (by decide) (by decide) (by decide) (by decide) (by decide)
      (by decide) (by decide) (by decide) (by decide) (by decide)).2.2.2.2.2.2 (by decide)⟩

/-- Where the nonce has room for the invocation field (`8 <= ivlen <= sizeof(iv)`): in
TLS mode (`tls_aad_len = 13`), a `gcm_stream_update` call on a record of `len`
bytes that returns 1 has `len >= 24` and makes exactly two external calls:
`setiv` with the stored nonce (on decrypt: with the explicit nonce of the record
in its last 8 bytes; the record holding at least those 8 bytes), then `oneshot` with the cached AAD and its length 13, the
`len - 24` payload bytes at offset 8 and the 16 bytes at offset `len - 16` as
tag; it stores `len` through `outl` when encrypting and `len - 24` when
decrypting.  A call that reaches the TLS path (`len <= outsize`) and does not
return 1 returns -1 and stores 0; `gcm_tls_cipher` itself stores 0 whenever it
returns 0. -/
theorem tls_update_lengths (ctx : PROV_GCM_CTX σ ρ) (out inp : Option Buf)
    (outsize len : Nat) (ht : ctx.tls_aad_len = EVP_AEAD_TLS1_AAD_LEN)
    (h8 : 8 ≤ ctx.ivlen) (hcap : ctx.ivlen ≤ ctx.iv.length) :
    ((gcm_stream_update ctx out outsize inp len).rv = 1 →
      24 ≤ len
      ∧ (∃ iv1, (gcm_stream_update ctx out outsize inp len).ctx.trace
          = ctx.trace ++ [Call.setiv iv1 ctx.ivlen,
              Call.oneshot ctx.buf 13 (load (contents out) 8 (len - 24)) (len - 24)
                (load (contents out) ((len - 16 : Nat) : Int) 16) 16]
          ∧ (ctx.enc = true → 8 ≤ (contents out).length → iv1 = ctx.iv)
          ∧ (ctx.enc = false → 8 ≤ (contents out).length →
              iv1 = tls_open_nonce ctx (contents out)))
      ∧ (ctx.enc = true → (gcm_stream_update ctx out outsize inp len).outl = some len)
      ∧ (ctx.enc = false →
          (gcm_stream_update ctx out outsize inp len).outl = some (len - 24)))
    ∧ (len ≤ outsize → (gcm_stream_update ctx out outsize inp len).rv ≠ 1 →
        (gcm_stream_update ctx out outsize inp len).rv = -1
        ∧ (gcm_stream_update ctx out outsize inp len).outl = some 0)
    ∧ ((gcm_tls_cipher ctx out inp len).rv = 0 → (gcm_tls_cipher ctx out inp len).padlen = 0) := by
  have hmode : ctx.tls_aad_len ≠ UNINITIALISED_SIZET := by rw [ht]; exact aad_len_ne_unset
  have hi := gcm_cipher_internal_tls ctx out inp len hmode
  have h13 : ctx.tls_aad_len = 13 := ht
  obtain ⟨hrv01, hpad⟩ := gcm_tls_cipher_rv ctx out inp len
  refine ⟨fun hrv => ?_, fun hsz hrv => ?_, hpad⟩
  · have hsz : len ≤ outsize := by
      by_cases h : outsize < len
      · rw [stream_update_small ctx out inp outsize len h] at hrv
        have hrv2 : (-1 : Int) = 1 := hrv
        exact absurd hrv2 (by decide)
      · omega
    rw [stream_update_rv ctx out inp outsize len hsz, hi] at hrv
    have hne : (gcm_tls_cipher ctx out inp len).rv ≠ 0 := by
      intro h0
      rw [h0, if_pos (le_refl (0 : Int))] at hrv
      exact absurd hrv (by decide)
    obtain ⟨hl, ⟨iv1, htr⟩, henc, hdec⟩ := gcm_tls_cipher_success_effect ctx out inp len hne
    obtain ⟨n1, n2⟩ := gcm_tls_cipher_success_nonce ctx out inp len hne h8 hcap
    rw [stream_update_ctx ctx out inp outsize len hsz, stream_update_outl ctx out inp outsize
      len hsz, hi]
    rw [h13] at htr
    refine ⟨hl, ⟨iv1, htr, fun he hr => ?_, fun he hr => ?_⟩, fun he => by rw [henc he],
      fun he => by rw [hdec he]⟩
    · obtain ⟨call, hc⟩ := n1 he hr
      exact Call.setiv.inj (trace_two_calls _ _ _ _ _ (htr.symm.trans hc)).1 |>.1
    · obtain ⟨call, hc⟩ := n2 he hr
      exact Call.setiv.inj (trace_two_calls _ _ _ _ _ (htr.symm.trans hc)).1 |>.1
  · rw [stream_update_rv ctx out inp outsize len hsz, hi] at hrv ⊢
    rw [stream_update_outl ctx out inp outsize len hsz, hi]
    rcases hrv01 with h0 | h1
    · rw [h0, if_pos (le_refl (0 : Int))]
      exact ⟨rfl, by rw [hpad h0]⟩
    · rw [h1, if_neg (by decide)] at hrv
      exact absurd rfl hrv

set_option maxRecDepth 100000 in
/-- The contexts `ctx_tls_enc_28`, `ctx_tls_dec_28` and `ctx_tls_dec_fail` (`ivlen = 12`)
on the 28-byte record: encrypting stores 28, decrypting stores 4, the failing
call returns -1 and stores 0. -/
theorem tls_update_lengths_sample :
    (gcm_stream_update ctx_tls_enc_28 (some sample_record_28) 28 (some sample_record_28)
        28).outl = some 28
    ∧ (gcm_stream_update ctx_tls_dec_28 (some sample_record_28) 28 (some sample_record_28)
        28).outl = some (28 - 24)
    ∧ ((gcm_stream_update ctx_tls_dec_fail (some sample_record_28) 28 (some sample_record_28)
        28).rv = -1
      ∧ (gcm_stream_update ctx_tls_dec_fail (some sample_record_28) 28 (some sample_record_28)
        28).outl = some 0) :=
  ⟨((tls_update_lengths ctx_tls_enc_28 (some sample_record_28) (some sample_record_28)
      28 28 (by decide) (by decide) (by decide)).1 (by decide)).2.2.1 (by decide),
   ((tls_update_lengths ctx_tls_dec_28 (some sample_record_28) (some sample_record_28)
      28 28 (by decide) (by decide) (by decide)).1 (by decide)).2.2.2 (by decide),
   (tls_update_lengths ctx_tls_dec_fail (some sample_record_28) (some sample_record_28)
      28 28 (by decide) (by decide) (by decide)).2.1 (by decide) (by decide)⟩

/-- C23: whatever the arguments and the outcome of `gcm_tls_cipher`, on return
`tls_aad_len` is unset and the nonce state is FINISHED; on the context it
leaves, `gcm_cipher_internal` takes the generic path and refuses (returns 0
with the context unchanged, so no external call is made), hence
`gcm_stream_update` and `gcm_cipher` return -1 and `gcm_stream_final` returns
0. -/
theorem C23_tls_call_clears_marker (ctx : PROV_GCM_CTX σ ρ) (out inp : Option Buf) (len : Nat)
    (out2 inp2 : Option Buf) (outsize inl : Nat) :
    (gcm_tls_cipher ctx out inp len).ctx.tls_aad_len = UNINITIALISED_SIZET
    ∧ (gcm_tls_cipher ctx out inp len).ctx.iv_state = IV_STATE.FINISHED
    ∧ gcm_cipher_internal (gcm_tls_cipher ctx out inp len).ctx out2 inp2 inl
        = { rv := 0, ctx := (gcm_tls_cipher ctx out inp len).ctx, out := contents out2,
            padlen := 0 }
    ∧ (gcm_stream_update (gcm_tls_cipher ctx out inp len).ctx out2 outsize inp2 inl).rv = -1
    ∧ (gcm_stream_update (gcm_tls_cipher ctx out inp len).ctx out2 outsize inp2 inl).ctx
        = (gcm_tls_cipher ctx out inp len).ctx
    ∧ (gcm_cipher (gcm_tls_cipher ctx out inp len).ctx out2 outsize inp2 inl).rv = -1
    ∧ (gcm_stream_final (gcm_tls_cipher ctx out inp len).ctx out2 outsize).rv = 0 := by
  obtain ⟨hs, ht⟩ := gcm_tls_cipher_state ctx out inp len
  generalize (gcm_tls_cipher ctx out inp len).ctx = c at hs ht
  have hi := fun (o i : Option Buf) (l : Nat) =>
    gcm_cipher_internal_refused c o i l ht (Or.inr hs)
  refine ⟨ht, hs, hi out2 inp2 inl, ?_, ?_, ?_, ?_⟩
  · by_cases hsz : outsize < inl
    · rw [stream_update_small c out2 inp2 outsize inl hsz]
    · rw [stream_update_rv c out2 inp2 outsize inl (by omega), hi out2 inp2 inl]
      rfl
  · by_cases hsz : outsize < inl
    · rw [stream_update_small c out2 inp2 outsize inl hsz]
    · rw [stream_update_ctx c out2 inp2 outsize inl (by omega), hi out2 inp2 inl]
  · by_cases hsz : outsize < inl
    · rw [cipher_small c out2 inp2 outsize inl hsz]
    · rw [cipher_rv c out2 inp2 outsize inl (by omega), hi out2 inp2 inl]
      rfl
  · rw [stream_final_rv c out2 outsize, hi out2 none 0]
    rfl

/-! ## C24 -/

/-- C24: setting the tls-record-aad parameter (alone) returns 1 only for an octet
string of exactly 13 bytes.  For the 13-byte header `h ++ [a, b]` (`h` the
first 11 bytes, `V = a * 256 + b` the big-endian length field): when
encrypting with `V >= 8` the set returns 1 and the first 13 bytes of the cached
AAD are `h` followed by the big-endian encoding of `V - 8`; when decrypting
with `V >= 24`, of `V - 24`; in both cases `tls_aad_len` becomes 13, the
padding size stored is 16 and the get side returns 16.  When `V < 8`
(encrypting) or `V < 24` (decrypting) the set returns 0. -/
theorem C24_tls_record_aad (ctx : PROV_GCM_CTX σ ρ) :
    (∀ q : OSSL_PARAM, (gcm_set_ctx_params ctx (params_tls1_aad q)).1 = 1 →
        ∃ d, q = OSSL_PARAM.octet_string d 13)
    ∧ (∀ (h : List Nat) (a b : Nat), h.length = 11 → a < 256 → b < 256 →
        13 ≤ ctx.buf.length →
        (ctx.enc = true → 8 ≤ a * 256 + b →
          (gcm_set_ctx_params ctx
              (params_tls1_aad (OSSL_PARAM.octet_string (h ++ [a, b]) 13))).1 = 1
          ∧ (gcm_set_ctx_params ctx
              (params_tls1_aad (OSSL_PARAM.octet_string (h ++ [a, b]) 13))).2.buf.take 13
              = h ++ be16 (a * 256 + b - 8)
          ∧ (gcm_set_ctx_params ctx
              (params_tls1_aad (OSSL_PARAM.octet_string (h ++ [a, b]) 13))).2.tls_aad_len = 13
          ∧ (gcm_set_ctx_params ctx
              (params_tls1_aad (OSSL_PARAM.octet_string (h ++ [a, b]) 13))).2.tls_aad_pad_sz
              = 16
          ∧ (gcm_get_ctx_params
              (gcm_set_ctx_params ctx
                (params_tls1_aad (OSSL_PARAM.octet_string (h ++ [a, b]) 13))).2
              (get_tls1_aad_pad (OSSL_PARAM.size_t 0))).1 = 1
          ∧ (gcm_get_ctx_params
              (gcm_set_ctx_params ctx
                (params_tls1_aad (OSSL_PARAM.octet_string (h ++ [a, b]) 13))).2
              (get_tls1_aad_pad (OSSL_PARAM.size_t 0))).2.2
              = get_tls1_aad_pad (OSSL_PARAM.size_t 16))
        ∧ (ctx.enc = false → 24 ≤ a * 256 + b →
          (gcm_set_ctx_params ctx
              (params_tls1_aad (OSSL_PARAM.octet_string (h ++ [a, b]) 13))).1 = 1
          ∧ (gcm_set_ctx_params ctx
              (params_tls1_aad (OSSL_PARAM.octet_string (h ++ [a, b]) 13))).2.buf.take 13
              = h ++ be16 (a * 256 + b - 24)
          ∧ (gcm_set_ctx_params ctx
              (params_tls1_aad (OSSL_PARAM.octet_string (h ++ [a, b]) 13))).2.tls_aad_len = 13
          ∧ (gcm_set_ctx_params ctx
              (params_tls1_aad (OSSL_PARAM.octet_string (h ++ [a, b]) 13))).2.tls_aad_pad_sz
              = 16
          ∧ (gcm_get_ctx_params
              (gcm_set_ctx_params ctx
                (params_tls1_aad (OSSL_PARAM.octet_string (h ++ [a, b]) 13))).2
              (get_tls1_aad_pad (OSSL_PARAM.size_t 0))).1 = 1
          ∧ (gcm_get_ctx_params
              (gcm_set_ctx_params ctx
                (params_tls1_aad (OSSL_PARAM.octet_string (h ++ [a, b]) 13))).2
              (get_tls1_aad_pad (OSSL_PARAM.size_t 0))).2.2
              = get_tls1_aad_pad (OSSL_PARAM.size_t 16))
        ∧ (ctx.enc = true → a * 256 + b < 8 →
          (gcm_set_ctx_params ctx
              (params_tls1_aad (OSSL_PARAM.octet_string (h ++ [a, b]) 13))).1 = 0)
        ∧ (ctx.enc = false → a * 256 + b < 24 →
          (gcm_set_ctx_params ctx
              (params_tls1_aad (OSSL_PARAM.octet_string (h ++ [a, b]) 13))).1 = 0)) := by
  refine ⟨?_, ?_⟩
  · intro q hq
    rw [gcm_set_ctx_params_aad_only] at hq
    have hne : (set_param_tls1_aad ctx (some q)).1 ≠ 0 := by
      intro h0
      rw [if_pos h0] at hq
      exact zero_ne_one_int hq
    cases q with
    | size_t v => exact absurd rfl hne
    | other d n => exact absurd rfl hne
    | octet_string d n =>
      by_cases hn : n = 13
      · exact ⟨d, by rw [hn]⟩
      · exfalso
        apply hne
        have e : gcm_tls_init ctx (OSSL_PARAM.octet_string d n).data
            (OSSL_PARAM.octet_string d n).data_size = (0, ctx) := by
          have hn1 : (OSSL_PARAM.octet_string d n).data_size ≠ EVP_AEAD_TLS1_AAD_LEN := hn
          unfold gcm_tls_init
          rw [if_pos hn1]
        unfold set_param_tls1_aad
        dsimp only
        rw [if_neg (fun h0 => Bool.noConfusion h0), e, pair_fst, pair_snd]
        rfl
  · intro h a b hh ha hb hbuf
    have hlen : ∀ v, (h ++ be16 v).length = 13 := by
      intro v
      rw [List.length_append, hh]
      rfl
    rw [gcm_set_ctx_params_aad_only, set_param_tls1_aad_header ctx h a b hh ha hb hbuf]
    refine ⟨fun he h8 => ?_, fun he h24 => ?_, fun he h8 => ?_, fun he h24 => ?_⟩
    · have hc : ¬ (a * 256 + b < 8 ∨ (ctx.enc = false ∧ a * 256 + b - 8 < 16)) := by
        rintro (h1 | h1)
        · omega
        · rw [he] at h1; exact Bool.noConfusion h1.1
      have hd : ¬ ctx.enc = false := by rw [he]; exact fun e => Bool.noConfusion e
      rw [if_neg hc, pair_fst, pair_snd, if_neg one_ne_zero_int, pair_fst, pair_snd,
        if_neg hd]
      exact ⟨rfl, List.take_left' (hlen _), rfl, rfl, rfl, rfl⟩
    · have hc : ¬ (a * 256 + b < 8 ∨ (ctx.enc = false ∧ a * 256 + b - 8 < 16)) := by
        rintro (h1 | h1) <;> omega
      have e24 : a * 256 + b - 8 - 16 = a * 256 + b - 24 := by omega
      rw [if_neg hc, pair_fst, pair_snd, if_neg one_ne_zero_int, pair_fst, pair_snd,
        if_pos he, e24]
      exact ⟨rfl, List.take_left' (hlen _), rfl, rfl, rfl, rfl⟩
    · rw [if_pos (Or.inl h8), pair_fst, if_pos rfl]
    · have hc : a * 256 + b < 8 ∨ (ctx.enc = false ∧ a * 256 + b - 8 < 16) := by
        by_cases h1 : a * 256 + b < 8
        · exact Or.inl h1
        · exact Or.inr ⟨he, by omega⟩
      rw [if_pos hc, pair_fst, if_pos rfl]

set_option maxRecDepth 100000 in
/-- C24 with the header of eleven zero bytes and length field 28 (`00 1C`): encrypting
caches length 20 (`00 14`), decrypting caches length 4 (`00 04`); a header with
length field 7 is refused. -/
theorem C24_tls_record_aad_witness :
    ((gcm_set_ctx_params ctx_enc_keyed
        (params_tls1_aad (OSSL_PARAM.octet_string (List.replicate 11 0 ++ [0, 28]) 13))).1 = 1
      ∧ (gcm_set_ctx_params ctx_enc_keyed
        (params_tls1_aad (OSSL_PARAM.octet_string (List.replicate 11 0 ++ [0, 28])
          13))).2.buf.take 13 = List.replicate 11 0 ++ be16 (0 * 256 + 28 - 8))
    ∧ ((gcm_set_ctx_params ctx_dec_keyed
        (params_tls1_aad (OSSL_PARAM.octet_string (List.replicate 11 0 ++ [0, 28]) 13))).1 = 1
      ∧ (gcm_set_ctx_params ctx_dec_keyed
        (params_tls1_aad (OSSL_PARAM.octet_string (List.replicate 11 0 ++ [0, 28])
          13))).2.buf.take 13 = List.replicate 11 0 ++ be16 (0 * 256 + 28 - 24))
    ∧ (gcm_set_ctx_params ctx_enc_keyed
        (params_tls1_aad (OSSL_PARAM.octet_string (List.replicate 11 0 ++ [0, 7]) 13))).1 = 0 :=
  ⟨⟨(((C24_tls_record_aad ctx_enc_keyed).2 (List.replicate 11 0) 0 28 (by decide) (by decide)
        (by decide) (by decide)).1 (by decide) (by decide)).1,
    (((C24_tls_record_aad ctx_enc_keyed).2 (List.replicate 11 0) 0 28 (by decide) (by decide)
        (by decide) (by decide)).1 (by decide) (by decide)).2.1⟩,
   ⟨(((C24_tls_record_aad ctx_dec_keyed).2 (List.replicate 11 0) 0 28 (by decide) (by decide)
        (by decide) (by decide)).2.1 (by decide) (by decide)).1,
    (((C24_tls_record_aad ctx_dec_keyed).2 (List.replicate 11 0) 0 28 (by decide) (by decide)
        (by decide) (by decide)).2.1 (by decide) (by decide)).2.1⟩,
   ((C24_tls_record_aad ctx_enc_keyed).2 (List.replicate 11 0) 0 7 (by decide) (by decide)
        (by decide) (by decide)).2.2.1 (by decide) (by decide)⟩

/-! ## C25 -/

set_option maxRecDepth 100000 in
/-- C25, the code evaluated at the failing input: `ctx_dec_keyed` is a decrypting
context with `ivlen = 12`, auto-generation off and no nonce.  A fixed field of
13 bytes leaves no room for an 8-byte invocation field (`12 - 13 < 8` as
integers), yet `ivlen - (int)len` is computed in `size_t` and wraps to
`2^64 - 1`, so the check of line 393 passes: `gcm_tls_iv_set_fixed` returns 1,
overwrites 13 bytes of the nonce buffer, enables auto-generation and sets the
state to BUFFERED; so does the parameter set. -/
theorem C25_fixed_length_check_wraps :
    (ctx_dec_keyed.ivlen = 12 ∧ ctx_dec_keyed.iv_gen = false
      ∧ ctx_dec_keyed.iv_state = IV_STATE.UNINITIALISED
      ∧ ctx_dec_keyed.iv.take 13 = List.replicate 13 0)
    ∧ size_t_sub 12 (to_size_t (to_int 13)) = 2 ^ 64 - 1
    ∧ (gcm_tls_iv_set_fixed ctx_dec_keyed (List.replicate 13 9) 13).1 = 1
    ∧ (gcm_tls_iv_set_fixed ctx_dec_keyed (List.replicate 13 9) 13).2.iv.take 13
        = List.replicate 13 9
    ∧ (gcm_tls_iv_set_fixed ctx_dec_keyed (List.replicate 13 9) 13).2.iv_gen = true
    ∧ (gcm_tls_iv_set_fixed ctx_dec_keyed (List.replicate 13 9) 13).2.iv_state
        = IV_STATE.BUFFERED
    ∧ (gcm_set_ctx_params ctx_dec_keyed
        (params_tls1_iv_fixed (OSSL_PARAM.octet_string (List.replicate 13 9) 13))).1 = 1 := by
  refine ⟨⟨by decide, by decide, by decide, by decide⟩, by decide, by decide, by decide,
    by decide, by decide, by decide⟩

/-! ## C26 -/

/-- C26: `gcm_tls_iv_set_fixed` with a prefix length `4 <= len <= ivlen - 8` (nonce
buffer shorter than `2^31` bytes, `ivlen <= sizeof(iv)`, the caller's buffer
holding `len` bytes).  On the decrypting side it returns 1, makes no external
call, puts the `len` prefix bytes at `iv[0 .. len)`, leaves the bytes from
`len` on unchanged, sets the state to BUFFERED and enables `iv_gen`.  On the
encrypting side it puts the prefix at `iv[0 .. len)` and calls the random source
once, for `ivlen - len` bytes stored at `iv + len`; it returns 0 if the random
source fails and otherwise returns 1 with the state BUFFERED and `iv_gen`
enabled. -/
theorem C26_fixed_prefix_set (ctx : PROV_GCM_CTX σ ρ) (iv : List Nat) (len : Nat)
    (h4 : 4 ≤ len) (hle : len + 8 ≤ ctx.ivlen) (hcap : ctx.ivlen ≤ ctx.iv.length)
    (h31 : ctx.iv.length < 2 ^ 31) (hiv : len ≤ iv.length) :
    (ctx.enc = false →
      (gcm_tls_iv_set_fixed ctx iv len).1 = 1
      ∧ (gcm_tls_iv_set_fixed ctx iv len).2.trace = ctx.trace
      ∧ (gcm_tls_iv_set_fixed ctx iv len).2.iv.take len = iv.take len
      ∧ (gcm_tls_iv_set_fixed ctx iv len).2.iv.drop len = ctx.iv.drop len
      ∧ (gcm_tls_iv_set_fixed ctx iv len).2.iv_state = IV_STATE.BUFFERED
      ∧ (gcm_tls_iv_set_fixed ctx iv len).2.iv_gen = true)
    ∧ (ctx.enc = true →
      (gcm_tls_iv_set_fixed ctx iv len).2.trace
          = ctx.trace ++ [Call.rand_bytes (ctx.ivlen - len)]
      ∧ (gcm_tls_iv_set_fixed ctx iv len).2.iv
          = memcpy (memcpy ctx.iv 0 iv len) len
              (ctx.libctx.rand ctx.libctx.drbg (ctx.ivlen - len)).2.1 (ctx.ivlen - len)
      ∧ (gcm_tls_iv_set_fixed ctx iv len).2.iv.take len = iv.take len
      ∧ ((ctx.libctx.rand ctx.libctx.drbg (ctx.ivlen - len)).2.1.length = ctx.ivlen - len →
          load (gcm_tls_iv_set_fixed ctx iv len).2.iv len (ctx.ivlen - len)
            = (ctx.libctx.rand ctx.libctx.drbg (ctx.ivlen - len)).2.1)
      ∧ ((ctx.libctx.rand ctx.libctx.drbg (ctx.ivlen - len)).1 ≤ 0 →
          (gcm_tls_iv_set_fixed ctx iv len).1 = 0)
      ∧ (0 < (ctx.libctx.rand ctx.libctx.drbg (ctx.ivlen - len)).1 →
          (gcm_tls_iv_set_fixed ctx iv len).1 = 1
          ∧ (gcm_tls_iv_set_fixed ctx iv len).2.iv_state = IV_STATE.BUFFERED
          ∧ (gcm_tls_iv_set_fixed ctx iv len).2.iv_gen = true)) := by
  have hlen_iv : len ≤ ctx.iv.length := by omega
  refine ⟨fun he => ?_, fun he => ?_⟩
  · rw [gcm_tls_iv_set_fixed_dec ctx iv len he h4 hle (by omega)]
    exact ⟨rfl, rfl, memcpy_take ctx.iv iv len hiv hlen_iv,
      memcpy_drop_after ctx.iv iv 0 len len (by omega), rfl, rfl⟩
  · rw [gcm_tls_iv_set_fixed_enc ctx iv len he h4 hle (by omega)]
    obtain ⟨r1, r2, r3⟩ := rand_bytes_ex_fields { ctx with iv := memcpy ctx.iv 0 iv len }
      len (ctx.ivlen - len)
    have r1a : (rand_bytes_ex { ctx with iv := memcpy ctx.iv 0 iv len } len
        (ctx.ivlen - len)).1 = (ctx.libctx.rand ctx.libctx.drbg (ctx.ivlen - len)).1 := r1
    have r2a : (rand_bytes_ex { ctx with iv := memcpy ctx.iv 0 iv len } len
        (ctx.ivlen - len)).2.iv = memcpy (memcpy ctx.iv 0 iv len) len
          (ctx.libctx.rand ctx.libctx.drbg (ctx.ivlen - len)).2.1 (ctx.ivlen - len) := r2
    have r3a : (rand_bytes_ex { ctx with iv := memcpy ctx.iv 0 iv len } len
        (ctx.ivlen - len)).2.trace = ctx.trace ++ [Call.rand_bytes (ctx.ivlen - len)] := r3
    generalize (ctx.libctx.rand ctx.libctx.drbg (ctx.ivlen - len)) = rnd at r1a r2a ⊢
    generalize rand_bytes_ex { ctx with iv := memcpy ctx.iv 0 iv len } len (ctx.ivlen - len)
      = r at r1a r2a r3a ⊢
    have htake : (memcpy (memcpy ctx.iv 0 iv len) len rnd.2.1 (ctx.ivlen - len)).take len
        = iv.take len := by
      rw [memcpy_take_before _ _ _ _ len (le_refl _), memcpy_take ctx.iv iv len hiv hlen_iv]
    have hload : rnd.2.1.length = ctx.ivlen - len →
        load (memcpy (memcpy ctx.iv 0 iv len) len rnd.2.1 (ctx.ivlen - len)) len
          (ctx.ivlen - len) = rnd.2.1 := fun hl =>
      load_memcpy_self _ _ _ len _ rfl hl (by rw [memcpy_length]; omega)
    by_cases hr : r.1 ≤ 0
    · rw [if_pos hr, pair_fst, pair_snd, r2a, r3a]
      exact ⟨rfl, rfl, htake, hload, fun _ => rfl, fun h => by rw [← r1a] at h; omega⟩
    · rw [if_neg hr, pair_fst, pair_snd]
      have e1 : ({ r.2 with iv_gen := true, iv_state := IV_STATE.BUFFERED }
          : PROV_GCM_CTX σ ρ).iv = r.2.iv := rfl
      have e2 : ({ r.2 with iv_gen := true, iv_state := IV_STATE.BUFFERED }
          : PROV_GCM_CTX σ ρ).trace = r.2.trace := rfl
      rw [e1, e2, r2a, r3a]
      exact ⟨rfl, rfl, htake, hload, fun h => by rw [← r1a] at h; exact absurd h hr,
        fun _ => ⟨rfl, rfl, rfl⟩⟩

set_option maxRecDepth 100000 in
/-- C26 with the 4-byte prefix `01 02 03 04` on a decrypting and on an encrypting
context (`ivlen = 12`). -/
theorem C26_fixed_prefix_set_witness :
    ((gcm_tls_iv_set_fixed ctx_dec_keyed [1, 2, 3, 4] 4).1 = 1
      ∧ (gcm_tls_iv_set_fixed ctx_dec_keyed [1, 2, 3, 4] 4).2.iv.take 4 = [1, 2, 3, 4].take 4
      ∧ (gcm_tls_iv_set_fixed ctx_dec_keyed [1, 2, 3, 4] 4).2.iv.drop 4
          = ctx_dec_keyed.iv.drop 4)
    ∧ ((gcm_tls_iv_set_fixed ctx_enc_keyed [1, 2, 3, 4] 4).2.trace
          = ctx_enc_keyed.trace ++ [Call.rand_bytes (ctx_enc_keyed.ivlen - 4)]
      ∧ (gcm_tls_iv_set_fixed ctx_enc_keyed [1, 2, 3, 4] 4).1 = 1) :=
  ⟨⟨((C26_fixed_prefix_set ctx_dec_keyed [1, 2, 3, 4] 4 (by decide) (by decide) (by decide)
        (by decide) (by decide)).1 (by decide)).1,
    ((C26_fixed_prefix_set ctx_dec_keyed [1, 2, 3, 4] 4 (by decide) (by decide) (by decide)
        (by decide) (by decide)).1 (by decide)).2.2.1,
    ((C26_fixed_prefix_set ctx_dec_keyed [1, 2, 3, 4] 4 (by decide) (by decide) (by decide)
        (by decide) (by decide)).1 (by decide)).2.2.2.1⟩,
   ⟨((C26_fixed_prefix_set ctx_enc_keyed [1, 2, 3, 4] 4 (by decide) (by decide) (by decide)
        (by decide) (by decide)).2 (by decide)).1,
    (((C26_fixed_prefix_set ctx_enc_keyed [1, 2, 3, 4] 4 (by decide) (by decide) (by decide)
        (by decide) (by decide)).2 (by decide)).2.2.2.2.2 (by decide)).1⟩⟩

/-! ## C27 -/

/-- C27: setting the tls-fixed-nonce parameter with the sentinel length
`(size_t)-1` returns 1 in either direction (`ctx.enc` is arbitrary), and so
does `gcm_tls_iv_set_fixed`: the only fields written are the nonce buffer,
which receives `ivlen` bytes of the supplied buffer at offset 0, `iv_gen`
(enabled) and the state (BUFFERED).  So the trace is unchanged (the random
source is not called) and `ivlen`, the record counter and `tls_aad_len` are
unchanged; the first `ivlen` nonce bytes are the supplied ones and the bytes
from `ivlen` on are kept. -/
theorem C27_sentinel_restores_nonce (ctx : PROV_GCM_CTX σ ρ) (iv : List Nat) :
    gcm_tls_iv_set_fixed ctx iv UNINITIALISED_SIZET
        = (1, { ctx with iv := memcpy ctx.iv 0 iv ctx.ivlen, iv_gen := true,
                         iv_state := IV_STATE.BUFFERED })
    ∧ gcm_set_ctx_params ctx
          (params_tls1_iv_fixed (OSSL_PARAM.octet_string iv UNINITIALISED_SIZET))
        = (1, { ctx with iv := memcpy ctx.iv 0 iv ctx.ivlen, iv_gen := true,
                         iv_state := IV_STATE.BUFFERED })
    ∧ (gcm_set_ctx_params ctx
          (params_tls1_iv_fixed (OSSL_PARAM.octet_string iv UNINITIALISED_SIZET))).2.trace
        = ctx.trace
    ∧ (gcm_set_ctx_params ctx
          (params_tls1_iv_fixed (OSSL_PARAM.octet_string iv UNINITIALISED_SIZET))).2.ivlen
        = ctx.ivlen
    ∧ (gcm_set_ctx_params ctx
          (params_tls1_iv_fixed (OSSL_PARAM.octet_string iv
            UNINITIALISED_SIZET))).2.tls_enc_records = ctx.tls_enc_records
    ∧ (gcm_set_ctx_params ctx
          (params_tls1_iv_fixed (OSSL_PARAM.octet_string iv UNINITIALISED_SIZET))).2.tls_aad_len
        = ctx.tls_aad_len
    ∧ (ctx.ivlen ≤ ctx.iv.length → ctx.ivlen ≤ iv.length →
        (memcpy ctx.iv 0 iv ctx.ivlen).take ctx.ivlen = iv.take ctx.ivlen)
    ∧ (memcpy ctx.iv 0 iv ctx.ivlen).drop ctx.ivlen = ctx.iv.drop ctx.ivlen := by
  have e1 := gcm_tls_iv_set_fixed_sentinel ctx iv
  have e2 : gcm_set_ctx_params ctx
        (params_tls1_iv_fixed (OSSL_PARAM.octet_string iv UNINITIALISED_SIZET))
      = (1, { ctx with iv := memcpy ctx.iv 0 iv ctx.ivlen, iv_gen := true,
                       iv_state := IV_STATE.BUFFERED }) := by
    have e3 : set_param_tls1_iv_fixed ctx
        (some (OSSL_PARAM.octet_string iv UNINITIALISED_SIZET))
        = (1, { ctx with iv := memcpy ctx.iv 0 iv ctx.ivlen, iv_gen := true,
                         iv_state := IV_STATE.BUFFERED }) := by
      have e4 : gcm_tls_iv_set_fixed ctx (OSSL_PARAM.octet_string iv UNINITIALISED_SIZET).data
          (OSSL_PARAM.octet_string iv UNINITIALISED_SIZET).data_size
          = (1, { ctx with iv := memcpy ctx.iv 0 iv ctx.ivlen, iv_gen := true,
                           iv_state := IV_STATE.BUFFERED }) := e1
      unfold set_param_tls1_iv_fixed
      dsimp only
      rw [if_neg (fun h => Bool.noConfusion h), e4, pair_fst, pair_snd, if_neg one_ne_zero_int]
    rw [gcm_set_ctx_params_iv_fixed_only, e3, pair_fst, pair_snd, if_neg one_ne_zero_int]
  rw [e2]
  exact ⟨e1, rfl, rfl, rfl, rfl, rfl, fun h1 h2 => memcpy_take ctx.iv iv ctx.ivlen h2 h1,
    memcpy_drop_after ctx.iv iv 0 ctx.ivlen ctx.ivlen (by omega)⟩

set_option maxRecDepth 100000 in
/-- C27 on a context that has processed a TLS record (state FINISHED, counter 1):
the 12 nonce bytes are restored and the counter is kept. -/
theorem C27_sentinel_restores_nonce_witness :
    (gcm_set_ctx_params ctx_after_tls_record
        (params_tls1_iv_fixed (OSSL_PARAM.octet_string (List.replicate 12 7)
          UNINITIALISED_SIZET))).1 = 1
    ∧ (gcm_set_ctx_params ctx_after_tls_record
        (params_tls1_iv_fixed (OSSL_PARAM.octet_string (List.replicate 12 7)
          UNINITIALISED_SIZET))).2.tls_enc_records = ctx_after_tls_record.tls_enc_records
    ∧ (memcpy ctx_after_tls_record.iv 0 (List.replicate 12 7) ctx_after_tls_record.ivlen).take
        ctx_after_tls_record.ivlen = (List.replicate 12 7).take ctx_after_tls_record.ivlen :=
  ⟨congrArg Prod.fst (C27_sentinel_restores_nonce ctx_after_tls_record
      (List.replicate 12 7)).2.1,
   (C27_sentinel_restores_nonce ctx_after_tls_record (List.replicate 12 7)).2.2.2.2.1,
   (C27_sentinel_restores_nonce ctx_after_tls_record (List.replicate 12 7)).2.2.2.2.2.2.1
      (by decide) (by decide)⟩

/-! ## C28 -/

/-- C28: on a context whose auto-generation flag `iv_gen` is off, `gcm_tls_cipher`
returns 0 for every input and in both directions (`ctx.enc` is arbitrary): the
trace of external calls is unchanged (neither `setiv` nor `oneshot` is
invoked), the bytes of the record buffer are as they were, the stored nonce is
unchanged and 0 is stored through `padlen`. -/
theorem C28_tls_needs_auto_generation (ctx : PROV_GCM_CTX σ ρ) (out inp : Option Buf)
    (len : Nat) (h : ctx.iv_gen = false) :
    (gcm_tls_cipher ctx out inp len).rv = 0
    ∧ (gcm_tls_cipher ctx out inp len).ctx.trace = ctx.trace
    ∧ (gcm_tls_cipher ctx out inp len).out = contents out
    ∧ (gcm_tls_cipher ctx out inp len).ctx.iv = ctx.iv
    ∧ (gcm_tls_cipher ctx out inp len).padlen = 0 := by
  obtain ⟨f1, _, _, _, _, f6⟩ := tls_count_record_fields ctx
  unfold gcm_tls_cipher
  rw [if_pos h]
  generalize tls_count_record ctx = c1 at f1 f6 ⊢
  split
  · exact ⟨rfl, rfl, rfl, rfl, rfl⟩
  · split
    · exact ⟨rfl, rfl, rfl, rfl, rfl⟩
    · split
      · exact ⟨rfl, f6, rfl, f1, rfl⟩
      · exact ⟨rfl, f6, rfl, f1, rfl⟩

set_option maxRecDepth 100000 in
/-- C28 on a context with the key set and the tls-record-aad parameter set, but no
fixed nonce field configured, in either direction. -/
theorem C28_tls_needs_auto_generation_witness :
    ((gcm_tls_cipher
        (run ctx_new [Op.einit (some sample_key) 16 none 0,
                      Op.set_ctx_params (params_tls_aad 8)])
        (some sample_record) (some sample_record) 24).rv = 0
      ∧ (gcm_tls_cipher
        (run ctx_new [Op.einit (some sample_key) 16 none 0,
                      Op.set_ctx_params (params_tls_aad 8)])
        (some sample_record) (some sample_record) 24).out = contents (some sample_record))
    ∧ ((gcm_tls_cipher
        (run ctx_new [Op.dinit (some sample_key) 16 none 0,
                      Op.set_ctx_params (params_tls_aad 24)])
        (some sample_record_in) (some sample_record_in) 24).rv = 0
      ∧ (gcm_tls_cipher
        (run ctx_new [Op.dinit (some sample_key) 16 none 0,
                      Op.set_ctx_params (params_tls_aad 24)])
        (some sample_record_in) (some sample_record_in) 24).ctx.trace
        = (run ctx_new [Op.dinit (some sample_key) 16 none 0,
                      Op.set_ctx_params (params_tls_aad 24)]).trace) :=
  ⟨⟨(C28_tls_needs_auto_generation _ (some sample_record) (some sample_record) 24
        (by decide)).1,
    (C28_tls_needs_auto_generation _ (some sample_record) (some sample_record) 24
        (by decide)).2.2.1⟩,
   ⟨(C28_tls_needs_auto_generation _ (some sample_record_in) (some sample_record_in) 24
        (by decide)).1,
    (C28_tls_needs_auto_generation _ (some sample_record_in) (some sample_record_in) 24
        (by decide)).2.1⟩⟩

/-! ## C29 -/

/-- C29: the TLS record round trip.  `E0` encrypts and `D0` decrypts over the same
primitive `hw`, which meets `RoundTripContract` (its `setiv` accepts, its sealing
`oneshot` succeeds and writes `len` bytes and the tag, and its opening `oneshot`
returns the sealed payload when key, nonce and AAD agree); both have the key set,
states related by `keyed`, the same `ivlen` of at least 8 (so also for the claim's
12) inside the nonce buffer, `iv_gen` enabled and the same first `ivlen - 8` nonce
bytes.  `E` is `E0` after `gcm_tls_init` on a 13-byte header with length field
`L + 8`, `D` is `D0` after `gcm_tls_init` on the same header with length field
`L + 24`; both calls return 16.  On an in-place record `rb` of `8 + L + 16` bytes
`gcm_tls_cipher E` returns 1; the record it leaves, `rd`, has the same length and
starts with the last 8 bytes of `E`'s nonce; it called `setiv` on `E`'s nonce and
`oneshot` on the cached AAD and the `L` payload bytes at offset 8.  On `rd`,
`gcm_tls_cipher D` calls `setiv` with a nonce equal to `E`'s on its `ivlen` bytes and
`oneshot` with a cached AAD equal to `E`'s on its 13 bytes, returns 1, reports
length `L` and leaves the payload of `rb` at offset 8. -/
theorem C29_tls_record_round_trip (hw : PROV_GCM_HW σ) (keyed bound : σ → σ → Prop)
    (E0 D0 E D : PROV_GCM_CTX σ ρ) (h : List Nat) (L : Nat) (rb rd : Buf)
    (hct : RoundTripContract hw keyed bound)
    (hEhw : E0.hw = hw) (hDhw : D0.hw = hw) (hkey : keyed E0.gcm D0.gcm)
    (hEk : E0.key_set = true) (hDk : D0.key_set = true)
    (hEe : E0.enc = true) (hDe : D0.enc = false)
    (hEg : E0.iv_gen = true) (hDg : D0.iv_gen = true)
    (hn : D0.ivlen = E0.ivlen) (h8 : 8 ≤ E0.ivlen)
    (hEcap : E0.ivlen ≤ E0.iv.length) (hDcap : D0.ivlen ≤ D0.iv.length)
    (hpre : D0.iv.take (E0.ivlen - 8) = E0.iv.take (E0.ivlen - 8))
    (hEbuf : 13 ≤ E0.buf.length) (hDbuf : 13 ≤ D0.buf.length)
    (hh : h.length = 11) (hL : L + 24 < 65536)
    (hE : E = (gcm_tls_init E0 (h ++ be16 (L + 8)) 13).2)
    (hD : D = (gcm_tls_init D0 (h ++ be16 (L + 24)) 13).2)
    (hrb : rb.bytes.length = 8 + L + 16)
    (hrd : rd.bytes = (gcm_tls_cipher E (some rb) (some rb) (8 + L + 16)).out) :
    (gcm_tls_init E0 (h ++ be16 (L + 8)) 13).1 = 16
    ∧ (gcm_tls_init D0 (h ++ be16 (L + 24)) 13).1 = 16
    ∧ (gcm_tls_cipher E (some rb) (some rb) (8 + L + 16)).rv = 1
    ∧ rd.bytes.length = 8 + L + 16
    ∧ rd.bytes.take 8 = (E.iv.drop (E.ivlen - 8)).take 8
    ∧ (gcm_tls_cipher E (some rb) (some rb) (8 + L + 16)).ctx.trace
        = E.trace ++ [Call.setiv E.iv E.ivlen,
            Call.oneshot E.buf 13 (load rb.bytes 8 L) L
              (load rb.bytes ((8 + L : Nat) : Int) 16) 16]
    ∧ (gcm_tls_cipher D (some rd) (some rd) (8 + L + 16)).ctx.trace
        = D.trace ++ [Call.setiv (tls_open_nonce D rd.bytes) D.ivlen,
            Call.oneshot D.buf 13 (load rd.bytes 8 L) L
              (load rd.bytes ((8 + L : Nat) : Int) 16) 16]
    ∧ D.ivlen = E.ivlen
    ∧ (tls_open_nonce D rd.bytes).take E.ivlen = E.iv.take E.ivlen
    ∧ D.buf.take 13 = E.buf.take 13
    ∧ (gcm_tls_cipher D (some rd) (some rd) (8 + L + 16)).rv = 1
    ∧ (gcm_tls_cipher D (some rd) (some rd) (8 + L + 16)).padlen = L
    ∧ load (gcm_tls_cipher D (some rd) (some rd) (8 + L + 16)).out 8 L
        = load rb.bytes 8 L := by
  have iE := gcm_tls_init_enc_len E0 h L hh (by omega) hEbuf hEe
  have iD := gcm_tls_init_dec_len D0 h L hh hL hDbuf hDe
  have hE2 : E = { E0 with buf := h ++ be16 L ++ E0.buf.drop 13, tls_aad_len := 13,
                           tls_enc_records := 0 } := by rw [hE, iE]
  have hD2 : D = { D0 with buf := h ++ be16 L ++ D0.buf.drop 13, tls_aad_len := 13,
                           tls_enc_records := 0 } := by rw [hD, iD]
  have eEk : E.key_set = true := by rw [hE2]; exact hEk
  have eEe : E.enc = true := by rw [hE2]; exact hEe
  have eEg : E.iv_gen = true := by rw [hE2]; exact hEg
  have eEn : E.ivlen = E0.ivlen := by rw [hE2]
  have eEiv : E.iv = E0.iv := by rw [hE2]
  have eEhw : E.hw = hw := by rw [hE2]; exact hEhw
  have eEgcm : E.gcm = E0.gcm := by rw [hE2]
  have eEbuf : E.buf = h ++ be16 L ++ E0.buf.drop 13 := by rw [hE2]
  have eEaad : E.tls_aad_len = 13 := by rw [hE2]
  have eErec : E.tls_enc_records = 0 := by rw [hE2]
  have eDk : D.key_set = true := by rw [hD2]; exact hDk
  have eDe : D.enc = false := by rw [hD2]; exact hDe
  have eDg : D.iv_gen = true := by rw [hD2]; exact hDg
  have eDn0 : D.ivlen = D0.ivlen := by rw [hD2]
  have eDiv : D.iv = D0.iv := by rw [hD2]
  have eDhw : D.hw = hw := by rw [hD2]; exact hDhw
  have eDgcm : D.gcm = D0.gcm := by rw [hD2]
  have eDbuf : D.buf = h ++ be16 L ++ D0.buf.drop 13 := by rw [hD2]
  have eDaad : D.tls_aad_len = 13 := by rw [hD2]
  have eDn : D.ivlen = E.ivlen := by rw [eDn0, eEn, hn]
  have e1 : 8 + L + 16 - 24 = L := by omega
  have e2 : 8 + L + 16 - 16 = 8 + L := by omega
  have hcb : contents (some rb) = rb.bytes := rfl
  have hcd : contents (some rd) = rd.bytes := rfl
  have hlen13 : (h ++ be16 L).length = 13 := by
    rw [List.length_append, hh]; rfl
  have haad : E.buf.take 13 = D.buf.take 13 := by
    rw [eEbuf, eDbuf, List.take_left' hlen13, List.take_left' hlen13]
  have hc : (tls_count_record E).tls_enc_records ≠ 0 := by
    rw [tls_count_record_enc E eEe, eErec]; decide
  -- the sealing side
  have hseal : tls_seal_call E (contents (some rb)) (8 + L + 16)
      = hw.oneshot (hw.setiv E.gcm E.iv E.ivlen).st true E.buf 13 (load rb.bytes 8 L) L
          (load rb.bytes ((8 + L : Nat) : Int) 16) 16 := by
    unfold tls_seal_call
    rw [eEhw, eEaad, e1, e2, hcb]
  have hsz := hct.seal_size (hw.setiv E.gcm E.iv E.ivlen).st E.buf 13 (load rb.bytes 8 L) L
    (load rb.bytes ((8 + L : Nat) : Int) 16) 16 (load_length _ _ _) (load_length _ _ _)
  obtain ⟨r1, _, r3, r4, r5, r6, r7⟩ := tls_seal_record E (some rb) (some rb) (8 + L + 16)
    eEk eEe rfl (by omega) hc eEg (by rw [eEn]; exact h8) (by rw [eEn, eEiv]; exact hEcap)
    (by rw [hcb, hrb])
    (by rw [eEhw]; exact hct.setiv_ok _ _ _)
    (by rw [hseal]; exact hct.seal_ok _ _ _ _ _ _ _)
    (by rw [hseal, e1]; exact hsz.1)
    (by rw [hseal]; exact hsz.2)
  rw [← hrd, hcb, hrb] at r3
  rw [← hrd] at r4
  rw [← hrd, hseal, e1] at r5
  rw [← hrd, hseal, e2] at r6
  rw [eEaad, e1, e2, hcb] at r7
  -- the opening side
  have hnon : (tls_open_nonce D rd.bytes).take E.ivlen = E.iv.take E.ivlen := by
    have key := tls_open_nonce_take D rd.bytes E.iv (by rw [eDn, eEn]; exact h8)
      (by rw [eDn, eEn, eEiv]; exact hEcap)
      (by rw [eDn, eEn, eDiv, eEiv]; exact hpre) (by rw [eDn]; exact r4)
    rw [eDn] at key
    exact key
  have hbound := hct.setiv_bound E.gcm D.gcm E.iv (tls_open_nonce D rd.bytes) E.ivlen
    (by rw [eEgcm, eDgcm]; exact hkey) hnon.symm
  have hinv := hct.open_inverts (hw.setiv E.gcm E.iv E.ivlen).st
    (hw.setiv D.gcm (tls_open_nonce D rd.bytes) E.ivlen).st E.buf D.buf 13
    (load rb.bytes 8 L) L (load rb.bytes ((8 + L : Nat) : Int) 16) 16 hbound haad
    (load_length _ _ _) (load_length _ _ _)
  have hopen : tls_open_call D (contents (some rd)) (8 + L + 16)
      = hw.oneshot (hw.setiv D.gcm (tls_open_nonce D rd.bytes) E.ivlen).st false D.buf 13
          (hw.oneshot (hw.setiv E.gcm E.iv E.ivlen).st true E.buf 13 (load rb.bytes 8 L) L
            (load rb.bytes ((8 + L : Nat) : Int) 16) 16).out L
          (hw.oneshot (hw.setiv E.gcm E.iv E.ivlen).st true E.buf 13 (load rb.bytes 8 L) L
            (load rb.bytes ((8 + L : Nat) : Int) 16) 16).tag 16 := by
    unfold tls_open_call
    rw [eDhw, eDaad, e1, e2, hcd, r5, r6, eDn]
  obtain ⟨q1, q2, q3, q4⟩ := tls_open_record D (some rd) (some rd) (8 + L + 16)
    eDk eDe rfl (by omega) eDg (by rw [eDn, eEn]; exact h8)
    (by rw [eDn0, eDiv]; exact hDcap) (by rw [hcd, r3])
    (by rw [eDhw]; exact hct.setiv_ok _ _ _)
    (by rw [hopen]; exact hinv.1)
    (by rw [hopen, hinv.2, e1]; exact load_length _ _ _)
  rw [e1] at q2 q3
  rw [hopen, hinv.2] at q3
  rw [eDaad, e1, e2, hcd] at q4
  exact ⟨by rw [iE], by rw [iD], r1, r3, r4, r7, q4, eDn, hnon, haad.symm, q1, q2, q3⟩

set_option maxRecDepth 100000 in
/-- C29 over the sample primitive `hw_accept`, with the fixed nonce field
`01 02 03 04`, `ivlen = 12` and the 28-byte record holding the payload
`01 02 03 04` at offset 8: sealing succeeds, and opening the sealed record
succeeds, reports 4 bytes and leaves the payload at offset 8. -/
theorem C29_tls_record_round_trip_witness :
    (gcm_tls_cipher (gcm_tls_init ctx_tls_enc_fixed (List.replicate 11 0 ++ be16 (4 + 8)) 13).2
        (some sample_record_28) (some sample_record_28) (8 + 4 + 16)).rv = 1
    ∧ (gcm_tls_cipher (gcm_tls_init ctx_tls_dec_fixed (List.replicate 11 0 ++ be16 (4 + 24)) 13).2
        (some sample_sealed_28) (some sample_sealed_28) (8 + 4 + 16)).rv = 1
    ∧ (gcm_tls_cipher (gcm_tls_init ctx_tls_dec_fixed (List.replicate 11 0 ++ be16 (4 + 24)) 13).2
        (some sample_sealed_28) (some sample_sealed_28) (8 + 4 + 16)).padlen = 4
    ∧ load (gcm_tls_cipher
          (gcm_tls_init ctx_tls_dec_fixed (List.replicate 11 0 ++ be16 (4 + 24)) 13).2
          (some sample_sealed_28) (some sample_sealed_28) (8 + 4 + 16)).out 8 4
        = load sample_record_28.bytes 8 4 :=
  have key := C29_tls_record_round_trip hw_accept (fun _ _ => True) (fun _ _ => True)
    ctx_tls_enc_fixed ctx_tls_dec_fixed
    (gcm_tls_init ctx_tls_enc_fixed (List.replicate 11 0 ++ be16 (4 + 8)) 13).2
    (gcm_tls_init ctx_tls_dec_fixed (List.replicate 11 0 ++ be16 (4 + 24)) 13).2
    (List.replicate 11 0) 4 sample_record_28 sample_sealed_28 hw_accept_round_trip
    rfl rfl trivial (by decide) (by decide) (by decide) (by decide) (by decide)
    (by decide) (by decide) (by decide) (by decide) (by decide) (by decide) (by decide)
    (by decide) (by decide) (by decide) rfl rfl (by decide) rfl
  ⟨key.2.2.1, key.2.2.2.2.2.2.2.2.2.2.1, key.2.2.2.2.2.2.2.2.2.2.2.1,
    key.2.2.2.2.2.2.2.2.2.2.2.2⟩

/-! ## C30 -/

set_option maxRecDepth 100000 in
/-- C30 (as stated) fails.  `ctx_switched` was set up for decryption, given the
expected tag `55 .. 55` through the tag parameter and then switched to
encryption; the only external call made so far is `setkey`, so no finalize has
run.  Getting the tag with a 16-byte parameter returns 1 and hands back those
sixteen bytes. -/
theorem C30_counterexample :
    ctx_switched.enc = true
    ∧ ctx_switched.trace = [Call.setkey sample_key 16]
    ∧ (gcm_get_ctx_params ctx_switched
        (get_aead_tag (OSSL_PARAM.octet_string (List.replicate 16 0) 16))).1 = 1
    ∧ (gcm_get_ctx_params ctx_switched
        (get_aead_tag (OSSL_PARAM.octet_string (List.replicate 16 0) 16))).2.2.AEAD_TAG
        = some (OSSL_PARAM.octet_string (List.replicate 16 0x55) 16) := by
  refine ⟨by decide, by decide, by decide, by decide⟩

/-- C30 (amended): `gcm_get_ctx_params` asked for the tag alone returns 1 exactly when
the direction is encrypt, `taglen` is set (not `UNINITIALISED_SIZET`), the
requested size satisfies `1 <= sz <= 16` and the parameter is an octet string;
in every other case it returns 0.  When it returns 1 the parameter holds the
first `sz` bytes of the tag buffer.  On a context fresh from `gcm_initctx`
(`taglen` unset) it returns 0. -/
theorem C30_get_tag (ctx : PROV_GCM_CTX σ ρ) (q : OSSL_PARAM) :
    ((gcm_get_ctx_params ctx (get_aead_tag q)).1 = 1 ↔
      (ctx.enc = true ∧ ctx.taglen ≠ UNINITIALISED_SIZET ∧ 1 ≤ q.data_size ∧ q.data_size ≤ 16
        ∧ q.is_octet_string = true))
    ∧ ((gcm_get_ctx_params ctx (get_aead_tag q)).1 ≠ 1 →
        (gcm_get_ctx_params ctx (get_aead_tag q)).1 = 0)
    ∧ (∀ d n, q = OSSL_PARAM.octet_string d n →
        (gcm_get_ctx_params ctx (get_aead_tag q)).1 = 1 →
        (gcm_get_ctx_params ctx (get_aead_tag q)).2.2.AEAD_TAG
            = some (OSSL_PARAM.octet_string (memcpy d 0 ctx.buf n) n)
        ∧ (n ≤ d.length → n ≤ ctx.buf.length →
            (memcpy d 0 ctx.buf n).take n = ctx.buf.take n))
    ∧ (∀ (provctx : OPENSSL_CTX ρ) (keybits : Nat) (hw : PROV_GCM_HW σ) (m : Nat),
        (gcm_get_ctx_params (gcm_initctx provctx ctx keybits hw m) (get_aead_tag q)).1 = 0) := by
  have e16 : EVP_GCM_TLS_TAG_LEN = 16 := rfl
  have hmain : ∀ c : PROV_GCM_CTX σ ρ,
      ((gcm_get_ctx_params c (get_aead_tag q)).1 = 1 ↔
        (c.enc = true ∧ c.taglen ≠ UNINITIALISED_SIZET ∧ 1 ≤ q.data_size ∧ q.data_size ≤ 16
          ∧ q.is_octet_string = true))
      ∧ ((gcm_get_ctx_params c (get_aead_tag q)).1 ≠ 1 →
          (gcm_get_ctx_params c (get_aead_tag q)).1 = 0)
      ∧ (∀ d n, q = OSSL_PARAM.octet_string d n →
          (gcm_get_ctx_params c (get_aead_tag q)).1 = 1 →
          (gcm_get_ctx_params c (get_aead_tag q)).2.2.AEAD_TAG
              = some (OSSL_PARAM.octet_string (memcpy d 0 c.buf n) n)) := by
    intro c
    rw [gcm_get_ctx_params_tag, e16]
    by_cases hc : q.data_size = 0 ∨ q.data_size > 16 ∨ c.enc = false
        ∨ c.taglen = UNINITIALISED_SIZET
    · rw [if_pos hc]
      refine ⟨⟨fun h => absurd h zero_ne_one_int, fun h => ?_⟩, fun _ => rfl,
        fun d n _ h => absurd h zero_ne_one_int⟩
      rcases hc with h1 | h1 | h1 | h1
      · omega
      · omega
      · rw [h.1] at h1; exact Bool.noConfusion h1
      · exact absurd h1 h.2.1
    · rw [if_neg hc]
      have hc1 : c.enc = true ∧ c.taglen ≠ UNINITIALISED_SIZET ∧ 1 ≤ q.data_size
          ∧ q.data_size ≤ 16 := by
        refine ⟨?_, fun h => hc (Or.inr (Or.inr (Or.inr h))), ?_, ?_⟩
        · cases he : c.enc
          · exact absurd (Or.inr (Or.inr (Or.inl he))) hc
          · rfl
        · by_cases h0 : q.data_size = 0
          · exact absurd (Or.inl h0) hc
          · omega
        · by_cases h0 : q.data_size > 16
          · exact absurd (Or.inr (Or.inl h0)) hc
          · omega
      cases q with
      | size_t v =>
        exact ⟨⟨fun h => absurd h zero_ne_one_int, fun h => Bool.noConfusion h.2.2.2.2⟩,
          fun _ => rfl, fun d n hq => OSSL_PARAM.noConfusion hq⟩
      | other d0 n0 =>
        exact ⟨⟨fun h => absurd h zero_ne_one_int, fun h => Bool.noConfusion h.2.2.2.2⟩,
          fun _ => rfl, fun d n hq => OSSL_PARAM.noConfusion hq⟩
      | octet_string d0 n0 =>
        have hs : OSSL_PARAM_set_octet_string (OSSL_PARAM.octet_string d0 n0) c.buf
            (OSSL_PARAM.octet_string d0 n0).data_size
            = some (OSSL_PARAM.octet_string (memcpy d0 0 c.buf n0) n0) := by
          unfold OSSL_PARAM_set_octet_string OSSL_PARAM.data_size
          dsimp only
          rw [if_neg (Nat.lt_irrefl n0)]
        rw [hs]
        refine ⟨⟨fun _ => ⟨hc1.1, hc1.2.1, hc1.2.2.1, hc1.2.2.2, rfl⟩, fun _ => rfl⟩,
          fun h => absurd rfl h, fun d n hq _ => ?_⟩
        injection hq with hd hn
        rw [← hd, ← hn]
        rfl
  refine ⟨(hmain ctx).1, (hmain ctx).2.1, fun d n hq h => ⟨(hmain ctx).2.2 d n hq h,
    fun h1 h2 => memcpy_take d ctx.buf n h2 h1⟩, fun provctx keybits hw m => ?_⟩
  have hn : ¬ (gcm_get_ctx_params (gcm_initctx provctx ctx keybits hw m) (get_aead_tag q)).1 = 1 :=
    fun h => ((hmain _).1.mp h).2.1 rfl
  exact (hmain _).2.1 hn

set_option maxRecDepth 100000 in
/-- C30 (amended) on a context after a successful encrypt final: a 16-byte tag
parameter is filled with the tag `AA .. AA`. -/
theorem C30_get_tag_witness :
    (gcm_get_ctx_params ctx_enc_final
        (get_aead_tag (OSSL_PARAM.octet_string (List.replicate 16 0) 16))).1 = 1
    ∧ (gcm_get_ctx_params ctx_enc_final
        (get_aead_tag (OSSL_PARAM.octet_string (List.replicate 16 0) 16))).2.2.AEAD_TAG
        = some (OSSL_PARAM.octet_string
            (memcpy (List.replicate 16 0) 0 ctx_enc_final.buf 16) 16)
    ∧ (gcm_get_ctx_params ctx_new
        (get_aead_tag (OSSL_PARAM.octet_string (List.replicate 16 0) 16))).1 = 0 :=
  ⟨(C30_get_tag ctx_enc_final (OSSL_PARAM.octet_string (List.replicate 16 0) 16)).1.mpr
      (by decide),
   ((C30_get_tag ctx_enc_final (OSSL_PARAM.octet_string (List.replicate 16 0) 16)).2.2.1
      (List.replicate 16 0) 16 rfl (by decide)).1,
   (C30_get_tag ctx_new (OSSL_PARAM.octet_string (List.replicate 16 0) 16)).2.1 (by decide)⟩

/-! # Parameters, modes, teardown and the entry points: lemmas -/

/-! ## The tag parameter and teardown -/

/-- Zeroing a whole buffer. -/
theorem OPENSSL_cleanse_all (buf : List Nat) :
    OPENSSL_cleanse buf 0 buf.length = List.replicate buf.length 0 := by
  apply List.ext_getElem
  · rw [OPENSSL_cleanse_length, List.length_replicate]
  · intro i h1 h2
    rw [OPENSSL_cleanse_length] at h1
    have e1 : (0 : Int) ≤ (i : Int) := by omega
    have e2 : (i : Int) < 0 + (buf.length : Int) := by omega
    simp only [OPENSSL_cleanse, List.getElem_map, List.getElem_range, List.getElem_replicate]
    rw [if_pos ⟨e1, e2⟩]

/-- A parameter set that carries only the tag parameter is the tag step alone. -/
theorem gcm_set_ctx_params_tag_only (ctx : PROV_GCM_CTX σ ρ) (q : OSSL_PARAM) :
    gcm_set_ctx_params ctx (params_aead_tag q)
      = if (set_param_tag ctx (some q)).1 = 0 then (0, (set_param_tag ctx (some q)).2)
        else (1, (set_param_tag ctx (some q)).2) := by
  have e2 : ∀ c : PROV_GCM_CTX σ ρ, set_param_ivlen c none = (1, c) := fun _ => rfl
  have e3 : ∀ c : PROV_GCM_CTX σ ρ, set_param_tls1_aad c none = (1, c) := fun _ => rfl
  have e4 : ∀ c : PROV_GCM_CTX σ ρ, set_param_tls1_iv_fixed c none = (1, c) := fun _ => rfl
  have e5 : ∀ c : PROV_GCM_CTX σ ρ, set_param_keylen c none = (1, c) := fun _ => rfl
  unfold gcm_set_ctx_params params_aead_tag no_params
  dsimp only
  generalize set_param_tag ctx (some q) = r
  split
  · rfl
  · rw [e2, pair_fst, pair_snd, if_neg one_ne_zero_int, e3, pair_fst, pair_snd,
      if_neg one_ne_zero_int, e4, pair_fst, pair_snd, if_neg one_ne_zero_int, e5, pair_fst,
      pair_snd, if_neg one_ne_zero_int]

/-- The tag step on an octet string of `n` bytes. -/
theorem set_param_tag_octets (ctx : PROV_GCM_CTX σ ρ) (data : List Nat) (n : Nat) :
    set_param_tag ctx (some (OSSL_PARAM.octet_string data n))
      = if EVP_GCM_TLS_TAG_LEN < n then (0, ctx)
        else if n = 0 ∨ ctx.enc = true then (0, { ctx with buf := memcpy ctx.buf 0 data n })
        else (1, { ctx with buf := memcpy ctx.buf 0 data n, taglen := n }) := by
  unfold set_param_tag OSSL_PARAM_get_octet_string
  dsimp only
  by_cases h : EVP_GCM_TLS_TAG_LEN < n
  · rw [if_pos h, if_pos h]
  · rw [if_neg h, if_neg h]

/-! ## Properties kept by every step of a parameter set and by every call -/

/-- A property kept by the four writing steps of `gcm_set_ctx_params`, each on its own
parameter, is kept by the function. -/
theorem gcm_set_ctx_params_keeps (P : PROV_GCM_CTX σ ρ → Prop) (ctx : PROV_GCM_CTX σ ρ)
    (params : SetParams) (h0 : P ctx)
    (h1 : ∀ c, P c → P (set_param_tag c params.AEAD_TAG).2)
    (h2 : ∀ c, P c → P (set_param_ivlen c params.AEAD_IVLEN).2)
    (h3 : ∀ c, P c → P (set_param_tls1_aad c params.AEAD_TLS1_AAD).2)
    (h4 : ∀ c, P c → P (set_param_tls1_iv_fixed c params.AEAD_TLS1_IV_FIXED).2) :
    P (gcm_set_ctx_params ctx params).2 := by
  have f1 := h1 ctx h0
  have f2 := h2 (set_param_tag ctx params.AEAD_TAG).2 f1
  have f3 := h3 (set_param_ivlen (set_param_tag ctx params.AEAD_TAG).2 params.AEAD_IVLEN).2 f2
  have f4 := h4 (set_param_tls1_aad (set_param_ivlen (set_param_tag ctx params.AEAD_TAG).2
      params.AEAD_IVLEN).2 params.AEAD_TLS1_AAD).2 f3
  unfold gcm_set_ctx_params
  dsimp only
  generalize set_param_tls1_iv_fixed
    (set_param_tls1_aad (set_param_ivlen (set_param_tag ctx params.AEAD_TAG).2
      params.AEAD_IVLEN).2 params.AEAD_TLS1_AAD).2 params.AEAD_TLS1_IV_FIXED = r4 at f4 ⊢
  generalize set_param_tls1_aad (set_param_ivlen (set_param_tag ctx params.AEAD_TAG).2
      params.AEAD_IVLEN).2 params.AEAD_TLS1_AAD = r3 at f3 ⊢
  generalize set_param_ivlen (set_param_tag ctx params.AEAD_TAG).2 params.AEAD_IVLEN = r2
    at f2 ⊢
  generalize set_param_tag ctx params.AEAD_TAG = r1 at f1 ⊢
  split
  · rw [pair_snd]; exact f1
  · split
    · rw [pair_snd]; exact f2
    · split
      · rw [pair_snd]; exact f3
      · split
        · rw [pair_snd]; exact f4
        · split <;> rw [pair_snd, set_param_keylen_ctx] <;> exact f4

/-- The fields that `gcm_tls_iv_set_fixed` leaves alone. -/
theorem gcm_tls_iv_set_fixed_keeps (ctx : PROV_GCM_CTX σ ρ) (iv : List Nat) (len : Nat) :
    (gcm_tls_iv_set_fixed ctx iv len).2.keylen = ctx.keylen
    ∧ (gcm_tls_iv_set_fixed ctx iv len).2.tls_aad_len = ctx.tls_aad_len
    ∧ (gcm_tls_iv_set_fixed ctx iv len).2.enc = ctx.enc
    ∧ (gcm_tls_iv_set_fixed ctx iv len).2.key_set = ctx.key_set
    ∧ (gcm_tls_iv_set_fixed ctx iv len).2.buf = ctx.buf := by
  unfold gcm_tls_iv_set_fixed
  split
  · exact ⟨rfl, rfl, rfl, rfl, rfl⟩
  · split
    · exact ⟨rfl, rfl, rfl, rfl, rfl⟩
    · dsimp only
      have h1 : (if len > 0 then { ctx with iv := memcpy ctx.iv 0 iv len } else ctx).keylen
            = ctx.keylen
          ∧ (if len > 0 then { ctx with iv := memcpy ctx.iv 0 iv len } else ctx).tls_aad_len
            = ctx.tls_aad_len
          ∧ (if len > 0 then { ctx with iv := memcpy ctx.iv 0 iv len } else ctx).enc = ctx.enc
          ∧ (if len > 0 then { ctx with iv := memcpy ctx.iv 0 iv len } else ctx).key_set
            = ctx.key_set
          ∧ (if len > 0 then { ctx with iv := memcpy ctx.iv 0 iv len } else ctx).buf
            = ctx.buf := by
        split <;> exact ⟨rfl, rfl, rfl, rfl, rfl⟩
      generalize (if len > 0 then { ctx with iv := memcpy ctx.iv 0 iv len } else ctx) = c1
        at h1 ⊢
      have h2 : (if c1.enc = true then rand_bytes_ex c1 len (size_t_sub c1.ivlen len)
            else (1, c1)).2.keylen = c1.keylen
          ∧ (if c1.enc = true then rand_bytes_ex c1 len (size_t_sub c1.ivlen len)
            else (1, c1)).2.tls_aad_len = c1.tls_aad_len
          ∧ (if c1.enc = true then rand_bytes_ex c1 len (size_t_sub c1.ivlen len)
            else (1, c1)).2.enc = c1.enc
          ∧ (if c1.enc = true then rand_bytes_ex c1 len (size_t_sub c1.ivlen len)
            else (1, c1)).2.key_set = c1.key_set
          ∧ (if c1.enc = true then rand_bytes_ex c1 len (size_t_sub c1.ivlen len)
            else (1, c1)).2.buf = c1.buf := by
        split <;> exact ⟨rfl, rfl, rfl, rfl, rfl⟩
      generalize (if c1.enc = true then rand_bytes_ex c1 len (size_t_sub c1.ivlen len)
        else (1, c1)) = r at h2 ⊢
      split
      · rw [pair_snd]
        exact ⟨h2.1.trans h1.1, h2.2.1.trans h1.2.1, h2.2.2.1.trans h1.2.2.1,
          h2.2.2.2.1.trans h1.2.2.2.1, h2.2.2.2.2.trans h1.2.2.2.2⟩
      · rw [pair_snd]
        exact ⟨h2.1.trans h1.1, h2.2.1.trans h1.2.1, h2.2.2.1.trans h1.2.2.1,
          h2.2.2.2.1.trans h1.2.2.2.1, h2.2.2.2.2.trans h1.2.2.2.2⟩

/-- The fields that the tls-fixed-nonce step leaves alone. -/
theorem set_param_tls1_iv_fixed_keeps (ctx : PROV_GCM_CTX σ ρ) (p : Option OSSL_PARAM) :
    (set_param_tls1_iv_fixed ctx p).2.keylen = ctx.keylen
    ∧ (set_param_tls1_iv_fixed ctx p).2.tls_aad_len = ctx.tls_aad_len
    ∧ (set_param_tls1_iv_fixed ctx p).2.enc = ctx.enc
    ∧ (set_param_tls1_iv_fixed ctx p).2.key_set = ctx.key_set
    ∧ (set_param_tls1_iv_fixed ctx p).2.buf = ctx.buf := by
  unfold set_param_tls1_iv_fixed
  cases p with
  | none => exact ⟨rfl, rfl, rfl, rfl, rfl⟩
  | some q =>
    dsimp only
    have h := gcm_tls_iv_set_fixed_keeps ctx q.data q.data_size
    generalize gcm_tls_iv_set_fixed ctx q.data q.data_size = r at h ⊢
    split
    · exact ⟨rfl, rfl, rfl, rfl, rfl⟩
    · split <;> rw [pair_snd] <;> exact h

/-- The call `gcm_init` never writes `keylen`, `tls_aad_len`, the tag buffer or the
random source. -/
theorem gcm_init_keeps (ctx : PROV_GCM_CTX σ ρ) (key : Option (List Nat)) (keylen : Nat)
    (iv : Option (List Nat)) (ivlen : Nat) (enc : Bool) :
    (gcm_init ctx key keylen iv ivlen enc).2.keylen = ctx.keylen
    ∧ (gcm_init ctx key keylen iv ivlen enc).2.tls_aad_len = ctx.tls_aad_len
    ∧ (gcm_init ctx key keylen iv ivlen enc).2.buf = ctx.buf
    ∧ (gcm_init ctx key keylen iv ivlen enc).2.enc = enc := by
  unfold gcm_init
  dsimp only
  cases iv with
  | none =>
    dsimp only
    rw [if_neg one_ne_zero_int]
    cases key with
    | none => exact ⟨rfl, rfl, rfl, rfl⟩
    | some k => dsimp only; split <;> exact ⟨rfl, rfl, rfl, rfl⟩
  | some ivb =>
    dsimp only
    by_cases hr : ivlen < ctx.ivlen_min ∨ ivlen > ctx.iv.length
    · rw [if_pos hr, pair_fst, if_pos rfl]
      exact ⟨rfl, rfl, rfl, rfl⟩
    · rw [if_neg hr, pair_fst, if_neg one_ne_zero_int]
      cases key with
      | none => exact ⟨rfl, rfl, rfl, rfl⟩
      | some k => dsimp only; split <;> exact ⟨rfl, rfl, rfl, rfl⟩

/-- The context a cipher entry point leaves is the one it was given or the one
`gcm_cipher_internal` leaves. -/
theorem stream_update_ctx_cases (ctx : PROV_GCM_CTX σ ρ) (out inp : Option Buf)
    (outsize inl : Nat) :
    (gcm_stream_update ctx out outsize inp inl).ctx = ctx
    ∨ (gcm_stream_update ctx out outsize inp inl).ctx
        = (gcm_cipher_internal ctx out inp inl).ctx := by
  by_cases h : outsize < inl
  · rw [stream_update_small ctx out inp outsize inl h]; exact Or.inl rfl
  · exact Or.inr (stream_update_ctx ctx out inp outsize inl (by omega))

theorem cipher_ctx_cases (ctx : PROV_GCM_CTX σ ρ) (out inp : Option Buf)
    (outsize inl : Nat) :
    (gcm_cipher ctx out outsize inp inl).ctx = ctx
    ∨ (gcm_cipher ctx out outsize inp inl).ctx = (gcm_cipher_internal ctx out inp inl).ctx := by
  by_cases h : outsize < inl
  · rw [cipher_small ctx out inp outsize inl h]; exact Or.inl rfl
  · exact Or.inr (cipher_ctx ctx out inp outsize inl (by omega))

/-- A property kept by `gcm_deinitctx`, `gcm_init`, `gcm_set_ctx_params` and
`gcm_cipher_internal` is kept by every public call other than `gcm_initctx`. -/
theorem op_keeps (P : PROV_GCM_CTX σ ρ → Prop) (ctx : PROV_GCM_CTX σ ρ) (op : Op σ ρ)
    (h0 : P ctx) (hn : op.is_initctx = false)
    (hde : ∀ c, P c → P (gcm_deinitctx c))
    (hinit : ∀ c key keylen iv ivlen enc, P c → P (gcm_init c key keylen iv ivlen enc).2)
    (hset : ∀ c params, P c → P (gcm_set_ctx_params c params).2)
    (hint : ∀ c out inp len, P c → P (gcm_cipher_internal c out inp len).ctx) :
    P (op.apply ctx).2 := by
  cases op with
  | initctx provctx keybits hw ivlen_min => exact Bool.noConfusion hn
  | deinitctx => exact hde ctx h0
  | einit key keylen iv ivlen => exact hinit ctx key keylen iv ivlen true h0
  | dinit key keylen iv ivlen => exact hinit ctx key keylen iv ivlen false h0
  | get_ctx_params params =>
    show P (gcm_get_ctx_params ctx params).2.1
    rw [gcm_get_ctx_params_ctx]; exact h0
  | set_ctx_params params => exact hset ctx params h0
  | stream_update out outsize inp inl =>
    show P (gcm_stream_update ctx out outsize inp inl).ctx
    rcases stream_update_ctx_cases ctx out inp outsize inl with h | h
    · rw [h]; exact h0
    · rw [h]; exact hint ctx out inp inl h0
  | stream_final out outsize =>
    show P (gcm_stream_final ctx out outsize).ctx
    rw [stream_final_ctx]; exact hint ctx out none 0 h0
  | cipher out outsize inp inl =>
    show P (gcm_cipher ctx out outsize inp inl).ctx
    rcases cipher_ctx_cases ctx out inp outsize inl with h | h
    · rw [h]; exact h0
    · rw [h]; exact hint ctx out inp inl h0

/-- A property kept by every call of a sequence is kept by the sequence. -/
theorem run_keeps (P : PROV_GCM_CTX σ ρ → Prop) (Q : Op σ ρ → Prop)
    (hstep : ∀ c op, P c → Q op → P (op.apply c).2) :
    ∀ (ops : List (Op σ ρ)) (ctx : PROV_GCM_CTX σ ρ), P ctx → (∀ op ∈ ops, Q op) →
      P (run ctx ops) := by
  intro ops
  induction ops with
  | nil => intro ctx h0 _; exact h0
  | cons op rest ih =>
    intro ctx h0 hq
    show P (run (op.apply ctx).2 rest)
    exact ih _ (hstep ctx op h0 (hq op (List.mem_cons_self _ _)))
      (fun o ho => hq o (List.mem_cons_of_mem _ ho))

/-- No public call other than `gcm_initctx` writes `keylen`. -/
theorem op_keylen (ctx : PROV_GCM_CTX σ ρ) (op : Op σ ρ) (hn : op.is_initctx = false) :
    (op.apply ctx).2.keylen = ctx.keylen := by
  refine op_keeps (fun c => c.keylen = ctx.keylen) ctx op rfl hn ?_ ?_ ?_ ?_
  · intro c h; exact h
  · intro c key keylen iv ivlen enc h
    exact (gcm_init_keeps c key keylen iv ivlen enc).1.trans h
  · intro c params h
    refine gcm_set_ctx_params_keeps (fun d => d.keylen = ctx.keylen) c params h ?_ ?_ ?_ ?_
    · intro d hd; exact (set_param_tag_frame d _).1.keylen.trans hd
    · intro d hd; exact (set_param_ivlen_frame d _).1.keylen.trans hd
    · intro d hd; exact (set_param_tls1_aad_frame d _).1.keylen.trans hd
    · intro d hd; exact (set_param_tls1_iv_fixed_keeps d _).1.trans hd
  · intro c out inp len h
    exact (gcm_cipher_internal_frame c out inp len).keylen.trans h

/-! ## The key-length parameter -/

/-- The key-length step on the current key length. -/
theorem set_param_keylen_same (c : PROV_GCM_CTX σ ρ) (h : c.keylen < SIZE_T_MOD) :
    set_param_keylen c (some (OSSL_PARAM.size_t c.keylen)) = (1, c) := by
  unfold set_param_keylen OSSL_PARAM_get_size_t
  dsimp only
  rw [if_pos h]
  dsimp only
  rw [if_neg (fun h2 => h2 rfl)]

/-- The key-length step on anything but the current key length. -/
theorem set_param_keylen_other (c : PROV_GCM_CTX σ ρ) (q : OSSL_PARAM)
    (h : q ≠ OSSL_PARAM.size_t c.keylen) : (set_param_keylen c (some q)).1 = 0 := by
  unfold set_param_keylen OSSL_PARAM_get_size_t
  cases q with
  | size_t v =>
    dsimp only
    by_cases hv : v < SIZE_T_MOD
    · rw [if_pos hv]
      dsimp only
      have hne : v ≠ c.keylen := fun e => h (by rw [e])
      rw [if_pos hne]
    · rw [if_neg hv]
  | octet_string d n => rfl
  | other d n => rfl

/-- The function `gcm_set_ctx_params` as its first four steps followed by the key-length
step: `r` is what the first four steps return, and they leave `keylen` alone. -/
theorem gcm_set_ctx_params_split (ctx : PROV_GCM_CTX σ ρ) (params : SetParams) :
    ∃ r : Int × PROV_GCM_CTX σ ρ, r.2.keylen = ctx.keylen ∧
      ∀ p5, gcm_set_ctx_params ctx { params with KEYLEN := p5 }
        = if r.1 = 0 then (0, r.2)
          else if (set_param_keylen r.2 p5).1 = 0 then (0, (set_param_keylen r.2 p5).2)
          else (1, (set_param_keylen r.2 p5).2) := by
  have f1 := (set_param_tag_frame ctx params.AEAD_TAG).1.keylen
  have f2 := (set_param_ivlen_frame (set_param_tag ctx params.AEAD_TAG).2
    params.AEAD_IVLEN).1.keylen
  have f3 := (set_param_tls1_aad_frame
    (set_param_ivlen (set_param_tag ctx params.AEAD_TAG).2 params.AEAD_IVLEN).2
    params.AEAD_TLS1_AAD).1.keylen
  have f4 := (set_param_tls1_iv_fixed_keeps
    (set_param_tls1_aad (set_param_ivlen (set_param_tag ctx params.AEAD_TAG).2
      params.AEAD_IVLEN).2 params.AEAD_TLS1_AAD).2 params.AEAD_TLS1_IV_FIXED).1
  unfold gcm_set_ctx_params
  dsimp only
  generalize set_param_tls1_iv_fixed
    (set_param_tls1_aad (set_param_ivlen (set_param_tag ctx params.AEAD_TAG).2
      params.AEAD_IVLEN).2 params.AEAD_TLS1_AAD).2 params.AEAD_TLS1_IV_FIXED = r4 at f4 ⊢
  generalize set_param_tls1_aad (set_param_ivlen (set_param_tag ctx params.AEAD_TAG).2
      params.AEAD_IVLEN).2 params.AEAD_TLS1_AAD = r3 at f3 f4 ⊢
  generalize set_param_ivlen (set_param_tag ctx params.AEAD_TAG).2 params.AEAD_IVLEN = r2
    at f2 f3 ⊢
  generalize set_param_tag ctx params.AEAD_TAG = r1 at f1 f2 ⊢
  by_cases c1 : r1.1 = 0
  · refine ⟨(0, r1.2), f1, fun p5 => ?_⟩
    rw [if_pos c1, pair_fst, if_pos rfl]
  · by_cases c2 : r2.1 = 0
    · refine ⟨(0, r2.2), f2.trans f1, fun p5 => ?_⟩
      rw [if_neg c1, if_pos c2, pair_fst, if_pos rfl]
    · by_cases c3 : r3.1 = 0
      · refine ⟨(0, r3.2), f3.trans (f2.trans f1), fun p5 => ?_⟩
        rw [if_neg c1, if_neg c2, if_pos c3, pair_fst, if_pos rfl]
      · by_cases c4 : r4.1 = 0
        · refine ⟨(0, r4.2), f4.trans (f3.trans (f2.trans f1)), fun p5 => ?_⟩
          rw [if_neg c1, if_neg c2, if_neg c3, if_pos c4, pair_fst, if_pos rfl]
        · refine ⟨(1, r4.2), f4.trans (f3.trans (f2.trans f1)), fun p5 => ?_⟩
          rw [if_neg c1, if_neg c2, if_neg c3, if_neg c4, pair_fst, if_neg one_ne_zero_int,
            pair_snd]

/-- Putting a parameter set's own key-length entry back changes nothing. -/
theorem set_params_keylen_eta (params : SetParams) :
    { params with KEYLEN := params.KEYLEN } = params := by
  cases params
  rfl

/-! ## The nonce-value parameter -/

/-- The nonce-value step of `gcm_get_ctx_params`, alone. -/
theorem gcm_get_ctx_params_iv (ctx : PROV_GCM_CTX σ ρ) (q : OSSL_PARAM) :
    gcm_get_ctx_params ctx (get_iv q)
      = if ctx.iv_gen ≠ true ∧ ctx.iv_gen_rand ≠ true then ((0 : Int), ctx, get_iv q)
        else if ctx.ivlen ≠ q.data_size then ((0 : Int), ctx, get_iv q)
        else
          match OSSL_PARAM_set_octet_string q ctx.iv ctx.ivlen with
          | none => ((0 : Int), ctx, get_iv q)
          | some q1 => ((1 : Int), ctx, get_iv q1) := by
  unfold gcm_get_ctx_params get_iv no_get_params
  dsimp only
  by_cases hc : ctx.iv_gen ≠ true ∧ ctx.iv_gen_rand ≠ true
  · rw [if_pos hc, if_pos hc]
  · rw [if_neg hc, if_neg hc]
    by_cases hl : ctx.ivlen ≠ q.data_size
    · rw [if_pos hl, if_pos hl]
    · rw [if_neg hl, if_neg hl]
      cases OSSL_PARAM_set_octet_string q ctx.iv ctx.ivlen <;> rfl

/-- Copying `n` bytes over a buffer of exactly `n` bytes. -/
theorem memcpy_whole (dst src : List Nat) (n : Nat) (hd : dst.length = n)
    (hs : n ≤ src.length) : memcpy dst 0 src n = src.take n := by
  have h := memcpy_take dst src n hs (by omega)
  rw [← h]
  exact (List.take_of_length_le (by rw [memcpy_length]; omega)).symm

/-! ## The two update entry points -/

/-- The length the absorb stage stores when it does not fail: `len`, or 0 on a
final (`in == NULL`). -/
theorem generic_absorb_padlen (ctx : PROV_GCM_CTX σ ρ) (out inp : Option Buf) (len : Nat)
    (h : (generic_absorb ctx out inp len).rv ≠ 0) :
    (generic_absorb ctx out inp len).padlen = if inp = none then 0 else len := by
  unfold generic_absorb at h ⊢
  cases inp with
  | none =>
    dsimp only at h ⊢
    split <;> rfl
  | some ib =>
    cases out with
    | none =>
      dsimp only at h ⊢
      split at h
      · exact absurd rfl h
      · rename_i hv
        rw [if_neg hv, if_neg (fun e => Option.noConfusion e)]
    | some ob =>
      dsimp only at h ⊢
      split at h
      · exact absurd rfl h
      · rename_i hv
        rw [if_neg hv, if_neg (fun e => Option.noConfusion e)]

/-- In generic mode a call that does not fail stores `len`, or 0 on a final. -/
theorem gcm_cipher_internal_generic_padlen (ctx : PROV_GCM_CTX σ ρ) (out inp : Option Buf)
    (len : Nat) (ht : ctx.tls_aad_len = UNINITIALISED_SIZET)
    (h : (gcm_cipher_internal ctx out inp len).rv ≠ 0) :
    (gcm_cipher_internal ctx out inp len).padlen = if inp = none then 0 else len := by
  have ha := generic_absorb_padlen (generic_bind (generic_generate ctx).2).2 out inp len
  unfold gcm_cipher_internal at h ⊢
  rw [if_neg (fun h0 => h0 ht)] at h ⊢
  generalize generic_absorb (generic_bind (generic_generate ctx).2).2 out inp len = a at ha h ⊢
  generalize generic_bind (generic_generate ctx).2 = b at h ⊢
  generalize generic_generate ctx = g at h ⊢
  split at h
  · exact absurd rfl h
  · split at h
    · exact absurd rfl h
    · split at h
      · exact absurd rfl h
      · rename_i h1 h2 h3
        rw [if_neg h1, if_neg h2, if_neg h3]
        exact ha h

/-- The two entry points `gcm_cipher` and `gcm_stream_update` side by side. -/
theorem cipher_vs_stream_update (ctx : PROV_GCM_CTX σ ρ) (out inp : Option Buf)
    (outsize inl : Nat) :
    (gcm_cipher ctx out outsize inp inl).rv = (gcm_stream_update ctx out outsize inp inl).rv
    ∧ (gcm_cipher ctx out outsize inp inl).ctx = (gcm_stream_update ctx out outsize inp inl).ctx
    ∧ (gcm_cipher ctx out outsize inp inl).out = (gcm_stream_update ctx out outsize inp inl).out
    ∧ ((gcm_stream_update ctx out outsize inp inl).rv ≠ 1 →
        (gcm_cipher ctx out outsize inp inl).outl
          = (gcm_stream_update ctx out outsize inp inl).outl)
    ∧ ((gcm_stream_update ctx out outsize inp inl).rv = 1 →
        inl ≤ outsize
        ∧ (gcm_cipher_internal ctx out inp inl).rv ≠ 0
        ∧ (gcm_cipher ctx out outsize inp inl).outl = some inl
        ∧ (gcm_stream_update ctx out outsize inp inl).outl
            = some (gcm_cipher_internal ctx out inp inl).padlen) := by
  by_cases hs : outsize < inl
  · rw [cipher_small ctx out inp outsize inl hs, stream_update_small ctx out inp outsize inl hs]
    refine ⟨rfl, rfl, rfl, fun _ => rfl, fun h => ?_⟩
    have h2 : (-1 : Int) = 1 := h
    exact absurd h2 (by decide)
  · unfold gcm_cipher gcm_stream_update
    rw [if_neg hs, if_neg hs]
    dsimp only
    generalize gcm_cipher_internal ctx out inp inl = r
    by_cases hr : r.rv ≤ 0
    · rw [if_pos hr, if_pos hr]
      refine ⟨rfl, rfl, rfl, fun _ => rfl, fun h => ?_⟩
      have h2 : (-1 : Int) = 1 := h
      exact absurd h2 (by decide)
    · rw [if_neg hr, if_neg hr]
      refine ⟨rfl, rfl, rfl, fun h => absurd rfl h, fun _ => ⟨by omega, ?_, rfl, rfl⟩⟩
      intro h0
      rw [h0] at hr
      exact hr (Int.le_refl 0)

/-! ## The generic pipeline and the TLS marker -/

/-- The dispatch of line 302: the TLS path when `tls_aad_len` is set, the generic
pipeline otherwise. -/
theorem gcm_cipher_internal_split (ctx : PROV_GCM_CTX σ ρ) (out inp : Option Buf) (len : Nat) :
    gcm_cipher_internal ctx out inp len
      = if ctx.tls_aad_len ≠ UNINITIALISED_SIZET then gcm_tls_cipher ctx out inp len
        else generic_pipeline ctx out inp len := rfl

theorem gcm_cipher_internal_pipeline (ctx : PROV_GCM_CTX σ ρ) (out inp : Option Buf) (len : Nat)
    (ht : ctx.tls_aad_len = UNINITIALISED_SIZET) :
    gcm_cipher_internal ctx out inp len = generic_pipeline ctx out inp len := by
  rw [gcm_cipher_internal_split, if_neg (fun h => h ht)]

theorem gcm_iv_generate_aad_len (ctx : PROV_GCM_CTX σ ρ) (offset : Int) :
    (gcm_iv_generate ctx offset).2.tls_aad_len = ctx.tls_aad_len := by
  unfold gcm_iv_generate
  dsimp only
  split
  · rfl
  · have h : ∀ n, (rand_bytes_ex ctx offset n).2.tls_aad_len = ctx.tls_aad_len := fun _ => rfl
    generalize (to_int (size_t_sub ctx.ivlen (to_size_t offset))).toNat = n
    have hn := h n
    generalize rand_bytes_ex ctx offset n = r at hn ⊢
    split
    · rw [pair_snd]; exact hn
    · rw [pair_snd]; exact hn

theorem generic_generate_aad_len (ctx : PROV_GCM_CTX σ ρ) :
    (generic_generate ctx).2.tls_aad_len = ctx.tls_aad_len := by
  unfold generic_generate
  have h := gcm_iv_generate_aad_len ctx 0
  generalize gcm_iv_generate ctx 0 = r at h ⊢
  split
  · split
    · rfl
    · split <;> rw [pair_snd] <;> exact h
  · rfl

/-- The bind stage keeps the TLS marker and the nonce, and never makes the nonce
state UNINITIALISED. -/
theorem generic_bind_keeps (ctx : PROV_GCM_CTX σ ρ) :
    (generic_bind ctx).2.tls_aad_len = ctx.tls_aad_len
    ∧ (generic_bind ctx).2.iv = ctx.iv
    ∧ (ctx.iv_state ≠ IV_STATE.UNINITIALISED →
        (generic_bind ctx).2.iv_state ≠ IV_STATE.UNINITIALISED) := by
  unfold generic_bind
  by_cases hb : ctx.iv_state = IV_STATE.BUFFERED
  · rw [if_pos hb]
    have h1 : (hw_setiv ctx).2.tls_aad_len = ctx.tls_aad_len := rfl
    have h2 : (hw_setiv ctx).2.iv = ctx.iv := rfl
    have h3 : (hw_setiv ctx).2.iv_state = ctx.iv_state := rfl
    generalize hw_setiv ctx = r at h1 h2 h3 ⊢
    split
    · rw [pair_snd]
      exact ⟨h1, h2, fun hs => by rw [h3]; exact hs⟩
    · rw [pair_snd]
      exact ⟨h1, h2, fun _ e => IV_STATE.noConfusion e⟩
  · rw [if_neg hb]
    exact ⟨rfl, rfl, fun hs => hs⟩

/-- The absorb stage keeps the TLS marker, and never makes the nonce state
UNINITIALISED. -/
theorem generic_absorb_keeps (ctx : PROV_GCM_CTX σ ρ) (out inp : Option Buf) (len : Nat) :
    (generic_absorb ctx out inp len).ctx.tls_aad_len = ctx.tls_aad_len
    ∧ (ctx.iv_state ≠ IV_STATE.UNINITIALISED →
        (generic_absorb ctx out inp len).ctx.iv_state ≠ IV_STATE.UNINITIALISED) := by
  unfold generic_absorb
  cases inp with
  | none =>
    dsimp only
    split
    · exact ⟨rfl, fun hs => hs⟩
    · exact ⟨rfl, fun _ e => IV_STATE.noConfusion e⟩
  | some ib =>
    cases out with
    | none => dsimp only; split <;> exact ⟨rfl, fun hs => hs⟩
    | some ob => dsimp only; split <;> exact ⟨rfl, fun hs => hs⟩

/-- The generic pipeline never writes the TLS marker; entered with a nonce state
other than UNINITIALISED it keeps the nonce and leaves a state other than
UNINITIALISED. -/
theorem generic_pipeline_keeps (ctx : PROV_GCM_CTX σ ρ) (out inp : Option Buf) (len : Nat) :
    (generic_pipeline ctx out inp len).ctx.tls_aad_len = ctx.tls_aad_len
    ∧ (ctx.iv_state ≠ IV_STATE.UNINITIALISED →
        (generic_pipeline ctx out inp len).ctx.iv = ctx.iv
        ∧ (generic_pipeline ctx out inp len).ctx.iv_state ≠ IV_STATE.UNINITIALISED) := by
  have g1 := generic_generate_aad_len ctx
  have g2 : ctx.iv_state ≠ IV_STATE.UNINITIALISED → generic_generate ctx = (1, ctx) :=
    generic_generate_skip ctx
  have b1 := generic_bind_keeps (generic_generate ctx).2
  have a1 := generic_absorb_keeps (generic_bind (generic_generate ctx).2).2 out inp len
  have a2 := (generic_absorb_effect (generic_bind (generic_generate ctx).2).2 out inp len).1
  unfold generic_pipeline
  generalize generic_absorb (generic_bind (generic_generate ctx).2).2 out inp len = a at a1 a2 ⊢
  generalize generic_bind (generic_generate ctx).2 = b at b1 a1 a2 ⊢
  generalize generic_generate ctx = g at g1 g2 b1 ⊢
  have gs : ctx.iv_state ≠ IV_STATE.UNINITIALISED →
      g.2.iv = ctx.iv ∧ g.2.iv_state ≠ IV_STATE.UNINITIALISED := by
    intro hs
    rw [g2 hs]
    exact ⟨rfl, hs⟩
  split
  · exact ⟨rfl, fun hs => ⟨rfl, hs⟩⟩
  · split
    · rw [res_ctx]
      exact ⟨g1, gs⟩
    · split
      · rw [res_ctx]
        exact ⟨b1.1.trans g1, fun hs => ⟨b1.2.1.trans (gs hs).1, b1.2.2 (gs hs).2⟩⟩
      · exact ⟨a1.1.trans (b1.1.trans g1),
          fun hs => ⟨a2.trans (b1.2.1.trans (gs hs).1), a1.2 (b1.2.2 (gs hs).2)⟩⟩

/-- After `gcm_cipher_internal` the TLS marker is unset or as it was. -/
theorem gcm_cipher_internal_aad_len (ctx : PROV_GCM_CTX σ ρ) (out inp : Option Buf) (len : Nat) :
    (gcm_cipher_internal ctx out inp len).ctx.tls_aad_len = UNINITIALISED_SIZET
    ∨ (gcm_cipher_internal ctx out inp len).ctx.tls_aad_len = ctx.tls_aad_len := by
  by_cases ht : ctx.tls_aad_len = UNINITIALISED_SIZET
  · rw [gcm_cipher_internal_pipeline ctx out inp len ht]
    exact Or.inr (generic_pipeline_keeps ctx out inp len).1
  · rw [gcm_cipher_internal_tls ctx out inp len ht]
    exact Or.inl (gcm_tls_cipher_state ctx out inp len).2

/-- After `gcm_tls_init` the TLS marker is 13 or as it was, and it is 13 when the call
does not return 0. -/
theorem gcm_tls_init_aad_len (ctx : PROV_GCM_CTX σ ρ) (aad : List Nat) (n : Nat) :
    ((gcm_tls_init ctx aad n).2.tls_aad_len = ctx.tls_aad_len
      ∨ (gcm_tls_init ctx aad n).2.tls_aad_len = EVP_AEAD_TLS1_AAD_LEN)
    ∧ ((gcm_tls_init ctx aad n).1 ≠ 0 →
        (gcm_tls_init ctx aad n).2.tls_aad_len = EVP_AEAD_TLS1_AAD_LEN) := by
  unfold gcm_tls_init
  by_cases hn : n ≠ EVP_AEAD_TLS1_AAD_LEN
  · rw [if_pos hn]
    exact ⟨Or.inl rfl, fun h => absurd rfl h⟩
  · rw [if_neg hn]
    have e : n = EVP_AEAD_TLS1_AAD_LEN := not_not.mp hn
    dsimp only
    split
    · exact ⟨Or.inr e, fun _ => e⟩
    · split
      · exact ⟨Or.inr e, fun _ => e⟩
      · exact ⟨Or.inr e, fun _ => e⟩

/-- The tls-record-aad step leaves the TLS marker at 13 or as it was, and at 13 when it
is given a parameter and does not fail. -/
theorem set_param_tls1_aad_len (ctx : PROV_GCM_CTX σ ρ) (p : Option OSSL_PARAM) :
    ((set_param_tls1_aad ctx p).2.tls_aad_len = ctx.tls_aad_len
      ∨ (set_param_tls1_aad ctx p).2.tls_aad_len = EVP_AEAD_TLS1_AAD_LEN)
    ∧ (p.isSome = true → (set_param_tls1_aad ctx p).1 ≠ 0 →
        (set_param_tls1_aad ctx p).2.tls_aad_len = EVP_AEAD_TLS1_AAD_LEN) := by
  unfold set_param_tls1_aad
  cases p with
  | none => exact ⟨Or.inl rfl, fun h => Bool.noConfusion h⟩
  | some q =>
    dsimp only
    split
    · exact ⟨Or.inl rfl, fun _ h => absurd rfl h⟩
    · have h := gcm_tls_init_aad_len ctx q.data q.data_size
      generalize gcm_tls_init ctx q.data q.data_size = r at h ⊢
      split
      · rw [pair_snd]
        exact ⟨h.1, fun _ h0 => absurd rfl h0⟩
      · rename_i hz
        have hr : r.1 ≠ 0 := by
          intro e
          apply hz
          rw [e]
          rfl
        exact ⟨Or.inr (h.2 hr), fun _ _ => h.2 hr⟩

/-! ## The TLS marker across public calls -/

/-- A parameter set that carries the tls-record-aad parameter and returns 1 leaves the
TLS marker at 13. -/
theorem gcm_set_ctx_params_marks (ctx : PROV_GCM_CTX σ ρ) (params : SetParams)
    (ha : params.AEAD_TLS1_AAD.isSome = true) (h : (gcm_set_ctx_params ctx params).1 = 1) :
    (gcm_set_ctx_params ctx params).2.tls_aad_len = EVP_AEAD_TLS1_AAD_LEN := by
  have f3 := (set_param_tls1_aad_len
    (set_param_ivlen (set_param_tag ctx params.AEAD_TAG).2 params.AEAD_IVLEN).2
    params.AEAD_TLS1_AAD).2 ha
  have f4 := (set_param_tls1_iv_fixed_keeps
    (set_param_tls1_aad (set_param_ivlen (set_param_tag ctx params.AEAD_TAG).2
      params.AEAD_IVLEN).2 params.AEAD_TLS1_AAD).2 params.AEAD_TLS1_IV_FIXED).2.1
  unfold gcm_set_ctx_params at h ⊢
  dsimp only at h ⊢
  generalize set_param_tls1_iv_fixed
    (set_param_tls1_aad (set_param_ivlen (set_param_tag ctx params.AEAD_TAG).2
      params.AEAD_IVLEN).2 params.AEAD_TLS1_AAD).2 params.AEAD_TLS1_IV_FIXED = r4 at f4 h ⊢
  generalize set_param_tls1_aad (set_param_ivlen (set_param_tag ctx params.AEAD_TAG).2
      params.AEAD_IVLEN).2 params.AEAD_TLS1_AAD = r3 at f3 f4 h ⊢
  generalize set_param_ivlen (set_param_tag ctx params.AEAD_TAG).2 params.AEAD_IVLEN = r2
    at h ⊢
  generalize set_param_tag ctx params.AEAD_TAG = r1 at h ⊢
  by_cases c1 : r1.1 = 0
  · rw [if_pos c1, pair_fst] at h; exact absurd h zero_ne_one_int
  · rw [if_neg c1] at h ⊢
    by_cases c2 : r2.1 = 0
    · rw [if_pos c2, pair_fst] at h; exact absurd h zero_ne_one_int
    · rw [if_neg c2] at h ⊢
      by_cases c3 : r3.1 = 0
      · rw [if_pos c3, pair_fst] at h; exact absurd h zero_ne_one_int
      · rw [if_neg c3] at h ⊢
        by_cases c4 : r4.1 = 0
        · rw [if_pos c4, pair_fst] at h; exact absurd h zero_ne_one_int
        · rw [if_neg c4] at h ⊢
          split <;> rw [pair_snd, set_param_keylen_ctx] <;> exact f4.trans (f3 c3)

/-- A parameter set without the tls-record-aad parameter leaves the TLS marker alone. -/
theorem gcm_set_ctx_params_no_aad (ctx : PROV_GCM_CTX σ ρ) (params : SetParams)
    (ha : params.AEAD_TLS1_AAD = none) :
    (gcm_set_ctx_params ctx params).2.tls_aad_len = ctx.tls_aad_len := by
  refine gcm_set_ctx_params_keeps (fun c => c.tls_aad_len = ctx.tls_aad_len) ctx params rfl
    ?_ ?_ ?_ ?_
  · intro c hc; exact (set_param_tag_frame c _).2.2.trans hc
  · intro c hc; exact (set_param_ivlen_frame c _).2.1.trans hc
  · intro c hc; rw [ha]; exact hc
  · intro c hc; exact (set_param_tls1_iv_fixed_keeps c _).2.1.trans hc

/-- A parameter set never unsets the TLS marker. -/
theorem gcm_set_ctx_params_stays_marked (ctx : PROV_GCM_CTX σ ρ) (params : SetParams)
    (h : ctx.tls_aad_len ≠ UNINITIALISED_SIZET) :
    (gcm_set_ctx_params ctx params).2.tls_aad_len ≠ UNINITIALISED_SIZET := by
  refine gcm_set_ctx_params_keeps (fun c => c.tls_aad_len ≠ UNINITIALISED_SIZET) ctx params h
    ?_ ?_ ?_ ?_
  · intro c hc; rw [(set_param_tag_frame c _).2.2]; exact hc
  · intro c hc; rw [(set_param_ivlen_frame c _).2.1]; exact hc
  · intro c hc
    rcases (set_param_tls1_aad_len c params.AEAD_TLS1_AAD).1 with e | e
    · rw [e]; exact hc
    · rw [e]; exact aad_len_ne_unset
  · intro c hc; rw [(set_param_tls1_iv_fixed_keeps c _).2.1]; exact hc

/-- A call that does not carry the tls-record-aad parameter leaves an unset TLS marker
unset. -/
theorem op_marker_unset (ctx : PROV_GCM_CTX σ ρ) (op : Op σ ρ)
    (h : ctx.tls_aad_len = UNINITIALISED_SIZET) (ha : op.sets_tls_aad = false) :
    (op.apply ctx).2.tls_aad_len = UNINITIALISED_SIZET := by
  have hint : ∀ out inp len,
      (gcm_cipher_internal ctx out inp len).ctx.tls_aad_len = UNINITIALISED_SIZET := by
    intro out inp len
    rcases gcm_cipher_internal_aad_len ctx out inp len with e | e
    · exact e
    · exact e.trans h
  cases op with
  | initctx provctx keybits hw ivlen_min => rfl
  | deinitctx => exact h
  | einit key keylen iv ivlen => exact (gcm_init_keeps ctx key keylen iv ivlen true).2.1.trans h
  | dinit key keylen iv ivlen => exact (gcm_init_keeps ctx key keylen iv ivlen false).2.1.trans h
  | get_ctx_params params =>
    show (gcm_get_ctx_params ctx params).2.1.tls_aad_len = _
    rw [gcm_get_ctx_params_ctx]; exact h
  | set_ctx_params params =>
    have ha1 : params.AEAD_TLS1_AAD = none := by
      cases hp : params.AEAD_TLS1_AAD with
      | none => rfl
      | some q => simp [Op.sets_tls_aad, hp] at ha
    exact (gcm_set_ctx_params_no_aad ctx params ha1).trans h
  | stream_update out outsize inp inl =>
    show (gcm_stream_update ctx out outsize inp inl).ctx.tls_aad_len = _
    rcases stream_update_ctx_cases ctx out inp outsize inl with e | e
    · rw [e]; exact h
    · rw [e]; exact hint out inp inl
  | stream_final out outsize =>
    show (gcm_stream_final ctx out outsize).ctx.tls_aad_len = _
    rw [stream_final_ctx]; exact hint out none 0
  | cipher out outsize inp inl =>
    show (gcm_cipher ctx out outsize inp inl).ctx.tls_aad_len = _
    rcases cipher_ctx_cases ctx out inp outsize inl with e | e
    · rw [e]; exact h
    · rw [e]; exact hint out inp inl

/-- A call that is neither a cipher call nor `gcm_initctx` leaves a set TLS marker
set. -/
theorem op_marker_stays (ctx : PROV_GCM_CTX σ ρ) (op : Op σ ρ)
    (h : ctx.tls_aad_len ≠ UNINITIALISED_SIZET) (hc : op.is_cipher = false)
    (hn : op.is_initctx = false) :
    (op.apply ctx).2.tls_aad_len ≠ UNINITIALISED_SIZET := by
  cases op with
  | initctx provctx keybits hw ivlen_min => exact Bool.noConfusion hn
  | deinitctx => exact h
  | einit key keylen iv ivlen =>
    show (gcm_init ctx key keylen iv ivlen true).2.tls_aad_len ≠ _
    rw [(gcm_init_keeps ctx key keylen iv ivlen true).2.1]; exact h
  | dinit key keylen iv ivlen =>
    show (gcm_init ctx key keylen iv ivlen false).2.tls_aad_len ≠ _
    rw [(gcm_init_keeps ctx key keylen iv ivlen false).2.1]; exact h
  | get_ctx_params params =>
    show (gcm_get_ctx_params ctx params).2.1.tls_aad_len ≠ _
    rw [gcm_get_ctx_params_ctx]; exact h
  | set_ctx_params params => exact gcm_set_ctx_params_stays_marked ctx params h
  | stream_update out outsize inp inl => exact Bool.noConfusion hc
  | stream_final out outsize => exact Bool.noConfusion hc
  | cipher out outsize inp inl => exact Bool.noConfusion hc

/-! ## The nonce counter across records -/

theorem two_pow_64 : (2 : Nat) ^ 64 = 18446744073709551616 := by norm_num

/-- The 8 bytes before byte `n` of a nonce of at least `n >= 8` bytes. -/
theorem counter_field_length (iv : List Nat) (n : Nat) (h8 : 8 ≤ n) (hcap : n ≤ iv.length) :
    ((iv.drop (n - 8)).take 8).length = 8 := by
  rw [List.length_take, List.length_drop]; omega

theorem counter_field_lt (iv : List Nat) (n : Nat) (h8 : 8 ≤ n) (hcap : n ≤ iv.length)
    (hb : ∀ x ∈ iv, x < 256) : be_value ((iv.drop (n - 8)).take 8) < 2 ^ 64 := by
  have h := be_value_lt ((iv.drop (n - 8)).take 8) (fun x hx => hb x (mem_take_drop hx))
  rw [counter_field_length iv n h8 hcap, pow_256_8] at h
  exact h

theorem nonce_advanced_zero (iv : List Nat) (n : Nat) (h8 : 8 ≤ n) (hcap : n ≤ iv.length)
    (hb : ∀ x ∈ iv, x < 256) : nonce_advanced iv n 0 iv := by
  have h := counter_field_lt iv n h8 hcap hb
  refine ⟨rfl, rfl, rfl, hb, ?_⟩
  rw [Nat.add_zero, Nat.mod_eq_of_lt h]

/-- The shape of the nonce after one more record. -/
theorem tls_next_iv_parts (iv : List Nat) (n : Nat) (h8 : 8 ≤ n) (hcap : n ≤ iv.length)
    (hb : ∀ x ∈ iv, x < 256) :
    (tls_next_iv iv n).length = iv.length
    ∧ (tls_next_iv iv n).take (n - 8) = iv.take (n - 8)
    ∧ (tls_next_iv iv n).drop n = iv.drop n
    ∧ (∀ x ∈ tls_next_iv iv n, x < 256)
    ∧ ((tls_next_iv iv n).drop (n - 8)).take 8 = ctr64_inc ((iv.drop (n - 8)).take 8) := by
  have hl := counter_field_length iv n h8 hcap
  obtain ⟨c1, c2, _⟩ := ctr64_inc_spec ((iv.drop (n - 8)).take 8) hl
    (fun x hx => hb x (mem_take_drop hx))
  have ha : (iv.take (n - 8)).length = n - 8 := by rw [List.length_take]; omega
  have hab : (iv.take (n - 8) ++ ctr64_inc ((iv.drop (n - 8)).take 8)).length = n := by
    rw [List.length_append, ha, c1]; omega
  unfold tls_next_iv
  refine ⟨?_, ?_, ?_, ?_, ?_⟩
  · rw [List.length_append, hab, List.length_drop]; omega
  · rw [List.append_assoc]
    exact List.take_left' ha
  · exact List.drop_left' hab
  · intro x hx
    rcases List.mem_append.mp hx with h | h
    · rcases List.mem_append.mp h with h1 | h1
      · exact hb x (List.mem_of_mem_take h1)
      · exact c2 x h1
    · exact hb x (List.mem_of_mem_drop h)
  · rw [List.append_assoc, List.drop_left' ha]
    exact List.take_left' c1

theorem nonce_advanced_next (iv0 iv : List Nat) (n k : Nat) (h8 : 8 ≤ n)
    (hcap : n ≤ iv0.length) (h : nonce_advanced iv0 n k iv) :
    nonce_advanced iv0 n (k + 1) (tls_next_iv iv n) := by
  obtain ⟨h1, h2, h3, h4, h5⟩ := h
  have hcap1 : n ≤ iv.length := by omega
  obtain ⟨p1, p2, p3, p4, p5⟩ := tls_next_iv_parts iv n h8 hcap1 h4
  obtain ⟨_, _, c3⟩ := ctr64_inc_spec ((iv.drop (n - 8)).take 8)
    (counter_field_length iv n h8 hcap1) (fun x hx => h4 x (mem_take_drop hx))
  refine ⟨p1.trans h1, p2.trans h2, p3.trans h3, p4, ?_⟩
  rw [p5, c3, h5, two_pow_64]
  omega

theorem nonce_advanced_trans (a b c : List Nat) (n j k : Nat) (h1 : nonce_advanced a n j b)
    (h2 : nonce_advanced b n k c) : nonce_advanced a n (j + k) c := by
  obtain ⟨a1, a2, a3, _, a5⟩ := h1
  obtain ⟨b1, b2, b3, b4, b5⟩ := h2
  refine ⟨b1.trans a1, b2.trans a2, b3.trans a3, b4, ?_⟩
  rw [b5, a5, two_pow_64]
  omega

/-- A counter advanced `k` times, `1 <= k < 2^64`, is not where it started. -/
theorem nonce_advanced_ne (iv0 iv : List Nat) (n k : Nat) (h8 : 8 ≤ n) (hcap : n ≤ iv0.length)
    (hb : ∀ x ∈ iv0, x < 256) (h : nonce_advanced iv0 n k iv) (h1 : 1 ≤ k) (hk : k < 2 ^ 64) :
    iv.take n ≠ iv0.take n := by
  intro e
  have e2 : (iv.drop (n - 8)).take 8 = (iv0.drop (n - 8)).take 8 := by
    have f : ∀ l : List Nat, (l.drop (n - 8)).take 8 = (l.take n).drop (n - 8) := by
      intro l
      rw [List.drop_take]
      congr 1
      omega
    rw [f iv, f iv0, e]
  have hv := counter_field_lt iv0 n h8 hcap hb
  have h5 := h.2.2.2.2
  rw [e2, two_pow_64] at h5
  rw [two_pow_64] at hv hk
  omega

/-! ## The stored nonce across calls on the encrypting side -/

/-- The bind stage on the encrypting side once `setiv` reports success. -/
theorem tls_bind_iv_enc_next (c : PROV_GCM_CTX σ ρ) (record : List Nat) (he : c.enc = true)
    (hs : (hw_setiv c).1 ≠ 0) (h8 : 8 ≤ c.ivlen) (hcap : c.ivlen ≤ c.iv.length) :
    (tls_bind_iv c record).1 ≠ 0
    ∧ (tls_bind_iv c record).2.1.iv = tls_next_iv c.iv c.ivlen
    ∧ (tls_bind_iv c record).2.1.trace = c.trace ++ [Call.setiv c.iv c.ivlen] := by
  have harg : ¬ (8 > c.ivlen) := by omega
  have hoff : ((c.ivlen : Int) - 8) = ((c.ivlen - 8 : Nat) : Int) := by omega
  have hload : load c.iv ((c.ivlen : Int) - 8) 8 = (c.iv.drop (c.ivlen - 8)).take 8 :=
    load_eq_drop_take _ _ (c.ivlen - 8) 8 hoff (by omega)
  have hlen : ((c.iv.drop (c.ivlen - 8)).take 8).length = 8 := by
    rw [List.length_take, List.length_drop]; omega
  have e : tls_bind_iv c record
      = (1, { (hw_setiv c).2 with
                iv := memcpy c.iv ((c.ivlen : Int) - 8)
                        (ctr64_inc (load c.iv ((c.ivlen : Int) - 8) 8)) 8 },
         memcpy record 0 (load c.iv ((c.ivlen : Int) - 8) 8) 8) := by
    unfold tls_bind_iv
    rw [if_pos he, if_neg hs]
    simp only [explicit_iv_len_eq, if_neg harg, Nat.cast_ofNat]
  rw [e, pair_fst, pair_snd, pair_fst, hload]
  refine ⟨one_ne_zero_int, ?_, (ctx_with_iv_fields _ _).2.1.trans (hw_setiv_fields c).2.2.2.1⟩
  rw [(ctx_with_iv_fields _ _).1,
    memcpy_eq_splice c.iv _ _ (c.ivlen - 8) 8 hoff
      (by unfold ctr64_inc; rw [ctr64_inc_loop_length, hlen]) (by omega),
    Nat.sub_add_cancel h8]
  rfl

/-- A call of `gcm_tls_cipher` that fails one of its four checks leaves the nonce and
the trace alone. -/
theorem gcm_tls_cipher_unchecked (ctx : PROV_GCM_CTX σ ρ) (out inp : Option Buf) (len : Nat)
    (h : ¬ (ctx.key_set = true ∧ ptr out = ptr inp ∧ 24 ≤ len
        ∧ ¬ (ctx.enc = true ∧ (tls_count_record ctx).tls_enc_records = 0)
        ∧ ctx.iv_gen = true)) :
    (gcm_tls_cipher ctx out inp len).ctx.iv = ctx.iv
    ∧ (gcm_tls_cipher ctx out inp len).ctx.trace = ctx.trace := by
  obtain ⟨f1, _, _, _, _, f6⟩ := tls_count_record_fields ctx
  have e24 : EVP_GCM_TLS_EXPLICIT_IV_LEN + EVP_GCM_TLS_TAG_LEN = 24 := rfl
  unfold gcm_tls_cipher
  generalize tls_bind_iv (tls_count_record ctx) (contents out) = b
  generalize tls_count_record ctx = c1 at f1 f6 h ⊢
  split
  · exact ⟨rfl, rfl⟩
  · split
    · exact ⟨rfl, rfl⟩
    · split
      · exact ⟨f1, f6⟩
      · split
        · exact ⟨f1, f6⟩
        · rename_i h1 h2 h3 h4
          exfalso
          apply h
          refine ⟨?_, ?_, ?_, h3, ?_⟩
          · cases hk : ctx.key_set with
            | true => rfl
            | false => exact absurd hk h1
          · exact not_not.mp (fun e => h2 (Or.inl e))
          · rw [e24] at h2
            exact Nat.le_of_not_lt (fun e => h2 (Or.inr e))
          · cases hg : ctx.iv_gen with
            | true => rfl
            | false => exact absurd hg h4

/-- The nonce after a call of `gcm_tls_cipher` on the encrypting side: advanced when the
call binds it, unchanged otherwise. -/
theorem gcm_tls_cipher_enc_nonce (ctx : PROV_GCM_CTX σ ρ) (out inp : Option Buf) (len : Nat)
    (he : ctx.enc = true) (h8 : 8 ≤ ctx.ivlen) (hcap : ctx.ivlen ≤ ctx.iv.length)
    (ht : ctx.tls_aad_len ≠ UNINITIALISED_SIZET) :
    (tls_call_binds ctx out inp len →
        (gcm_tls_cipher ctx out inp len).ctx.iv = tls_next_iv ctx.iv ctx.ivlen
        ∧ ∃ call, (gcm_tls_cipher ctx out inp len).ctx.trace
            = ctx.trace ++ [Call.setiv ctx.iv ctx.ivlen, call])
    ∧ (¬ tls_call_binds ctx out inp len → (gcm_tls_cipher ctx out inp len).ctx.iv = ctx.iv) := by
  by_cases hchk : ctx.key_set = true ∧ ptr out = ptr inp ∧ 24 ≤ len
      ∧ ¬ (ctx.enc = true ∧ (tls_count_record ctx).tls_enc_records = 0) ∧ ctx.iv_gen = true
  · obtain ⟨hk, hp, hl, hc, hg⟩ := hchk
    obtain ⟨f1, f2, _, _, f5, f6⟩ := tls_count_record_fields ctx
    have he1 : (tls_count_record ctx).enc = true := f5.trans he
    have e := gcm_tls_cipher_checked ctx out inp len hk hp hl hc hg
    by_cases hs : (hw_setiv (tls_count_record ctx)).1 = 0
    · have eb := tls_bind_iv_enc_fail (tls_count_record ctx) (contents out) he1 hs
      have hb0 : (tls_bind_iv (tls_count_record ctx) (contents out)).1 = 0 := by
        rw [eb]
      refine ⟨fun hb => absurd hb0 hb.2.2.2.2.2.2, fun _ => ?_⟩
      rw [e, if_pos hb0, (err_fields _ _ _ _).1, eb, pair_snd, pair_fst,
        (hw_setiv_fields _).1, f1]
    · obtain ⟨b1, b2, b3⟩ := tls_bind_iv_enc_next (tls_count_record ctx) (contents out) he1 hs
        (by rw [f2]; exact h8) (by rw [f2, f1]; exact hcap)
      rw [f1, f2] at b2
      rw [f1, f2, f6] at b3
      obtain ⟨s1, _, ⟨call, s3, _⟩, _⟩ := tls_seal_open_effect
        (tls_bind_iv (tls_count_record ctx) (contents out)).2.1
        (tls_bind_iv (tls_count_record ctx) (contents out)).2.2 len
      refine ⟨fun _ => ?_, fun hn => absurd ⟨ht, hk, hp, hl, hc, hg, b1⟩ hn⟩
      rw [e, if_neg b1, s1, s3, b2, b3, List.append_assoc]
      exact ⟨rfl, call, rfl⟩
  · refine ⟨fun hb => absurd ⟨hb.2.1, hb.2.2.1, hb.2.2.2.1, hb.2.2.2.2.1, hb.2.2.2.2.2.1⟩ hchk,
      fun _ => (gcm_tls_cipher_unchecked ctx out inp len hchk).1⟩

/-- The nonce after `gcm_cipher_internal` on the encrypting side, when the nonce state is
not UNINITIALISED. -/
theorem gcm_cipher_internal_enc_nonce (ctx : PROV_GCM_CTX σ ρ) (out inp : Option Buf)
    (len : Nat) (he : ctx.enc = true) (h8 : 8 ≤ ctx.ivlen) (hcap : ctx.ivlen ≤ ctx.iv.length)
    (hs : ctx.iv_state ≠ IV_STATE.UNINITIALISED) :
    (gcm_cipher_internal ctx out inp len).ctx.enc = true
    ∧ (gcm_cipher_internal ctx out inp len).ctx.ivlen = ctx.ivlen
    ∧ (gcm_cipher_internal ctx out inp len).ctx.iv_state ≠ IV_STATE.UNINITIALISED
    ∧ (tls_call_binds ctx out inp len →
        (gcm_cipher_internal ctx out inp len).ctx.iv = tls_next_iv ctx.iv ctx.ivlen
        ∧ ∃ call, (gcm_cipher_internal ctx out inp len).ctx.trace
            = ctx.trace ++ [Call.setiv ctx.iv ctx.ivlen, call])
    ∧ (¬ tls_call_binds ctx out inp len →
        (gcm_cipher_internal ctx out inp len).ctx.iv = ctx.iv) := by
  have hf := gcm_cipher_internal_frame ctx out inp len
  refine ⟨hf.enc.trans he, hf.ivlen, ?_⟩
  by_cases ht : ctx.tls_aad_len = UNINITIALISED_SIZET
  · rw [gcm_cipher_internal_pipeline ctx out inp len ht]
    obtain ⟨_, k⟩ := generic_pipeline_keeps ctx out inp len
    exact ⟨(k hs).2, fun hb => absurd ht hb.1, fun _ => (k hs).1⟩
  · rw [gcm_cipher_internal_tls ctx out inp len ht]
    obtain ⟨n1, n2⟩ := gcm_tls_cipher_enc_nonce ctx out inp len he h8 hcap ht
    refine ⟨?_, n1, n2⟩
    rw [(gcm_tls_cipher_state ctx out inp len).1]
    exact fun e => IV_STATE.noConfusion e

/-- The call `gcm_init` without a nonce leaves the nonce, its length and its state
alone. -/
theorem gcm_init_no_iv_nonce (ctx : PROV_GCM_CTX σ ρ) (key : Option (List Nat))
    (keylen ivlen : Nat) (enc : Bool) :
    (gcm_init ctx key keylen none ivlen enc).2.iv = ctx.iv
    ∧ (gcm_init ctx key keylen none ivlen enc).2.ivlen = ctx.ivlen
    ∧ (gcm_init ctx key keylen none ivlen enc).2.iv_state = ctx.iv_state
    ∧ (gcm_init ctx key keylen none ivlen enc).2.enc = enc := by
  unfold gcm_init
  dsimp only
  rw [if_neg one_ne_zero_int]
  cases key with
  | none => exact ⟨rfl, rfl, rfl, rfl⟩
  | some k => dsimp only; split <;> exact ⟨rfl, rfl, rfl, rfl⟩

/-- One call that supplies no nonce, on an encrypting context with `8 <= ivlen <=
sizeof(iv)` and a nonce state other than UNINITIALISED: the direction, the nonce
length and that property of the state are kept; the stored nonce is advanced when the
call binds it on the TLS path, having been passed to `setiv` as it was, and is
unchanged otherwise. -/
theorem op_nonce_step (ctx : PROV_GCM_CTX σ ρ) (op : Op σ ρ) (hop : op.keeps_nonce = true)
    (he : ctx.enc = true) (h8 : 8 ≤ ctx.ivlen) (hcap : ctx.ivlen ≤ ctx.iv.length)
    (hs : ctx.iv_state ≠ IV_STATE.UNINITIALISED) :
    (op.apply ctx).2.enc = true
    ∧ (op.apply ctx).2.ivlen = ctx.ivlen
    ∧ (op.apply ctx).2.iv_state ≠ IV_STATE.UNINITIALISED
    ∧ (op.binds ctx →
        (op.apply ctx).2.iv = tls_next_iv ctx.iv ctx.ivlen
        ∧ ∃ call, (op.apply ctx).2.trace = ctx.trace ++ [Call.setiv ctx.iv ctx.ivlen, call])
    ∧ (¬ op.binds ctx → (op.apply ctx).2.iv = ctx.iv) := by
  have same : ∀ c : PROV_GCM_CTX σ ρ, c = ctx →
      c.enc = true ∧ c.ivlen = ctx.ivlen ∧ c.iv_state ≠ IV_STATE.UNINITIALISED
        ∧ c.iv = ctx.iv := by
    intro c e
    rw [e]
    exact ⟨he, rfl, hs, rfl⟩
  cases op with
  | initctx provctx keybits hw ivlen_min => exact Bool.noConfusion hop
  | deinitctx => exact Bool.noConfusion hop
  | dinit key keylen iv ivlen => exact Bool.noConfusion hop
  | einit key keylen iv ivlen =>
    cases iv with
    | some ivb => exact Bool.noConfusion hop
    | none =>
      obtain ⟨g1, g2, g3, g4⟩ := gcm_init_no_iv_nonce ctx key keylen ivlen true
      exact ⟨g4, g2, fun e => hs (g3.symm.trans e), fun hb => False.elim hb, fun _ => g1⟩
  | get_ctx_params params =>
    obtain ⟨s1, s2, s3, s4⟩ := same _ (gcm_get_ctx_params_ctx ctx params)
    exact ⟨s1, s2, s3, fun hb => False.elim hb, fun _ => s4⟩
  | set_ctx_params params =>
    have hp : params.AEAD_IVLEN = none ∧ params.AEAD_TLS1_IV_FIXED = none := by
      have h2 : (params.AEAD_IVLEN.isNone && params.AEAD_TLS1_IV_FIXED.isNone) = true := hop
      rw [Bool.and_eq_true] at h2
      exact ⟨Option.isNone_iff_eq_none.mp h2.1, Option.isNone_iff_eq_none.mp h2.2⟩
    have hf := gcm_set_ctx_params_frame ctx params hp.2
    have hl := (gcm_set_ctx_params_bounds ctx params).2.2.2 hp.1
    exact ⟨hf.enc.trans he, hl, fun e => hs (hf.iv_state.symm.trans e),
      fun hb => False.elim hb, fun _ => hf.iv⟩
  | stream_update out outsize inp inl =>
    show (gcm_stream_update ctx out outsize inp inl).ctx.enc = true
      ∧ (gcm_stream_update ctx out outsize inp inl).ctx.ivlen = ctx.ivlen
      ∧ (gcm_stream_update ctx out outsize inp inl).ctx.iv_state ≠ IV_STATE.UNINITIALISED
      ∧ ((inl ≤ outsize ∧ tls_call_binds ctx out inp inl) →
          (gcm_stream_update ctx out outsize inp inl).ctx.iv = tls_next_iv ctx.iv ctx.ivlen
          ∧ ∃ call, (gcm_stream_update ctx out outsize inp inl).ctx.trace
              = ctx.trace ++ [Call.setiv ctx.iv ctx.ivlen, call])
      ∧ (¬ (inl ≤ outsize ∧ tls_call_binds ctx out inp inl) →
          (gcm_stream_update ctx out outsize inp inl).ctx.iv = ctx.iv)
    by_cases hsz : outsize < inl
    · rw [stream_update_small ctx out inp outsize inl hsz]
      exact ⟨he, rfl, hs, fun hb => by omega, fun _ => rfl⟩
    · have hle : inl ≤ outsize := by omega
      rw [stream_update_ctx ctx out inp outsize inl hle]
      obtain ⟨i1, i2, i3, i4, i5⟩ := gcm_cipher_internal_enc_nonce ctx out inp inl he h8 hcap hs
      exact ⟨i1, i2, i3, fun hb => i4 hb.2, fun hn => i5 (fun hb => hn ⟨hle, hb⟩)⟩
  | stream_final out outsize =>
    show (gcm_stream_final ctx out outsize).ctx.enc = true
      ∧ (gcm_stream_final ctx out outsize).ctx.ivlen = ctx.ivlen
      ∧ (gcm_stream_final ctx out outsize).ctx.iv_state ≠ IV_STATE.UNINITIALISED
      ∧ (tls_call_binds ctx out none 0 →
          (gcm_stream_final ctx out outsize).ctx.iv = tls_next_iv ctx.iv ctx.ivlen
          ∧ ∃ call, (gcm_stream_final ctx out outsize).ctx.trace
              = ctx.trace ++ [Call.setiv ctx.iv ctx.ivlen, call])
      ∧ (¬ tls_call_binds ctx out none 0 → (gcm_stream_final ctx out outsize).ctx.iv = ctx.iv)
    rw [stream_final_ctx]
    exact gcm_cipher_internal_enc_nonce ctx out none 0 he h8 hcap hs
  | cipher out outsize inp inl =>
    show (gcm_cipher ctx out outsize inp inl).ctx.enc = true
      ∧ (gcm_cipher ctx out outsize inp inl).ctx.ivlen = ctx.ivlen
      ∧ (gcm_cipher ctx out outsize inp inl).ctx.iv_state ≠ IV_STATE.UNINITIALISED
      ∧ ((inl ≤ outsize ∧ tls_call_binds ctx out inp inl) →
          (gcm_cipher ctx out outsize inp inl).ctx.iv = tls_next_iv ctx.iv ctx.ivlen
          ∧ ∃ call, (gcm_cipher ctx out outsize inp inl).ctx.trace
              = ctx.trace ++ [Call.setiv ctx.iv ctx.ivlen, call])
      ∧ (¬ (inl ≤ outsize ∧ tls_call_binds ctx out inp inl) →
          (gcm_cipher ctx out outsize inp inl).ctx.iv = ctx.iv)
    by_cases hsz : outsize < inl
    · rw [cipher_small ctx out inp outsize inl hsz]
      exact ⟨he, rfl, hs, fun hb => by omega, fun _ => rfl⟩
    · have hle : inl ≤ outsize := by omega
      rw [cipher_ctx ctx out inp outsize inl hle]
      obtain ⟨i1, i2, i3, i4, i5⟩ := gcm_cipher_internal_enc_nonce ctx out inp inl he h8 hcap hs
      exact ⟨i1, i2, i3, fun hb => i4 hb.2, fun hn => i5 (fun hb => hn ⟨hle, hb⟩)⟩

/-- A sequence of calls that supply no nonce, on an encrypting context with
`8 <= ivlen <= sizeof(iv)`, nonce bytes below 256 and a nonce state other than
UNINITIALISED: the stored nonce is the initial one with its counter advanced once
per call that bound it. -/
theorem run_nonce (ops : List (Op σ ρ)) :
    ∀ ctx : PROV_GCM_CTX σ ρ, ctx.enc = true → 8 ≤ ctx.ivlen → ctx.ivlen ≤ ctx.iv.length →
      ctx.iv_state ≠ IV_STATE.UNINITIALISED → (∀ x ∈ ctx.iv, x < 256) →
      (∀ op ∈ ops, op.keeps_nonce = true) →
      (run ctx ops).enc = true ∧ (run ctx ops).ivlen = ctx.ivlen
      ∧ (run ctx ops).iv_state ≠ IV_STATE.UNINITIALISED
      ∧ nonce_advanced ctx.iv ctx.ivlen (bind_count ctx ops) (run ctx ops).iv := by
  induction ops with
  | nil =>
    intro ctx he h8 hcap hs hb _
    exact ⟨he, rfl, hs, nonce_advanced_zero ctx.iv ctx.ivlen h8 hcap hb⟩
  | cons op rest ih =>
    intro ctx he h8 hcap hs hb hops
    obtain ⟨s1, s2, s3, s4, s5⟩ := op_nonce_step ctx op (hops op (List.mem_cons_self _ _))
      he h8 hcap hs
    have hstep : nonce_advanced ctx.iv ctx.ivlen (if op.binds ctx then 1 else 0)
        (op.apply ctx).2.iv := by
      by_cases hbd : op.binds ctx
      · rw [if_pos hbd, (s4 hbd).1]
        exact nonce_advanced_next ctx.iv ctx.iv ctx.ivlen 0 h8 hcap
          (nonce_advanced_zero ctx.iv ctx.ivlen h8 hcap hb)
      · rw [if_neg hbd, s5 hbd]
        exact nonce_advanced_zero ctx.iv ctx.ivlen h8 hcap hb
    have hcap1 : (op.apply ctx).2.ivlen ≤ (op.apply ctx).2.iv.length := by
      rw [s2, hstep.1]; exact hcap
    obtain ⟨r1, r2, r3, r4⟩ := ih (op.apply ctx).2 s1 (by rw [s2]; exact h8) hcap1 s3
      hstep.2.2.2.1 (fun o ho => hops o (List.mem_cons_of_mem _ ho))
    rw [s2] at r4
    exact ⟨r1, r2.trans s2, r3,
      nonce_advanced_trans ctx.iv (op.apply ctx).2.iv _ ctx.ivlen _ _ hstep r4⟩

/-! # The claims on parameters, modes, teardown, atomicity and the entry points -/

/-! ## C31 -/

set_option maxRecDepth 100000 in
/-- C31, counterexample: `ctx_dec_final` is a decrypting context on which the final
has run (its trace ends with `cipherfinal`, the nonce state is FINISHED); setting
a 16-byte tag on it still returns 1 and stores the tag length. -/
theorem C31_counterexample :
    ctx_dec_final.enc = false
    ∧ ctx_dec_final.iv_state = IV_STATE.FINISHED
    ∧ ctx_dec_final.trace
        = [Call.setkey sample_key 16, Call.setiv (List.replicate 64 0) 12,
           Call.cipherfinal (List.replicate 16 0)]
    ∧ (gcm_set_ctx_params ctx_dec_final
        (params_aead_tag (OSSL_PARAM.octet_string (List.replicate 16 0x55) 16))).1 = 1
    ∧ (gcm_set_ctx_params ctx_dec_final
        (params_aead_tag (OSSL_PARAM.octet_string (List.replicate 16 0x55) 16))).2.taglen = 16 := by
  decide

/-- C31, amended: `gcm_set_ctx_params` with only the tag parameter, an octet string of
`n` bytes (the caller's buffer holds them, the tag buffer has room for 16): it
returns 1 exactly when the direction is decrypt and `1 <= n <= 16`, whatever the
nonce state; then `taglen = n` and the first `n` bytes of `buf` are the supplied
ones; otherwise it returns 0. -/
theorem C31_set_tag (ctx : PROV_GCM_CTX σ ρ) (data : List Nat) (n : Nat)
    (hd : n ≤ data.length) (hb : EVP_GCM_TLS_TAG_LEN ≤ ctx.buf.length) :
    ((gcm_set_ctx_params ctx (params_aead_tag (OSSL_PARAM.octet_string data n))).1 = 1
        ↔ ctx.enc = false ∧ 1 ≤ n ∧ n ≤ 16)
    ∧ ((gcm_set_ctx_params ctx (params_aead_tag (OSSL_PARAM.octet_string data n))).1 = 1 →
        (gcm_set_ctx_params ctx (params_aead_tag (OSSL_PARAM.octet_string data n))).2.taglen = n
        ∧ (gcm_set_ctx_params ctx
            (params_aead_tag (OSSL_PARAM.octet_string data n))).2.buf.take n = data.take n)
    ∧ ((gcm_set_ctx_params ctx (params_aead_tag (OSSL_PARAM.octet_string data n))).1 ≠ 1 →
        (gcm_set_ctx_params ctx (params_aead_tag (OSSL_PARAM.octet_string data n))).1 = 0) := by
  have e16 : EVP_GCM_TLS_TAG_LEN = 16 := rfl
  rw [e16] at hb
  rw [gcm_set_ctx_params_tag_only, set_param_tag_octets, e16]
  by_cases h1 : 16 < n
  · rw [if_pos h1, pair_fst, if_pos rfl, pair_fst]
    refine ⟨⟨fun h => absurd h zero_ne_one_int, fun h => by omega⟩,
      fun h => absurd h zero_ne_one_int, fun _ => rfl⟩
  · rw [if_neg h1]
    by_cases h2 : n = 0 ∨ ctx.enc = true
    · rw [if_pos h2, pair_fst, if_pos rfl, pair_fst]
      refine ⟨⟨fun h => absurd h zero_ne_one_int, fun h => ?_⟩,
        fun h => absurd h zero_ne_one_int, fun _ => rfl⟩
      rcases h2 with h2 | h2
      · omega
      · rw [h.1] at h2; exact Bool.noConfusion h2
    · rw [if_neg h2, pair_fst, if_neg one_ne_zero_int, pair_fst, pair_snd]
      have he : ctx.enc = false := by
        cases hc : ctx.enc with
        | false => rfl
        | true => exact absurd (Or.inr hc) h2
      have hn : 1 ≤ n := by
        rcases Nat.eq_zero_or_pos n with h0 | h0
        · exact absurd (Or.inl h0) h2
        · exact h0
      refine ⟨⟨fun _ => ⟨he, hn, by omega⟩, fun _ => rfl⟩, fun _ => ⟨rfl, ?_⟩,
        fun h => absurd rfl h⟩
      exact memcpy_take ctx.buf data n hd (by omega)

set_option maxRecDepth 100000 in
/-- C31 on the decrypting context `ctx_dec_final` with a tag of sixteen bytes 0x55:
the set returns 1. -/
theorem C31_set_tag_witness :
    (gcm_set_ctx_params ctx_dec_final
        (params_aead_tag (OSSL_PARAM.octet_string (List.replicate 16 0x55) 16))).1 = 1 :=
  (C31_set_tag ctx_dec_final (List.replicate 16 0x55) 16 (by decide) (by decide)).1.mpr
    ⟨by decide, by decide, by decide⟩

/-! ## C32 -/

/-- C32: `gcm_initctx` sets `keylen` to `keybits / 8`; no sequence `ops` of later calls
(anything but `gcm_initctx`) changes it; `gcm_set_ctx_params` with a key-length
parameter `q` that is not the numeric parameter holding `keylen` returns 0; and with
the numeric parameter holding `keylen` (a `size_t`) it does exactly what it does
without the key-length parameter. -/
theorem C32_key_length_fixed (ctx : PROV_GCM_CTX σ ρ) (provctx : OPENSSL_CTX ρ)
    (keybits : Nat) (hw : PROV_GCM_HW σ) (ivlen_min : Nat) (ops : List (Op σ ρ))
    (params : SetParams) (q : OSSL_PARAM)
    (hops : ∀ op ∈ ops, op.is_initctx = false) (hq : params.KEYLEN = some q)
    (hk : ctx.keylen < SIZE_T_MOD) :
    (gcm_initctx provctx ctx keybits hw ivlen_min).keylen = keybits / 8
    ∧ (run ctx ops).keylen = ctx.keylen
    ∧ (q ≠ OSSL_PARAM.size_t ctx.keylen → (gcm_set_ctx_params ctx params).1 = 0)
    ∧ (q = OSSL_PARAM.size_t ctx.keylen →
        gcm_set_ctx_params ctx params = gcm_set_ctx_params ctx { params with KEYLEN := none }) := by
  obtain ⟨r, hr, hs⟩ := gcm_set_ctx_params_split ctx params
  have e0 : gcm_set_ctx_params ctx params
      = gcm_set_ctx_params ctx { params with KEYLEN := some q } := by
    rw [← hq, set_params_keylen_eta]
  refine ⟨rfl, ?_, fun hne => ?_, fun he => ?_⟩
  · exact run_keeps (fun c => c.keylen = ctx.keylen) (fun op => op.is_initctx = false)
      (fun c op hc ho => (op_keylen c op ho).trans hc) ops ctx rfl hops
  · rw [e0, hs (some q)]
    by_cases c1 : r.1 = 0
    · rw [if_pos c1]
    · rw [if_neg c1, if_pos (set_param_keylen_other r.2 q (by rw [hr]; exact hne))]
  · have e1 : set_param_keylen r.2 (some q) = (1, r.2) := by
      rw [he, ← hr]
      exact set_param_keylen_same r.2 (by rw [hr]; exact hk)
    have e2 : set_param_keylen r.2 none = (1, r.2) := rfl
    rw [e0, hs (some q), hs none, e1, e2]

set_option maxRecDepth 100000 in
/-- C32 on the 128-bit context `ctx_new` (`keylen = 16`): the key length survives an
init, a parameter set and an update; a key-length parameter of 32 is refused and
one of 16 is accepted. -/
theorem C32_key_length_fixed_witness :
    (run ctx_new [Op.einit (some sample_key) 16 none 0, Op.set_ctx_params params_fixed_iv,
        Op.stream_update none 3 (some sample_chunk) 3]).keylen = 16
    ∧ (gcm_set_ctx_params ctx_new { no_params with KEYLEN := some (OSSL_PARAM.size_t 32) }).1 = 0
    ∧ (gcm_set_ctx_params ctx_new { no_params with KEYLEN := some (OSSL_PARAM.size_t 16) }).1 = 1 :=
  ⟨(C32_key_length_fixed ctx_new rand_counting 128 hw_accept 8
      [Op.einit (some sample_key) 16 none 0, Op.set_ctx_params params_fixed_iv,
        Op.stream_update none 3 (some sample_chunk) 3]
      { no_params with KEYLEN := some (OSSL_PARAM.size_t 32) } (OSSL_PARAM.size_t 32)
      (by decide) rfl (by decide)).2.1,
   (C32_key_length_fixed ctx_new rand_counting 128 hw_accept 8 []
      { no_params with KEYLEN := some (OSSL_PARAM.size_t 32) } (OSSL_PARAM.size_t 32)
      (by decide) rfl (by decide)).2.2.1 (by decide),
   (congrArg Prod.fst ((C32_key_length_fixed ctx_new rand_counting 128 hw_accept 8 []
      { no_params with KEYLEN := some (OSSL_PARAM.size_t 16) } (OSSL_PARAM.size_t 16)
      (by decide) rfl (by decide)).2.2.2 rfl)).trans (by decide)⟩

/-! ## C33 -/

/-- C33: `gcm_get_ctx_params` asked only for the nonce value through a parameter `q`
returns 0 unless one of `iv_gen`, `iv_gen_rand` is set and `q.data_size = ivlen`;
when a flag is set and the parameter is an octet string of `ivlen` bytes
(`ivlen <= sizeof(iv)`), it returns 1 and the parameter holds exactly the first
`ivlen` bytes of the stored nonce; and whatever the parameter array,
`gcm_get_ctx_params` leaves the context as it was. -/
theorem C33_get_nonce (ctx : PROV_GCM_CTX σ ρ) (q : OSSL_PARAM) (d : List Nat)
    (params : GetParams) (hd : d.length = ctx.ivlen) (hcap : ctx.ivlen ≤ ctx.iv.length) :
    (¬ ((ctx.iv_gen = true ∨ ctx.iv_gen_rand = true) ∧ q.data_size = ctx.ivlen) →
        (gcm_get_ctx_params ctx (get_iv q)).1 = 0)
    ∧ ((ctx.iv_gen = true ∨ ctx.iv_gen_rand = true) →
        gcm_get_ctx_params ctx (get_iv (OSSL_PARAM.octet_string d ctx.ivlen))
          = (1, ctx, get_iv (OSSL_PARAM.octet_string (ctx.iv.take ctx.ivlen) ctx.ivlen)))
    ∧ (gcm_get_ctx_params ctx params).2.1 = ctx := by
  refine ⟨fun hn => ?_, fun hg => ?_, gcm_get_ctx_params_ctx ctx params⟩
  · rw [gcm_get_ctx_params_iv]
    by_cases hc : ctx.iv_gen ≠ true ∧ ctx.iv_gen_rand ≠ true
    · rw [if_pos hc]
    · rw [if_neg hc]
      by_cases hl : ctx.ivlen ≠ q.data_size
      · rw [if_pos hl]
      · exfalso
        apply hn
        refine ⟨?_, (not_not.mp hl).symm⟩
        by_cases h1 : ctx.iv_gen = true
        · exact Or.inl h1
        · by_cases h2 : ctx.iv_gen_rand = true
          · exact Or.inr h2
          · exact absurd ⟨h1, h2⟩ hc
  · have hc : ¬ (ctx.iv_gen ≠ true ∧ ctx.iv_gen_rand ≠ true) := by
      rintro ⟨h1, h2⟩
      rcases hg with h | h
      · exact h1 h
      · exact h2 h
    have hl : ¬ (ctx.ivlen ≠ (OSSL_PARAM.octet_string d ctx.ivlen).data_size) :=
      fun h => h rfl
    rw [gcm_get_ctx_params_iv, if_neg hc, if_neg hl]
    unfold OSSL_PARAM_set_octet_string
    dsimp only
    rw [if_neg (Nat.lt_irrefl _), memcpy_whole d ctx.iv ctx.ivlen hd hcap]

set_option maxRecDepth 100000 in
/-- C33 on the decrypting context `ctx_tls_dec_fixed` (`iv_gen` set by the fixed nonce
field `01 02 03 04`, `ivlen = 12`): a 12-byte request returns the stored nonce, a
16-byte request returns 0. -/
theorem C33_get_nonce_witness :
    (gcm_get_ctx_params ctx_tls_dec_fixed
        (get_iv (OSSL_PARAM.octet_string (List.replicate 16 0) 16))).1 = 0
    ∧ gcm_get_ctx_params ctx_tls_dec_fixed
        (get_iv (OSSL_PARAM.octet_string (List.replicate 12 0) ctx_tls_dec_fixed.ivlen))
      = (1, ctx_tls_dec_fixed,
          get_iv (OSSL_PARAM.octet_string
            (ctx_tls_dec_fixed.iv.take ctx_tls_dec_fixed.ivlen) ctx_tls_dec_fixed.ivlen)) :=
  ⟨(C33_get_nonce ctx_tls_dec_fixed (OSSL_PARAM.octet_string (List.replicate 16 0) 16)
      (List.replicate 12 0) no_get_params (by decide) (by decide)).1 (by decide),
   (C33_get_nonce ctx_tls_dec_fixed (OSSL_PARAM.octet_string (List.replicate 16 0) 16)
      (List.replicate 12 0) no_get_params (by decide) (by decide)).2.1 (by decide)⟩

/-! ## C34 -/

set_option maxRecDepth 100000 in
/-- C34, counterexample: on `ctx_tls_enc_fixed` the tls-record-aad parameter is set
successfully (the result is `ctx_tls_enc`) and one in-place 24-byte record is
processed by the TLS path (`gcm_stream_update` returns 1, the result is
`ctx_after_tls_record`).  The next update on the same record is not processed
by the TLS path: the marker is unset, the call returns -1 without calling the
primitive, where `gcm_tls_cipher` on that context would return 1. -/
theorem C34_counterexample :
    (gcm_set_ctx_params ctx_tls_enc_fixed (params_tls_aad 8)).1 = 1
    ∧ (gcm_stream_update ctx_tls_enc (some sample_record) 24 (some sample_record) 24).rv = 1
    ∧ ctx_after_tls_record.tls_aad_len = UNINITIALISED_SIZET
    ∧ (gcm_stream_update ctx_after_tls_record (some sample_record) 24
        (some sample_record) 24).rv = -1
    ∧ (gcm_stream_update ctx_after_tls_record (some sample_record) 24
        (some sample_record) 24).ctx.trace = ctx_after_tls_record.trace
    ∧ (gcm_tls_cipher ctx_after_tls_record (some sample_record) (some sample_record) 24).rv
        = 1 := by
  decide

/-- C34, amended: a context whose TLS marker is unset (as `gcm_initctx` leaves it) and
on which the calls `ops` never carried the tls-record-aad parameter has its
cipher calls processed by the generic pipeline.  After a parameter set that
carries the tls-record-aad parameter and returns 1, followed by calls `ops` that
are neither cipher calls nor `gcm_initctx`, the next cipher call is processed
by `gcm_tls_cipher`.  A call processed by `gcm_tls_cipher` unsets the marker, so
the cipher call after it is processed by the generic pipeline. -/
theorem C34_mode_selection (ctx : PROV_GCM_CTX σ ρ) (ops : List (Op σ ρ)) (params : SetParams)
    (out inp out2 inp2 : Option Buf) (len len2 : Nat) :
    (ctx.tls_aad_len = UNINITIALISED_SIZET → (∀ op ∈ ops, op.sets_tls_aad = false) →
        gcm_cipher_internal (run ctx ops) out inp len = generic_pipeline (run ctx ops) out inp len)
    ∧ (params.AEAD_TLS1_AAD.isSome = true → (gcm_set_ctx_params ctx params).1 = 1 →
        (∀ op ∈ ops, op.is_cipher = false ∧ op.is_initctx = false) →
        gcm_cipher_internal (run (gcm_set_ctx_params ctx params).2 ops) out inp len
          = gcm_tls_cipher (run (gcm_set_ctx_params ctx params).2 ops) out inp len)
    ∧ gcm_cipher_internal (gcm_tls_cipher ctx out inp len).ctx out2 inp2 len2
        = generic_pipeline (gcm_tls_cipher ctx out inp len).ctx out2 inp2 len2 := by
  refine ⟨fun ht hops => ?_, fun ha hs hops => ?_, ?_⟩
  · exact gcm_cipher_internal_pipeline _ out inp len
      (run_keeps (fun c => c.tls_aad_len = UNINITIALISED_SIZET) (fun op => op.sets_tls_aad = false)
        (fun c op hc ho => op_marker_unset c op hc ho) ops ctx ht hops)
  · have h13 : (gcm_set_ctx_params ctx params).2.tls_aad_len ≠ UNINITIALISED_SIZET := by
      rw [gcm_set_ctx_params_marks ctx params ha hs]
      exact aad_len_ne_unset
    exact gcm_cipher_internal_tls _ out inp len
      (run_keeps (fun c => c.tls_aad_len ≠ UNINITIALISED_SIZET)
        (fun op => op.is_cipher = false ∧ op.is_initctx = false)
        (fun c op hc ho => op_marker_stays c op hc ho.1 ho.2) ops _ h13 hops)
  · exact gcm_cipher_internal_pipeline _ out2 inp2 len2 (gcm_tls_cipher_state ctx out inp len).2

set_option maxRecDepth 100000 in
/-- C34 on the sample contexts: on `ctx_enc_keyed` (never given a tls-record-aad) an
update after a nonce-length set runs the generic pipeline; on `ctx_tls_enc_fixed`,
after a successful tls-record-aad set and a parameter get, the update runs
`gcm_tls_cipher`. -/
theorem C34_mode_selection_witness :
    gcm_cipher_internal (run ctx_enc_keyed [Op.set_ctx_params (params_ivlen 12)])
        none (some sample_chunk) 3
      = generic_pipeline (run ctx_enc_keyed [Op.set_ctx_params (params_ivlen 12)])
          none (some sample_chunk) 3
    ∧ gcm_cipher_internal
        (run (gcm_set_ctx_params ctx_tls_enc_fixed (params_tls_aad 8)).2
          [Op.get_ctx_params no_get_params]) (some sample_record) (some sample_record) 24
      = gcm_tls_cipher
          (run (gcm_set_ctx_params ctx_tls_enc_fixed (params_tls_aad 8)).2
            [Op.get_ctx_params no_get_params]) (some sample_record) (some sample_record) 24 :=
  ⟨(C34_mode_selection ctx_enc_keyed [Op.set_ctx_params (params_ivlen 12)] (params_tls_aad 8)
      none (some sample_chunk) none none 3 0).1 (by decide) (by decide),
   (C34_mode_selection ctx_tls_enc_fixed [Op.get_ctx_params no_get_params] (params_tls_aad 8)
      (some sample_record) (some sample_record) none none 24 0).2.1 (by decide) (by decide)
      (by decide)⟩

/-! ## C35 -/

/-- C35, counterexample: after an encrypt final the tag buffer of `ctx_enc_final`
holds sixteen bytes 0xAA.  `gcm_deinitctx` zeroes the 64 bytes of the nonce buffer
and leaves the tag buffer holding the sixteen bytes 0xAA. -/
theorem C35_counterexample :
    ctx_enc_final.buf = List.replicate 16 0xAA
    ∧ (gcm_deinitctx ctx_enc_final).iv = List.replicate 64 0
    ∧ (gcm_deinitctx ctx_enc_final).buf = List.replicate 16 0xAA := by
  decide

/-- C35, amended: after `gcm_deinitctx`, whatever the context (so for every history
`ops` of calls), every byte of the nonce buffer, over its full capacity, is zero,
and the tag buffer `buf` is left as it was. -/
theorem C35_deinit_wipes_nonce (ctx : PROV_GCM_CTX σ ρ) (ops : List (Op σ ρ)) :
    (gcm_deinitctx ctx).iv = List.replicate ctx.iv.length 0
    ∧ (gcm_deinitctx ctx).buf = ctx.buf
    ∧ (gcm_deinitctx (run ctx ops)).iv = List.replicate (run ctx ops).iv.length 0
    ∧ (gcm_deinitctx (run ctx ops)).buf = (run ctx ops).buf :=
  ⟨OPENSSL_cleanse_all ctx.iv, rfl, OPENSSL_cleanse_all (run ctx ops).iv, rfl⟩

/-! ## C36 -/

set_option maxRecDepth 100000 in
/-- C36: the context `ctx_tls_short_nonce` is reached from `gcm_initctx` (minimum nonce
length 8) by `gcm_einit` with a key, a tls-fixed-nonce set (which enables
`iv_gen`), a nonce-length set of 4 and a tls-record-aad set, each returning 1.
It has the key set, `iv_gen` enabled and `ivlen = 4`, and an update on an
in-place 24-byte record reaches the bind stage: `setiv` is called with the
4-byte nonce, so that the invocation field starts at `iv + 4 - 8`, four bytes
before the nonce buffer. -/
theorem C36_short_nonce_reaches_binding :
    (gcm_einit ctx_new (some sample_key) 16 none 0).1 = 1
    ∧ (gcm_set_ctx_params ctx_enc_keyed params_fixed_iv).1 = 1
    ∧ (gcm_set_ctx_params ctx_tls_enc_fixed (params_ivlen 4)).1 = 1
    ∧ (gcm_set_ctx_params (gcm_set_ctx_params ctx_tls_enc_fixed (params_ivlen 4)).2
        (params_tls_aad 8)).1 = 1
    ∧ ctx_tls_short_nonce.ivlen_min = 8
    ∧ ctx_tls_short_nonce.key_set = true
    ∧ ctx_tls_short_nonce.iv_gen = true
    ∧ ctx_tls_short_nonce.ivlen = 4
    ∧ (ctx_tls_short_nonce.ivlen : Int) - 8 = -4
    ∧ tls_call_binds ctx_tls_short_nonce (some sample_record) (some sample_record) 24
    ∧ (gcm_stream_update ctx_tls_short_nonce (some sample_record) 24
        (some sample_record) 24).ctx.trace.take (ctx_tls_short_nonce.trace.length + 1)
        = ctx_tls_short_nonce.trace ++ [Call.setiv ctx_tls_short_nonce.iv 4] := by
  decide

/-! ## C37 -/

set_option maxRecDepth 100000 in
/-- C37, counterexample: `ctx_tls_reject` is an encrypting TLS context (`ivlen = 12`)
over a primitive whose `setiv` reports failure.  An update on an in-place 24-byte
record reaches the bind stage and passes the stored nonce to `setiv`; after the
tls-record-aad parameter is set again, the next update reaches the bind stage
too and passes the very same nonce to `setiv`. -/
theorem C37_counterexample :
    ctx_tls_reject.enc = true ∧ ctx_tls_reject.ivlen = 12
    ∧ (run ctx_tls_reject
        [Op.stream_update (some sample_record) 24 (some sample_record) 24]).trace
        = ctx_tls_reject.trace ++ [Call.setiv ctx_tls_reject.iv 12]
    ∧ (run ctx_tls_reject
        [Op.stream_update (some sample_record) 24 (some sample_record) 24,
         Op.set_ctx_params (params_tls_aad 8),
         Op.stream_update (some sample_record) 24 (some sample_record) 24]).trace
        = ctx_tls_reject.trace
            ++ [Call.setiv ctx_tls_reject.iv 12, Call.setiv ctx_tls_reject.iv 12] := by
  decide

/-- C37, amended: `ctx` is an encrypting context with `8 <= ivlen <= sizeof(iv)`, nonce
bytes below 256 and a nonce state other than UNINITIALISED.  The call `first`
binds the nonce on the TLS path (its checks pass and `setiv` reports success);
it is followed by the calls `rest`, none of which supplies a nonce, a nonce
length or a new direction, and then by the call `next`, which binds the nonce
too; `k < 2^64` of the calls `first :: rest` bind the nonce.  Then `first` passes
the nonce stored in `ctx` to `setiv` and `next` passes the nonce stored when it
is called; the two differ within their first `ivlen` bytes, agree on the
bytes before `ivlen - 8` and after `ivlen`, and the second is the first with
its 8-byte counter `k` higher modulo `2^64`.  Each of the two calls leaves the
stored nonce advanced by `ctr64_inc`, whatever its one-shot call reports, and
a call `other` that does not bind the nonce leaves it unchanged. -/
theorem C37_nonce_freshness (ctx : PROV_GCM_CTX σ ρ) (first next other : Op σ ρ)
    (rest : List (Op σ ρ)) (k : Nat)
    (he : ctx.enc = true) (h8 : 8 ≤ ctx.ivlen) (hcap : ctx.ivlen ≤ ctx.iv.length)
    (hs : ctx.iv_state ≠ IV_STATE.UNINITIALISED) (hb : ∀ x ∈ ctx.iv, x < 256)
    (hfirst : first.binds ctx) (hops : ∀ o ∈ first :: rest, o.keeps_nonce = true)
    (hnext : next.binds (run ctx (first :: rest))) (hnk : next.keeps_nonce = true)
    (hother : other.keeps_nonce = true)
    (hk : bind_count ctx (first :: rest) = k) (hlt : k < 2 ^ 64) :
    (∃ call, (first.apply ctx).2.trace = ctx.trace ++ [Call.setiv ctx.iv ctx.ivlen, call])
    ∧ (∃ call, (next.apply (run ctx (first :: rest))).2.trace
        = (run ctx (first :: rest)).trace
            ++ [Call.setiv (run ctx (first :: rest)).iv ctx.ivlen, call])
    ∧ (run ctx (first :: rest)).iv.take ctx.ivlen ≠ ctx.iv.take ctx.ivlen
    ∧ (run ctx (first :: rest)).iv.take (ctx.ivlen - 8) = ctx.iv.take (ctx.ivlen - 8)
    ∧ (run ctx (first :: rest)).iv.drop ctx.ivlen = ctx.iv.drop ctx.ivlen
    ∧ nonce_advanced ctx.iv ctx.ivlen k (run ctx (first :: rest)).iv
    ∧ (first.apply ctx).2.iv = tls_next_iv ctx.iv ctx.ivlen
    ∧ (next.apply (run ctx (first :: rest))).2.iv
        = tls_next_iv (run ctx (first :: rest)).iv ctx.ivlen
    ∧ (¬ other.binds ctx → (other.apply ctx).2.iv = ctx.iv) := by
  obtain ⟨r1, r2, r3, r4⟩ := run_nonce (first :: rest) ctx he h8 hcap hs hb hops
  rw [hk] at r4
  have h1 : 1 ≤ k := by
    rw [← hk]
    show 1 ≤ (if first.binds ctx then 1 else 0) + bind_count (first.apply ctx).2 rest
    rw [if_pos hfirst]
    omega
  obtain ⟨_, _, _, f4, _⟩ := op_nonce_step ctx first (hops first (List.mem_cons_self _ _))
    he h8 hcap hs
  obtain ⟨_, _, _, n4, _⟩ := op_nonce_step (run ctx (first :: rest)) next hnk r1
    (by rw [r2]; exact h8) (by rw [r2, r4.1]; exact hcap) r3
  obtain ⟨_, _, _, _, o5⟩ := op_nonce_step ctx other hother he h8 hcap hs
  rw [r2] at n4
  exact ⟨(f4 hfirst).2, (n4 hnext).2,
    nonce_advanced_ne ctx.iv _ ctx.ivlen k h8 hcap hb r4 h1 hlt, r4.2.1, r4.2.2.1, r4,
    (f4 hfirst).1, (n4 hnext).1, o5⟩

set_option maxRecDepth 100000 in
/-- C37 on the encrypting TLS context `ctx_tls_enc` (`ivlen = 12`): a record is
processed, the tls-record-aad parameter is set again and a second record is
processed (`k = 1`); the nonces the two updates bind differ, and agree on their
first 4 bytes. -/
theorem C37_nonce_freshness_witness :
    (run ctx_tls_enc
        [Op.stream_update (some sample_record) 24 (some sample_record) 24,
         Op.set_ctx_params (params_tls_aad 8)]).iv.take ctx_tls_enc.ivlen
      ≠ ctx_tls_enc.iv.take ctx_tls_enc.ivlen
    ∧ (run ctx_tls_enc
        [Op.stream_update (some sample_record) 24 (some sample_record) 24,
         Op.set_ctx_params (params_tls_aad 8)]).iv.take (ctx_tls_enc.ivlen - 8)
      = ctx_tls_enc.iv.take (ctx_tls_enc.ivlen - 8) :=
  have key := C37_nonce_freshness ctx_tls_enc
    (Op.stream_update (some sample_record) 24 (some sample_record) 24)
    (Op.stream_update (some sample_record) 24 (some sample_record) 24)
    (Op.get_ctx_params no_get_params) [Op.set_ctx_params (params_tls_aad 8)] 1
    (by decide) (by decide) (by decide) (by decide) (by decide) (by decide) (by decide)
    (by decide) (by decide) (by decide) (by decide) (by decide)
  ⟨key.2.2.1, key.2.2.2.1⟩

/-! ## C38 -/

set_option maxRecDepth 100000 in
/-- C38, counterexample: `ctx_enc_keyed` is an encrypting context in generic mode
(`tls_aad_len` unset, tag buffer all zero).  Setting a tls-record-aad whose length
field holds 7 returns 0, yet afterwards `tls_aad_len` is 13 and the tag buffer
holds the header (byte 12 is 7). -/
theorem C38_counterexample :
    ctx_enc_keyed.tls_aad_len = UNINITIALISED_SIZET
    ∧ ctx_enc_keyed.buf = List.replicate 16 0
    ∧ (gcm_set_ctx_params ctx_enc_keyed (params_tls_aad 7)).1 = 0
    ∧ (gcm_set_ctx_params ctx_enc_keyed (params_tls_aad 7)).2.tls_aad_len = 13
    ∧ (gcm_set_ctx_params ctx_enc_keyed (params_tls_aad 7)).2.buf
        = List.replicate 12 0 ++ [7] ++ List.replicate 3 0 := by
  decide

/-- C38, amended: `gcm_set_ctx_params` with only the tls-record-aad parameter.  An
octet string whose length `n` is not 13 is refused with the context unchanged.  A
13-byte header `h ++ [a, b]` whose length field `a * 256 + b` is below 8, or below
24 when decrypting, is refused too, but then the header has been copied over the
first 13 bytes of `buf` and `tls_aad_len` is 13; the padding size and every
other field except the record counter are as before. -/
theorem C38_aad_rejection (ctx : PROV_GCM_CTX σ ρ) (d h : List Nat) (n a b : Nat)
    (hh : h.length = 11) (ha : a < 256) (hb : b < 256) (hbuf : 13 ≤ ctx.buf.length) :
    (n ≠ 13 → gcm_set_ctx_params ctx (params_tls1_aad (OSSL_PARAM.octet_string d n)) = (0, ctx))
    ∧ ((a * 256 + b < 8 ∨ (ctx.enc = false ∧ a * 256 + b < 24)) →
        (gcm_set_ctx_params ctx
            (params_tls1_aad (OSSL_PARAM.octet_string (h ++ [a, b]) 13))).1 = 0
        ∧ (gcm_set_ctx_params ctx
            (params_tls1_aad (OSSL_PARAM.octet_string (h ++ [a, b]) 13))).2.tls_aad_len = 13
        ∧ (gcm_set_ctx_params ctx
            (params_tls1_aad (OSSL_PARAM.octet_string (h ++ [a, b]) 13))).2.buf
            = h ++ [a, b] ++ ctx.buf.drop 13
        ∧ (gcm_set_ctx_params ctx
            (params_tls1_aad (OSSL_PARAM.octet_string (h ++ [a, b]) 13))).2.tls_aad_pad_sz
            = ctx.tls_aad_pad_sz
        ∧ ∃ k, (gcm_set_ctx_params ctx
            (params_tls1_aad (OSSL_PARAM.octet_string (h ++ [a, b]) 13))).2
            = { ctx with buf := h ++ [a, b] ++ ctx.buf.drop 13, tls_aad_len := 13,
                         tls_enc_records := k }) := by
  refine ⟨fun hn => ?_, fun hr => ?_⟩
  · have e : set_param_tls1_aad ctx (some (OSSL_PARAM.octet_string d n)) = (0, ctx) := by
      have e1 : gcm_tls_init ctx (OSSL_PARAM.octet_string d n).data
          (OSSL_PARAM.octet_string d n).data_size = (0, ctx) := by
        show gcm_tls_init ctx d n = (0, ctx)
        unfold gcm_tls_init
        rw [if_pos (show n ≠ EVP_AEAD_TLS1_AAD_LEN from hn)]
      unfold set_param_tls1_aad
      dsimp only
      rw [if_neg (fun h0 => Bool.noConfusion h0), e1, pair_fst, pair_snd]
      rw [if_pos (by decide)]
    rw [gcm_set_ctx_params_aad_only, e, pair_fst, pair_snd, if_pos rfl]
  · have hc : a * 256 + b < 8 ∨ (ctx.enc = false ∧ a * 256 + b - 8 < 16) := by
      rcases hr with h1 | ⟨h1, h2⟩
      · exact Or.inl h1
      · exact Or.inr ⟨h1, by omega⟩
    rw [gcm_set_ctx_params_aad_only, set_param_tls1_aad_header ctx h a b hh ha hb hbuf,
      if_pos hc, pair_fst, pair_snd, if_pos rfl, pair_fst, pair_snd]
    exact ⟨rfl, rfl, rfl, rfl, 0, rfl⟩

set_option maxRecDepth 100000 in
/-- C38 on the encrypting context `ctx_enc_keyed`: a 12-byte AAD is refused with the
context unchanged; the 13-byte header with length field 7 is refused with
`tls_aad_len = 13`. -/
theorem C38_aad_rejection_witness :
    gcm_set_ctx_params ctx_enc_keyed
        (params_tls1_aad (OSSL_PARAM.octet_string (List.replicate 12 0) 12))
      = (0, ctx_enc_keyed)
    ∧ (gcm_set_ctx_params ctx_enc_keyed
        (params_tls1_aad (OSSL_PARAM.octet_string (List.replicate 11 0 ++ [0, 7]) 13))).1 = 0
    ∧ (gcm_set_ctx_params ctx_enc_keyed
        (params_tls1_aad
          (OSSL_PARAM.octet_string (List.replicate 11 0 ++ [0, 7]) 13))).2.tls_aad_len = 13 :=
  ⟨(C38_aad_rejection ctx_enc_keyed (List.replicate 12 0) (List.replicate 11 0) 12 0 7
      (by decide) (by decide) (by decide) (by decide)).1 (by decide),
   ((C38_aad_rejection ctx_enc_keyed (List.replicate 12 0) (List.replicate 11 0) 12 0 7
      (by decide) (by decide) (by decide) (by decide)).2 (Or.inl (by decide))).1,
   ((C38_aad_rejection ctx_enc_keyed (List.replicate 12 0) (List.replicate 11 0) 12 0 7
      (by decide) (by decide) (by decide) (by decide)).2 (Or.inl (by decide))).2.1⟩

/-! ## C39 -/

set_option maxRecDepth 100000 in
/-- C39, counterexample: on the encrypting context `ctx_enc_keyed`, `gcm_dinit` with a
4-byte nonce (`ivlen_min` is 8) returns 0 and leaves the direction switched to
decrypt; on the new context `ctx_new`, `gcm_einit` with a 12-byte nonce and a key
length of 15 (the key length is 16) returns 0 without calling `setkey`, and
leaves the nonce stored and the state BUFFERED. -/
theorem C39_counterexample :
    ctx_enc_keyed.enc = true
    ∧ (gcm_dinit ctx_enc_keyed none 0 (some (List.replicate 4 0)) 4).1 = 0
    ∧ (gcm_dinit ctx_enc_keyed none 0 (some (List.replicate 4 0)) 4).2.enc = false
    ∧ ctx_new.iv_state = IV_STATE.UNINITIALISED
    ∧ (gcm_einit ctx_new (some sample_key) 15 (some (List.replicate 12 7)) 12).1 = 0
    ∧ (gcm_einit ctx_new (some sample_key) 15 (some (List.replicate 12 7)) 12).2.trace = []
    ∧ (gcm_einit ctx_new (some sample_key) 15 (some (List.replicate 12 7)) 12).2.iv_state
        = IV_STATE.BUFFERED
    ∧ (gcm_einit ctx_new (some sample_key) 15 (some (List.replicate 12 7)) 12).2.iv.take 12
        = List.replicate 12 7 := by
  decide

/-- C39, amended: `gcm_init` (`gcm_einit` is the call with `enc = 1`, `gcm_dinit` the
call with `enc = 0`).  When the nonce length `n` is rejected, the call returns 0
with the direction set to `enc` and every other field as before.  When the key
length is rejected, the call returns 0 with the direction set to `enc` and, if
a nonce was supplied (its length in range), with `ivlen = n`, the nonce copied
to the nonce buffer and the state BUFFERED; every other field is as before.  In
all three cases `setkey` has not been called (the trace is as before) and the
key state is as before. -/
theorem C39_init_failure (ctx : PROV_GCM_CTX σ ρ) (key : Option (List Nat)) (k ivb : List Nat)
    (keylen n : Nat) (enc : Bool) :
    ((n < ctx.ivlen_min ∨ n > ctx.iv.length) →
        gcm_init ctx key keylen (some ivb) n enc = (0, { ctx with enc := enc }))
    ∧ (keylen ≠ ctx.keylen →
        gcm_init ctx (some k) keylen none n enc = (0, { ctx with enc := enc }))
    ∧ (keylen ≠ ctx.keylen → ¬ (n < ctx.ivlen_min ∨ n > ctx.iv.length) →
        gcm_init ctx (some k) keylen (some ivb) n enc
          = (0, { ctx with enc := enc, ivlen := n, iv := memcpy ctx.iv 0 ivb n,
                           iv_state := IV_STATE.BUFFERED }))
    ∧ (gcm_einit ctx key keylen (some ivb) n = gcm_init ctx key keylen (some ivb) n true
        ∧ gcm_dinit ctx key keylen (some ivb) n = gcm_init ctx key keylen (some ivb) n false) := by
  refine ⟨fun h => gcm_init_nonce_rejected ctx key keylen ivb n enc h, fun hk => ?_,
    fun hk hr => ?_, rfl, rfl⟩
  · unfold gcm_init
    dsimp only
    rw [if_neg one_ne_zero_int, if_pos hk]
  · unfold gcm_init
    dsimp only
    rw [if_neg hr, pair_fst, if_neg one_ne_zero_int, pair_snd, if_pos hk]

set_option maxRecDepth 100000 in
/-- C39 on `ctx_enc_keyed` (bounds 8 and 64 on the nonce length, key length 16): a
4-byte nonce is rejected leaving only the direction changed; a key length of
15 is rejected after the 12-byte nonce has been stored. -/
theorem C39_init_failure_witness :
    gcm_init ctx_enc_keyed none 0 (some (List.replicate 4 0)) 4 false
      = (0, { ctx_enc_keyed with enc := false })
    ∧ gcm_init ctx_enc_keyed (some sample_key) 15 (some (List.replicate 12 7)) 12 false
      = (0, { ctx_enc_keyed with
                enc := false
                ivlen := 12
                iv := memcpy ctx_enc_keyed.iv 0 (List.replicate 12 7) 12
                iv_state := IV_STATE.BUFFERED }) :=
  ⟨(C39_init_failure ctx_enc_keyed none sample_key (List.replicate 4 0) 0 4 false).1
      (Or.inl (by decide)),
   (C39_init_failure ctx_enc_keyed (some sample_key) sample_key (List.replicate 12 7) 15 12
      false).2.2.1 (by decide) (by decide)⟩

/-! ## C40 -/

set_option maxRecDepth 100000 in
/-- C40, counterexample: on the decrypting TLS context `ctx_tls_dec_28` and the
in-place 28-byte record, `gcm_stream_update` and `gcm_cipher` both return 1, make
the same two primitive calls and leave the same record, but `gcm_stream_update`
reports 4 bytes (the payload) and `gcm_cipher` reports 28. -/
theorem C40_counterexample :
    (gcm_stream_update ctx_tls_dec_28 (some sample_record_28) 28 (some sample_record_28) 28).rv
        = 1
    ∧ (gcm_cipher ctx_tls_dec_28 (some sample_record_28) 28 (some sample_record_28) 28).rv = 1
    ∧ (gcm_stream_update ctx_tls_dec_28 (some sample_record_28) 28
        (some sample_record_28) 28).outl = some 4
    ∧ (gcm_cipher ctx_tls_dec_28 (some sample_record_28) 28 (some sample_record_28) 28).outl
        = some 28 := by
  decide

/-- C40, amended: for every context and arguments, `gcm_cipher` and
`gcm_stream_update` return the same value, leave the same context (so the same
primitive calls were logged) and the same output buffer, and on failure store
the same thing through `outl`.  On success `gcm_cipher` stores `inl` and
`gcm_stream_update` stores the length left by `gcm_cipher_internal`: in generic
mode that is `inl` when `in` is not `NULL` and 0 when it is; in TLS mode, where
the nonce has room for the invocation field (`8 <= ivlen <= sizeof(iv)`), it is
`inl` when encrypting and `inl - 24` when decrypting. -/
theorem C40_entry_points (ctx : PROV_GCM_CTX σ ρ) (out inp : Option Buf) (outsize inl : Nat) :
    (gcm_cipher ctx out outsize inp inl).rv = (gcm_stream_update ctx out outsize inp inl).rv
    ∧ (gcm_cipher ctx out outsize inp inl).ctx = (gcm_stream_update ctx out outsize inp inl).ctx
    ∧ (gcm_cipher ctx out outsize inp inl).out = (gcm_stream_update ctx out outsize inp inl).out
    ∧ ((gcm_stream_update ctx out outsize inp inl).rv ≠ 1 →
        (gcm_cipher ctx out outsize inp inl).outl
          = (gcm_stream_update ctx out outsize inp inl).outl)
    ∧ ((gcm_stream_update ctx out outsize inp inl).rv = 1 →
        (gcm_cipher ctx out outsize inp inl).outl = some inl
        ∧ (ctx.tls_aad_len = UNINITIALISED_SIZET → inp ≠ none →
            (gcm_stream_update ctx out outsize inp inl).outl = some inl)
        ∧ (ctx.tls_aad_len = UNINITIALISED_SIZET → inp = none →
            (gcm_stream_update ctx out outsize inp inl).outl = some 0)
        ∧ (ctx.tls_aad_len ≠ UNINITIALISED_SIZET → 8 ≤ ctx.ivlen → ctx.ivlen ≤ ctx.iv.length →
            ctx.enc = true → (gcm_stream_update ctx out outsize inp inl).outl = some inl)
        ∧ (ctx.tls_aad_len ≠ UNINITIALISED_SIZET → 8 ≤ ctx.ivlen → ctx.ivlen ≤ ctx.iv.length →
            ctx.enc = false →
            (gcm_stream_update ctx out outsize inp inl).outl = some (inl - 24))) := by
  obtain ⟨h1, h2, h3, h4, h5⟩ := cipher_vs_stream_update ctx out inp outsize inl
  refine ⟨h1, h2, h3, h4, fun hs => ?_⟩
  obtain ⟨_, hr, k1, k2⟩ := h5 hs
  refine ⟨k1, fun ht hi => ?_, fun ht hi => ?_, fun ht _ _ he => ?_, fun ht _ _ he => ?_⟩
  · rw [k2, gcm_cipher_internal_generic_padlen ctx out inp inl ht hr, if_neg hi]
  · rw [k2, gcm_cipher_internal_generic_padlen ctx out inp inl ht hr, if_pos hi]
  · rw [gcm_cipher_internal_tls ctx out inp inl ht] at hr
    rw [k2, gcm_cipher_internal_tls ctx out inp inl ht,
      (gcm_tls_cipher_success_effect ctx out inp inl hr).2.2.1 he]
  · rw [gcm_cipher_internal_tls ctx out inp inl ht] at hr
    rw [k2, gcm_cipher_internal_tls ctx out inp inl ht,
      (gcm_tls_cipher_success_effect ctx out inp inl hr).2.2.2 he]

set_option maxRecDepth 100000 in
/-- C40 on the encrypting TLS context `ctx_tls_enc_28` (`ivlen = 12`) and the in-place
28-byte record: both entry points return 1 and both report 28 bytes. -/
theorem C40_entry_points_witness :
    (gcm_cipher ctx_tls_enc_28 (some sample_record_28) 28 (some sample_record_28) 28).rv = 1
    ∧ (gcm_cipher ctx_tls_enc_28 (some sample_record_28) 28 (some sample_record_28) 28).outl
        = some 28
    ∧ (gcm_stream_update ctx_tls_enc_28 (some sample_record_28) 28
        (some sample_record_28) 28).outl = some 28 :=
  ⟨(C40_entry_points ctx_tls_enc_28 (some sample_record_28) (some sample_record_28) 28 28).1.trans
      (by decide),
   ((C40_entry_points ctx_tls_enc_28 (some sample_record_28) (some sample_record_28) 28 28).2.2.2.2
      (by decide)).1,
   ((C40_entry_points ctx_tls_enc_28 (some sample_record_28) (some sample_record_28) 28 28).2.2.2.2
      (by decide)).2.2.2.1 (by decide) (by decide) (by decide) (by decide)⟩

end CipherGcm
